import Mathlib

/-! gomonkey: handle lifecycle, result envelopes and the callback trampoline

A shallow embedding of `gomonkey.cc` / `gomonkey.h`.  The scripting engine is a
black box: every engine primitive the bridge calls is a field of `Engine σ`,
a function on an abstract engine state `σ`.  The bridge functions are written
in the state-and-fault monad `Bridge σ`, which threads the engine state and the
trace of the calls the bridge itself issued, and which stops at undefined
behaviour (a null dereference, a mis-tagged value read, a read of a released
handle).
-/

namespace Gomonkey

/-! ## Machine integers -/

/-- Conversion of an unsigned machine word to `int32_t` / `int` (two's complement). -/
def toInt32 (n : Nat) : Int :=
  if n % 2 ^ 32 < 2 ^ 31 then (n % 2 ^ 32 : Nat) else (n % 2 ^ 32 : Nat) - 2 ^ 32

/-- Conversion of an `int32_t` to `unsigned` (reduction modulo 2^32). -/
def toUInt32 (i : Int) : Nat :=
  (i % 2 ^ 32).toNat

/-! ## Engine-native entities -/

/-- Non-null `JSContext *`. -/
abbrev JSContext := Nat

/-- Non-null `JSObject *`. -/
abbrev JSObject := Nat

/-- Non-null `JSScript *`. -/
abbrev JSScript := Nat

/-- Non-null `JSString *`. -/
abbrev JSString := Nat

/-- Non-null `JSFunction *`. -/
abbrev JSFunction := Nat

/-- Non-null `JS::Stencil *` (the reference-counted compiled representation). -/
abbrev JSStencil := Nat

/-- Non-null `JS::FrontendContext *`. -/
abbrev JSFrontendContext := Nat

/-- The engine's tagged value, `JS::Value`.  A double is kept as its bit pattern. -/
inductive JSValue where
  | undefined
  | null
  | boolean (b : Bool)
  | int32 (i : Int)
  | double (bits : Nat)
  | string (s : JSString)
  | symbol (s : Nat)
  | bigint (b : Nat)
  | object (o : JSObject)
  deriving DecidableEq, Repr

namespace JSValue

/-- `JS::Value::isGCThing`: the value points into the collector's heap. -/
def isGCThing : JSValue → Bool
  | string _ => true
  | symbol _ => true
  | bigint _ => true
  | object _ => true
  | _ => false

/-- `JS::Value::isString`. -/
def isString : JSValue → Bool
  | string _ => true
  | _ => false

/-- `JS::Value::isObject`. -/
def isObject : JSValue → Bool
  | object _ => true
  | _ => false

/-- `JS::Value::isInt32`. -/
def isInt32 : JSValue → Bool
  | int32 _ => true
  | _ => false

end JSValue

/-- `JS::Int32Value(ref)` applied to an `unsigned`: the argument converts to `int32_t`. -/
def Int32Value (ref : Nat) : JSValue :=
  JSValue.int32 (toInt32 ref)

/-- The three trace callbacks the handle classes register. -/
inductive Tracer where
  | traceGlobal
  | traceScript
  | traceValue
  deriving DecidableEq, Repr

/-! ## Handles

A handle object lives at the address `this` (a number) that `operator new` returned.  The
address of its `JS::Heap<T>` member, which is what the handle gives the
collector, is determined by `this`; the embedding identifies the two. -/

/-- `class Context`.  `globalPtr` is what the `JS::Heap` slot was constructed
with; the slot itself is shared with the engine (see `Context.slot`). -/
structure Context where
  this : Nat
  ref : Nat
  ptr : JSContext
  globalPtr : Option JSObject
  deriving DecidableEq, Repr

namespace Context

/-- `Context::getRef`. -/
def getRef (c : Context) : Nat := c.ref

/-- `Context::getJSContext`. -/
def getJSContext (c : Context) : JSContext := c.ptr

/-- `Context::getGlobalJSObject`, called while the engine context lives: the
slot then holds what it was constructed with. -/
def getGlobalJSObject (c : Context) : Option JSObject := c.globalPtr

end Context

/-- `class Script`. -/
structure Script where
  this : Nat
  ctx : Context
  ptr : Option JSScript
  deriving DecidableEq, Repr

namespace Script

/-- `Script::getContext`. -/
def getContext (s : Script) : Context := s.ctx

/-- `Script::getJSScript`. -/
def getJSScript (s : Script) : Option JSScript := s.ptr

end Script

/-- `class Value`. -/
structure Value where
  this : Nat
  ctx : Context
  ptr : JSValue
  deriving DecidableEq, Repr

namespace Value

/-- `Value::getContext`. -/
def getContext (v : Value) : Context := v.ctx

/-- `Value::getJSValue`. -/
def getJSValue (v : Value) : JSValue := v.ptr

end Value

/-- `class FrontendContext`. -/
structure FrontendContext where
  this : Nat
  ptr : JSFrontendContext
  deriving DecidableEq, Repr

/-- `class Stencil`: holds one counted reference (`RefPtr`) to the compiled form. -/
structure Stencil where
  this : Nat
  ptr : Option JSStencil
  deriving DecidableEq, Repr

/-- `Stencil::getStencil`. -/
def Stencil.getStencil (s : Stencil) : Option JSStencil := s.ptr

/-- `explicit operator bool` of `JS::Heap<JSObject *>` / `JS::Heap<JSScript *>`:
the pointer is not null. -/
def heapPtrToBool (p : Option Nat) : Bool := p.isSome

/-- `explicit operator bool` of `JS::Heap<JS::Value>`: the value refers to a
collector-managed thing (`BarrierMethods<JS::Value>::asGCThingOrNull`). -/
def heapValueToBool (v : JSValue) : Bool := v.isGCThing

/-! ## Result envelopes (`gomonkey.h`) -/

/-- `struct Error`; a `none` string is the null pointer. -/
structure Error where
  message : Option String := none
  filename : Option String := none
  lineno : Int := 0
  number : Int := 0
  deriving DecidableEq, Repr

/-- A `char *` buffer obtained from `JS_malloc`, with the bytes written to it. -/
structure Buffer where
  addr : Nat
  bytes : List Nat
  deriving DecidableEq, Repr

/-- `struct Result`. -/
structure Result where
  ok : Bool := false
  err : Error := {}
  deriving DecidableEq, Repr

/-- `struct ResultBool`. -/
structure ResultBool where
  ok : Bool := false
  err : Error := {}
  value : Bool := false
  deriving DecidableEq, Repr

/-- `struct ResultUInt32`. -/
structure ResultUInt32 where
  ok : Bool := false
  err : Error := {}
  value : Nat := 0
  deriving DecidableEq, Repr

/-- `struct ResultValue`. -/
structure ResultValue where
  ok : Bool := false
  err : Error := {}
  ptr : Option Value := none
  deriving DecidableEq, Repr

/-- `struct ResultString`. -/
structure ResultString where
  ok : Bool := false
  err : Error := {}
  data : Option Buffer := none
  len : Int := 0
  deriving DecidableEq, Repr

/-- `struct ResultCompileScript`. -/
structure ResultCompileScript where
  ok : Bool := false
  err : Error := {}
  ptr : Option Script := none
  deriving DecidableEq, Repr

/-- `struct ResultCompileStencil` (it has no `err` member). -/
structure ResultCompileStencil where
  ok : Bool := false
  ptr : Option Stencil := none
  deriving DecidableEq, Repr

/-- `struct ResultGoFunctionCallback`: what the host dispatch step returns. -/
structure ResultGoFunctionCallback where
  ptr : Option Value := none
  err : Option Buffer := none
  deriving DecidableEq, Repr

/-- `JS::ExceptionStack`: a stolen pending exception and its stack object. -/
structure ExceptionStack where
  exception : JSValue
  stack : Option JSObject
  deriving DecidableEq, Repr

/-- The members of `JSErrorReport` that `GetError` reads. -/
structure JSErrorReport where
  message : String
  filename : Option String
  lineno : Nat
  errorNumber : Nat
  deriving DecidableEq, Repr

/-- `JS::CallArgs`: the callee value and the positional arguments of a native call. -/
structure CallArgs where
  calleev : JSValue
  argv : List JSValue
  deriving DecidableEq, Repr

/-- What a native function hands back to the engine: its boolean result and the
value it stored in `args.rval()`, `none` when it stored nothing. -/
structure NativeReturn where
  ok : Bool
  rval : Option JSValue
  deriving DecidableEq, Repr

/-! ## The trace of calls the bridge issues -/

/-- One call the bridge makes.  The calls to the collector registry, the
allocator, the failure reporting and the host dispatch carry their arguments;
every other engine primitive is recorded as `engine fn operands`, with the
primitive's name and its pointer operands (context first). -/
inductive Event where
  | opNew (this : Nat)
  | opDelete (this : Nat)
  | addExtraGCRootsTracer (cx : JSContext) (fn : Tracer) (data : Nat)
  | removeExtraGCRootsTracer (cx : JSContext) (fn : Tracer) (data : Nat)
  | stencilAddRef (st : Option JSStencil)
  | stencilRelease (st : Option JSStencil)
  | engine (fn : String) (operands : List Nat)
  | reportOutOfMemory (cx : JSContext)
  | reportErrorUTF8 (cx : JSContext) (msg : List Nat)
  | free (cx : JSContext) (p : Nat)
  | dispatch (contextRef : Nat) (name : Buffer) (argc : Nat) (vp : List Value)
      (res : ResultGoFunctionCallback)
  deriving DecidableEq, Repr

/-- Ways a call leaves defined behaviour.  A read of a handle whose storage has
been released records the address of the handle and the trace of the calls
issued up to that read. -/
inductive Fault where
  | nullDereference
  | wrongTag
  | outOfBounds
  | useAfterFree (this : Nat) (trace : List Event)
  deriving DecidableEq, Repr

/-- The state the bridge runs in: the engine's state, the trace of the calls
issued so far (oldest first), and the next address `operator new` hands out. -/
structure World (σ : Type) where
  engine : σ
  log : List Event
  brk : Nat
  deriving DecidableEq

deriving instance DecidableEq for Except

/-- A bridge computation: it threads the world and may stop at undefined behaviour. -/
abbrev Bridge (σ : Type) (α : Type) := StateT (World σ) (Except Fault) α

/-- The keys `NewContext` passes to `JS_SetGCParameter`. -/
inductive JSGCParamKey where
  | JSGC_MAX_BYTES
  | JSGC_INCREMENTAL_GC_ENABLED
  | JSGC_SLICE_TIME_BUDGET_MS
  deriving DecidableEq, Repr

/-- The engine (and C runtime) primitives the bridge calls, as functions on the
engine state.  A pointer result is an `Option`; a `bool` result with an out
parameter is an `Option` of the value stored.  `edgeCleared cx fn data` is the
engine's side of `JS::TraceEdge` on a registered `JS::Heap` slot: whether the
engine has emptied the slot at address `data` that was registered with the
tracer `fn` of the context `cx` (it empties the registered slots when it
destroys the context). -/
structure Engine (σ : Type) where
  DefaultHeapMaxBytes : Nat
  StealPendingExceptionStack : JSContext → σ → Option ExceptionStack × σ
  ErrorReportBuilder_init : JSContext → ExceptionStack → σ → Option JSErrorReport × σ
  strdup : String → σ → Option String × σ
  JS_ReportOutOfMemory : JSContext → σ → σ
  JS_ReportErrorUTF8 : JSContext → List Nat → σ → σ
  JS_AddExtraGCRootsTracer : JSContext → Tracer → Nat → σ → σ
  JS_RemoveExtraGCRootsTracer : JSContext → Tracer → Nat → σ → σ
  JS_NewContext : Nat → σ → Option JSContext × σ
  JS_SetNativeStackQuota : JSContext → Nat → σ → σ
  JS_SetGCParameter : JSContext → JSGCParamKey → Nat → σ → σ
  JS_AddInterruptCallback : JSContext → σ → Bool × σ
  JS_ResetInterruptCallback : JSContext → Bool → σ → σ
  JS_RequestInterruptCallback : JSContext → σ → σ
  InitSelfHostedCode : JSContext → σ → Bool × σ
  JS_NewGlobalObject : JSContext → σ → Option JSObject × σ
  JS_SetReservedSlot : JSObject → Nat → JSValue → σ → σ
  GetReservedSlot : JSObject → Nat → σ → JSValue
  JS_DestroyContext : JSContext → σ → σ
  edgeCleared : JSContext → Tracer → Nat → σ → Bool
  EnterRealm : JSContext → JSObject → σ → σ
  LeaveRealm : JSContext → σ → σ
  NewFrontendContext : σ → Option JSFrontendContext × σ
  SetNativeStackQuotaFc : JSFrontendContext → Nat → σ → σ
  DestroyFrontendContext : JSFrontendContext → σ → σ
  SourceText_initFc : JSFrontendContext → String → σ → Bool × σ
  CompileGlobalScriptToStencil : JSFrontendContext → String → String → σ → Option JSStencil × σ
  InstantiateGlobalStencil : JSContext → Option JSStencil → σ → Option JSScript × σ
  ToObject : JSContext → JSValue → σ → Option JSObject × σ
  JS_DefineObject : JSContext → JSObject → String → Nat → σ → Option JSObject × σ
  JS_DefineProperty : JSContext → JSObject → String → JSValue → Nat → σ → Bool × σ
  JS_DefineElement : JSContext → JSObject → Nat → JSValue → Nat → σ → Bool × σ
  JS_DefineFunction : JSContext → JSObject → String → Nat → Nat → σ → Option JSFunction × σ
  JS_NewFunction : JSContext → String → σ → Option JSFunction × σ
  JS_GetFunctionObject : JSFunction → Option JSObject
  JS_ValueToFunction : JSContext → JSValue → σ → Option JSFunction × σ
  GetNonCCWObjectGlobal : JSValue → σ → Option JSObject
  JS_GetFunctionId : JSFunction → σ → Option JSString
  IsCallable : JSObject → σ → Bool
  RootedValueVector_resize : JSContext → Int → σ → Bool × σ
  JS_CallFunctionName : JSContext → JSObject → String → List JSValue → σ → Option JSValue × σ
  JS_CallFunctionValue : JSContext → JSObject → JSValue → List JSValue → σ → Option JSValue × σ
  SourceText_init : JSContext → String → σ → Bool × σ
  Evaluate : JSContext → String → String → σ → Option JSValue × σ
  Compile : JSContext → String → String → σ → Option JSScript × σ
  JS_ExecuteScript : JSContext → JSScript → σ → Option JSValue × σ
  JS_NewStringCopyN : JSContext → List Nat → Int → σ → Option JSString × σ
  ToString : JSContext → JSValue → σ → Option JSString × σ
  JS_GetStringEncodingLength : JSContext → JSString → σ → Nat × σ
  JS_malloc : JSContext → Nat → σ → Option Nat × σ
  JS_EncodeStringToBuffer : JSContext → JSString → Nat → σ → Option (List Nat) × σ
  JS_NewPlainObject : JSContext → σ → Option JSObject × σ
  JS_HasProperty : JSContext → JSObject → String → σ → Option Bool × σ
  JS_GetProperty : JSContext → JSObject → String → σ → Option JSValue × σ
  JS_SetProperty : JSContext → JSObject → String → JSValue → σ → Bool × σ
  JS_DeleteProperty : JSContext → JSObject → String → σ → Bool × σ
  JS_HasElement : JSContext → JSObject → Nat → σ → Option Bool × σ
  JS_GetElement : JSContext → JSObject → Nat → σ → Option JSValue × σ
  JS_SetElement : JSContext → JSObject → Nat → JSValue → σ → Bool × σ
  JS_DeleteElement : JSContext → JSObject → Nat → σ → Bool × σ
  NewArrayObject : JSContext → List JSValue → σ → Option JSObject × σ
  GetArrayLength : JSContext → JSObject → σ → Option Nat × σ
  NewMapObject : JSContext → σ → Option JSObject × σ
  MapSize : JSContext → JSObject → σ → Nat × σ
  MapHas : JSContext → JSObject → JSValue → σ → Option Bool × σ
  MapGet : JSContext → JSObject → JSValue → σ → Option JSValue × σ
  MapSet : JSContext → JSObject → JSValue → JSValue → σ → Bool × σ
  MapDelete : JSContext → JSObject → JSValue → σ → Option Bool × σ
  MapClear : JSContext → JSObject → σ → Bool × σ
  MapKeys : JSContext → JSObject → σ → Option JSValue × σ
  MapValues : JSContext → JSObject → σ → Option JSValue × σ
  MapEntries : JSContext → JSObject → σ → Option JSValue × σ
  NewSetObject : JSContext → σ → Option JSObject × σ
  SetSize : JSContext → JSObject → σ → Nat × σ
  SetHas : JSContext → JSObject → JSValue → σ → Option Bool × σ
  SetAdd : JSContext → JSObject → JSValue → σ → Bool × σ
  SetDelete : JSContext → JSObject → JSValue → σ → Option Bool × σ
  SetClear : JSContext → JSObject → σ → Bool × σ
  SetKeys : JSContext → JSObject → σ → Option JSValue × σ
  SetValues : JSContext → JSObject → σ → Option JSValue × σ
  SetEntries : JSContext → JSObject → σ → Option JSValue × σ
  JS_NewStringCopyUTF8Z : JSContext → String → σ → Option JSString × σ
  JS_ParseJSON : JSContext → JSString → σ → Option JSValue × σ
  JS_Stringify : JSContext → JSValue → σ → (List (List Nat) × Bool) × σ
  JS_NewUCStringCopyZ : JSContext → List Nat → σ → Option JSString × σ

/-- The two functions the host must supply (`extern` in the source). -/
structure Host (σ : Type) where
  goFunctionContext : Nat → σ → Option Context × σ
  goFunctionCallback : Nat → Buffer → Nat → List Value → σ → ResultGoFunctionCallback × σ

section Primitives

variable {σ : Type}

/-- Run an engine primitive that returns nothing, without recording it. -/
def exec (f : σ → σ) : Bridge σ Unit :=
  fun w => Except.ok ((), { w with engine := f w.engine })

/-- Run the engine primitive `fn` on `operands`; it returns a result. -/
def call {α : Type} (fn : String) (operands : List Nat) (f : σ → α × σ) : Bridge σ α :=
  fun w => Except.ok ((f w.engine).1,
    { w with engine := (f w.engine).2, log := w.log ++ [Event.engine fn operands] })

/-- Run the engine primitive `fn` on `operands`; it returns nothing. -/
def run (fn : String) (operands : List Nat) (f : σ → σ) : Bridge σ Unit :=
  fun w => Except.ok ((),
    { w with engine := f w.engine, log := w.log ++ [Event.engine fn operands] })

/-- Run a host function on the engine state without recording it here (the
dispatch records itself together with its result). -/
def peekRun {α : Type} (f : σ → α × σ) : Bridge σ α :=
  fun w => Except.ok ((f w.engine).1, { w with engine := (f w.engine).2 })

/-- Read the engine state without changing it. -/
def peek {α : Type} (f : σ → α) : Bridge σ α :=
  fun w => Except.ok (f w.engine, w)

/-- Record a call in the trace. -/
def emit (e : Event) : Bridge σ Unit :=
  fun w => Except.ok ((), { w with log := w.log ++ [e] })

/-- Leave defined behaviour. -/
def fault {α : Type} (f : Fault) : Bridge σ α :=
  fun _ => Except.error f

/-- Leave defined behaviour by reading the handle at `this` after its storage
was released. -/
def useAfterFree {α : Type} (this : Nat) : Bridge σ α :=
  fun w => Except.error (Fault.useAfterFree this w.log)

/-- The storage of a `new` expression.  A plain `new` never yields a null
pointer (it throws instead), and the storage is distinct from all storage
handed out before. -/
def operatorNew : Bridge σ Nat :=
  fun w => Except.ok (w.brk, { w with brk := w.brk + 1, log := w.log ++ [Event.opNew w.brk] })

/-- The storage release of a `delete` expression. -/
def operatorDelete (this : Nat) : Bridge σ Unit :=
  emit (Event.opDelete this)

/-- `JS_AddExtraGCRootsTracer(cx, fn, data)`. -/
def JS_AddExtraGCRootsTracer (E : Engine σ) (cx : JSContext) (fn : Tracer) (data : Nat) :
    Bridge σ Unit := do
  emit (Event.addExtraGCRootsTracer cx fn data)
  exec (E.JS_AddExtraGCRootsTracer cx fn data)

/-- `JS_RemoveExtraGCRootsTracer(cx, fn, data)`. -/
def JS_RemoveExtraGCRootsTracer (E : Engine σ) (cx : JSContext) (fn : Tracer) (data : Nat) :
    Bridge σ Unit := do
  emit (Event.removeExtraGCRootsTracer cx fn data)
  exec (E.JS_RemoveExtraGCRootsTracer cx fn data)

/-- `JS_ReportOutOfMemory(cx)`. -/
def JS_ReportOutOfMemory (E : Engine σ) (cx : JSContext) : Bridge σ Unit := do
  emit (Event.reportOutOfMemory cx)
  exec (E.JS_ReportOutOfMemory cx)

/-- `JS_ReportErrorUTF8(cx, "%s", msg)`. -/
def JS_ReportErrorUTF8 (E : Engine σ) (cx : JSContext) (msg : List Nat) : Bridge σ Unit := do
  emit (Event.reportErrorUTF8 cx msg)
  exec (E.JS_ReportErrorUTF8 cx msg)

/-- `JS_free(cx, p)`. -/
def JS_free (cx : JSContext) (p : Nat) : Bridge σ Unit :=
  emit (Event.free cx p)

/-- `JSAutoRealm ar(cx, global)` with the statements of its scope: the realm is
entered, the scope runs to its `return`, and the realm is left. -/
def JSAutoRealm {α : Type} (E : Engine σ) (cx : JSContext) (global : JSObject)
    (scope : Bridge σ α) : Bridge σ α := do
  run "JSAutoRealm" [cx, global] (E.EnterRealm cx global)
  let r ← scope
  run "~JSAutoRealm" [cx] (E.LeaveRealm cx)
  pure r

/-! ## Handle constructors and destructors -/

/-- `Context::Context(ref, cx, global)`, run on the storage at `this`. -/
def Context.construct (E : Engine σ) (this : Nat) (ref : Nat) (cx : JSContext)
    (global : Option JSObject) : Bridge σ Context := do
  let c : Context := { this := this, ref := ref, ptr := cx, globalPtr := global }
  if heapPtrToBool c.globalPtr then
    JS_AddExtraGCRootsTracer E c.ptr Tracer.traceGlobal c.this
  pure c

/-- The content of the `globalPtr` slot of a Session in the engine state `s`.
The constructor hands the address of the slot to the engine (`&globalPtr`,
traced by `traceGlobal` through `JS::TraceEdge`), so the slot holds what it
was constructed with until the engine empties it. -/
def Context.slot (E : Engine σ) (c : Context) (s : σ) : Option JSObject :=
  if E.edgeCleared c.ptr Tracer.traceGlobal c.this s then none else c.globalPtr

/-- `Context::~Context()`: `globalPtr` is tested as it is when the destructor runs. -/
def Context.destruct (E : Engine σ) (c : Context) : Bridge σ Unit := do
  let globalPtr ← peek (Context.slot E c)
  if heapPtrToBool globalPtr then
    JS_RemoveExtraGCRootsTracer E c.ptr Tracer.traceGlobal c.this

/-- `Script::Script(ctx, script)`, run on the storage at `this`. -/
def Script.construct (E : Engine σ) (this : Nat) (ctx : Context) (script : Option JSScript) :
    Bridge σ Script := do
  let s : Script := { this := this, ctx := ctx, ptr := script }
  if heapPtrToBool s.ptr then
    JS_AddExtraGCRootsTracer E s.ctx.getJSContext Tracer.traceScript s.this
  pure s

/-- `Script::~Script()`. -/
def Script.destruct (E : Engine σ) (s : Script) : Bridge σ Unit := do
  if heapPtrToBool s.ptr then
    JS_RemoveExtraGCRootsTracer E s.ctx.getJSContext Tracer.traceScript s.this

/-- `Value::Value(ctx, value)`, run on the storage at `this`. -/
def Value.construct (E : Engine σ) (this : Nat) (ctx : Context) (value : JSValue) :
    Bridge σ Value := do
  let v : Value := { this := this, ctx := ctx, ptr := value }
  if heapValueToBool v.ptr then
    JS_AddExtraGCRootsTracer E v.ctx.getJSContext Tracer.traceValue v.this
  pure v

/-- `Value::~Value()`. -/
def Value.destruct (E : Engine σ) (v : Value) : Bridge σ Unit := do
  if heapValueToBool v.ptr then
    JS_RemoveExtraGCRootsTracer E v.ctx.getJSContext Tracer.traceValue v.this

/-- `Stencil::Stencil(stencil)`: the `RefPtr` member takes one reference. -/
def Stencil.construct (this : Nat) (stencil : Option JSStencil) : Bridge σ Stencil := do
  emit (Event.stencilAddRef stencil)
  pure { this := this, ptr := stencil }

/-- `Stencil::~Stencil()` (implicit): the `RefPtr` member drops its reference. -/
def Stencil.destruct (s : Stencil) : Bridge σ Unit :=
  emit (Event.stencilRelease s.ptr)

/-- `new Context(ref, cx, global)`. -/
def newContext (E : Engine σ) (ref : Nat) (cx : JSContext) (global : Option JSObject) :
    Bridge σ (Option Context) := do
  let this ← operatorNew
  let c ← Context.construct E this ref cx global
  pure (some c)

/-- `new Script(ctx, script)`. -/
def newScript (E : Engine σ) (ctx : Context) (script : Option JSScript) :
    Bridge σ (Option Script) := do
  let this ← operatorNew
  let s ← Script.construct E this ctx script
  pure (some s)

/-- `new Value(ctx, value)`. -/
def newValue (E : Engine σ) (ctx : Context) (value : JSValue) : Bridge σ (Option Value) := do
  let this ← operatorNew
  let v ← Value.construct E this ctx value
  pure (some v)

/-- `new FrontendContext(fc)`. -/
def newFrontendContext (fc : JSFrontendContext) : Bridge σ (Option FrontendContext) := do
  let this ← operatorNew
  pure (some { this := this, ptr := fc })

/-- `new Stencil(st)`. -/
def newStencil (st : Option JSStencil) : Bridge σ (Option Stencil) := do
  let this ← operatorNew
  let s ← Stencil.construct this st
  pure (some s)

/-- `delete ctx` for a `Context *`. -/
def deleteContext (E : Engine σ) (c : Context) : Bridge σ Unit := do
  Context.destruct E c
  operatorDelete c.this

/-- `delete script` for a `Script *`. -/
def deleteScript (E : Engine σ) (s : Script) : Bridge σ Unit := do
  Script.destruct E s
  operatorDelete s.this

/-- `delete value` for a `Value *`. -/
def deleteValue (E : Engine σ) (v : Value) : Bridge σ Unit := do
  Value.destruct E v
  operatorDelete v.this

/-- `delete stencil` for a `Stencil *`. -/
def deleteStencil (s : Stencil) : Bridge σ Unit := do
  Stencil.destruct s
  operatorDelete s.this

/-! ## Private functions -/

/-- `GetError(cx)`: drain the pending failure of `cx` into an `Error`. -/
def GetError (E : Engine σ) (cx : JSContext) : Bridge σ Error := do
  let err : Error := {}
  let some stack ← call "StealPendingExceptionStack" [cx] (E.StealPendingExceptionStack cx)
    | pure err
  let some report ← call "ErrorReportBuilder::init" [cx] (E.ErrorReportBuilder_init cx stack)
    | pure err
  let some message ← call "strdup" [] (E.strdup report.message)
    | pure err
  pure { err with
    message := some message
    filename := report.filename
    lineno := toInt32 report.lineno
    number := toInt32 report.errorNumber }

/-- `&value.toObject()`: the object a value refers to.  Reading the object
of a value that is not an object is undefined; the address of a reference is
never null. -/
def addressOfToObject (v : JSValue) : Bridge σ (Option JSObject) :=
  match v with
  | JSValue.object o => pure (some o)
  | _ => fault Fault.wrongTag

/-- `value.toString()` for a value already known to be a string. -/
def toStringPtr (v : JSValue) : Bridge σ (Option JSString) :=
  match v with
  | JSValue.string s => pure (some s)
  | _ => fault Fault.wrongTag

/-- `val.setObject(*obj)`: dereferencing a null `obj` is undefined. -/
def setObject (obj : Option JSObject) : Bridge σ JSValue :=
  match obj with
  | some o => pure (JSValue.object o)
  | none => fault Fault.nullDereference

/-- The loop `for (int i = 0; i < argc; i++) values[i].set(argv[i]->getJSValue())`
over an array `argv` of non-null handles; reading past its end is undefined. -/
def copyArguments (argc : Int) (argv : List Value) : Bridge σ (List JSValue) :=
  if argc.toNat ≤ argv.length then
    pure ((argv.take argc.toNat).map Value.getJSValue)
  else
    fault Fault.outOfBounds

/-- `mozilla::NumberIsInt32` on the bit pattern of a double: the `int32_t` the
double equals exactly, if there is one (negative zero has none). -/
def numberIsInt32 (bits : Nat) : Option Int :=
  let sign := bits / 2 ^ 63 % 2
  let e := bits / 2 ^ 52 % 2 ^ 11
  let m := bits % 2 ^ 52
  if e = 0 then
    if m = 0 ∧ sign = 0 then some 0 else none
  else if e < 1023 ∨ 1075 ≤ e then
    none
  else if (2 ^ 52 + m) % 2 ^ (1075 - e) ≠ 0 then
    none
  else
    let q : Nat := (2 ^ 52 + m) / 2 ^ (1075 - e)
    if sign = 0 then
      if q < 2 ^ 31 then some (Int.ofNat q) else none
    else
      if q ≤ 2 ^ 31 then some (-(Int.ofNat q)) else none

/-- `val.setNumber(d)`: an int32-valued double is stored as an int32. -/
def setNumber (bits : Nat) : JSValue :=
  match numberIsInt32 bits with
  | some i => JSValue.int32 i
  | none => JSValue.double bits

/-- `StringifyCallback(buf, len, data)`: append the chunk and ask for more. -/
def StringifyCallback (buf : List Nat) (data : List Nat) : Bool × List Nat :=
  (true, data ++ buf)

/-- The `u16string` that results from the engine calling `StringifyCallback` on
each chunk in turn, stopping at the first call that returns false. -/
def runStringifyCallback : List (List Nat) → List Nat → List Nat
  | [], data => data
  | buf :: rest, data =>
    if (StringifyCallback buf data).1 then
      runStringifyCallback rest (StringifyCallback buf data).2
    else
      (StringifyCallback buf data).2

/-- `u16str.c_str()` read as a NUL-terminated string: the units before the first zero. -/
def c_str (units : List Nat) : List Nat :=
  units.takeWhile (fun u => u != 0)

/-- `InterruptCallback(cx)`. -/
def InterruptCallback (E : Engine σ) (cx : JSContext) : Bridge σ Bool := do
  run "JS_ResetInterruptCallback" [cx] (E.JS_ResetInterruptCallback cx true)
  JS_ReportErrorUTF8 E cx ("Execution interrupted".toList.map Char.toNat)
  pure false

/-- The loop of `FunctionCallback` that wraps each positional argument in a new
`Value` bound to `ctx`, collecting the handles in `vals`.  The `none` result is
the early `return false` of the loop's null check. -/
def wrapArguments (E : Engine σ) (cx : JSContext) (ctx : Context) :
    List JSValue → List Value → Bridge σ (Option (List Value))
  | [], vals => pure (some vals)
  | arg :: rest, vals => do
    let some v ← newValue E ctx arg
      | do
        JS_ReportOutOfMemory E cx
        pure none
    wrapArguments E cx ctx rest (vals ++ [v])

/-- The loop `for (const auto &val : vals) delete val;`. -/
def deleteValues (E : Engine σ) : List Value → Bridge σ Unit
  | [] => pure ()
  | val :: rest => do
    deleteValue E val
    deleteValues E rest

/-- `goFunctionCallback(contextRef, name, vals.size(), vals.data())`: the
dispatch into the host. -/
def goFunctionCallback (H : Host σ) (contextRef : Nat) (name : Buffer) (argc : Nat)
    (vp : List Value) : Bridge σ ResultGoFunctionCallback := do
  let result ← peekRun (H.goFunctionCallback contextRef name argc vp)
  emit (Event.dispatch contextRef name argc vp result)
  pure result

/-- `FunctionCallback(cx, argc, vp)`: the native trampoline behind every
host-defined function.  The loop over `vals` has deleted every argument handle
when `result.ptr->getJSValue()` is read, so that read is undefined when
`result.ptr` is one of the pointers in `vals`. -/
def FunctionCallback (E : Engine σ) (H : Host σ) (cx : JSContext) (args : CallArgs) :
    Bridge σ NativeReturn := do
  let funcVal := args.calleev
  let some func ← call "JS_ValueToFunction" [cx] (E.JS_ValueToFunction cx funcVal)
    | do
      JS_ReportOutOfMemory E cx
      pure { ok := false, rval := none }
  let some global ← peek (E.GetNonCCWObjectGlobal args.calleev)
    | do
      JS_ReportOutOfMemory E cx
      pure { ok := false, rval := none }
  let contextRefVal ← peek (E.GetReservedSlot global 0)
  let JSValue.int32 i := contextRefVal
    | do
      JS_ReportOutOfMemory E cx
      pure { ok := false, rval := none }
  let contextRef := toUInt32 i
  let some ctx ← call "goFunctionContext" [contextRef] (H.goFunctionContext contextRef)
    | do
      JS_ReportOutOfMemory E cx
      pure { ok := false, rval := none }
  let some nameStr ← peek (E.JS_GetFunctionId func)
    | do
      JS_ReportOutOfMemory E cx
      pure { ok := false, rval := none }
  let len ← call "JS_GetStringEncodingLength" [cx, nameStr]
    (E.JS_GetStringEncodingLength cx nameStr)
  let some name ← call "JS_malloc" [cx] (E.JS_malloc cx ((len + 1) % 2 ^ 64))
    | do
      JS_ReportOutOfMemory E cx
      pure { ok := false, rval := none }
  let some encoded ← call "JS_EncodeStringToBuffer" [cx, nameStr]
    (E.JS_EncodeStringToBuffer cx nameStr len)
    | do
      JS_ReportOutOfMemory E cx
      JS_free cx name
      pure { ok := false, rval := none }
  let name : Buffer := { addr := name, bytes := encoded.take len ++ [0] }
  let some vals ← wrapArguments E cx ctx args.argv []
    | pure { ok := false, rval := none }
  let result ← goFunctionCallback H contextRef name vals.length vals
  deleteValues E vals
  JS_free cx name.addr
  match result.err with
  | some err => do
    JS_ReportErrorUTF8 E cx err.bytes
    JS_free cx err.addr
    pure { ok := false, rval := none }
  | none => do
    let rval ←
      match result.ptr with
      | some ptr =>
        if vals.any (fun val => val.this == ptr.this) then
          useAfterFree ptr.this
        else do
          let rval := ptr.getJSValue
          deleteValue E ptr
          pure rval
      | none => pure JSValue.undefined
    pure { ok := true, rval := some rval }

end Primitives

/-- `struct ContextOptions`. -/
structure ContextOptions where
  heapMaxBytes : Nat
  stackSize : Nat
  gcMaxBytes : Nat
  gcIncrementalEnabled : Nat
  gcSliceTimeBudgetMs : Nat
  deriving DecidableEq, Repr

/-- `struct FrontendContextOptions`. -/
structure FrontendContextOptions where
  stackSize : Nat
  deriving DecidableEq, Repr

section PublicFunctions

variable {σ : Type}

/-- `NewContext(ref, options)`. -/
def NewContext (E : Engine σ) (ref : Nat) (options : ContextOptions) :
    Bridge σ (Option Context) := do
  let heapMaxBytes :=
    if options.heapMaxBytes ≠ 0 then options.heapMaxBytes else E.DefaultHeapMaxBytes
  let some cx ← call "JS_NewContext" [heapMaxBytes] (E.JS_NewContext heapMaxBytes)
    | pure none
  if options.stackSize ≠ 0 then
    run "JS_SetNativeStackQuota" [cx, options.stackSize]
      (E.JS_SetNativeStackQuota cx options.stackSize)
  if options.gcMaxBytes ≠ 0 then
    run "JS_SetGCParameter(JSGC_MAX_BYTES)" [cx, options.gcMaxBytes]
      (E.JS_SetGCParameter cx JSGCParamKey.JSGC_MAX_BYTES options.gcMaxBytes)
  if options.gcIncrementalEnabled ≠ 0 then
    run "JS_SetGCParameter(JSGC_INCREMENTAL_GC_ENABLED)" [cx, options.gcIncrementalEnabled]
      (E.JS_SetGCParameter cx JSGCParamKey.JSGC_INCREMENTAL_GC_ENABLED
        options.gcIncrementalEnabled)
  if options.gcSliceTimeBudgetMs ≠ 0 then
    run "JS_SetGCParameter(JSGC_SLICE_TIME_BUDGET_MS)" [cx, options.gcSliceTimeBudgetMs]
      (E.JS_SetGCParameter cx JSGCParamKey.JSGC_SLICE_TIME_BUDGET_MS
        options.gcSliceTimeBudgetMs)
  let added ← call "JS_AddInterruptCallback" [cx] (E.JS_AddInterruptCallback cx)
  if !added then
    pure none
  else
    let selfHosted ← call "InitSelfHostedCode" [cx] (E.InitSelfHostedCode cx)
    if !selfHosted then
      pure none
    else
      let some global ← call "JS_NewGlobalObject" [cx] (E.JS_NewGlobalObject cx)
        | pure none
      JSAutoRealm E cx global do
        let contextRefVal := Int32Value ref
        run "JS_SetReservedSlot" [global, 0] (E.JS_SetReservedSlot global 0 contextRefVal)
        let some ctx ← newContext E ref cx (some global)
          | pure none
        pure (some ctx)

/-- `DestroyContext(ctx)`. -/
def DestroyContext (E : Engine σ) (ctx : Context) : Bridge σ Unit := do
  run "JS_DestroyContext" [ctx.getJSContext] (E.JS_DestroyContext ctx.getJSContext)
  deleteContext E ctx

/-- `RequestInterruptContext(ctx)`. -/
def RequestInterruptContext (E : Engine σ) (ctx : Context) : Bridge σ Unit :=
  run "JS_RequestInterruptCallback" [ctx.getJSContext]
    (E.JS_RequestInterruptCallback ctx.getJSContext)

/-- `GetGlobalObject(ctx)`. -/
def GetGlobalObject (E : Engine σ) (ctx : Context) : Bridge σ ResultValue := do
  let result : ResultValue := {}
  let some global := ctx.getGlobalJSObject
    | do
      let err ← GetError E ctx.getJSContext
      pure { result with err := err }
  let globalVal := JSValue.object global
  let some v ← newValue E ctx globalVal
    | pure result
  pure { result with ok := true, ptr := some v }

/-- `DefineObject(ctx, recv, name, attrs)`. -/
def DefineObject (E : Engine σ) (ctx : Context) (recv : Value) (name : String) (attrs : Nat) :
    Bridge σ ResultValue := do
  let result : ResultValue := {}
  let some global := ctx.getGlobalJSObject
    | do
      let err ← GetError E ctx.getJSContext
      pure { result with err := err }
  JSAutoRealm E ctx.getJSContext global do
    let recvValue := recv.getJSValue
    let some recvObject ← call "ToObject" [ctx.getJSContext]
        (E.ToObject ctx.getJSContext recvValue)
      | do
        let err ← GetError E ctx.getJSContext
        pure { result with err := err }
    let some object ← call "JS_DefineObject" [ctx.getJSContext, recvObject]
        (E.JS_DefineObject ctx.getJSContext recvObject name attrs)
      | do
        let err ← GetError E ctx.getJSContext
        pure { result with err := err }
    let objectVal := JSValue.object object
    let some v ← newValue E ctx objectVal
      | pure result
    pure { result with ok := true, ptr := some v }

/-- `DefineProperty(ctx, recv, name, value, attrs)`. -/
def DefineProperty (E : Engine σ) (ctx : Context) (recv : Value) (name : String)
    (value : Value) (attrs : Nat) : Bridge σ Result := do
  let result : Result := {}
  let some global := ctx.getGlobalJSObject
    | do
      let err ← GetError E ctx.getJSContext
      pure { result with err := err }
  JSAutoRealm E ctx.getJSContext global do
    let recvValue := recv.getJSValue
    let some recvObject ← call "ToObject" [ctx.getJSContext]
        (E.ToObject ctx.getJSContext recvValue)
      | do
        let err ← GetError E ctx.getJSContext
        pure { result with err := err }
    let propValue := value.getJSValue
    let defined ← call "JS_DefineProperty" [ctx.getJSContext, recvObject]
      (E.JS_DefineProperty ctx.getJSContext recvObject name propValue attrs)
    if !defined then
      let err ← GetError E ctx.getJSContext
      pure { result with err := err }
    else
      pure { result with ok := true }

/-- `DefineElement(ctx, recv, index, value, attrs)`. -/
def DefineElement (E : Engine σ) (ctx : Context) (recv : Value) (index : Nat)
    (value : Value) (attrs : Nat) : Bridge σ Result := do
  let result : Result := {}
  let some global := ctx.getGlobalJSObject
    | do
      let err ← GetError E ctx.getJSContext
      pure { result with err := err }
  JSAutoRealm E ctx.getJSContext global do
    let recvValue := recv.getJSValue
    let some recvObject ← call "ToObject" [ctx.getJSContext]
        (E.ToObject ctx.getJSContext recvValue)
      | do
        let err ← GetError E ctx.getJSContext
        pure { result with err := err }
    let propValue := value.getJSValue
    let defined ← call "JS_DefineElement" [ctx.getJSContext, recvObject]
      (E.JS_DefineElement ctx.getJSContext recvObject index propValue attrs)
    if !defined then
      let err ← GetError E ctx.getJSContext
      pure { result with err := err }
    else
      pure { result with ok := true }

/-- `DefineFunction(ctx, recv, name, nargs, attrs)`; the native it installs is
always `FunctionCallback`. -/
def DefineFunction (E : Engine σ) (ctx : Context) (recv : Value) (name : String)
    (nargs : Nat) (attrs : Nat) : Bridge σ Result := do
  let result : Result := {}
  let some global := ctx.getGlobalJSObject
    | do
      let err ← GetError E ctx.getJSContext
      pure { result with err := err }
  JSAutoRealm E ctx.getJSContext global do
    let recvValue := recv.getJSValue
    let some recvObject ← call "ToObject" [ctx.getJSContext]
        (E.ToObject ctx.getJSContext recvValue)
      | do
        let err ← GetError E ctx.getJSContext
        pure { result with err := err }
    let some func ← call "JS_DefineFunction" [ctx.getJSContext, recvObject]
        (E.JS_DefineFunction ctx.getJSContext recvObject name nargs attrs)
      | do
        let err ← GetError E ctx.getJSContext
        pure { result with err := err }
    let some _funcObj := E.JS_GetFunctionObject func
      | do
        let err ← GetError E ctx.getJSContext
        pure { result with err := err }
    pure { result with ok := true }

/-- `CallFunctionName(ctx, name, recv, argc, argv)`. -/
def CallFunctionName (E : Engine σ) (ctx : Context) (name : String) (recv : Value)
    (argc : Int) (argv : List Value) : Bridge σ ResultValue := do
  let result : ResultValue := {}
  let some global := ctx.getGlobalJSObject
    | do
      let err ← GetError E ctx.getJSContext
      pure { result with err := err }
  JSAutoRealm E ctx.getJSContext global do
    let recvValue := recv.getJSValue
    let some recvObject ← call "ToObject" [ctx.getJSContext]
        (E.ToObject ctx.getJSContext recvValue)
      | do
        let err ← GetError E ctx.getJSContext
        pure { result with err := err }
    let resized ← call "RootedValueVector::resize" [ctx.getJSContext]
      (E.RootedValueVector_resize ctx.getJSContext argc)
    if !resized then
      let err ← GetError E ctx.getJSContext
      pure { result with err := err }
    else
      let values ← copyArguments argc argv
      let some rval ← call "JS_CallFunctionName" [ctx.getJSContext, recvObject]
          (E.JS_CallFunctionName ctx.getJSContext recvObject name values)
        | do
          let err ← GetError E ctx.getJSContext
          pure { result with err := err }
      let some v ← newValue E ctx rval
        | pure result
      pure { result with ok := true, ptr := some v }

/-- `CallFunctionValue(ctx, func, recv, argc, argv)`. -/
def CallFunctionValue (E : Engine σ) (ctx : Context) (func : Value) (recv : Value)
    (argc : Int) (argv : List Value) : Bridge σ ResultValue := do
  let result : ResultValue := {}
  let some global := ctx.getGlobalJSObject
    | do
      let err ← GetError E ctx.getJSContext
      pure { result with err := err }
  JSAutoRealm E ctx.getJSContext global do
    let recvValue := recv.getJSValue
    let some recvObject ← call "ToObject" [ctx.getJSContext]
        (E.ToObject ctx.getJSContext recvValue)
      | do
        let err ← GetError E ctx.getJSContext
        pure { result with err := err }
    let funcVal := func.getJSValue
    let resized ← call "RootedValueVector::resize" [ctx.getJSContext]
      (E.RootedValueVector_resize ctx.getJSContext argc)
    if !resized then
      let err ← GetError E ctx.getJSContext
      pure { result with err := err }
    else
      let values ← copyArguments argc argv
      let some rval ← call "JS_CallFunctionValue" [ctx.getJSContext, recvObject]
          (E.JS_CallFunctionValue ctx.getJSContext recvObject funcVal values)
        | do
          let err ← GetError E ctx.getJSContext
          pure { result with err := err }
      let some v ← newValue E ctx rval
        | pure result
      pure { result with ok := true, ptr := some v }

/-- `Evaluate(ctx, code)`. -/
def Evaluate (E : Engine σ) (ctx : Context) (code : String) : Bridge σ ResultValue := do
  let result : ResultValue := {}
  let some global := ctx.getGlobalJSObject
    | do
      let err ← GetError E ctx.getJSContext
      pure { result with err := err }
  JSAutoRealm E ctx.getJSContext global do
    let initialised ← call "SourceText::init" [ctx.getJSContext]
      (E.SourceText_init ctx.getJSContext code)
    if !initialised then
      let err ← GetError E ctx.getJSContext
      pure { result with err := err }
    else
      let some rval ← call "JS::Evaluate" [ctx.getJSContext]
          (E.Evaluate ctx.getJSContext "" code)
        | do
          let err ← GetError E ctx.getJSContext
          pure { result with err := err }
      let some v ← newValue E ctx rval
        | pure result
      pure { result with ok := true, ptr := some v }

/-- `CompileScript(ctx, filename, code)`. -/
def CompileScript (E : Engine σ) (ctx : Context) (filename : String) (code : String) :
    Bridge σ ResultCompileScript := do
  let result : ResultCompileScript := {}
  let some global := ctx.getGlobalJSObject
    | do
      let err ← GetError E ctx.getJSContext
      pure { result with err := err }
  JSAutoRealm E ctx.getJSContext global do
    let initialised ← call "SourceText::init" [ctx.getJSContext]
      (E.SourceText_init ctx.getJSContext code)
    if !initialised then
      let err ← GetError E ctx.getJSContext
      pure { result with err := err }
    else
      let some rscript ← call "JS::Compile" [ctx.getJSContext]
          (E.Compile ctx.getJSContext filename code)
        | do
          let err ← GetError E ctx.getJSContext
          pure { result with err := err }
      let some script ← newScript E ctx (some rscript)
        | pure result
      pure { result with ok := true, ptr := some script }

/-- `ReleaseScript(script)`. -/
def ReleaseScript (E : Engine σ) (script : Script) : Bridge σ Unit :=
  deleteScript E script

/-- `ExecuteScript(ctx, script)`. -/
def ExecuteScript (E : Engine σ) (ctx : Context) (script : Script) :
    Bridge σ ResultValue := do
  let result : ResultValue := {}
  let some global := ctx.getGlobalJSObject
    | do
      let err ← GetError E ctx.getJSContext
      pure { result with err := err }
  JSAutoRealm E ctx.getJSContext global do
    let some rscript := script.getJSScript
      | fault Fault.nullDereference
    let some rval ← call "JS_ExecuteScript" [ctx.getJSContext, rscript]
        (E.JS_ExecuteScript ctx.getJSContext rscript)
      | do
        let err ← GetError E script.getContext.getJSContext
        pure { result with err := err }
    let some v ← newValue E script.getContext rval
      | pure result
    pure { result with ok := true, ptr := some v }

/-- `ExecuteScriptFromStencil(ctx, stencil)`. -/
def ExecuteScriptFromStencil (E : Engine σ) (ctx : Context) (stencil : Stencil) :
    Bridge σ ResultValue := do
  let result : ResultValue := {}
  let some global := ctx.getGlobalJSObject
    | fault Fault.nullDereference
  JSAutoRealm E ctx.getJSContext global do
    let some script ← call "JS::InstantiateGlobalStencil" [ctx.getJSContext]
        (E.InstantiateGlobalStencil ctx.getJSContext stencil.getStencil)
      | do
        let err ← GetError E ctx.getJSContext
        pure { result with err := err }
    let some rval ← call "JS_ExecuteScript" [ctx.getJSContext, script]
        (E.JS_ExecuteScript ctx.getJSContext script)
      | do
        let err ← GetError E ctx.getJSContext
        pure { result with err := err }
    let some v ← newValue E ctx rval
      | pure result
    pure { result with ok := true, ptr := some v }

/-- `NewFrontendContext(options)`. -/
def NewFrontendContext (E : Engine σ) (options : FrontendContextOptions) :
    Bridge σ (Option FrontendContext) := do
  let some fc ← call "JS::NewFrontendContext" [] E.NewFrontendContext
    | pure none
  if options.stackSize ≠ 0 then
    run "JS::SetNativeStackQuota" [fc, 0] (E.SetNativeStackQuotaFc fc 0)
  let some ctx ← newFrontendContext fc
    | pure none
  pure (some ctx)

/-- `DestroyFrontendContext(ctx)`. -/
def DestroyFrontendContext (E : Engine σ) (ctx : FrontendContext) : Bridge σ Unit := do
  run "JS::DestroyFrontendContext" [ctx.ptr] (E.DestroyFrontendContext ctx.ptr)
  operatorDelete ctx.this

/-- `CompileScriptToStencil(ctx, filename, code)`. -/
def CompileScriptToStencil (E : Engine σ) (ctx : FrontendContext) (filename : String)
    (code : String) : Bridge σ ResultCompileStencil := do
  let result : ResultCompileStencil := {}
  let initialised ← call "SourceText::init" [ctx.ptr] (E.SourceText_initFc ctx.ptr code)
  if !initialised then
    pure result
  else
    let some st ← call "JS::CompileGlobalScriptToStencil" [ctx.ptr]
        (E.CompileGlobalScriptToStencil ctx.ptr filename code)
      | pure result
    let some stencil ← newStencil (some st)
      | pure result
    pure { result with ok := true, ptr := some stencil }

/-- `ReleaseStencil(stencil)`. -/
def ReleaseStencil (stencil : Stencil) : Bridge σ Unit :=
  deleteStencil stencil

/-- `NewValueUndefined(ctx)`. -/
def NewValueUndefined (E : Engine σ) (ctx : Context) : Bridge σ ResultValue := do
  let result : ResultValue := {}
  let val := JSValue.undefined
  let some v ← newValue E ctx val
    | pure result
  pure { result with ok := true, ptr := some v }

/-- `NewValueNull(ctx)`. -/
def NewValueNull (E : Engine σ) (ctx : Context) : Bridge σ ResultValue := do
  let result : ResultValue := {}
  let val := JSValue.null
  let some v ← newValue E ctx val
    | pure result
  pure { result with ok := true, ptr := some v }

/-- `NewValueString(ctx, str, len)`; `str` is the bytes at the pointer. -/
def NewValueString (E : Engine σ) (ctx : Context) (str : List Nat) (len : Int) :
    Bridge σ ResultValue := do
  let result : ResultValue := {}
  let some global := ctx.getGlobalJSObject
    | do
      let err ← GetError E ctx.getJSContext
      pure { result with err := err }
  JSAutoRealm E ctx.getJSContext global do
    let some s ← call "JS_NewStringCopyN" [ctx.getJSContext]
        (E.JS_NewStringCopyN ctx.getJSContext str len)
      | do
        let err ← GetError E ctx.getJSContext
        pure { result with err := err }
    let val := JSValue.string s
    let some v ← newValue E ctx val
      | pure result
    pure { result with ok := true, ptr := some v }

/-- `NewValueBoolean(ctx, b)`. -/
def NewValueBoolean (E : Engine σ) (ctx : Context) (b : Bool) : Bridge σ ResultValue := do
  let result : ResultValue := {}
  let val := JSValue.boolean b
  let some v ← newValue E ctx val
    | pure result
  pure { result with ok := true, ptr := some v }

/-- `NewValueNumber(ctx, d)`; `d` is the bit pattern of the double. -/
def NewValueNumber (E : Engine σ) (ctx : Context) (d : Nat) : Bridge σ ResultValue := do
  let result : ResultValue := {}
  let val := setNumber d
  let some v ← newValue E ctx val
    | pure result
  pure { result with ok := true, ptr := some v }

/-- `NewValueInt32(ctx, i)`. -/
def NewValueInt32 (E : Engine σ) (ctx : Context) (i : Int) : Bridge σ ResultValue := do
  let result : ResultValue := {}
  let val := JSValue.int32 i
  let some v ← newValue E ctx val
    | pure result
  pure { result with ok := true, ptr := some v }

/-- `ReleaseValue(value)`. -/
def ReleaseValue (E : Engine σ) (value : Value) : Bridge σ Unit :=
  deleteValue E value

/-- `ToString(value)`. -/
def ToString (E : Engine σ) (value : Value) : Bridge σ ResultString := do
  let result : ResultString := {}
  let some global := value.getContext.getGlobalJSObject
    | do
      let err ← GetError E value.getContext.getJSContext
      pure { result with err := err }
  JSAutoRealm E value.getContext.getJSContext global do
    let val := value.getJSValue
    let some str ← call "JS::ToString" [value.getContext.getJSContext]
        (E.ToString value.getContext.getJSContext val)
      | do
        let err ← GetError E value.getContext.getJSContext
        pure { result with err := err }
    let len ← call "JS_GetStringEncodingLength" [value.getContext.getJSContext, str]
      (E.JS_GetStringEncodingLength value.getContext.getJSContext str)
    let some data ← call "JS_malloc" [value.getContext.getJSContext]
        (E.JS_malloc value.getContext.getJSContext len)
      | do
        let err ← GetError E value.getContext.getJSContext
        pure { result with err := err }
    let some encoded ← call "JS_EncodeStringToBuffer" [value.getContext.getJSContext, str]
        (E.JS_EncodeStringToBuffer value.getContext.getJSContext str len)
      | do
        let err ← GetError E value.getContext.getJSContext
        pure { result with err := err }
    pure { result with
      ok := true
      data := some { addr := data, bytes := encoded.take len }
      len := toInt32 len }

/-- `ValueIs(value, other)`: raw equality of the wrapped values. -/
def ValueIs (value : Value) (other : Value) : Bool :=
  decide (value.getJSValue = other.getJSValue)

/-- `ValueIsUndefined(value)`. -/
def ValueIsUndefined (value : Value) : Bool :=
  decide (value.getJSValue = JSValue.undefined)

/-- `ValueIsNull(value)`. -/
def ValueIsNull (value : Value) : Bool :=
  decide (value.getJSValue = JSValue.null)

/-- `ValueIsNullOrUndefined(value)`. -/
def ValueIsNullOrUndefined (value : Value) : Bool :=
  decide (value.getJSValue = JSValue.null) || decide (value.getJSValue = JSValue.undefined)

/-- `ValueIsTrue(value)`. -/
def ValueIsTrue (value : Value) : Bool :=
  decide (value.getJSValue = JSValue.boolean true)

/-- `ValueIsFalse(value)`. -/
def ValueIsFalse (value : Value) : Bool :=
  decide (value.getJSValue = JSValue.boolean false)

/-- `ValueIsObject(value)`. -/
def ValueIsObject (value : Value) : Bool :=
  value.getJSValue.isObject

/-- `ValueIsFunction(value)`, in engine state `s`. -/
def ValueIsFunction (E : Engine σ) (value : Value) (s : σ) : Bool :=
  match value.getJSValue with
  | JSValue.object o => E.IsCallable o s
  | _ => false

/-- `ValueIsSymbol(value)`. -/
def ValueIsSymbol (value : Value) : Bool :=
  match value.getJSValue with
  | JSValue.symbol _ => true
  | _ => false

/-- `ValueIsString(value)`. -/
def ValueIsString (value : Value) : Bool :=
  value.getJSValue.isString

/-- `ValueIsBoolean(value)`. -/
def ValueIsBoolean (value : Value) : Bool :=
  match value.getJSValue with
  | JSValue.boolean _ => true
  | _ => false

/-- `ValueIsNumber(value)`. -/
def ValueIsNumber (value : Value) : Bool :=
  match value.getJSValue with
  | JSValue.int32 _ => true
  | JSValue.double _ => true
  | _ => false

/-- `ValueIsInt32(value)`. -/
def ValueIsInt32 (value : Value) : Bool :=
  value.getJSValue.isInt32

/-- `ValueIsBigInt(value)`. -/
def ValueIsBigInt (value : Value) : Bool :=
  match value.getJSValue with
  | JSValue.bigint _ => true
  | _ => false

/-- `ValueToString(value)`. -/
def ValueToString (E : Engine σ) (value : Value) : Bridge σ ResultString := do
  let result : ResultString := {}
  let some global := value.getContext.getGlobalJSObject
    | do
      let err ← GetError E value.getContext.getJSContext
      pure { result with err := err }
  JSAutoRealm E value.getContext.getJSContext global do
    if !value.getJSValue.isString then
      pure result
    else
      let some str ← toStringPtr value.getJSValue
        | do
          let err ← GetError E value.getContext.getJSContext
          pure { result with err := err }
      let len ← call "JS_GetStringEncodingLength" [value.getContext.getJSContext, str]
        (E.JS_GetStringEncodingLength value.getContext.getJSContext str)
      let some data ← call "JS_malloc" [value.getContext.getJSContext]
          (E.JS_malloc value.getContext.getJSContext len)
        | do
          let err ← GetError E value.getContext.getJSContext
          pure { result with err := err }
      let some encoded ← call "JS_EncodeStringToBuffer" [value.getContext.getJSContext, str]
          (E.JS_EncodeStringToBuffer value.getContext.getJSContext str len)
        | do
          let err ← GetError E value.getContext.getJSContext
          pure { result with err := err }
      pure { result with
        ok := true
        data := some { addr := data, bytes := encoded.take len }
        len := toInt32 len }

/-- `ValueToBoolean(value)`; reading the boolean of another kind of value is undefined. -/
def ValueToBoolean (value : Value) : Bridge σ Int :=
  match value.getJSValue with
  | JSValue.boolean b => pure (if b then 1 else 0)
  | _ => fault Fault.wrongTag

/-- `ValueToInt32(value)`; reading the int32 of another kind of value is undefined. -/
def ValueToInt32 (value : Value) : Bridge σ Int :=
  match value.getJSValue with
  | JSValue.int32 i => pure i
  | _ => fault Fault.wrongTag

/-- `NewPlainObject(ctx)`. -/
def NewPlainObject (E : Engine σ) (ctx : Context) : Bridge σ ResultValue := do
  let result : ResultValue := {}
  let some global := ctx.getGlobalJSObject
    | do
      let err ← GetError E ctx.getJSContext
      pure { result with err := err }
  JSAutoRealm E ctx.getJSContext global do
    let obj ← call "JS_NewPlainObject" [ctx.getJSContext] (E.JS_NewPlainObject ctx.getJSContext)
    let objectVal ← setObject obj
    let some v ← newValue E ctx objectVal
      | pure result
    pure { result with ok := true, ptr := some v }

/-- `ObjectHasProperty(object, key)`. -/
def ObjectHasProperty (E : Engine σ) (object : Value) (key : String) :
    Bridge σ ResultBool := do
  let result : ResultBool := {}
  let some global := object.getContext.getGlobalJSObject
    | do
      let err ← GetError E object.getContext.getJSContext
      pure { result with err := err }
  JSAutoRealm E object.getContext.getJSContext global do
    let some obj ← addressOfToObject object.getJSValue
      | do
        let err ← GetError E object.getContext.getJSContext
        pure { result with err := err }
    let some found ← call "JS_HasProperty" [object.getContext.getJSContext, obj]
        (E.JS_HasProperty object.getContext.getJSContext obj key)
      | do
        let err ← GetError E object.getContext.getJSContext
        pure { result with err := err }
    pure { result with ok := true, value := found }

/-- `ObjectGetProperty(object, key)`. -/
def ObjectGetProperty (E : Engine σ) (object : Value) (key : String) :
    Bridge σ ResultValue := do
  let result : ResultValue := {}
  let some global := object.getContext.getGlobalJSObject
    | do
      let err ← GetError E object.getContext.getJSContext
      pure { result with err := err }
  JSAutoRealm E object.getContext.getJSContext global do
    let some obj ← addressOfToObject object.getJSValue
      | do
        let err ← GetError E object.getContext.getJSContext
        pure { result with err := err }
    let some propValue ← call "JS_GetProperty" [object.getContext.getJSContext, obj]
        (E.JS_GetProperty object.getContext.getJSContext obj key)
      | do
        let err ← GetError E object.getContext.getJSContext
        pure { result with err := err }
    let some v ← newValue E object.getContext propValue
      | pure result
    pure { result with ok := true, ptr := some v }

/-- `ObjectSetProperty(object, key, value)`. -/
def ObjectSetProperty (E : Engine σ) (object : Value) (key : String) (value : Value) :
    Bridge σ Result := do
  let result : Result := {}
  let some global := object.getContext.getGlobalJSObject
    | do
      let err ← GetError E object.getContext.getJSContext
      pure { result with err := err }
  JSAutoRealm E object.getContext.getJSContext global do
    let some obj ← addressOfToObject object.getJSValue
      | do
        let err ← GetError E object.getContext.getJSContext
        pure { result with err := err }
    let propValue := value.getJSValue
    let done ← call "JS_SetProperty" [object.getContext.getJSContext, obj]
      (E.JS_SetProperty object.getContext.getJSContext obj key propValue)
    if !done then
      let err ← GetError E object.getContext.getJSContext
      pure { result with err := err }
    else
      pure { result with ok := true }

/-- `ObjectDeleteProperty(object, key)`. -/
def ObjectDeleteProperty (E : Engine σ) (object : Value) (key : String) :
    Bridge σ Result := do
  let result : Result := {}
  let some global := object.getContext.getGlobalJSObject
    | do
      let err ← GetError E object.getContext.getJSContext
      pure { result with err := err }
  JSAutoRealm E object.getContext.getJSContext global do
    let some obj ← addressOfToObject object.getJSValue
      | do
        let err ← GetError E object.getContext.getJSContext
        pure { result with err := err }
    let done ← call "JS_DeleteProperty" [object.getContext.getJSContext, obj]
      (E.JS_DeleteProperty object.getContext.getJSContext obj key)
    if !done then
      let err ← GetError E object.getContext.getJSContext
      pure { result with err := err }
    else
      pure { result with ok := true }

/-- `ObjectHasElement(object, index)`. -/
def ObjectHasElement (E : Engine σ) (object : Value) (index : Nat) :
    Bridge σ ResultBool := do
  let result : ResultBool := {}
  let some global := object.getContext.getGlobalJSObject
    | do
      let err ← GetError E object.getContext.getJSContext
      pure { result with err := err }
  JSAutoRealm E object.getContext.getJSContext global do
    let some obj ← addressOfToObject object.getJSValue
      | do
        let err ← GetError E object.getContext.getJSContext
        pure { result with err := err }
    let some found ← call "JS_HasElement" [object.getContext.getJSContext, obj]
        (E.JS_HasElement object.getContext.getJSContext obj index)
      | do
        let err ← GetError E object.getContext.getJSContext
        pure { result with err := err }
    pure { result with ok := true, value := found }

/-- `ObjectGetElement(object, index)`. -/
def ObjectGetElement (E : Engine σ) (object : Value) (index : Nat) :
    Bridge σ ResultValue := do
  let result : ResultValue := {}
  let some global := object.getContext.getGlobalJSObject
    | do
      let err ← GetError E object.getContext.getJSContext
      pure { result with err := err }
  JSAutoRealm E object.getContext.getJSContext global do
    let some obj ← addressOfToObject object.getJSValue
      | do
        let err ← GetError E object.getContext.getJSContext
        pure { result with err := err }
    let some propValue ← call "JS_GetElement" [object.getContext.getJSContext, obj]
        (E.JS_GetElement object.getContext.getJSContext obj index)
      | do
        let err ← GetError E object.getContext.getJSContext
        pure { result with err := err }
    let some v ← newValue E object.getContext propValue
      | pure result
    pure { result with ok := true, ptr := some v }

/-- `ObjectSetElement(object, index, value)`. -/
def ObjectSetElement (E : Engine σ) (object : Value) (index : Nat) (value : Value) :
    Bridge σ Result := do
  let result : Result := {}
  let some global := object.getContext.getGlobalJSObject
    | do
      let err ← GetError E object.getContext.getJSContext
      pure { result with err := err }
  JSAutoRealm E object.getContext.getJSContext global do
    let some obj ← addressOfToObject object.getJSValue
      | do
        let err ← GetError E object.getContext.getJSContext
        pure { result with err := err }
    let propValue := value.getJSValue
    let done ← call "JS_SetElement" [object.getContext.getJSContext, obj]
      (E.JS_SetElement object.getContext.getJSContext obj index propValue)
    if !done then
      let err ← GetError E object.getContext.getJSContext
      pure { result with err := err }
    else
      pure { result with ok := true }

/-- `ObjectDeleteElement(object, index)`. -/
def ObjectDeleteElement (E : Engine σ) (object : Value) (index : Nat) :
    Bridge σ Result := do
  let result : Result := {}
  let some global := object.getContext.getGlobalJSObject
    | do
      let err ← GetError E object.getContext.getJSContext
      pure { result with err := err }
  JSAutoRealm E object.getContext.getJSContext global do
    let some obj ← addressOfToObject object.getJSValue
      | do
        let err ← GetError E object.getContext.getJSContext
        pure { result with err := err }
    let done ← call "JS_DeleteElement" [object.getContext.getJSContext, obj]
      (E.JS_DeleteElement object.getContext.getJSContext obj index)
    if !done then
      let err ← GetError E object.getContext.getJSContext
      pure { result with err := err }
    else
      pure { result with ok := true }

/-- `NewFunction(ctx, name)`; the native is always `FunctionCallback`. -/
def NewFunction (E : Engine σ) (ctx : Context) (name : String) : Bridge σ ResultValue := do
  let result : ResultValue := {}
  let some global := ctx.getGlobalJSObject
    | do
      let err ← GetError E ctx.getJSContext
      pure { result with err := err }
  JSAutoRealm E ctx.getJSContext global do
    let some func ← call "JS_NewFunction" [ctx.getJSContext]
        (E.JS_NewFunction ctx.getJSContext name)
      | do
        let err ← GetError E ctx.getJSContext
        pure { result with err := err }
    let some funcObj := E.JS_GetFunctionObject func
      | do
        let err ← GetError E ctx.getJSContext
        pure { result with err := err }
    let funcValue := JSValue.object funcObj
    let some v ← newValue E ctx funcValue
      | pure result
    pure { result with ok := true, ptr := some v }

/-- `NewArrayObject(ctx, argc, argv)`. -/
def NewArrayObject (E : Engine σ) (ctx : Context) (argc : Int) (argv : List Value) :
    Bridge σ ResultValue := do
  let result : ResultValue := {}
  let some global := ctx.getGlobalJSObject
    | do
      let err ← GetError E ctx.getJSContext
      pure { result with err := err }
  JSAutoRealm E ctx.getJSContext global do
    let resized ← call "RootedValueVector::resize" [ctx.getJSContext]
      (E.RootedValueVector_resize ctx.getJSContext argc)
    if !resized then
      let err ← GetError E ctx.getJSContext
      pure { result with err := err }
    else
      let values ← copyArguments argc argv
      let obj ← call "JS::NewArrayObject" [ctx.getJSContext]
        (E.NewArrayObject ctx.getJSContext values)
      let objectVal ← setObject obj
      let some v ← newValue E ctx objectVal
        | pure result
      pure { result with ok := true, ptr := some v }

/-- `GetArrayObjectLength(array)`. -/
def GetArrayObjectLength (E : Engine σ) (array : Value) :
    Bridge σ ResultUInt32 := do
  let result : ResultUInt32 := {}
  let some global := array.getContext.getGlobalJSObject
    | do
      let err ← GetError E array.getContext.getJSContext
      pure { result with err := err }
  JSAutoRealm E array.getContext.getJSContext global do
    let some obj ← addressOfToObject array.getJSValue
      | do
        let err ← GetError E array.getContext.getJSContext
        pure { result with err := err }
    let some length ← call "JS::GetArrayLength" [array.getContext.getJSContext, obj]
        (E.GetArrayLength array.getContext.getJSContext obj)
      | do
        let err ← GetError E array.getContext.getJSContext
        pure { result with err := err }
    pure { result with ok := true, value := length }

/-- `NewMapObject(ctx)`. -/
def NewMapObject (E : Engine σ) (ctx : Context) : Bridge σ ResultValue := do
  let result : ResultValue := {}
  let some global := ctx.getGlobalJSObject
    | do
      let err ← GetError E ctx.getJSContext
      pure { result with err := err }
  JSAutoRealm E ctx.getJSContext global do
    let obj ← call "JS::NewMapObject" [ctx.getJSContext] (E.NewMapObject ctx.getJSContext)
    let val ← setObject obj
    let some v ← newValue E ctx val
      | pure result
    pure { result with ok := true, ptr := some v }

/-- `MapObjectSize(map)`. -/
def MapObjectSize (E : Engine σ) (map : Value) :
    Bridge σ ResultUInt32 := do
  let result : ResultUInt32 := {}
  let some global := map.getContext.getGlobalJSObject
    | do
      let err ← GetError E map.getContext.getJSContext
      pure { result with err := err }
  JSAutoRealm E map.getContext.getJSContext global do
    let some obj ← addressOfToObject map.getJSValue
      | do
        let err ← GetError E map.getContext.getJSContext
        pure { result with err := err }
    let size ← call "JS::MapSize" [map.getContext.getJSContext, obj] (E.MapSize map.getContext.getJSContext obj)
    pure { result with ok := true, value := size }

/-- `MapObjectHas(map, key)`. -/
def MapObjectHas (E : Engine σ) (map : Value) (key : Value) :
    Bridge σ ResultBool := do
  let result : ResultBool := {}
  let some global := map.getContext.getGlobalJSObject
    | do
      let err ← GetError E map.getContext.getJSContext
      pure { result with err := err }
  JSAutoRealm E map.getContext.getJSContext global do
    let some obj ← addressOfToObject map.getJSValue
      | do
        let err ← GetError E map.getContext.getJSContext
        pure { result with err := err }
    let keyVal := key.getJSValue
    let some found ← call "JS::MapHas" [map.getContext.getJSContext, obj]
        (E.MapHas map.getContext.getJSContext obj keyVal)
      | do
        let err ← GetError E map.getContext.getJSContext
        pure { result with err := err }
    pure { result with ok := true, value := found }

/-- `MapObjectGet(map, key)`. -/
def MapObjectGet (E : Engine σ) (map : Value) (key : Value) :
    Bridge σ ResultValue := do
  let result : ResultValue := {}
  let some global := map.getContext.getGlobalJSObject
    | do
      let err ← GetError E map.getContext.getJSContext
      pure { result with err := err }
  JSAutoRealm E map.getContext.getJSContext global do
    let some obj ← addressOfToObject map.getJSValue
      | do
        let err ← GetError E map.getContext.getJSContext
        pure { result with err := err }
    let keyVal := key.getJSValue
    let some val ← call "JS::MapGet" [map.getContext.getJSContext, obj]
        (E.MapGet map.getContext.getJSContext obj keyVal)
      | do
        let err ← GetError E map.getContext.getJSContext
        pure { result with err := err }
    let some v ← newValue E map.getContext val
      | pure result
    pure { result with ok := true, ptr := some v }

/-- `MapObjectSet(map, key, val)`. -/
def MapObjectSet (E : Engine σ) (map : Value) (key : Value) (val : Value) :
    Bridge σ Result := do
  let result : Result := {}
  let some global := map.getContext.getGlobalJSObject
    | do
      let err ← GetError E map.getContext.getJSContext
      pure { result with err := err }
  JSAutoRealm E map.getContext.getJSContext global do
    let some obj ← addressOfToObject map.getJSValue
      | do
        let err ← GetError E map.getContext.getJSContext
        pure { result with err := err }
    let keyVal := key.getJSValue
    let valVal := val.getJSValue
    let done ← call "JS::MapSet" [map.getContext.getJSContext, obj]
      (E.MapSet map.getContext.getJSContext obj keyVal valVal)
    if !done then
      let err ← GetError E map.getContext.getJSContext
      pure { result with err := err }
    else
      pure { result with ok := true }

/-- `MapObjectDelete(map, key)`. -/
def MapObjectDelete (E : Engine σ) (map : Value) (key : Value) :
    Bridge σ ResultBool := do
  let result : ResultBool := {}
  let some global := map.getContext.getGlobalJSObject
    | do
      let err ← GetError E map.getContext.getJSContext
      pure { result with err := err }
  JSAutoRealm E map.getContext.getJSContext global do
    let some obj ← addressOfToObject map.getJSValue
      | do
        let err ← GetError E map.getContext.getJSContext
        pure { result with err := err }
    let keyVal := key.getJSValue
    let some found ← call "JS::MapDelete" [map.getContext.getJSContext, obj]
        (E.MapDelete map.getContext.getJSContext obj keyVal)
      | do
        let err ← GetError E map.getContext.getJSContext
        pure { result with err := err }
    pure { result with ok := true, value := found }

/-- `MapObjectClear(map)`. -/
def MapObjectClear (E : Engine σ) (map : Value) :
    Bridge σ Result := do
  let result : Result := {}
  let some global := map.getContext.getGlobalJSObject
    | do
      let err ← GetError E map.getContext.getJSContext
      pure { result with err := err }
  JSAutoRealm E map.getContext.getJSContext global do
    let some obj ← addressOfToObject map.getJSValue
      | do
        let err ← GetError E map.getContext.getJSContext
        pure { result with err := err }
    let done ← call "JS::MapClear" [map.getContext.getJSContext, obj]
      (E.MapClear map.getContext.getJSContext obj)
    if !done then
      let err ← GetError E map.getContext.getJSContext
      pure { result with err := err }
    else
      pure { result with ok := true }

/-- `MapObjectKeys(map)`. -/
def MapObjectKeys (E : Engine σ) (map : Value) :
    Bridge σ ResultValue := do
  let result : ResultValue := {}
  let some global := map.getContext.getGlobalJSObject
    | do
      let err ← GetError E map.getContext.getJSContext
      pure { result with err := err }
  JSAutoRealm E map.getContext.getJSContext global do
    let some obj ← addressOfToObject map.getJSValue
      | do
        let err ← GetError E map.getContext.getJSContext
        pure { result with err := err }
    let some val ← call "JS::MapKeys" [map.getContext.getJSContext, obj]
        (E.MapKeys map.getContext.getJSContext obj)
      | do
        let err ← GetError E map.getContext.getJSContext
        pure { result with err := err }
    let some v ← newValue E map.getContext val
      | pure result
    pure { result with ok := true, ptr := some v }

/-- `MapObjectValues(map)`. -/
def MapObjectValues (E : Engine σ) (map : Value) :
    Bridge σ ResultValue := do
  let result : ResultValue := {}
  let some global := map.getContext.getGlobalJSObject
    | do
      let err ← GetError E map.getContext.getJSContext
      pure { result with err := err }
  JSAutoRealm E map.getContext.getJSContext global do
    let some obj ← addressOfToObject map.getJSValue
      | do
        let err ← GetError E map.getContext.getJSContext
        pure { result with err := err }
    let some val ← call "JS::MapValues" [map.getContext.getJSContext, obj]
        (E.MapValues map.getContext.getJSContext obj)
      | do
        let err ← GetError E map.getContext.getJSContext
        pure { result with err := err }
    let some v ← newValue E map.getContext val
      | pure result
    pure { result with ok := true, ptr := some v }

/-- `MapObjectEntries(map)`. -/
def MapObjectEntries (E : Engine σ) (map : Value) :
    Bridge σ ResultValue := do
  let result : ResultValue := {}
  let some global := map.getContext.getGlobalJSObject
    | do
      let err ← GetError E map.getContext.getJSContext
      pure { result with err := err }
  JSAutoRealm E map.getContext.getJSContext global do
    let some obj ← addressOfToObject map.getJSValue
      | do
        let err ← GetError E map.getContext.getJSContext
        pure { result with err := err }
    let some val ← call "JS::MapEntries" [map.getContext.getJSContext, obj]
        (E.MapEntries map.getContext.getJSContext obj)
      | do
        let err ← GetError E map.getContext.getJSContext
        pure { result with err := err }
    let some v ← newValue E map.getContext val
      | pure result
    pure { result with ok := true, ptr := some v }

/-- `NewSetObject(ctx)`. -/
def NewSetObject (E : Engine σ) (ctx : Context) : Bridge σ ResultValue := do
  let result : ResultValue := {}
  let some global := ctx.getGlobalJSObject
    | do
      let err ← GetError E ctx.getJSContext
      pure { result with err := err }
  JSAutoRealm E ctx.getJSContext global do
    let obj ← call "JS::NewSetObject" [ctx.getJSContext] (E.NewSetObject ctx.getJSContext)
    let val ← setObject obj
    let some v ← newValue E ctx val
      | pure result
    pure { result with ok := true, ptr := some v }

/-- `SetObjectSize(set)`. -/
def SetObjectSize (E : Engine σ) (set : Value) :
    Bridge σ ResultUInt32 := do
  let result : ResultUInt32 := {}
  let some global := set.getContext.getGlobalJSObject
    | do
      let err ← GetError E set.getContext.getJSContext
      pure { result with err := err }
  JSAutoRealm E set.getContext.getJSContext global do
    let some obj ← addressOfToObject set.getJSValue
      | do
        let err ← GetError E set.getContext.getJSContext
        pure { result with err := err }
    let size ← call "JS::SetSize" [set.getContext.getJSContext, obj] (E.SetSize set.getContext.getJSContext obj)
    pure { result with ok := true, value := size }

/-- `SetObjectHas(set, key)`. -/
def SetObjectHas (E : Engine σ) (set : Value) (key : Value) :
    Bridge σ ResultBool := do
  let result : ResultBool := {}
  let some global := set.getContext.getGlobalJSObject
    | do
      let err ← GetError E set.getContext.getJSContext
      pure { result with err := err }
  JSAutoRealm E set.getContext.getJSContext global do
    let some obj ← addressOfToObject set.getJSValue
      | do
        let err ← GetError E set.getContext.getJSContext
        pure { result with err := err }
    let keyVal := key.getJSValue
    let some found ← call "JS::SetHas" [set.getContext.getJSContext, obj]
        (E.SetHas set.getContext.getJSContext obj keyVal)
      | do
        let err ← GetError E set.getContext.getJSContext
        pure { result with err := err }
    pure { result with ok := true, value := found }

/-- `SetObjectAdd(set, val)`. -/
def SetObjectAdd (E : Engine σ) (set : Value) (val : Value) :
    Bridge σ Result := do
  let result : Result := {}
  let some global := set.getContext.getGlobalJSObject
    | do
      let err ← GetError E set.getContext.getJSContext
      pure { result with err := err }
  JSAutoRealm E set.getContext.getJSContext global do
    let some obj ← addressOfToObject set.getJSValue
      | do
        let err ← GetError E set.getContext.getJSContext
        pure { result with err := err }
    let valVal := val.getJSValue
    let done ← call "JS::SetAdd" [set.getContext.getJSContext, obj]
      (E.SetAdd set.getContext.getJSContext obj valVal)
    if !done then
      let err ← GetError E set.getContext.getJSContext
      pure { result with err := err }
    else
      pure { result with ok := true }

/-- `SetObjectDelete(set, key)`. -/
def SetObjectDelete (E : Engine σ) (set : Value) (key : Value) :
    Bridge σ ResultBool := do
  let result : ResultBool := {}
  let some global := set.getContext.getGlobalJSObject
    | do
      let err ← GetError E set.getContext.getJSContext
      pure { result with err := err }
  JSAutoRealm E set.getContext.getJSContext global do
    let some obj ← addressOfToObject set.getJSValue
      | do
        let err ← GetError E set.getContext.getJSContext
        pure { result with err := err }
    let keyVal := key.getJSValue
    let some found ← call "JS::SetDelete" [set.getContext.getJSContext, obj]
        (E.SetDelete set.getContext.getJSContext obj keyVal)
      | do
        let err ← GetError E set.getContext.getJSContext
        pure { result with err := err }
    pure { result with ok := true, value := found }

/-- `SetObjectClear(set)`. -/
def SetObjectClear (E : Engine σ) (set : Value) :
    Bridge σ Result := do
  let result : Result := {}
  let some global := set.getContext.getGlobalJSObject
    | do
      let err ← GetError E set.getContext.getJSContext
      pure { result with err := err }
  JSAutoRealm E set.getContext.getJSContext global do
    let some obj ← addressOfToObject set.getJSValue
      | do
        let err ← GetError E set.getContext.getJSContext
        pure { result with err := err }
    let done ← call "JS::SetClear" [set.getContext.getJSContext, obj]
      (E.SetClear set.getContext.getJSContext obj)
    if !done then
      let err ← GetError E set.getContext.getJSContext
      pure { result with err := err }
    else
      pure { result with ok := true }

/-- `SetObjectKeys(set)`. -/
def SetObjectKeys (E : Engine σ) (set : Value) :
    Bridge σ ResultValue := do
  let result : ResultValue := {}
  let some global := set.getContext.getGlobalJSObject
    | do
      let err ← GetError E set.getContext.getJSContext
      pure { result with err := err }
  JSAutoRealm E set.getContext.getJSContext global do
    let some obj ← addressOfToObject set.getJSValue
      | do
        let err ← GetError E set.getContext.getJSContext
        pure { result with err := err }
    let some val ← call "JS::SetKeys" [set.getContext.getJSContext, obj]
        (E.SetKeys set.getContext.getJSContext obj)
      | do
        let err ← GetError E set.getContext.getJSContext
        pure { result with err := err }
    let some v ← newValue E set.getContext val
      | pure result
    pure { result with ok := true, ptr := some v }

/-- `SetObjectValues(set)`. -/
def SetObjectValues (E : Engine σ) (set : Value) :
    Bridge σ ResultValue := do
  let result : ResultValue := {}
  let some global := set.getContext.getGlobalJSObject
    | do
      let err ← GetError E set.getContext.getJSContext
      pure { result with err := err }
  JSAutoRealm E set.getContext.getJSContext global do
    let some obj ← addressOfToObject set.getJSValue
      | do
        let err ← GetError E set.getContext.getJSContext
        pure { result with err := err }
    let some val ← call "JS::SetValues" [set.getContext.getJSContext, obj]
        (E.SetValues set.getContext.getJSContext obj)
      | do
        let err ← GetError E set.getContext.getJSContext
        pure { result with err := err }
    let some v ← newValue E set.getContext val
      | pure result
    pure { result with ok := true, ptr := some v }

/-- `SetObjectEntries(set)`. -/
def SetObjectEntries (E : Engine σ) (set : Value) :
    Bridge σ ResultValue := do
  let result : ResultValue := {}
  let some global := set.getContext.getGlobalJSObject
    | do
      let err ← GetError E set.getContext.getJSContext
      pure { result with err := err }
  JSAutoRealm E set.getContext.getJSContext global do
    let some obj ← addressOfToObject set.getJSValue
      | do
        let err ← GetError E set.getContext.getJSContext
        pure { result with err := err }
    let some val ← call "JS::SetEntries" [set.getContext.getJSContext, obj]
        (E.SetEntries set.getContext.getJSContext obj)
      | do
        let err ← GetError E set.getContext.getJSContext
        pure { result with err := err }
    let some v ← newValue E set.getContext val
      | pure result
    pure { result with ok := true, ptr := some v }

/-- `JSONParse(ctx, data)`. -/
def JSONParse (E : Engine σ) (ctx : Context) (data : String) : Bridge σ ResultValue := do
  let result : ResultValue := {}
  let some global := ctx.getGlobalJSObject
    | do
      let err ← GetError E ctx.getJSContext
      pure { result with err := err }
  JSAutoRealm E ctx.getJSContext global do
    let some str ← call "JS_NewStringCopyUTF8Z" [ctx.getJSContext]
        (E.JS_NewStringCopyUTF8Z ctx.getJSContext data)
      | do
        let err ← GetError E ctx.getJSContext
        pure { result with err := err }
    let some val ← call "JS_ParseJSON" [ctx.getJSContext, str]
        (E.JS_ParseJSON ctx.getJSContext str)
      | do
        let err ← GetError E ctx.getJSContext
        pure { result with err := err }
    let some v ← newValue E ctx val
      | pure result
    pure { result with ok := true, ptr := some v }

/-- `JSONStringify(ctx, value)`. -/
def JSONStringify (E : Engine σ) (ctx : Context) (value : Value) : Bridge σ ResultString := do
  let result : ResultString := {}
  let some global := ctx.getGlobalJSObject
    | do
      let err ← GetError E ctx.getJSContext
      pure { result with err := err }
  JSAutoRealm E ctx.getJSContext global do
    let val := value.getJSValue
    let written ← call "JS_Stringify" [ctx.getJSContext] (E.JS_Stringify ctx.getJSContext val)
    let u16str := runStringifyCallback written.1 []
    if !written.2 then
      let err ← GetError E ctx.getJSContext
      pure { result with err := err }
    else
      let str ← call "JS_NewUCStringCopyZ" [ctx.getJSContext]
        (E.JS_NewUCStringCopyZ ctx.getJSContext (c_str u16str))
      let some str := str
        | fault Fault.nullDereference
      let len ← call "JS_GetStringEncodingLength" [ctx.getJSContext, str]
        (E.JS_GetStringEncodingLength ctx.getJSContext str)
      let some data ← call "JS_malloc" [value.getContext.getJSContext]
          (E.JS_malloc value.getContext.getJSContext len)
        | do
          let err ← GetError E value.getContext.getJSContext
          pure { result with err := err }
      let some encoded ← call "JS_EncodeStringToBuffer" [ctx.getJSContext, str]
          (E.JS_EncodeStringToBuffer ctx.getJSContext str len)
        | do
          let err ← GetError E value.getContext.getJSContext
          pure { result with err := err }
      pure { result with
        ok := true
        data := some { addr := data, bytes := encoded.take len }
        len := toInt32 len }

end PublicFunctions

/-! ## The boundary operations as one family -/

/-- A result envelope of any of the seven kinds of `gomonkey.h`. -/
inductive Envelope where
  | plain (r : Result)
  | bool (r : ResultBool)
  | uint32 (r : ResultUInt32)
  | value (r : ResultValue)
  | string (r : ResultString)
  | script (r : ResultCompileScript)
  | stencil (r : ResultCompileStencil)
  deriving DecidableEq, Repr

namespace Envelope

/-- The `ok` flag of an envelope. -/
def ok : Envelope → Bool
  | plain r => r.ok
  | bool r => r.ok
  | uint32 r => r.ok
  | value r => r.ok
  | string r => r.ok
  | script r => r.ok
  | stencil r => r.ok

/-- The `err` member of an envelope; `ResultCompileStencil` has none. -/
def err : Envelope → Option Error
  | plain r => some r.err
  | bool r => some r.err
  | uint32 r => some r.err
  | value r => some r.err
  | string r => some r.err
  | script r => some r.err
  | stencil _ => none

/-- The payload of an envelope is unset: a null `ptr`, a null `data` with `len`
0, the value `false` or 0.  A plain `Result` has no payload. -/
def payloadUnset : Envelope → Prop
  | plain _ => True
  | bool r => r.value = false
  | uint32 r => r.value = 0
  | value r => r.ptr = none
  | string r => r.data = none ∧ r.len = 0
  | script r => r.ptr = none
  | stencil r => r.ptr = none

end Envelope

/-- One call of a boundary operation that returns a result envelope. -/
inductive Operation where
  | GetGlobalObject (ctx : Context)
  | DefineObject (ctx : Context) (recv : Value) (name : String) (attrs : Nat)
  | DefineProperty (ctx : Context) (recv : Value) (name : String) (value : Value) (attrs : Nat)
  | DefineElement (ctx : Context) (recv : Value) (index : Nat) (value : Value) (attrs : Nat)
  | DefineFunction (ctx : Context) (recv : Value) (name : String) (nargs : Nat) (attrs : Nat)
  | CallFunctionName (ctx : Context) (name : String) (recv : Value) (argc : Int) (argv : List Value)
  | CallFunctionValue (ctx : Context) (func : Value) (recv : Value) (argc : Int) (argv : List Value)
  | Evaluate (ctx : Context) (code : String)
  | CompileScript (ctx : Context) (filename : String) (code : String)
  | ExecuteScript (ctx : Context) (script : Script)
  | ExecuteScriptFromStencil (ctx : Context) (stencil : Stencil)
  | CompileScriptToStencil (ctx : FrontendContext) (filename : String) (code : String)
  | NewValueUndefined (ctx : Context)
  | NewValueNull (ctx : Context)
  | NewValueString (ctx : Context) (str : List Nat) (len : Int)
  | NewValueBoolean (ctx : Context) (b : Bool)
  | NewValueNumber (ctx : Context) (d : Nat)
  | NewValueInt32 (ctx : Context) (i : Int)
  | ToString (value : Value)
  | ValueToString (value : Value)
  | NewPlainObject (ctx : Context)
  | ObjectHasProperty (object : Value) (key : String)
  | ObjectGetProperty (object : Value) (key : String)
  | ObjectSetProperty (object : Value) (key : String) (value : Value)
  | ObjectDeleteProperty (object : Value) (key : String)
  | ObjectHasElement (object : Value) (index : Nat)
  | ObjectGetElement (object : Value) (index : Nat)
  | ObjectSetElement (object : Value) (index : Nat) (value : Value)
  | ObjectDeleteElement (object : Value) (index : Nat)
  | NewFunction (ctx : Context) (name : String)
  | NewArrayObject (ctx : Context) (argc : Int) (argv : List Value)
  | GetArrayObjectLength (array : Value)
  | NewMapObject (ctx : Context)
  | MapObjectSize (map : Value)
  | MapObjectHas (map : Value) (key : Value)
  | MapObjectGet (map : Value) (key : Value)
  | MapObjectSet (map : Value) (key : Value) (val : Value)
  | MapObjectDelete (map : Value) (key : Value)
  | MapObjectClear (map : Value)
  | MapObjectKeys (map : Value)
  | MapObjectValues (map : Value)
  | MapObjectEntries (map : Value)
  | NewSetObject (ctx : Context)
  | SetObjectSize (set : Value)
  | SetObjectHas (set : Value) (key : Value)
  | SetObjectAdd (set : Value) (val : Value)
  | SetObjectDelete (set : Value) (key : Value)
  | SetObjectClear (set : Value)
  | SetObjectKeys (set : Value)
  | SetObjectValues (set : Value)
  | SetObjectEntries (set : Value)
  | JSONParse (ctx : Context) (data : String)
  | JSONStringify (ctx : Context) (value : Value)

set_option linter.unusedVariables false

namespace Operation

/-- Run the operation. -/
def perform {σ : Type} (E : Engine σ) : Operation → Bridge σ Envelope
  | GetGlobalObject ctx => Envelope.value <$> Gomonkey.GetGlobalObject E ctx
  | DefineObject ctx recv name attrs => Envelope.value <$> Gomonkey.DefineObject E ctx recv name attrs
  | DefineProperty ctx recv name value attrs => Envelope.plain <$> Gomonkey.DefineProperty E ctx recv name value attrs
  | DefineElement ctx recv index value attrs => Envelope.plain <$> Gomonkey.DefineElement E ctx recv index value attrs
  | DefineFunction ctx recv name nargs attrs => Envelope.plain <$> Gomonkey.DefineFunction E ctx recv name nargs attrs
  | CallFunctionName ctx name recv argc argv => Envelope.value <$> Gomonkey.CallFunctionName E ctx name recv argc argv
  | CallFunctionValue ctx func recv argc argv => Envelope.value <$> Gomonkey.CallFunctionValue E ctx func recv argc argv
  | Evaluate ctx code => Envelope.value <$> Gomonkey.Evaluate E ctx code
  | CompileScript ctx filename code => Envelope.script <$> Gomonkey.CompileScript E ctx filename code
  | ExecuteScript ctx script => Envelope.value <$> Gomonkey.ExecuteScript E ctx script
  | ExecuteScriptFromStencil ctx stencil => Envelope.value <$> Gomonkey.ExecuteScriptFromStencil E ctx stencil
  | CompileScriptToStencil ctx filename code => Envelope.stencil <$> Gomonkey.CompileScriptToStencil E ctx filename code
  | NewValueUndefined ctx => Envelope.value <$> Gomonkey.NewValueUndefined E ctx
  | NewValueNull ctx => Envelope.value <$> Gomonkey.NewValueNull E ctx
  | NewValueString ctx str len => Envelope.value <$> Gomonkey.NewValueString E ctx str len
  | NewValueBoolean ctx b => Envelope.value <$> Gomonkey.NewValueBoolean E ctx b
  | NewValueNumber ctx d => Envelope.value <$> Gomonkey.NewValueNumber E ctx d
  | NewValueInt32 ctx i => Envelope.value <$> Gomonkey.NewValueInt32 E ctx i
  | ToString value => Envelope.string <$> Gomonkey.ToString E value
  | ValueToString value => Envelope.string <$> Gomonkey.ValueToString E value
  | NewPlainObject ctx => Envelope.value <$> Gomonkey.NewPlainObject E ctx
  | ObjectHasProperty object key => Envelope.bool <$> Gomonkey.ObjectHasProperty E object key
  | ObjectGetProperty object key => Envelope.value <$> Gomonkey.ObjectGetProperty E object key
  | ObjectSetProperty object key value => Envelope.plain <$> Gomonkey.ObjectSetProperty E object key value
  | ObjectDeleteProperty object key => Envelope.plain <$> Gomonkey.ObjectDeleteProperty E object key
  | ObjectHasElement object index => Envelope.bool <$> Gomonkey.ObjectHasElement E object index
  | ObjectGetElement object index => Envelope.value <$> Gomonkey.ObjectGetElement E object index
  | ObjectSetElement object index value => Envelope.plain <$> Gomonkey.ObjectSetElement E object index value
  | ObjectDeleteElement object index => Envelope.plain <$> Gomonkey.ObjectDeleteElement E object index
  | NewFunction ctx name => Envelope.value <$> Gomonkey.NewFunction E ctx name
  | NewArrayObject ctx argc argv => Envelope.value <$> Gomonkey.NewArrayObject E ctx argc argv
  | GetArrayObjectLength array => Envelope.uint32 <$> Gomonkey.GetArrayObjectLength E array
  | NewMapObject ctx => Envelope.value <$> Gomonkey.NewMapObject E ctx
  | MapObjectSize map => Envelope.uint32 <$> Gomonkey.MapObjectSize E map
  | MapObjectHas map key => Envelope.bool <$> Gomonkey.MapObjectHas E map key
  | MapObjectGet map key => Envelope.value <$> Gomonkey.MapObjectGet E map key
  | MapObjectSet map key val => Envelope.plain <$> Gomonkey.MapObjectSet E map key val
  | MapObjectDelete map key => Envelope.bool <$> Gomonkey.MapObjectDelete E map key
  | MapObjectClear map => Envelope.plain <$> Gomonkey.MapObjectClear E map
  | MapObjectKeys map => Envelope.value <$> Gomonkey.MapObjectKeys E map
  | MapObjectValues map => Envelope.value <$> Gomonkey.MapObjectValues E map
  | MapObjectEntries map => Envelope.value <$> Gomonkey.MapObjectEntries E map
  | NewSetObject ctx => Envelope.value <$> Gomonkey.NewSetObject E ctx
  | SetObjectSize set => Envelope.uint32 <$> Gomonkey.SetObjectSize E set
  | SetObjectHas set key => Envelope.bool <$> Gomonkey.SetObjectHas E set key
  | SetObjectAdd set val => Envelope.plain <$> Gomonkey.SetObjectAdd E set val
  | SetObjectDelete set key => Envelope.bool <$> Gomonkey.SetObjectDelete E set key
  | SetObjectClear set => Envelope.plain <$> Gomonkey.SetObjectClear E set
  | SetObjectKeys set => Envelope.value <$> Gomonkey.SetObjectKeys E set
  | SetObjectValues set => Envelope.value <$> Gomonkey.SetObjectValues E set
  | SetObjectEntries set => Envelope.value <$> Gomonkey.SetObjectEntries E set
  | JSONParse ctx data => Envelope.value <$> Gomonkey.JSONParse E ctx data
  | JSONStringify ctx value => Envelope.string <$> Gomonkey.JSONStringify E ctx value

/-- The Session the operation is invoked on: its `ctx` argument, or the Session
of the handle it is applied to.  The front-end compilation has none. -/
def session : Operation → Option Context
  | GetGlobalObject ctx => some ctx
  | DefineObject ctx recv name attrs => some ctx
  | DefineProperty ctx recv name value attrs => some ctx
  | DefineElement ctx recv index value attrs => some ctx
  | DefineFunction ctx recv name nargs attrs => some ctx
  | CallFunctionName ctx name recv argc argv => some ctx
  | CallFunctionValue ctx func recv argc argv => some ctx
  | Evaluate ctx code => some ctx
  | CompileScript ctx filename code => some ctx
  | ExecuteScript ctx script => some ctx
  | ExecuteScriptFromStencil ctx stencil => some ctx
  | CompileScriptToStencil ctx filename code => none
  | NewValueUndefined ctx => some ctx
  | NewValueNull ctx => some ctx
  | NewValueString ctx str len => some ctx
  | NewValueBoolean ctx b => some ctx
  | NewValueNumber ctx d => some ctx
  | NewValueInt32 ctx i => some ctx
  | ToString value => some value.getContext
  | ValueToString value => some value.getContext
  | NewPlainObject ctx => some ctx
  | ObjectHasProperty object key => some object.getContext
  | ObjectGetProperty object key => some object.getContext
  | ObjectSetProperty object key value => some object.getContext
  | ObjectDeleteProperty object key => some object.getContext
  | ObjectHasElement object index => some object.getContext
  | ObjectGetElement object index => some object.getContext
  | ObjectSetElement object index value => some object.getContext
  | ObjectDeleteElement object index => some object.getContext
  | NewFunction ctx name => some ctx
  | NewArrayObject ctx argc argv => some ctx
  | GetArrayObjectLength array => some array.getContext
  | NewMapObject ctx => some ctx
  | MapObjectSize map => some map.getContext
  | MapObjectHas map key => some map.getContext
  | MapObjectGet map key => some map.getContext
  | MapObjectSet map key val => some map.getContext
  | MapObjectDelete map key => some map.getContext
  | MapObjectClear map => some map.getContext
  | MapObjectKeys map => some map.getContext
  | MapObjectValues map => some map.getContext
  | MapObjectEntries map => some map.getContext
  | NewSetObject ctx => some ctx
  | SetObjectSize set => some set.getContext
  | SetObjectHas set key => some set.getContext
  | SetObjectAdd set val => some set.getContext
  | SetObjectDelete set key => some set.getContext
  | SetObjectClear set => some set.getContext
  | SetObjectKeys set => some set.getContext
  | SetObjectValues set => some set.getContext
  | SetObjectEntries set => some set.getContext
  | JSONParse ctx data => some ctx
  | JSONStringify ctx value => some ctx

/-- The Session the code binds a returned handle to: the Session the operation
is invoked on, except for `ExecuteScript`, which takes the Session recorded in
the script handle. -/
def owner : Operation → Option Context
  | ExecuteScript _ script => some script.getContext
  | op => op.session

/-- The engine contexts the operation drains a failure from. -/
def contexts : Operation → List JSContext
  | GetGlobalObject ctx => [ctx.getJSContext]
  | DefineObject ctx recv name attrs => [ctx.getJSContext]
  | DefineProperty ctx recv name value attrs => [ctx.getJSContext]
  | DefineElement ctx recv index value attrs => [ctx.getJSContext]
  | DefineFunction ctx recv name nargs attrs => [ctx.getJSContext]
  | CallFunctionName ctx name recv argc argv => [ctx.getJSContext]
  | CallFunctionValue ctx func recv argc argv => [ctx.getJSContext]
  | Evaluate ctx code => [ctx.getJSContext]
  | CompileScript ctx filename code => [ctx.getJSContext]
  | ExecuteScript ctx script => [ctx.getJSContext, script.getContext.getJSContext]
  | ExecuteScriptFromStencil ctx stencil => [ctx.getJSContext]
  | CompileScriptToStencil ctx filename code => []
  | NewValueUndefined ctx => [ctx.getJSContext]
  | NewValueNull ctx => [ctx.getJSContext]
  | NewValueString ctx str len => [ctx.getJSContext]
  | NewValueBoolean ctx b => [ctx.getJSContext]
  | NewValueNumber ctx d => [ctx.getJSContext]
  | NewValueInt32 ctx i => [ctx.getJSContext]
  | ToString value => [value.getContext.getJSContext]
  | ValueToString value => [value.getContext.getJSContext]
  | NewPlainObject ctx => [ctx.getJSContext]
  | ObjectHasProperty object key => [object.getContext.getJSContext]
  | ObjectGetProperty object key => [object.getContext.getJSContext]
  | ObjectSetProperty object key value => [object.getContext.getJSContext]
  | ObjectDeleteProperty object key => [object.getContext.getJSContext]
  | ObjectHasElement object index => [object.getContext.getJSContext]
  | ObjectGetElement object index => [object.getContext.getJSContext]
  | ObjectSetElement object index value => [object.getContext.getJSContext]
  | ObjectDeleteElement object index => [object.getContext.getJSContext]
  | NewFunction ctx name => [ctx.getJSContext]
  | NewArrayObject ctx argc argv => [ctx.getJSContext]
  | GetArrayObjectLength array => [array.getContext.getJSContext]
  | NewMapObject ctx => [ctx.getJSContext]
  | MapObjectSize map => [map.getContext.getJSContext]
  | MapObjectHas map key => [map.getContext.getJSContext]
  | MapObjectGet map key => [map.getContext.getJSContext]
  | MapObjectSet map key val => [map.getContext.getJSContext]
  | MapObjectDelete map key => [map.getContext.getJSContext]
  | MapObjectClear map => [map.getContext.getJSContext]
  | MapObjectKeys map => [map.getContext.getJSContext]
  | MapObjectValues map => [map.getContext.getJSContext]
  | MapObjectEntries map => [map.getContext.getJSContext]
  | NewSetObject ctx => [ctx.getJSContext]
  | SetObjectSize set => [set.getContext.getJSContext]
  | SetObjectHas set key => [set.getContext.getJSContext]
  | SetObjectAdd set val => [set.getContext.getJSContext]
  | SetObjectDelete set key => [set.getContext.getJSContext]
  | SetObjectClear set => [set.getContext.getJSContext]
  | SetObjectKeys set => [set.getContext.getJSContext]
  | SetObjectValues set => [set.getContext.getJSContext]
  | SetObjectEntries set => [set.getContext.getJSContext]
  | JSONParse ctx data => [ctx.getJSContext]
  | JSONStringify ctx value => [ctx.getJSContext, value.getContext.getJSContext]

/-- The engine value `v` is the one produced for this call: what the engine
primitive of the operation returned for the operation's arguments (in some
engine state), or the constant the operation wraps. -/
def produces {σ : Type} (E : Engine σ) : Operation → JSValue → Prop
  | GetGlobalObject ctx, v => ∃ g, ctx.getGlobalJSObject = some g ∧ v = JSValue.object g
  | DefineObject ctx recv name attrs, v => ∃ recvObject s o, (E.JS_DefineObject ctx.getJSContext recvObject name attrs s).1 = some o ∧ v = JSValue.object o
  | CallFunctionName ctx name recv argc argv, v => ∃ recvObject s, (E.JS_CallFunctionName ctx.getJSContext recvObject name ((argv.take argc.toNat).map Value.getJSValue) s).1 = some v
  | CallFunctionValue ctx func recv argc argv, v => ∃ recvObject s, (E.JS_CallFunctionValue ctx.getJSContext recvObject func.getJSValue ((argv.take argc.toNat).map Value.getJSValue) s).1 = some v
  | Evaluate ctx code, v => ∃ s, (E.Evaluate ctx.getJSContext "" code s).1 = some v
  | ExecuteScript ctx script, v => ∃ rscript s, script.getJSScript = some rscript ∧ (E.JS_ExecuteScript ctx.getJSContext rscript s).1 = some v
  | ExecuteScriptFromStencil ctx stencil, v => ∃ script s, (E.JS_ExecuteScript ctx.getJSContext script s).1 = some v
  | NewValueUndefined ctx, v => v = JSValue.undefined
  | NewValueNull ctx, v => v = JSValue.null
  | NewValueString ctx str len, v => ∃ s js, (E.JS_NewStringCopyN ctx.getJSContext str len s).1 = some js ∧ v = JSValue.string js
  | NewValueBoolean ctx b, v => v = JSValue.boolean b
  | NewValueNumber ctx d, v => v = setNumber d
  | NewValueInt32 ctx i, v => v = JSValue.int32 i
  | NewPlainObject ctx, v => ∃ s o, (E.JS_NewPlainObject ctx.getJSContext s).1 = some o ∧ v = JSValue.object o
  | ObjectGetProperty object key, v => ∃ obj s, object.getJSValue = JSValue.object obj ∧ (E.JS_GetProperty object.getContext.getJSContext obj key s).1 = some v
  | ObjectGetElement object index, v => ∃ obj s, object.getJSValue = JSValue.object obj ∧ (E.JS_GetElement object.getContext.getJSContext obj index s).1 = some v
  | NewFunction ctx name, v => ∃ s func o, (E.JS_NewFunction ctx.getJSContext name s).1 = some func ∧ E.JS_GetFunctionObject func = some o ∧ v = JSValue.object o
  | NewArrayObject ctx argc argv, v => ∃ s o, (E.NewArrayObject ctx.getJSContext ((argv.take argc.toNat).map Value.getJSValue) s).1 = some o ∧ v = JSValue.object o
  | NewMapObject ctx, v => ∃ s o, (E.NewMapObject ctx.getJSContext s).1 = some o ∧ v = JSValue.object o
  | MapObjectGet map key, v => ∃ obj s, map.getJSValue = JSValue.object obj ∧ (E.MapGet map.getContext.getJSContext obj key.getJSValue s).1 = some v
  | MapObjectKeys map, v => ∃ obj s, map.getJSValue = JSValue.object obj ∧ (E.MapKeys map.getContext.getJSContext obj s).1 = some v
  | MapObjectValues map, v => ∃ obj s, map.getJSValue = JSValue.object obj ∧ (E.MapValues map.getContext.getJSContext obj s).1 = some v
  | MapObjectEntries map, v => ∃ obj s, map.getJSValue = JSValue.object obj ∧ (E.MapEntries map.getContext.getJSContext obj s).1 = some v
  | NewSetObject ctx, v => ∃ s o, (E.NewSetObject ctx.getJSContext s).1 = some o ∧ v = JSValue.object o
  | SetObjectKeys set, v => ∃ obj s, set.getJSValue = JSValue.object obj ∧ (E.SetKeys set.getContext.getJSContext obj s).1 = some v
  | SetObjectValues set, v => ∃ obj s, set.getJSValue = JSValue.object obj ∧ (E.SetValues set.getContext.getJSContext obj s).1 = some v
  | SetObjectEntries set, v => ∃ obj s, set.getJSValue = JSValue.object obj ∧ (E.SetEntries set.getContext.getJSContext obj s).1 = some v
  | JSONParse ctx data, v => ∃ str s, (E.JS_ParseJSON ctx.getJSContext str s).1 = some v
  | _, _ => False

/-- The engine script `v` is the one the engine compiled for this call. -/
def producesScript {σ : Type} (E : Engine σ) : Operation → Option JSScript → Prop
  | CompileScript ctx filename code, v => ∃ s rscript, (E.Compile ctx.getJSContext filename code s).1 = some rscript ∧ v = some rscript
  | _, _ => False

/-- The call is `ValueToString` on a Value that is not a string, in a Session
that has a global object: the type guard of `ValueToString` fires. -/
def isStringGuard : Operation → Prop
  | ValueToString value =>
    value.getJSValue.isString = false ∧ value.getContext.getGlobalJSObject ≠ none
  | _ => False

end Operation

set_option linter.unusedVariables true

/-! ## A small concrete engine

An engine whose state is only its pending failure.  Every primitive fails or
does nothing unless a field is overridden; it serves to run the bridge on
concrete inputs. -/

/-- State of the small engine: the pending failure, the last stolen one, the
two flags of the interrupt mechanism (an interrupt is requested; the
interrupt callbacks are disabled), and the contexts destroyed so far. -/
structure Toy where
  pending : Option JSErrorReport := none
  stolen : Option JSErrorReport := none
  requested : Bool := false
  disabled : Bool := false
  destroyed : List JSContext := []
  deriving DecidableEq, Repr

/-- The engine in which every fallible primitive fails.  Destroying a context
empties the slots registered with its tracers. -/
def idleEngine : Engine Toy where
  DefaultHeapMaxBytes := 33554432
  StealPendingExceptionStack := fun _ s =>
    match s.pending with
    | some r => (some { exception := JSValue.undefined, stack := none },
        { s with pending := none, stolen := some r })
    | none => (none, s)
  ErrorReportBuilder_init := fun _ _ s => (s.stolen, s)
  strdup := fun str s => (some str, s)
  JS_ReportOutOfMemory := fun _ s =>
    let report : JSErrorReport :=
      { message := "out of memory", filename := none, lineno := 0, errorNumber := 1 }
    { s with pending := some report }
  JS_ReportErrorUTF8 := fun _ msg s =>
    let report : JSErrorReport :=
      { message := String.mk (msg.map Char.ofNat), filename := none, lineno := 0,
        errorNumber := 0 }
    { s with pending := some report }
  JS_AddExtraGCRootsTracer := fun _ _ _ s => s
  JS_RemoveExtraGCRootsTracer := fun _ _ _ s => s
  JS_NewContext := fun _ s => (none, s)
  JS_SetNativeStackQuota := fun _ _ s => s
  JS_SetGCParameter := fun _ _ _ s => s
  JS_AddInterruptCallback := fun _ s => (false, s)
  JS_ResetInterruptCallback := fun _ _ s => s
  JS_RequestInterruptCallback := fun _ s => s
  InitSelfHostedCode := fun _ s => (false, s)
  JS_NewGlobalObject := fun _ s => (none, s)
  JS_SetReservedSlot := fun _ _ _ s => s
  GetReservedSlot := fun _ _ _ => JSValue.undefined
  JS_DestroyContext := fun cx s => { s with destroyed := cx :: s.destroyed }
  edgeCleared := fun cx _ _ s => s.destroyed.contains cx
  EnterRealm := fun _ _ s => s
  LeaveRealm := fun _ s => s
  NewFrontendContext := fun  s => (none, s)
  SetNativeStackQuotaFc := fun _ _ s => s
  DestroyFrontendContext := fun _ s => s
  SourceText_initFc := fun _ _ s => (false, s)
  CompileGlobalScriptToStencil := fun _ _ _ s => (none, s)
  InstantiateGlobalStencil := fun _ _ s => (none, s)
  ToObject := fun _ _ s => (none, s)
  JS_DefineObject := fun _ _ _ _ s => (none, s)
  JS_DefineProperty := fun _ _ _ _ _ s => (false, s)
  JS_DefineElement := fun _ _ _ _ _ s => (false, s)
  JS_DefineFunction := fun _ _ _ _ _ s => (none, s)
  JS_NewFunction := fun _ _ s => (none, s)
  JS_GetFunctionObject := fun f => some f
  JS_ValueToFunction := fun _ _ s => (none, s)
  GetNonCCWObjectGlobal := fun _ _ => none
  JS_GetFunctionId := fun _ _ => none
  IsCallable := fun _ _ => false
  RootedValueVector_resize := fun _ _ s => (false, s)
  JS_CallFunctionName := fun _ _ _ _ s => (none, s)
  JS_CallFunctionValue := fun _ _ _ _ s => (none, s)
  SourceText_init := fun _ _ s => (false, s)
  Evaluate := fun _ _ _ s => (none, s)
  Compile := fun _ _ _ s => (none, s)
  JS_ExecuteScript := fun _ _ s => (none, s)
  JS_NewStringCopyN := fun _ _ _ s => (none, s)
  ToString := fun _ _ s => (none, s)
  JS_GetStringEncodingLength := fun _ _ s => (0, s)
  JS_malloc := fun _ _ s => (none, s)
  JS_EncodeStringToBuffer := fun _ _ _ s => (none, s)
  JS_NewPlainObject := fun _ s => (none, s)
  JS_HasProperty := fun _ _ _ s => (none, s)
  JS_GetProperty := fun _ _ _ s => (none, s)
  JS_SetProperty := fun _ _ _ _ s => (false, s)
  JS_DeleteProperty := fun _ _ _ s => (false, s)
  JS_HasElement := fun _ _ _ s => (none, s)
  JS_GetElement := fun _ _ _ s => (none, s)
  JS_SetElement := fun _ _ _ _ s => (false, s)
  JS_DeleteElement := fun _ _ _ s => (false, s)
  NewArrayObject := fun _ _ s => (none, s)
  GetArrayLength := fun _ _ s => (none, s)
  NewMapObject := fun _ s => (none, s)
  MapSize := fun _ _ s => (0, s)
  MapHas := fun _ _ _ s => (none, s)
  MapGet := fun _ _ _ s => (none, s)
  MapSet := fun _ _ _ _ s => (false, s)
  MapDelete := fun _ _ _ s => (none, s)
  MapClear := fun _ _ s => (false, s)
  MapKeys := fun _ _ s => (none, s)
  MapValues := fun _ _ s => (none, s)
  MapEntries := fun _ _ s => (none, s)
  NewSetObject := fun _ s => (none, s)
  SetSize := fun _ _ s => (0, s)
  SetHas := fun _ _ _ s => (none, s)
  SetAdd := fun _ _ _ s => (false, s)
  SetDelete := fun _ _ _ s => (none, s)
  SetClear := fun _ _ s => (false, s)
  SetKeys := fun _ _ s => (none, s)
  SetValues := fun _ _ s => (none, s)
  SetEntries := fun _ _ s => (none, s)
  JS_NewStringCopyUTF8Z := fun _ _ s => (none, s)
  JS_ParseJSON := fun _ _ s => (none, s)
  JS_Stringify := fun _ _ s => (([], false), s)
  JS_NewUCStringCopyZ := fun _ _ s => (none, s)

/-- A host that knows no Session and whose dispatch returns nothing. -/
def idleHost : Host Toy where
  goFunctionContext := fun _ s => (none, s)
  goFunctionCallback := fun _ _ _ _ s => ({}, s)

/-- The initial world of the small engine: nothing pending, empty trace. -/
def world0 : World Toy := { engine := {}, log := [], brk := 1000 }

/-- A Session of the small engine: ref 7, engine context 1, global object 2. -/
def session7 : Context := { this := 100, ref := 7, ptr := 1, globalPtr := some 2 }

/-- A second Session: ref 8, engine context 3, global object 4. -/
def session8 : Context := { this := 200, ref := 8, ptr := 3, globalPtr := some 4 }

/-- An engine in which a call of the host function named "f" (function 5, name
string 6) in the Session of ref 7 reaches the trampoline: the callee is a
function, its global holds `Int32Value 7`, and the name encodes to one byte. -/
def callbackEngine : Engine Toy :=
  { idleEngine with
    JS_ValueToFunction := fun _ _ s => (some 5, s)
    GetNonCCWObjectGlobal := fun _ _ => some 2
    GetReservedSlot := fun _ _ _ => Int32Value 7
    JS_GetFunctionId := fun _ _ => some 6
    JS_GetStringEncodingLength := fun _ _ s => (1, s)
    JS_malloc := fun _ _ s => (some 900, s)
    JS_EncodeStringToBuffer := fun _ _ _ s => (some [102], s) }

/-- The same engine when the name buffer cannot be allocated. -/
def exhaustedEngine : Engine Toy :=
  { callbackEngine with JS_malloc := fun _ _ s => (none, s) }

/-- The handle at address 500 a host returns: a string (a collector-managed thing). -/
def hostHandle : Value := { this := 500, ctx := session7, ptr := JSValue.string 9 }

/-- The error string "boom" at address 600 a host returns. -/
def hostError : Buffer := { addr := 600, bytes := [98, 111, 111, 109] }

/-- A host that resolves ref 7 to `session7` and answers with a result handle. -/
def resultHost : Host Toy where
  goFunctionContext := fun r s => (if r = 7 then some session7 else none, s)
  goFunctionCallback := fun _ _ _ _ s => ({ ptr := some hostHandle, err := none }, s)

/-- A host that resolves ref 7 to `session7` and answers with neither handle nor error. -/
def silentHost : Host Toy where
  goFunctionContext := fun r s => (if r = 7 then some session7 else none, s)
  goFunctionCallback := fun _ _ _ _ s => ({ ptr := none, err := none }, s)

/-- A host that resolves ref 7 to `session7` and answers with an error string. -/
def errorHost : Host Toy where
  goFunctionContext := fun r s => (if r = 7 then some session7 else none, s)
  goFunctionCallback := fun _ _ _ _ s => ({ ptr := none, err := some hostError }, s)

/-- A host that resolves ref 7 to `session7` and answers with an error string
together with a result handle. -/
def errorAndResultHost : Host Toy where
  goFunctionContext := fun r s => (if r = 7 then some session7 else none, s)
  goFunctionCallback := fun _ _ _ _ s => ({ ptr := some hostHandle, err := some hostError }, s)

/-- A host that resolves ref 7 to `session7` and answers with the first of the
argument handles it was given, as a host function returning its argument does. -/
def echoHost : Host Toy where
  goFunctionContext := fun r s => (if r = 7 then some session7 else none, s)
  goFunctionCallback := fun _ _ _ vp s => ({ ptr := vp.head?, err := none }, s)

/-- The engine-side call `f(1, 2, 3)`: callee object 5, three int32 arguments. -/
def callF123 : CallArgs :=
  { calleev := JSValue.object 5, argv := [JSValue.int32 1, JSValue.int32 2, JSValue.int32 3] }

/-- The engine-side call `f("a", 2)`: the first argument is a string (string 11). -/
def callFa2 : CallArgs :=
  { calleev := JSValue.object 5, argv := [JSValue.string 11, JSValue.int32 2] }

/-- The name buffer of the host function "f": its one encoded byte and the terminator. -/
def nameF : Buffer := { addr := 900, bytes := [102, 0] }

/-- The calls the trampoline makes before it wraps the arguments of a call of "f". -/
def prologueF : List Event :=
  [Event.engine "JS_ValueToFunction" [1], Event.engine "goFunctionContext" [7],
    Event.engine "JS_GetStringEncodingLength" [1, 6], Event.engine "JS_malloc" [1],
    Event.engine "JS_EncodeStringToBuffer" [1, 6]]

/-- The argument handles of `callF123`, built from address 1000 on. -/
def handlesF123 : List Value :=
  [{ this := 1000, ctx := session7, ptr := JSValue.int32 1 },
    { this := 1001, ctx := session7, ptr := JSValue.int32 2 },
    { this := 1002, ctx := session7, ptr := JSValue.int32 3 }]

/-- The argument handles of `callFa2`, built from address 1000 on. -/
def handlesFa2 : List Value :=
  [{ this := 1000, ctx := session7, ptr := JSValue.string 11 },
    { this := 1001, ctx := session7, ptr := JSValue.int32 2 }]

/-- The trace of the trampoline, from `world0`, up to the point where it has
released the arguments and the name of `callFa2` answered by `echoHost`. -/
def traceFa2Echo : List Event :=
  prologueF ++
    [Event.opNew 1000, Event.addExtraGCRootsTracer 1 Tracer.traceValue 1000,
      Event.opNew 1001,
      Event.dispatch 7 nameF 2 handlesFa2
        { ptr := some { this := 1000, ctx := session7, ptr := JSValue.string 11 },
          err := none },
      Event.removeExtraGCRootsTracer 1 Tracer.traceValue 1000, Event.opDelete 1000,
      Event.opDelete 1001,
      Event.free 1 900]

/-- The trace of the trampoline, from `world0`, up to the point where it has
released the arguments and the name of `callF123` answered by `echoHost`. -/
def traceF123Echo : List Event :=
  prologueF ++
    [Event.opNew 1000, Event.opNew 1001, Event.opNew 1002,
      Event.dispatch 7 nameF 3 handlesF123
        { ptr := some { this := 1000, ctx := session7, ptr := JSValue.int32 1 },
          err := none },
      Event.opDelete 1000, Event.opDelete 1001, Event.opDelete 1002,
      Event.free 1 900]

/-- The world in which the trampoline leaves `world0` after `callFa2` answered
with `hostHandle`. -/
def worldFa2Result : World Toy :=
  { engine := {}
    log := prologueF ++
      [Event.opNew 1000, Event.addExtraGCRootsTracer 1 Tracer.traceValue 1000,
        Event.opNew 1001,
        Event.dispatch 7 nameF 2 handlesFa2 { ptr := some hostHandle, err := none },
        Event.removeExtraGCRootsTracer 1 Tracer.traceValue 1000, Event.opDelete 1000,
        Event.opDelete 1001,
        Event.free 1 900,
        Event.removeExtraGCRootsTracer 1 Tracer.traceValue 500, Event.opDelete 500]
    brk := 1002 }

/-- The world in which the trampoline leaves `world0` after `callF123` answered
with `hostHandle`. -/
def worldF123Result : World Toy :=
  { engine := {}
    log := prologueF ++
      [Event.opNew 1000, Event.opNew 1001, Event.opNew 1002,
        Event.dispatch 7 nameF 3 handlesF123 { ptr := some hostHandle, err := none },
        Event.opDelete 1000, Event.opDelete 1001, Event.opDelete 1002,
        Event.free 1 900,
        Event.removeExtraGCRootsTracer 1 Tracer.traceValue 500, Event.opDelete 500]
    brk := 1003 }

/-- The world in which the trampoline leaves `world0` after `callF123` answered
with the error string `hostError`. -/
def worldF123Error : World Toy :=
  { engine := callbackEngine.JS_ReportErrorUTF8 1 hostError.bytes {}
    log := prologueF ++
      [Event.opNew 1000, Event.opNew 1001, Event.opNew 1002,
        Event.dispatch 7 nameF 3 handlesF123 { ptr := none, err := some hostError },
        Event.opDelete 1000, Event.opDelete 1001, Event.opDelete 1002,
        Event.free 1 900,
        Event.reportErrorUTF8 1 hostError.bytes, Event.free 1 600]
    brk := 1003 }

/-- The world in which the trampoline leaves `world0` after `callF123` answered
with the error string `hostError` together with the handle `hostHandle`. -/
def worldF123ErrorAndResult : World Toy :=
  { engine := callbackEngine.JS_ReportErrorUTF8 1 hostError.bytes {}
    log := prologueF ++
      [Event.opNew 1000, Event.opNew 1001, Event.opNew 1002,
        Event.dispatch 7 nameF 3 handlesF123 { ptr := some hostHandle, err := some hostError },
        Event.opDelete 1000, Event.opDelete 1001, Event.opDelete 1002,
        Event.free 1 900,
        Event.reportErrorUTF8 1 hostError.bytes, Event.free 1 600]
    brk := 1003 }

/-- The world in which `DestroyContext session7` leaves `world0`. -/
def worldDestroyed : World Toy :=
  { engine := { destroyed := [1] }
    log := [Event.engine "JS_DestroyContext" [1], Event.opDelete 100]
    brk := 1000 }

/-- A failure of the small engine: a syntax error at line 3 of "job.js". -/
def syntaxFailure : JSErrorReport :=
  { message := "SyntaxError: missing ) after argument list", filename := some "job.js",
    lineno := 3, errorNumber := 84 }

/-- The `Error` that draining `syntaxFailure` yields. -/
def syntaxError : Error :=
  { message := some "SyntaxError: missing ) after argument list", filename := some "job.js",
    lineno := 3, number := 84 }

/-- An engine that rejects every source text with `syntaxFailure`. -/
def rejectingEngine : Engine Toy :=
  { idleEngine with
    SourceText_init := fun _ _ s => (true, s)
    Evaluate := fun _ _ _ s => (none, { s with pending := some syntaxFailure })
    Compile := fun _ _ _ s => (none, { s with pending := some syntaxFailure }) }

/-- The world of the small engine in which `syntaxFailure` is pending. -/
def worldPending : World Toy :=
  { engine := { pending := some syntaxFailure, stolen := none }, log := [], brk := 1000 }

/-- The state of the small engine once `syntaxFailure` has been drained. -/
def toyDrained : Toy := { pending := none, stolen := some syntaxFailure }

/-- The world in which `GetError` on context 1 leaves `worldPending`. -/
def worldDrained : World Toy :=
  { engine := toyDrained
    log := [Event.engine "StealPendingExceptionStack" [1],
      Event.engine "ErrorReportBuilder::init" [1], Event.engine "strdup" []]
    brk := 1000 }

/-- The world in which `Evaluate` leaves `world0` on the rejecting engine. -/
def worldEvaluateRejected : World Toy :=
  { engine := toyDrained
    log := [Event.engine "JSAutoRealm" [1, 2], Event.engine "SourceText::init" [1],
      Event.engine "JS::Evaluate" [1], Event.engine "StealPendingExceptionStack" [1],
      Event.engine "ErrorReportBuilder::init" [1], Event.engine "strdup" [],
      Event.engine "~JSAutoRealm" [1]]
    brk := 1000 }

/-- The world in which `CompileScript` leaves `world0` on the rejecting engine. -/
def worldCompileRejected : World Toy :=
  { engine := toyDrained
    log := [Event.engine "JSAutoRealm" [1, 2], Event.engine "SourceText::init" [1],
      Event.engine "JS::Compile" [1], Event.engine "StealPendingExceptionStack" [1],
      Event.engine "ErrorReportBuilder::init" [1], Event.engine "strdup" [],
      Event.engine "~JSAutoRealm" [1]]
    brk := 1000 }

/-- A Value handle of `session7` that wraps the number 5. -/
def numberHandle : Value := { this := 300, ctx := session7, ptr := JSValue.int32 5 }

/-- The world in which `ValueToString numberHandle` leaves `worldPending`: the
failure is still pending. -/
def worldGuardReturned : World Toy :=
  { engine := { pending := some syntaxFailure, stolen := none }
    log := [Event.engine "JSAutoRealm" [1, 2], Event.engine "~JSAutoRealm" [1]]
    brk := 1000 }

/-- A Script handle compiled against `session8`: engine script 12. -/
def scriptOf8 : Script := { this := 400, ctx := session8, ptr := some 12 }

/-- An engine in which running a script yields the number 42. -/
def runningEngine : Engine Toy :=
  { idleEngine with JS_ExecuteScript := fun _ _ s => (some (JSValue.int32 42), s) }

/-- The handle `ExecuteScript session7 scriptOf8` returns from `world0`. -/
def handleOf8 : Value := { this := 1000, ctx := session8, ptr := JSValue.int32 42 }

/-- The world in which `ExecuteScript session7 scriptOf8` leaves `world0`. -/
def worldScriptRun : World Toy :=
  { engine := {}
    log := [Event.engine "JSAutoRealm" [1, 2], Event.engine "JS_ExecuteScript" [1, 12],
      Event.opNew 1000, Event.engine "~JSAutoRealm" [1]]
    brk := 1001 }

/-- The handle `NewValueInt32 session7 5` returns from `world0`. -/
def handleFive : Value := { this := 1000, ctx := session7, ptr := JSValue.int32 5 }

/-- The world in which `NewValueInt32 session7 5` leaves `world0`. -/
def worldFive : World Toy := { engine := {}, log := [Event.opNew 1000], brk := 1001 }

/-! ## Vocabulary of the statements -/

section Vocabulary

variable {σ : Type}

/-- Every returning run of `m` from `w` ends in a result and world satisfying `Q`. -/
def post {α : Type} (m : Bridge σ α) (w : World σ) (Q : α → World σ → Prop) : Prop :=
  ∀ a w', m w = Except.ok (a, w') → Q a w'

/-- The part of the trace `later` that was added after the trace `earlier`. -/
def added (earlier later : List Event) : List Event :=
  later.drop earlier.length

/-- The event is a root-tracer registration. -/
def isRegistration : Event → Bool
  | Event.addExtraGCRootsTracer _ _ _ => true
  | _ => false

/-- The event is a root-tracer deregistration. -/
def isDeregistration : Event → Bool
  | Event.removeExtraGCRootsTracer _ _ _ => true
  | _ => false

/-- The event is a call of the host dispatch entry point. -/
def isDispatch : Event → Bool
  | Event.dispatch _ _ _ _ _ => true
  | _ => false

/-- Number of root-tracer registrations in a trace. -/
def registrations (t : List Event) : Nat := t.countP isRegistration

/-- Number of root-tracer deregistrations in a trace. -/
def deregistrations (t : List Event) : Nat := t.countP isDeregistration

/-- The registration a handle at `this` makes when its wrapped reference is set. -/
def registrationOf (nonNull : Bool) (cx : JSContext) (fn : Tracer) (this : Nat) : List Event :=
  if nonNull then [Event.addExtraGCRootsTracer cx fn this] else []

/-- The deregistration a handle at `this` makes when its wrapped reference is set. -/
def deregistrationOf (nonNull : Bool) (cx : JSContext) (fn : Tracer) (this : Nat) :
    List Event :=
  if nonNull then [Event.removeExtraGCRootsTracer cx fn this] else []

/-- The world after a handle constructor that registers when `b` holds. -/
def afterRegistration (E : Engine σ) (b : Bool) (cx : JSContext) (fn : Tracer) (this : Nat)
    (w : World σ) : World σ :=
  { w with
    engine := if b then E.JS_AddExtraGCRootsTracer cx fn this w.engine else w.engine
    log := w.log ++ registrationOf b cx fn this }

/-- The world after a handle destructor that deregisters when `b` holds. -/
def afterDeregistration (E : Engine σ) (b : Bool) (cx : JSContext) (fn : Tracer) (this : Nat)
    (w : World σ) : World σ :=
  { w with
    engine := if b then E.JS_RemoveExtraGCRootsTracer cx fn this w.engine else w.engine
    log := w.log ++ deregistrationOf b cx fn this }

/-- The handles `wrapArguments` builds for `argv`, one per argument in order,
when `operator new` is at `base`: all bound to `ctx`. -/
def argumentHandles : Nat → Context → List JSValue → List Value
  | _, _, [] => []
  | base, ctx, arg :: rest =>
    { this := base, ctx := ctx, ptr := arg } :: argumentHandles (base + 1) ctx rest

/-- The trace of `new Value(ctx, value)` producing the handle `v`. -/
def constructionTrace (v : Value) : List Event :=
  Event.opNew v.this :: registrationOf v.ptr.isGCThing v.ctx.ptr Tracer.traceValue v.this

/-- The trace of `delete v`. -/
def destructionTrace (v : Value) : List Event :=
  deregistrationOf v.ptr.isGCThing v.ctx.ptr Tracer.traceValue v.this ++ [Event.opDelete v.this]

/-- The trace of constructing each handle of a list in order. -/
def constructionTraces : List Value → List Event
  | [] => []
  | v :: rest => constructionTrace v ++ constructionTraces rest

/-- The trace of destroying each handle of a list in order. -/
def destructionTraces : List Value → List Event
  | [] => []
  | v :: rest => destructionTrace v ++ destructionTraces rest

/-- The event is the call of an engine primitive other than the registry, the
allocator, the failure reporting and the dispatch. -/
def isEngineCall : Event → Bool
  | Event.engine _ _ => true
  | _ => false

/-- The world after `new Value(ctx, value)`. -/
def afterNewValue (E : Engine σ) (ctx : Context) (value : JSValue) (w : World σ) : World σ :=
  afterRegistration E value.isGCThing ctx.ptr Tracer.traceValue w.brk
    { w with brk := w.brk + 1, log := w.log ++ [Event.opNew w.brk] }

/-- The world after `delete v`. -/
def afterDeleteValue (E : Engine σ) (v : Value) (w : World σ) : World σ :=
  { afterDeregistration E v.ptr.isGCThing v.ctx.ptr Tracer.traceValue v.this w with
    log := w.log ++ destructionTrace v }

/-- The world after the argument-wrapping loop. -/
def afterWrapArguments (E : Engine σ) (ctx : Context) : List JSValue → World σ → World σ
  | [], w => w
  | arg :: rest, w => afterWrapArguments E ctx rest (afterNewValue E ctx arg w)

/-- The world after the argument-release loop. -/
def afterDeleteValues (E : Engine σ) : List Value → World σ → World σ
  | [], w => w
  | v :: rest, w => afterDeleteValues E rest (afterDeleteValue E v w)

/-- What the trampoline does after releasing the arguments and the name, given
the dispatch result: the trace it adds. -/
def epilogueTrace (cx : JSContext) (res : ResultGoFunctionCallback) : List Event :=
  match res.err with
  | some err => [Event.reportErrorUTF8 cx err.bytes, Event.free cx err.addr]
  | none =>
    match res.ptr with
    | some ptr => destructionTrace ptr
    | none => []

/-- What the trampoline hands back to the engine, given the dispatch result. -/
def epilogueReturn (res : ResultGoFunctionCallback) : NativeReturn :=
  match res.err with
  | some _ => { ok := false, rval := none }
  | none =>
    match res.ptr with
    | some ptr => { ok := true, rval := some ptr.ptr }
    | none => { ok := true, rval := some JSValue.undefined }

/-- Between `w2` and `w'` nothing happens, except possibly that the realm
entered by a `JSAutoRealm` is left. -/
def settles (E : Engine σ) (w2 w' : World σ) : Prop :=
  w' = w2 ∨ ∃ cx, run "~JSAutoRealm" [cx] (E.LeaveRealm cx) w2 = Except.ok ((), w')

/-- The error `err` and the final world `w'` of a call come from a drain: `err` is
what `GetError` returned on one of the engine contexts `cxs`, and the call did
nothing after that drain but return. -/
def Drained (E : Engine σ) (cxs : List JSContext) (err : Error) (w' : World σ) : Prop :=
  ∃ cx ∈ cxs, ∃ w1 w2, GetError E cx w1 = Except.ok (err, w2) ∧ settles E w2 w'

/-- The Value handle `h` is newly constructed by the call that ends in `w'`: the
last thing the call did before returning was `new Value(h.ctx, h.ptr)`, which
yielded `h`. -/
def ConstructedValue (E : Engine σ) (h : Value) (w' : World σ) : Prop :=
  ∃ w1 w2, newValue E h.ctx h.ptr w1 = Except.ok (some h, w2) ∧ settles E w2 w'

/-- The Script handle `h` is newly constructed by the call that ends in `w'`. -/
def ConstructedScript (E : Engine σ) (h : Script) (w' : World σ) : Prop :=
  ∃ w1 w2, newScript E h.ctx h.ptr w1 = Except.ok (some h, w2) ∧ settles E w2 w'

/-- What a `ResultValue` operation guarantees: a failing envelope has a null
`ptr` and a drained `err`; a successful one carries a newly constructed handle
owned by `owner` that wraps a value satisfying `P`. -/
def ValuePost (E : Engine σ) (owner : Context) (cxs : List JSContext) (P : JSValue → Prop)
    (r : ResultValue) (w' : World σ) : Prop :=
  (r.ok = false → r.ptr = none ∧ Drained E cxs r.err w') ∧
  (r.ok = true → ∃ h, r.ptr = some h ∧ h.ctx = owner ∧ P h.ptr ∧ ConstructedValue E h w')

/-- The world after `new Script(ctx, script)`. -/
def afterNewScript (E : Engine σ) (ctx : Context) (script : Option JSScript) (w : World σ) :
    World σ :=
  afterRegistration E script.isSome ctx.ptr Tracer.traceScript w.brk
    { w with brk := w.brk + 1, log := w.log ++ [Event.opNew w.brk] }

/-- What a plain `Result` operation guarantees: a failing envelope has a drained `err`. -/
def PlainPost (E : Engine σ) (cxs : List JSContext) (r : Result) (w' : World σ) : Prop :=
  r.ok = false → Drained E cxs r.err w'

/-- What a `ResultBool` operation guarantees. -/
def BoolPost (E : Engine σ) (cxs : List JSContext) (r : ResultBool) (w' : World σ) : Prop :=
  r.ok = false → r.value = false ∧ Drained E cxs r.err w'

/-- What a `ResultUInt32` operation guarantees. -/
def UInt32Post (E : Engine σ) (cxs : List JSContext) (r : ResultUInt32) (w' : World σ) : Prop :=
  r.ok = false → r.value = 0 ∧ Drained E cxs r.err w'

/-- What a `ResultString` operation guarantees: a failing envelope has null
`data`, zero `len`, and an `err` that is either drained or, when the guard `G`
fired, zeroed. -/
def StringPost (E : Engine σ) (cxs : List JSContext) (G : Prop) (r : ResultString)
    (w' : World σ) : Prop :=
  r.ok = false → r.data = none ∧ r.len = 0 ∧ (Drained E cxs r.err w' ∨ (G ∧ r.err = {}))

/-- What `CompileScript` guarantees. -/
def ScriptPost (E : Engine σ) (owner : Context) (cxs : List JSContext)
    (P : Option JSScript → Prop) (r : ResultCompileScript) (w' : World σ) : Prop :=
  (r.ok = false → r.ptr = none ∧ Drained E cxs r.err w') ∧
  (r.ok = true → ∃ h, r.ptr = some h ∧ h.ctx = owner ∧ P h.ptr ∧ ConstructedScript E h w')

/-- What `CompileScriptToStencil` guarantees: a failing envelope has a null `ptr`. -/
def StencilPost (r : ResultCompileStencil) (_w' : World σ) : Prop :=
  r.ok = false → r.ptr = none

/-- What a boundary operation guarantees of the envelope it returns and of the
world it leaves, by the kind of the envelope. -/
def Operation.Post (E : Engine σ) (op : Operation) (env : Envelope) (w' : World σ) : Prop :=
  match env with
  | Envelope.plain r => PlainPost E op.contexts r w'
  | Envelope.bool r => BoolPost E op.contexts r w'
  | Envelope.uint32 r => UInt32Post E op.contexts r w'
  | Envelope.string r => StringPost E op.contexts op.isStringGuard r w'
  | Envelope.value r =>
    ∃ owner, op.owner = some owner ∧ ValuePost E owner op.contexts (op.produces E) r w'
  | Envelope.script r =>
    ∃ owner, op.owner = some owner ∧ ScriptPost E owner op.contexts (op.producesScript E) r w'
  | Envelope.stencil r => StencilPost r w'

/-- The postcondition `Q` holds once the realm of `cx` is left. -/
def afterLeave {α : Type} (E : Engine σ) (cx : JSContext) (Q : α → World σ → Prop)
    (r : α) (w2 : World σ) : Prop :=
  Q r { w2 with engine := E.LeaveRealm cx w2.engine,
                log := w2.log ++ [Event.engine "~JSAutoRealm" [cx]] }

/-- Every step of the trampoline before the arguments are wrapped succeeds from
the engine state `s`: the callee is a function with global object, the
reserved slot holds the int32 of `contextRef`, the host resolves `contextRef`
to `ctx`, and the function's name is encoded into the buffer `name`. -/
def ReachesDispatch (E : Engine σ) (H : Host σ) (cx : JSContext) (args : CallArgs) (s : σ)
    (contextRef : Nat) (ctx : Context) (name : Buffer) : Prop :=
  ∃ func s1 global i s2 nameStr len s3 addr s4 encoded s5,
    E.JS_ValueToFunction cx args.calleev s = (some func, s1) ∧
    E.GetNonCCWObjectGlobal args.calleev s1 = some global ∧
    E.GetReservedSlot global 0 s1 = JSValue.int32 i ∧
    contextRef = toUInt32 i ∧
    H.goFunctionContext contextRef s1 = (some ctx, s2) ∧
    E.JS_GetFunctionId func s2 = some nameStr ∧
    E.JS_GetStringEncodingLength cx nameStr s2 = (len, s3) ∧
    E.JS_malloc cx ((len + 1) % 2 ^ 64) s3 = (some addr, s4) ∧
    E.JS_EncodeStringToBuffer cx nameStr len s4 = (some encoded, s5) ∧
    name = { addr := addr, bytes := encoded.take len ++ [0] }

/-- The run `r` ends with the trace `trace`: it returns in a world whose trace
is `trace`, or it stops at the read of a released handle, where the trace was
`trace`. -/
def endsWith {α : Type} (r : Except Fault (α × World σ)) (trace : List Event) : Prop :=
  (∃ a w', r = Except.ok (a, w') ∧ w'.log = trace) ∨
    ∃ this, r = Except.error (Fault.useAfterFree this trace)

end Vocabulary

/-! ## Vocabulary of the statements on Sessions -/

section Sessions

variable {σ : Type}

/-- The run of `m` from `w` returns, with a result and world satisfying `Q`. -/
def yields {α : Type} (m : Bridge σ α) (w : World σ) (Q : α → World σ → Prop) : Prop :=
  ∃ a w', m w = Except.ok (a, w') ∧ Q a w'

/-- The world after an optional engine call: made when `c` holds, skipped otherwise. -/
def afterOptional (c : Prop) [Decidable c] (fn : String) (operands : List Nat) (f : σ → σ)
    (w : World σ) : World σ :=
  if c then { w with engine := f w.engine, log := w.log ++ [Event.engine fn operands] } else w

/-- The heap ceiling in the words of the specification: the engine default when
`heapMaxBytes` is 0, and `heapMaxBytes` otherwise. -/
def specifiedHeapCeiling (E : Engine σ) (options : ContextOptions) : Nat :=
  if options.heapMaxBytes = 0 then E.DefaultHeapMaxBytes else options.heapMaxBytes

/-- The configuration calls in the words of the specification: the native stack
quota, the GC max-bytes parameter, incremental GC and the GC slice time budget,
each set to exactly its field when the field is non-zero and not at all when
the field is 0. -/
def specifiedOptionCalls (cx : JSContext) (options : ContextOptions) : List Event :=
  (if options.stackSize = 0 then []
    else [Event.engine "JS_SetNativeStackQuota" [cx, options.stackSize]]) ++
  (if options.gcMaxBytes = 0 then []
    else [Event.engine "JS_SetGCParameter(JSGC_MAX_BYTES)" [cx, options.gcMaxBytes]]) ++
  (if options.gcIncrementalEnabled = 0 then []
    else [Event.engine "JS_SetGCParameter(JSGC_INCREMENTAL_GC_ENABLED)"
      [cx, options.gcIncrementalEnabled]]) ++
  (if options.gcSliceTimeBudgetMs = 0 then []
    else [Event.engine "JS_SetGCParameter(JSGC_SLICE_TIME_BUDGET_MS)"
      [cx, options.gcSliceTimeBudgetMs]])

/-- The engine state those configuration calls leave, starting from `s`. -/
def specifiedOptionState (E : Engine σ) (cx : JSContext) (options : ContextOptions)
    (s : σ) : σ :=
  let s1 := if options.stackSize = 0 then s
    else E.JS_SetNativeStackQuota cx options.stackSize s
  let s2 := if options.gcMaxBytes = 0 then s1
    else E.JS_SetGCParameter cx JSGCParamKey.JSGC_MAX_BYTES options.gcMaxBytes s1
  let s3 := if options.gcIncrementalEnabled = 0 then s2
    else E.JS_SetGCParameter cx JSGCParamKey.JSGC_INCREMENTAL_GC_ENABLED
      options.gcIncrementalEnabled s2
  if options.gcSliceTimeBudgetMs = 0 then s3
    else E.JS_SetGCParameter cx JSGCParamKey.JSGC_SLICE_TIME_BUDGET_MS
      options.gcSliceTimeBudgetMs s3

/-- The engine's answer to the creation of the context, from the state `s`. -/
def contextCreation (E : Engine σ) (options : ContextOptions) (s : σ) :
    Option JSContext × σ :=
  E.JS_NewContext (specifiedHeapCeiling E options) s

/-- The engine's answer to the installation of the interrupt hook on `cx`, once
the context is configured. -/
def hookInstallation (E : Engine σ) (options : ContextOptions) (cx : JSContext) (s : σ) :
    Bool × σ :=
  E.JS_AddInterruptCallback cx (specifiedOptionState E cx options (contextCreation E options s).2)

/-- The engine's answer to the initialisation of the self-hosted code. -/
def selfHostedInitialisation (E : Engine σ) (options : ContextOptions) (cx : JSContext)
    (s : σ) : Bool × σ :=
  E.InitSelfHostedCode cx (hookInstallation E options cx s).2

/-- The engine's answer to the creation of the global object. -/
def globalCreation (E : Engine σ) (options : ContextOptions) (cx : JSContext) (s : σ) :
    Option JSObject × σ :=
  E.JS_NewGlobalObject cx (selfHostedInitialisation E options cx s).2

/-- One of the four fallible engine steps of `NewContext` fails from the state
`s`: the creation of the context, the installation of the interrupt hook, the
initialisation of the self-hosted code or the creation of the global object. -/
def CreationFails (E : Engine σ) (options : ContextOptions) (s : σ) : Prop :=
  (contextCreation E options s).1 = none ∨
    ∃ cx, (contextCreation E options s).1 = some cx ∧
      ((hookInstallation E options cx s).1 = false ∨
        (selfHostedInitialisation E options cx s).1 = false ∨
        (globalCreation E options cx s).1 = none)

/-- The calls `NewContext` makes up to and including the creation of the global
object of the context `cx`. -/
def creationCalls (E : Engine σ) (options : ContextOptions) (cx : JSContext) : List Event :=
  [Event.engine "JS_NewContext" [specifiedHeapCeiling E options]] ++
    specifiedOptionCalls cx options ++
    [Event.engine "JS_AddInterruptCallback" [cx], Event.engine "InitSelfHostedCode" [cx],
      Event.engine "JS_NewGlobalObject" [cx]]

/-- What a run of `NewContext` from `w` does, by the engine step that fails
first, if any. -/
def NewContextOutcome (E : Engine σ) (ref : Nat) (options : ContextOptions) (w : World σ)
    (res : Option Context) (w' : World σ) : Prop :=
  ((contextCreation E options w.engine).1 = none ∧ res = none ∧
    w'.log = w.log ++ [Event.engine "JS_NewContext" [specifiedHeapCeiling E options]]) ∨
  ∃ cx, (contextCreation E options w.engine).1 = some cx ∧
    (((hookInstallation E options cx w.engine).1 = false ∧ res = none ∧
      w'.log = w.log ++ ([Event.engine "JS_NewContext" [specifiedHeapCeiling E options]] ++
        specifiedOptionCalls cx options ++ [Event.engine "JS_AddInterruptCallback" [cx]])) ∨
    ((hookInstallation E options cx w.engine).1 = true ∧
      (selfHostedInitialisation E options cx w.engine).1 = false ∧ res = none ∧
      w'.log = w.log ++ ([Event.engine "JS_NewContext" [specifiedHeapCeiling E options]] ++
        specifiedOptionCalls cx options ++ [Event.engine "JS_AddInterruptCallback" [cx],
          Event.engine "InitSelfHostedCode" [cx]])) ∨
    ((hookInstallation E options cx w.engine).1 = true ∧
      (selfHostedInitialisation E options cx w.engine).1 = true ∧
      (globalCreation E options cx w.engine).1 = none ∧ res = none ∧
      w'.log = w.log ++ creationCalls E options cx) ∨
    ∃ global, (hookInstallation E options cx w.engine).1 = true ∧
      (selfHostedInitialisation E options cx w.engine).1 = true ∧
      (globalCreation E options cx w.engine).1 = some global ∧
      res = some { this := w.brk, ref := ref, ptr := cx, globalPtr := some global } ∧
      w'.log = w.log ++ (creationCalls E options cx ++
        [Event.engine "JSAutoRealm" [cx, global], Event.engine "JS_SetReservedSlot" [global, 0],
          Event.opNew w.brk, Event.addExtraGCRootsTracer cx Tracer.traceGlobal w.brk,
          Event.engine "~JSAutoRealm" [cx]]) ∧
      w'.engine = E.LeaveRealm cx (E.JS_AddExtraGCRootsTracer cx Tracer.traceGlobal w.brk
        (E.JS_SetReservedSlot global 0 (Int32Value ref)
          (E.EnterRealm cx global (globalCreation E options cx w.engine).2))) ∧
      w'.brk = w.brk + 1)

/-- The bit pattern of the double 2.0. -/
def doubleTwo : Nat := 0x4000000000000000

/-- A small engine on which Sessions can be created and in which the source
"1+1" evaluates to the number 2, held as an int32 as the engine holds every
int32-valued number; it creates the context 1 with the global object 2. -/
def arithmeticEngine : Engine Toy :=
  { idleEngine with
    JS_NewContext := fun _ s => (some 1, s)
    JS_AddInterruptCallback := fun _ s => (true, s)
    InitSelfHostedCode := fun _ s => (true, s)
    JS_NewGlobalObject := fun _ s => (some 2, s)
    SourceText_init := fun _ _ s => (true, s)
    Evaluate := fun _ _ code s =>
      if code = "1+1" then (some (JSValue.int32 2), s) else (none, s) }

/-- The options record with every field 0. -/
def defaultOptions : ContextOptions :=
  { heapMaxBytes := 0, stackSize := 0, gcMaxBytes := 0, gcIncrementalEnabled := 0,
    gcSliceTimeBudgetMs := 0 }

/-- The Session `NewContext 7 defaultOptions` creates on the arithmetic engine from `world0`. -/
def session1000 : Context := { this := 1000, ref := 7, ptr := 1, globalPtr := some 2 }

/-- The world in which that creation leaves `world0`. -/
def worldCreated : World Toy :=
  { engine := {}
    log := [Event.engine "JS_NewContext" [33554432], Event.engine "JS_AddInterruptCallback" [1],
      Event.engine "InitSelfHostedCode" [1], Event.engine "JS_NewGlobalObject" [1],
      Event.engine "JSAutoRealm" [1, 2], Event.engine "JS_SetReservedSlot" [2, 0],
      Event.opNew 1000, Event.addExtraGCRootsTracer 1 Tracer.traceGlobal 1000,
      Event.engine "~JSAutoRealm" [1]]
    brk := 1001 }

/-- An entry of the collector's registry of extra root tracers. -/
structure Root where
  cx : JSContext
  fn : Tracer
  data : Nat
  deriving DecidableEq, Repr

/-- The root registry a trace leaves when it starts from the registry `reg`: a
registration appends its entry and a deregistration removes the entry it names. -/
def rootRegistry : List Event → List Root → List Root
  | [], reg => reg
  | Event.addExtraGCRootsTracer cx fn data :: rest, reg =>
    rootRegistry rest (reg ++ [{ cx := cx, fn := fn, data := data }])
  | Event.removeExtraGCRootsTracer cx fn data :: rest, reg =>
    rootRegistry rest (reg.erase { cx := cx, fn := fn, data := data })
  | _ :: rest, reg => rootRegistry rest reg

/-- The registry entry of a Value handle. -/
def Value.root (v : Value) : Root :=
  { cx := v.ctx.ptr, fn := Tracer.traceValue, data := v.this }

/-- The registry entry of a Session's global object. -/
def Context.root (c : Context) : Root :=
  { cx := c.ptr, fn := Tracer.traceGlobal, data := c.this }

/-- The registry entries the handles of a list hold: one for each handle whose
wrapped value is a collector thing. -/
def heldRoots (hs : List Value) : List Root :=
  (hs.filter (fun v => v.ptr.isGCThing)).map Value.root

/-- The host releases the handles of a list with `ReleaseValue`, in the order of the list. -/
def releaseValues (E : Engine σ) : List Value → Bridge σ Unit
  | [] => pure ()
  | v :: rest => do
    ReleaseValue E v
    releaseValues E rest

/-- Two handles of `session7` that wrap collector things and one that wraps a number. -/
def liveHandles : List Value :=
  [{ this := 300, ctx := session7, ptr := JSValue.string 9 },
    { this := 301, ctx := session7, ptr := JSValue.int32 5 },
    { this := 302, ctx := session7, ptr := JSValue.object 12 }]

/-- The same handles in another order. -/
def liveHandlesShuffled : List Value :=
  [{ this := 302, ctx := session7, ptr := JSValue.object 12 },
    { this := 300, ctx := session7, ptr := JSValue.string 9 },
    { this := 301, ctx := session7, ptr := JSValue.int32 5 }]

/-- The bytes of the fixed message of the interrupt hook. -/
def interruptMessage : List Nat :=
  "Execution interrupted".toList.map Char.toNat

/-- The small engine with the interrupt primitives of the engine's API:
`JS_RequestInterruptCallback` raises the request flag of the context, and
`JS_ResetInterruptCallback(cx, enable)` stores its argument in the context's
`interruptCallbackDisabled` flag (it restores what `JS_DisableInterruptCallback`
returned, so `true` leaves the callbacks disabled).  Source texts are accepted
and the hook can be installed. -/
def interruptPrimitives : Engine Toy :=
  { idleEngine with
    SourceText_init := fun _ _ s => (true, s)
    JS_AddInterruptCallback := fun _ s => (true, s)
    JS_RequestInterruptCallback := fun _ s => { s with requested := true }
    JS_ResetInterruptCallback := fun _ enable s => { s with disabled := enable } }

/-- The engine state the installed hook `InterruptCallback` leaves when the
engine invokes it in the state `s`, and what it returns. -/
def invokeHook (cx : JSContext) (s : Toy) : Bool × Toy :=
  match InterruptCallback interruptPrimitives cx { engine := s, log := [], brk := 0 } with
  | Except.ok (continues, w) => (continues, w.engine)
  | Except.error _ => (false, s)

/-- The small engine with interruptible evaluation.  An evaluation polls the
request flag: when an interrupt is requested it clears the request and, unless
the callbacks are disabled, invokes the installed hook, and it stops with the
failure the hook reported when the hook returns false.  An evaluation that is
not stopped yields the number 2. -/
def interruptEngine : Engine Toy :=
  { interruptPrimitives with
    Evaluate := fun cx _ _ s =>
      if s.requested then
        if s.disabled then
          (some (JSValue.int32 2), { s with requested := false })
        else if (invokeHook cx { s with requested := false }).1 then
          (some (JSValue.int32 2), (invokeHook cx { s with requested := false }).2)
        else
          (none, (invokeHook cx { s with requested := false }).2)
      else
        (some (JSValue.int32 2), s) }

/-- The world after `RequestInterruptContext session7` from `world0`. -/
def worldRequested : World Toy :=
  { engine := { pending := none, stolen := none, requested := true, disabled := false }
    log := [Event.engine "JS_RequestInterruptCallback" [1]]
    brk := 1000 }

/-- The failure the interrupt hook reports, as the small engine holds it. -/
def interruptFailure : JSErrorReport :=
  { message := "Execution interrupted", filename := none, lineno := 0, errorNumber := 0 }

/-- The envelope of the interrupted evaluation. -/
def resultInterrupted : ResultValue :=
  { ok := false
    err := { message := some "Execution interrupted", filename := none, lineno := 0,
             number := 0 }
    ptr := none }

/-- The world in which the interrupted `Evaluate` leaves `worldRequested`: the
request is cleared and the callbacks are disabled. -/
def worldInterrupted : World Toy :=
  { engine := { pending := none, stolen := some interruptFailure, requested := false,
                disabled := true }
    log := [Event.engine "JS_RequestInterruptCallback" [1], Event.engine "JSAutoRealm" [1, 2],
      Event.engine "SourceText::init" [1], Event.engine "JS::Evaluate" [1],
      Event.engine "StealPendingExceptionStack" [1],
      Event.engine "ErrorReportBuilder::init" [1], Event.engine "strdup" [],
      Event.engine "~JSAutoRealm" [1]]
    brk := 1000 }

/-- The world after a second `RequestInterruptContext session7`, from `worldInterrupted`. -/
def worldRequestedAgain : World Toy :=
  { engine := { pending := none, stolen := some interruptFailure, requested := true,
                disabled := true }
    log := worldInterrupted.log ++ [Event.engine "JS_RequestInterruptCallback" [1]]
    brk := 1000 }

/-- The envelope of the second evaluation: it ran to its end. -/
def resultSecondRun : ResultValue :=
  { ok := true
    err := {}
    ptr := some { this := 1000, ctx := session7, ptr := JSValue.int32 2 } }

/-- The world in which the second `Evaluate` leaves `worldRequestedAgain`. -/
def worldSecondRun : World Toy :=
  { engine := { pending := none, stolen := some interruptFailure, requested := false,
                disabled := true }
    log := worldRequestedAgain.log ++
      [Event.engine "JSAutoRealm" [1, 2], Event.engine "SourceText::init" [1],
        Event.engine "JS::Evaluate" [1], Event.opNew 1000, Event.engine "~JSAutoRealm" [1]]
    brk := 1001 }

end Sessions

/-! ## Vocabulary of the boundary operations -/

section Boundaries

variable {σ : Type}

/-! ### Front-end sessions and compilation -/

/-- Front-end options that ask for a native stack quota of 65536 bytes. -/
def quotaOptions : FrontendContextOptions := { stackSize := 65536 }

/-- An engine whose front end creates the front-end context 21. -/
def frontEndEngine : Engine Toy :=
  { idleEngine with NewFrontendContext := fun s => (some 21, s) }

/-- The Front-End Session `NewFrontendContext` returns from `world0` on `frontEndEngine`. -/
def frontEnd21 : FrontendContext := { this := 1000, ptr := 21 }

/-- The world in which `NewFrontendContext frontEndEngine quotaOptions` leaves `world0`. -/
def worldFrontEnd : World Toy :=
  { engine := {}
    log := [Event.engine "JS::NewFrontendContext" [],
      Event.engine "JS::SetNativeStackQuota" [21, 0], Event.opNew 1000]
    brk := 1001 }

/-- An engine whose front end accepts the characters of every source text and
fails to compile it, leaving `syntaxFailure` behind, as `rejectingEngine` does
for `Compile`. -/
def rejectingFrontEnd : Engine Toy :=
  { rejectingEngine with
    SourceText_initFc := fun _ _ s => (true, s)
    CompileGlobalScriptToStencil := fun _ _ _ s =>
      (none, { s with pending := some syntaxFailure }) }

/-- The world in which `CompileScriptToStencil` leaves `world0` on
`rejectingFrontEnd`: the failure has not been drained. -/
def worldStencilRejected : World Toy :=
  { engine := { pending := some syntaxFailure, stolen := none }
    log := [Event.engine "SourceText::init" [21],
      Event.engine "JS::CompileGlobalScriptToStencil" [21]]
    brk := 1000 }

/-- The front end fails on the source text `code`: the characters cannot be
taken over, or the compilation returns no compiled representation. -/
def FrontEndFails (E : Engine σ) (fc : FrontendContext) (filename code : String)
    (w : World σ) : Prop :=
  (E.SourceText_initFc fc.ptr code w.engine).1 = false ∨
  (E.CompileGlobalScriptToStencil fc.ptr filename code
    (E.SourceText_initFc fc.ptr code w.engine).2).1 = none

/-! ### Receiver coercion -/

namespace Operation

/-- The operations that coerce a receiver to an object: the Session they are
invoked on, the receiver, and the name of the engine primitive they end in. -/
def coercion : Operation → Option (Context × Value × String)
  | DefineObject ctx recv _ _ => some (ctx, recv, "JS_DefineObject")
  | DefineProperty ctx recv _ _ _ => some (ctx, recv, "JS_DefineProperty")
  | DefineElement ctx recv _ _ _ => some (ctx, recv, "JS_DefineElement")
  | DefineFunction ctx recv _ _ _ => some (ctx, recv, "JS_DefineFunction")
  | CallFunctionName ctx _ recv _ _ => some (ctx, recv, "JS_CallFunctionName")
  | CallFunctionValue ctx _ recv _ _ => some (ctx, recv, "JS_CallFunctionValue")
  | _ => none

/-- The argument count and the argument handles of the two call operations,
which resize an argument vector before they invoke their primitive. -/
def arguments : Operation → Option (Int × List Value)
  | CallFunctionName _ _ _ argc argv => some (argc, argv)
  | CallFunctionValue _ _ _ argc argv => some (argc, argv)
  | _ => none

end Operation

/-- What the coercion of the receiver returns: `JS::ToObject` on the wrapped
value, called inside the realm of the Session's global. -/
def coerced (E : Engine σ) (ctx : Context) (global : JSObject) (recv : Value)
    (w : World σ) : Option JSObject :=
  (E.ToObject ctx.getJSContext recv.getJSValue
    (E.EnterRealm ctx.getJSContext global w.engine)).1

/-- The world right after the coercion of the receiver: the realm of the global
has been entered and `JS::ToObject` has been called, nothing else. -/
def afterCoercion (E : Engine σ) (ctx : Context) (global : JSObject) (recv : Value)
    (w : World σ) : World σ :=
  { w with
    engine := (E.ToObject ctx.getJSContext recv.getJSValue
      (E.EnterRealm ctx.getJSContext global w.engine)).2
    log := w.log ++ [Event.engine "JSAutoRealm" [ctx.getJSContext, global],
      Event.engine "ToObject" [ctx.getJSContext]] }

/-- The world after the realm of `cx` is left from `w`. -/
def leaveRealm (E : Engine σ) (cx : JSContext) (w : World σ) : World σ :=
  { w with engine := E.LeaveRealm cx w.engine,
           log := w.log ++ [Event.engine "~JSAutoRealm" [cx]] }

/-- The operation returns a failure envelope whose `err` is what `GetError`
drained from `cx` in the world `w1`, right before the realm was left, and the
engine primitive `primitive` was not invoked. -/
def FailsDrained (E : Engine σ) (op : Operation) (cx : JSContext) (primitive : String)
    (w w1 : World σ) : Prop :=
  ∃ env err w2, op.perform E w = Except.ok (env, leaveRealm E cx w2) ∧
    env.ok = false ∧ env.err = some err ∧
    GetError E cx w1 = Except.ok (err, w2) ∧
    ∀ operands, Event.engine primitive operands ∉ added w.log (leaveRealm E cx w2).log

/-- Whether resizing the argument vector to `argc` succeeds after the coercion. -/
def resizing (E : Engine σ) (ctx : Context) (global : JSObject) (recv : Value) (argc : Int)
    (w : World σ) : Bool :=
  (E.RootedValueVector_resize ctx.getJSContext argc (afterCoercion E ctx global recv w).engine).1

/-- The world right after the resize of the argument vector that follows the
coercion in the two call operations. -/
def afterResize (E : Engine σ) (ctx : Context) (global : JSObject) (recv : Value) (argc : Int)
    (w : World σ) : World σ :=
  { w with
    engine := (E.RootedValueVector_resize ctx.getJSContext argc
      (afterCoercion E ctx global recv w).engine).2
    log := w.log ++ [Event.engine "JSAutoRealm" [ctx.getJSContext, global],
      Event.engine "ToObject" [ctx.getJSContext],
      Event.engine "RootedValueVector::resize" [ctx.getJSContext]] }

/-- An engine in which every receiver coerces to the object 12 and nothing else
succeeds; in particular the argument vector cannot be resized. -/
def coercingEngine : Engine Toy :=
  { idleEngine with ToObject := fun _ _ s => (some 12, s) }

/-- The world in which `CallFunctionName` leaves `world0` on `coercingEngine`. -/
def worldResizeFailed : World Toy :=
  { engine := {}
    log := [Event.engine "JSAutoRealm" [1, 2], Event.engine "ToObject" [1],
      Event.engine "RootedValueVector::resize" [1],
      Event.engine "StealPendingExceptionStack" [1], Event.engine "~JSAutoRealm" [1]]
    brk := 1000 }

/-- An engine in which every receiver coerces to the object 12 and a property
can be defined on it. -/
def definingEngine : Engine Toy :=
  { coercingEngine with JS_DefineProperty := fun _ _ _ _ _ s => (true, s) }

/-! ### Member operations and object constructors -/

/-- The eight member read/write/delete operations applied to the receiver
`object`, with a property name, an element index and a value to store. -/
def memberOperations (object : Value) (key : String) (index : Nat) (value : Value) :
    List Operation :=
  [Operation.ObjectHasProperty object key, Operation.ObjectGetProperty object key,
    Operation.ObjectSetProperty object key value, Operation.ObjectDeleteProperty object key,
    Operation.ObjectHasElement object index, Operation.ObjectGetElement object index,
    Operation.ObjectSetElement object index value,
    Operation.ObjectDeleteElement object index]

/-- An engine in which the argument vector can be resized and nothing else
succeeds; in particular no object can be allocated. -/
def resizingEngine : Engine Toy :=
  { idleEngine with RootedValueVector_resize := fun _ _ s => (true, s) }

/-- The four object constructors invoked on the Session `ctx`. -/
def objectConstructors (ctx : Context) (argc : Int) (argv : List Value) : List Operation :=
  [Operation.NewPlainObject ctx, Operation.NewArrayObject ctx argc argv,
    Operation.NewMapObject ctx, Operation.NewSetObject ctx]

/-! ### Error draining and script execution -/

/-- What stealing the pending exception of `cx` returns in the world `w`. -/
def stealing (E : Engine σ) (cx : JSContext) (w : World σ) : Option ExceptionStack × σ :=
  E.StealPendingExceptionStack cx w.engine

/-- What building the error report from the stolen `stack` returns. -/
def building (E : Engine σ) (cx : JSContext) (stack : ExceptionStack) (w : World σ) :
    Option JSErrorReport × σ :=
  E.ErrorReportBuilder_init cx stack (stealing E cx w).2

/-- What copying the message of `report` returns. -/
def copying (E : Engine σ) (cx : JSContext) (stack : ExceptionStack) (report : JSErrorReport)
    (w : World σ) : Option String × σ :=
  E.strdup report.message (building E cx stack w).2

/-- What running the engine script `rscript` on the engine context of `ctx`,
inside the realm of `global`, returns. -/
def executing (E : Engine σ) (ctx : Context) (global : JSObject) (rscript : JSScript)
    (w : World σ) : Option JSValue × σ :=
  E.JS_ExecuteScript ctx.getJSContext rscript (E.EnterRealm ctx.getJSContext global w.engine)

/-- The world right after the script has been run. -/
def afterExecute (E : Engine σ) (ctx : Context) (global : JSObject) (rscript : JSScript)
    (w : World σ) : World σ :=
  { w with
    engine := (executing E ctx global rscript w).2
    log := w.log ++ [Event.engine "JSAutoRealm" [ctx.getJSContext, global],
      Event.engine "JS_ExecuteScript" [ctx.getJSContext, rscript]] }

/-- The world `ValueToString` leaves when its string guard fires: the realm of
the Session's global was entered and left, and nothing else happened. -/
def afterGuard (E : Engine σ) (value : Value) (global : JSObject) (w : World σ) : World σ :=
  { w with
    engine := E.LeaveRealm value.getContext.getJSContext
      (E.EnterRealm value.getContext.getJSContext global w.engine)
    log := w.log ++ [Event.engine "JSAutoRealm" [value.getContext.getJSContext, global],
      Event.engine "~JSAutoRealm" [value.getContext.getJSContext]] }

/-! ### Strings and JSON text -/

/-- The number that identifies, in the text engine, the string with the UTF-16
code units `units`. -/
def stringOf : List Nat → JSString
  | [] => 0
  | u :: rest => stringOf rest * 65537 + (u % 65536 + 1)

/-- The code units of the string identified by `str`, read with `fuel` steps. -/
def unitsOfFuel : Nat → JSString → List Nat
  | 0, _ => []
  | fuel + 1, str =>
    if str = 0 then [] else (str % 65537 - 1) :: unitsOfFuel fuel (str / 65537)

/-- The code units of the string identified by `str`. -/
def unitsOf (str : JSString) : List Nat := unitsOfFuel str str

/-- The state of a UTF-8 decoder: continuation bytes still expected, the code
point under construction, the code units decoded so far, and whether a
malformed sequence was met. -/
structure Utf8State where
  needed : Nat := 0
  point : Nat := 0
  units : List Nat := []
  malformed : Bool := false
  deriving DecidableEq, Repr

/-- One byte of UTF-8 decoding (sequences of one to three bytes). -/
def utf8Step (st : Utf8State) (b : Nat) : Utf8State :=
  if st.malformed then st
  else if st.needed = 0 then
    if b < 128 then { st with units := st.units ++ [b] }
    else if 194 ≤ b ∧ b < 224 then { st with needed := 1, point := b - 192 }
    else if 224 ≤ b ∧ b < 240 then { st with needed := 2, point := b - 224 }
    else { st with malformed := true }
  else if 128 ≤ b ∧ b < 192 then
    if st.needed = 1 then
      { st with needed := 0, point := 0, units := st.units ++ [st.point * 64 + (b - 128)] }
    else { st with needed := st.needed - 1, point := st.point * 64 + (b - 128) }
  else { st with malformed := true }

/-- The code units a UTF-8 byte sequence decodes to, if it is well formed. -/
def decodeUTF8 (bytes : List Nat) : Option (List Nat) :=
  if (bytes.foldl utf8Step {}).malformed ∨ (bytes.foldl utf8Step {}).needed ≠ 0 then none
  else some (bytes.foldl utf8Step {}).units

/-- The JSON text of a string whose characters need no escape: the code units
between two quotation marks. -/
def quoted (units : List Nat) : List Nat := [34] ++ units ++ [34]

/-- The string a JSON text between two quotation marks stands for, when none of
its characters is an escape. -/
def unquoted (units : List Nat) : Option (List Nat) :=
  match units with
  | 34 :: rest =>
    if rest.getLast? = some 34 ∧ ∀ u ∈ rest.dropLast, u ≠ 34 ∧ u ≠ 92 ∧ 32 ≤ u then
      some rest.dropLast
    else none
  | _ => none

/-- The NUL-terminated C string a host makes of the bytes `bytes`: one character
per byte, up to the first zero byte. -/
def cString (bytes : List Nat) : String :=
  String.mk ((bytes.takeWhile (fun b => b != 0)).map Char.ofNat)

/-- The bytes of a C string, one per character. -/
def cBytes (data : String) : List Nat := data.data.map Char.toNat

/-- The failure the text engine reports for a malformed UTF-8 sequence. -/
def malformedFailure : JSErrorReport :=
  { message := "malformed UTF-8 character sequence", filename := none, lineno := 0,
    errorNumber := 0 }

/-- The `Error` that draining `malformedFailure` yields. -/
def malformedError : Error :=
  { message := some "malformed UTF-8 character sequence", filename := none, lineno := 0,
    number := 0 }

/-- An engine with strings.  A string is a sequence of UTF-16 code units.
`JS_NewStringCopyN` makes one code unit of each byte and
`JS_EncodeStringToBuffer` writes the low byte of each code unit, so the
encoding length is the number of code units (the engine's Latin-1 conversions);
`JS_NewStringCopyUTF8Z` decodes UTF-8 and fails on a malformed sequence;
`JS_Stringify` and `JS_ParseJSON` handle strings without escapes. -/
def textEngine : Engine Toy :=
  { idleEngine with
    JS_NewStringCopyN := fun _ bytes len s => (some (stringOf (bytes.take len.toNat)), s)
    JS_GetStringEncodingLength := fun _ str s => ((unitsOf str).length, s)
    JS_malloc := fun _ _ s => (some 900, s)
    JS_EncodeStringToBuffer := fun _ str len s =>
      (some (((unitsOf str).map (fun u => u % 256)).take len), s)
    JS_Stringify := fun _ v s =>
      match v with
      | JSValue.string str => (([quoted (unitsOf str)], true), s)
      | _ => (([], false), s)
    JS_NewUCStringCopyZ := fun _ units s => (some (stringOf units), s)
    JS_NewStringCopyUTF8Z := fun _ data s =>
      match decodeUTF8 (cBytes data) with
      | some units => (some (stringOf units), s)
      | none => (none, { s with pending := some malformedFailure })
    JS_ParseJSON := fun _ str s =>
      match unquoted (unitsOf str) with
      | some body => (some (JSValue.string (stringOf body)), s)
      | none => (none, { s with pending := some syntaxFailure }) }

/-- A Value of `session7` that wraps the one-character string U+00E9 (the
letter e with an acute accent), as `NewValueString` makes it of the byte E9. -/
def accentHandle : Value := { this := 1000, ctx := session7, ptr := JSValue.string (stringOf [233]) }

/-- A Value of `session7` that wraps the one-character string "e". -/
def plainHandle : Value := { this := 1000, ctx := session7, ptr := JSValue.string (stringOf [101]) }

/-- The world in which `JSONStringify` of a string Value leaves `world0` on the
text engine, when the JSON text is the string `text`. -/
def worldStringified (text : JSString) : World Toy :=
  { engine := {}
    log := [Event.engine "JSAutoRealm" [1, 2], Event.engine "JS_Stringify" [1],
      Event.engine "JS_NewUCStringCopyZ" [1],
      Event.engine "JS_GetStringEncodingLength" [1, text], Event.engine "JS_malloc" [1],
      Event.engine "JS_EncodeStringToBuffer" [1, text], Event.engine "~JSAutoRealm" [1]]
    brk := 1000 }

/-- The world in which `JSONParse` leaves `world0` on the text engine when the
bytes are not well-formed UTF-8. -/
def worldMalformed : World Toy :=
  { engine := { pending := none, stolen := some malformedFailure }
    log := [Event.engine "JSAutoRealm" [1, 2], Event.engine "JS_NewStringCopyUTF8Z" [1],
      Event.engine "StealPendingExceptionStack" [1],
      Event.engine "ErrorReportBuilder::init" [1], Event.engine "strdup" [],
      Event.engine "~JSAutoRealm" [1]]
    brk := 1000 }

/-- The world in which `JSONParse` leaves `world0` on the text engine when it
parsed the JSON text `text` to a string. -/
def worldParsed (text : JSString) : World Toy :=
  { engine := {}
    log := [Event.engine "JSAutoRealm" [1, 2], Event.engine "JS_NewStringCopyUTF8Z" [1],
      Event.engine "JS_ParseJSON" [1, text], Event.opNew 1000,
      Event.addExtraGCRootsTracer 1 Tracer.traceValue 1000, Event.engine "~JSAutoRealm" [1]]
    brk := 1001 }

end Boundaries

/-! ## Theorems -/

section Lifecycle

variable {σ : Type}

/-! ### Rules for `post` -/

theorem post_pure {α : Type} (a : α) (w : World σ) (Q : α → World σ → Prop) :
    post (pure a : Bridge σ α) w Q ↔ Q a w := by
  simp [post, pure, StateT.pure, Except.pure]

theorem post_bind {α β : Type} (m : Bridge σ α) (f : α → Bridge σ β) (w : World σ)
    (Q : β → World σ → Prop) :
    post (m >>= f) w Q ↔ post m w (fun a w1 => post (f a) w1 Q) := by
  simp only [post, bind, StateT.bind, Except.bind]
  cases h : m w with
  | error e => simp
  | ok p => cases p; simp

theorem post_call {α : Type} (fn : String) (ops : List Nat) (f : σ → α × σ) (w : World σ)
    (Q : α → World σ → Prop) :
    post (call fn ops f) w Q ↔
      Q (f w.engine).1
        { w with engine := (f w.engine).2, log := w.log ++ [Event.engine fn ops] } := by
  simp [post, call]

theorem post_run (fn : String) (ops : List Nat) (f : σ → σ) (w : World σ)
    (Q : Unit → World σ → Prop) :
    post (run fn ops f) w Q ↔
      Q () { w with engine := f w.engine, log := w.log ++ [Event.engine fn ops] } := by
  simp only [post, run]
  constructor
  · intro h
    exact h () _ rfl
  · intro h a w' e
    cases a
    injection e with e
    injection e with _ e
    rw [← e]
    exact h

theorem post_fault {α : Type} (f : Fault) (w : World σ) (Q : α → World σ → Prop) :
    post (fault f : Bridge σ α) w Q := by
  simp [post, fault]

theorem post_intro {α : Type} (m : Bridge σ α) (w : World σ) (Q : α → World σ → Prop)
    (h : ∀ a w', m w = Except.ok (a, w') → Q a w') : post m w Q := h

theorem post_mono {α : Type} (m : Bridge σ α) (w : World σ) (Q R : α → World σ → Prop)
    (h : post m w Q) (hi : ∀ a w', Q a w' → R a w') : post m w R :=
  fun a w' e => hi a w' (h a w' e)

theorem added_append (l t : List Event) : added l (l ++ t) = t := by
  simp [added]

theorem added_self (l : List Event) : added l l = [] := by
  simp [added]

theorem Context_construct_run (E : Engine σ) (this : Nat) (ref : Nat) (cx : JSContext)
    (global : Option JSObject) (w : World σ) :
    Context.construct E this ref cx global w =
      Except.ok ({ this := this, ref := ref, ptr := cx, globalPtr := global },
        afterRegistration E global.isSome cx Tracer.traceGlobal this w) := by
  cases global <;> simp [Context.construct, heapPtrToBool, afterRegistration, registrationOf,
    JS_AddExtraGCRootsTracer, emit, exec, bind, StateT.bind, Except.bind, pure, StateT.pure,
    Except.pure]

theorem Context_destruct_run (E : Engine σ) (c : Context) (w : World σ) :
    Context.destruct E c w =
      Except.ok ((), afterDeregistration E (Context.slot E c w.engine).isSome c.ptr
        Tracer.traceGlobal c.this w) := by
  cases h : Context.slot E c w.engine <;> simp [Context.destruct, heapPtrToBool,
    afterDeregistration, deregistrationOf, h, JS_RemoveExtraGCRootsTracer, emit, exec, peek, bind,
    StateT.bind, Except.bind, pure, StateT.pure, Except.pure]

theorem Script_construct_run (E : Engine σ) (this : Nat) (ctx : Context)
    (script : Option JSScript) (w : World σ) :
    Script.construct E this ctx script w =
      Except.ok ({ this := this, ctx := ctx, ptr := script },
        afterRegistration E script.isSome ctx.ptr Tracer.traceScript this w) := by
  cases script <;> simp [Script.construct, heapPtrToBool, afterRegistration, registrationOf,
    JS_AddExtraGCRootsTracer, emit, exec, bind, StateT.bind, Except.bind, pure, StateT.pure,
    Except.pure, Context.getJSContext]

theorem Value_construct_run (E : Engine σ) (this : Nat) (ctx : Context) (value : JSValue)
    (w : World σ) :
    Value.construct E this ctx value w =
      Except.ok ({ this := this, ctx := ctx, ptr := value },
        afterRegistration E value.isGCThing ctx.ptr Tracer.traceValue this w) := by
  cases h : value.isGCThing <;> simp [Value.construct, heapValueToBool, afterRegistration,
    registrationOf, h, JS_AddExtraGCRootsTracer, emit, exec, bind, StateT.bind, Except.bind,
    pure, StateT.pure, Except.pure, Context.getJSContext]

theorem Value_destruct_run (E : Engine σ) (v : Value) (w : World σ) :
    Value.destruct E v w =
      Except.ok ((), afterDeregistration E v.ptr.isGCThing v.ctx.ptr Tracer.traceValue v.this w) := by
  cases h : v.ptr.isGCThing <;> simp [Value.destruct, heapValueToBool, afterDeregistration,
    deregistrationOf, h, JS_RemoveExtraGCRootsTracer, emit, exec, bind, StateT.bind,
    Except.bind, pure, StateT.pure, Except.pure, Context.getJSContext]

theorem post_JSAutoRealm {α : Type} (E : Engine σ) (cx : JSContext) (global : JSObject)
    (scope : Bridge σ α) (w : World σ) (Q : α → World σ → Prop) :
    post (JSAutoRealm E cx global scope) w Q ↔
      post scope { w with engine := E.EnterRealm cx global w.engine,
                          log := w.log ++ [Event.engine "JSAutoRealm" [cx, global]] }
        (afterLeave E cx Q) := by
  simp only [JSAutoRealm, post_bind, post_run, post_pure]
  rfl

theorem post_addressOfToObject (v : JSValue) (w : World σ)
    (Q : Option JSObject → World σ → Prop) :
    post (addressOfToObject v) w Q ↔
      (match v with
        | JSValue.object o => Q (some o) w
        | _ => True) := by
  cases v <;> simp [addressOfToObject, post, fault, pure, StateT.pure, Except.pure]

theorem post_toStringPtr (v : JSValue) (w : World σ)
    (Q : Option JSString → World σ → Prop) :
    post (toStringPtr v) w Q ↔
      (match v with
        | JSValue.string s => Q (some s) w
        | _ => True) := by
  cases v <;> simp [toStringPtr, post, fault, pure, StateT.pure, Except.pure]

theorem post_setObject (obj : Option JSObject) (w : World σ) (Q : JSValue → World σ → Prop) :
    post (setObject obj) w Q ↔
      (match obj with
        | some o => Q (JSValue.object o) w
        | none => True) := by
  cases obj <;> simp [setObject, post, fault, pure, StateT.pure, Except.pure]

theorem post_copyArguments (argc : Int) (argv : List Value) (w : World σ)
    (Q : List JSValue → World σ → Prop) :
    post (copyArguments argc argv) w Q ↔
      (if argc.toNat ≤ argv.length then Q ((argv.take argc.toNat).map Value.getJSValue) w
        else True) := by
  unfold copyArguments
  split <;> simp_all [post, fault, pure, StateT.pure, Except.pure]

theorem post_map {α β : Type} (f : α → β) (m : Bridge σ α) (w : World σ)
    (Q : β → World σ → Prop) :
    post (f <$> m) w Q ↔ post m w (fun a w1 => Q (f a) w1) := by
  simp only [post, Functor.map, StateT.map, bind, Except.bind, pure, Except.pure]
  constructor
  · intro h a w1 hm
    exact h (f a) w1 (by rw [hm])
  · intro h b w1 hm
    cases hrun : m w with
    | error e => rw [hrun] at hm; cases hm
    | ok p =>
      rw [hrun] at hm
      cases p with
      | mk a w2 =>
        simp only [Except.ok.injEq, Prod.mk.injEq] at hm
        rw [← hm.1, ← hm.2]
        exact h a w2 hrun

/-! ### The trampoline -/

theorem newValue_run (E : Engine σ) (ctx : Context) (value : JSValue) (w : World σ) :
    newValue E ctx value w =
      Except.ok (some { this := w.brk, ctx := ctx, ptr := value }, afterNewValue E ctx value w) := by
  simp [newValue, operatorNew, bind, StateT.bind, Except.bind, Value_construct_run, pure,
    StateT.pure, Except.pure, afterNewValue]

theorem deleteValue_run (E : Engine σ) (v : Value) (w : World σ) :
    deleteValue E v w = Except.ok ((), afterDeleteValue E v w) := by
  simp [deleteValue, operatorDelete, emit, bind, StateT.bind, Except.bind, Value_destruct_run,
    afterDeleteValue, afterDeregistration, destructionTrace]

theorem wrapArguments_run (E : Engine σ) (cx : JSContext) (ctx : Context) (argv : List JSValue) :
    ∀ (vals : List Value) (w : World σ),
      wrapArguments E cx ctx argv vals w =
        Except.ok (some (vals ++ argumentHandles w.brk ctx argv), afterWrapArguments E ctx argv w) := by
  induction argv with
  | nil => intro vals w; simp [wrapArguments, argumentHandles, afterWrapArguments, pure,
      StateT.pure, Except.pure]
  | cons arg rest ih =>
    intro vals w
    simp only [wrapArguments, bind, StateT.bind, Except.bind, newValue_run, ih,
      argumentHandles, afterWrapArguments]
    simp [afterNewValue, afterRegistration]

theorem deleteValues_run (E : Engine σ) (vals : List Value) :
    ∀ (w : World σ), deleteValues E vals w = Except.ok ((), afterDeleteValues E vals w) := by
  induction vals with
  | nil => intro w; simp [deleteValues, afterDeleteValues, pure, StateT.pure, Except.pure]
  | cons v rest ih =>
    intro w
    simp only [deleteValues, bind, StateT.bind, Except.bind, deleteValue_run, ih,
      afterDeleteValues]

theorem afterNewValue_log (E : Engine σ) (ctx : Context) (value : JSValue) (w : World σ) :
    (afterNewValue E ctx value w).log =
        w.log ++ constructionTrace { this := w.brk, ctx := ctx, ptr := value } ∧
      (afterNewValue E ctx value w).brk = w.brk + 1 := by
  simp [afterNewValue, afterRegistration, constructionTrace]

theorem afterWrapArguments_log (E : Engine σ) (ctx : Context) (argv : List JSValue) :
    ∀ (w : World σ), (afterWrapArguments E ctx argv w).log =
        w.log ++ constructionTraces (argumentHandles w.brk ctx argv) ∧
      (afterWrapArguments E ctx argv w).brk = w.brk + argv.length := by
  induction argv with
  | nil => intro w; simp [afterWrapArguments, argumentHandles, constructionTraces]
  | cons arg rest ih =>
    intro w
    simp only [afterWrapArguments, argumentHandles, constructionTraces]
    rw [(ih _).1, (ih _).2, (afterNewValue_log E ctx arg w).1, (afterNewValue_log E ctx arg w).2]
    refine ⟨by simp [List.append_assoc], ?_⟩
    simp only [List.length_cons]
    exact (Nat.add_assoc _ _ _).trans (congrArg _ (Nat.add_comm _ _))

theorem afterDeleteValues_log (E : Engine σ) (vals : List Value) :
    ∀ (w : World σ), (afterDeleteValues E vals w).log = w.log ++ destructionTraces vals ∧
      (afterDeleteValues E vals w).brk = w.brk := by
  induction vals with
  | nil => intro w; simp [afterDeleteValues, destructionTraces]
  | cons v rest ih =>
    intro w
    simp only [afterDeleteValues, destructionTraces]
    rw [(ih _).1, (ih _).2]
    simp [afterDeleteValue, afterDeregistration, List.append_assoc]

theorem FunctionCallback_run (E : Engine σ) (H : Host σ) (cx : JSContext) (args : CallArgs)
    (w : World σ) :
    (∃ ret w', FunctionCallback E H cx args w = Except.ok (ret, w') ∧
      ((ret = { ok := false, rval := none } ∧
          (∀ e ∈ added w.log w'.log,
            isEngineCall e = true ∨ e = Event.reportOutOfMemory cx ∨ ∃ p, e = Event.free cx p) ∧
          ¬ ∃ contextRef ctx name, ReachesDispatch E H cx args w.engine contextRef ctx name) ∨
        ∃ contextRef ctx name res before,
          ReachesDispatch E H cx args w.engine contextRef ctx name ∧
          added w.log w'.log =
            before ++ constructionTraces (argumentHandles w.brk ctx args.argv) ++
              [Event.dispatch contextRef name args.argv.length
                (argumentHandles w.brk ctx args.argv) res] ++
              destructionTraces (argumentHandles w.brk ctx args.argv) ++
              [Event.free cx name.addr] ++ epilogueTrace cx res ∧
          ret = epilogueReturn res ∧
          (∀ e ∈ before, isEngineCall e = true) ∧
          (∀ err, res.err = some err → ∃ s, w'.engine = E.JS_ReportErrorUTF8 cx err.bytes s) ∧
          (∃ t, before = Event.engine "JS_ValueToFunction" [cx] ::
            Event.engine "goFunctionContext" [contextRef] :: t) ∧
          (∀ h, res.err = none → res.ptr = some h →
            ∀ v ∈ argumentHandles w.brk ctx args.argv, v.this ≠ h.this))) ∨
    (∃ contextRef ctx name res before h,
      ReachesDispatch E H cx args w.engine contextRef ctx name ∧
      res.err = none ∧ res.ptr = some h ∧
      (∃ v ∈ argumentHandles w.brk ctx args.argv, v.this = h.this) ∧
      (∀ e ∈ before, isEngineCall e = true) ∧
      (∃ t, before = Event.engine "JS_ValueToFunction" [cx] ::
        Event.engine "goFunctionContext" [contextRef] :: t) ∧
      FunctionCallback E H cx args w = Except.error (Fault.useAfterFree h.this
        (w.log ++ (before ++ constructionTraces (argumentHandles w.brk ctx args.argv) ++
          [Event.dispatch contextRef name args.argv.length
            (argumentHandles w.brk ctx args.argv) res] ++
          destructionTraces (argumentHandles w.brk ctx args.argv) ++
          [Event.free cx name.addr])))) := by
  unfold FunctionCallback
  simp only [bind, StateT.bind, Except.bind, call, peek, peekRun, pure, StateT.pure, Except.pure,
      JS_ReportOutOfMemory, JS_ReportErrorUTF8, JS_free, emit, exec, goFunctionCallback,
      wrapArguments_run, deleteValues_run, deleteValue_run, List.nil_append]
  rcases h1 : E.JS_ValueToFunction cx args.calleev w.engine with ⟨_ | func, s1⟩
  · simp only [h1, bind, StateT.bind, Except.bind, call, peek, peekRun, pure, StateT.pure, Except.pure,
        JS_ReportOutOfMemory, JS_ReportErrorUTF8, JS_free, emit, exec, goFunctionCallback,
        wrapArguments_run, deleteValues_run, deleteValue_run, List.nil_append]
    refine Or.inl ⟨_, _, rfl, Or.inl ⟨rfl, ?_, ?_⟩⟩
    · simp [added, isEngineCall]
    · rintro ⟨_, _, _, _, _, _, _, _, _, _, _, _, _, _, _, g1, g2, g3, g4, g5, g6, g7, g8, g9, _⟩
      simp_all
  simp only [h1, bind, StateT.bind, Except.bind, call, peek, peekRun, pure, StateT.pure, Except.pure,
      JS_ReportOutOfMemory, JS_ReportErrorUTF8, JS_free, emit, exec, goFunctionCallback,
      wrapArguments_run, deleteValues_run, deleteValue_run, List.nil_append]
  rcases h2 : E.GetNonCCWObjectGlobal args.calleev s1 with _ | global
  · simp only [h2, bind, StateT.bind, Except.bind, call, peek, peekRun, pure, StateT.pure, Except.pure,
        JS_ReportOutOfMemory, JS_ReportErrorUTF8, JS_free, emit, exec, goFunctionCallback,
        wrapArguments_run, deleteValues_run, deleteValue_run, List.nil_append]
    refine Or.inl ⟨_, _, rfl, Or.inl ⟨rfl, ?_, ?_⟩⟩
    · simp [added, isEngineCall]
    · rintro ⟨_, _, _, _, _, _, _, _, _, _, _, _, _, _, _, g1, g2, g3, g4, g5, g6, g7, g8, g9, _⟩
      simp_all
  simp only [h2, bind, StateT.bind, Except.bind, call, peek, peekRun, pure, StateT.pure, Except.pure,
      JS_ReportOutOfMemory, JS_ReportErrorUTF8, JS_free, emit, exec, goFunctionCallback,
      wrapArguments_run, deleteValues_run, deleteValue_run, List.nil_append]
  rcases h3 : E.GetReservedSlot global 0 s1 with _ | _ | _ | i | _ | _ | _ | _ | _
  all_goals try (
    simp only [h3, bind, StateT.bind, Except.bind, call, peek, peekRun, pure, StateT.pure, Except.pure,
        JS_ReportOutOfMemory, JS_ReportErrorUTF8, JS_free, emit, exec, goFunctionCallback,
        wrapArguments_run, deleteValues_run, deleteValue_run, List.nil_append]
    refine Or.inl ⟨_, _, rfl, Or.inl ⟨rfl, ?_, ?_⟩⟩
    · simp [added, isEngineCall]
    · rintro ⟨_, _, _, _, _, _, _, _, _, _, _, _, _, _, _, g1, g2, g3, g4, g5, g6, g7, g8, g9, _⟩
      simp_all)
  simp only [h3, bind, StateT.bind, Except.bind, call, peek, peekRun, pure, StateT.pure, Except.pure,
      JS_ReportOutOfMemory, JS_ReportErrorUTF8, JS_free, emit, exec, goFunctionCallback,
      wrapArguments_run, deleteValues_run, deleteValue_run, List.nil_append]
  rcases h4 : H.goFunctionContext (toUInt32 i) s1 with ⟨_ | ctx, s2⟩
  · simp only [h4, bind, StateT.bind, Except.bind, call, peek, peekRun, pure, StateT.pure, Except.pure,
        JS_ReportOutOfMemory, JS_ReportErrorUTF8, JS_free, emit, exec, goFunctionCallback,
        wrapArguments_run, deleteValues_run, deleteValue_run, List.nil_append]
    refine Or.inl ⟨_, _, rfl, Or.inl ⟨rfl, ?_, ?_⟩⟩
    · simp [added, isEngineCall]
    · rintro ⟨_, _, _, _, _, _, _, _, _, _, _, _, _, _, _, g1, g2, g3, g4, g5, g6, g7, g8, g9, _⟩
      simp_all
  simp only [h4, bind, StateT.bind, Except.bind, call, peek, peekRun, pure, StateT.pure, Except.pure,
      JS_ReportOutOfMemory, JS_ReportErrorUTF8, JS_free, emit, exec, goFunctionCallback,
      wrapArguments_run, deleteValues_run, deleteValue_run, List.nil_append]
  rcases h5 : E.JS_GetFunctionId func s2 with _ | nameStr
  · simp only [h5, bind, StateT.bind, Except.bind, call, peek, peekRun, pure, StateT.pure, Except.pure,
        JS_ReportOutOfMemory, JS_ReportErrorUTF8, JS_free, emit, exec, goFunctionCallback,
        wrapArguments_run, deleteValues_run, deleteValue_run, List.nil_append]
    refine Or.inl ⟨_, _, rfl, Or.inl ⟨rfl, ?_, ?_⟩⟩
    · simp [added, isEngineCall]
    · rintro ⟨_, _, _, _, _, _, _, _, _, _, _, _, _, _, _, g1, g2, g3, g4, g5, g6, g7, g8, g9, _⟩
      simp_all
  simp only [h5, bind, StateT.bind, Except.bind, call, peek, peekRun, pure, StateT.pure, Except.pure,
      JS_ReportOutOfMemory, JS_ReportErrorUTF8, JS_free, emit, exec, goFunctionCallback,
      wrapArguments_run, deleteValues_run, deleteValue_run, List.nil_append]
  rcases h6 : E.JS_GetStringEncodingLength cx nameStr s2 with ⟨len, s3⟩
  simp only [h6, bind, StateT.bind, Except.bind, call, peek, peekRun, pure, StateT.pure, Except.pure,
      JS_ReportOutOfMemory, JS_ReportErrorUTF8, JS_free, emit, exec, goFunctionCallback,
      wrapArguments_run, deleteValues_run, deleteValue_run, List.nil_append]
  rcases h7 : E.JS_malloc cx ((len + 1) % 2 ^ 64) s3 with ⟨_ | name, s4⟩
  · simp only [h7, bind, StateT.bind, Except.bind, call, peek, peekRun, pure, StateT.pure, Except.pure,
        JS_ReportOutOfMemory, JS_ReportErrorUTF8, JS_free, emit, exec, goFunctionCallback,
        wrapArguments_run, deleteValues_run, deleteValue_run, List.nil_append]
    refine Or.inl ⟨_, _, rfl, Or.inl ⟨rfl, ?_, ?_⟩⟩
    · simp [added, isEngineCall]
    · rintro ⟨_, _, _, _, _, _, _, _, _, _, _, _, _, _, _, g1, g2, g3, g4, g5, g6, g7, g8, g9, _⟩
      simp_all
  simp only [h7, bind, StateT.bind, Except.bind, call, peek, peekRun, pure, StateT.pure, Except.pure,
      JS_ReportOutOfMemory, JS_ReportErrorUTF8, JS_free, emit, exec, goFunctionCallback,
      wrapArguments_run, deleteValues_run, deleteValue_run, List.nil_append]
  rcases h8 : E.JS_EncodeStringToBuffer cx nameStr len s4 with ⟨_ | encoded, s5⟩
  · simp only [h8, bind, StateT.bind, Except.bind, call, peek, peekRun, pure, StateT.pure, Except.pure,
        JS_ReportOutOfMemory, JS_ReportErrorUTF8, JS_free, emit, exec, goFunctionCallback,
        wrapArguments_run, deleteValues_run, deleteValue_run, List.nil_append]
    refine Or.inl ⟨_, _, rfl, Or.inl ⟨rfl, ?_, ?_⟩⟩
    · simp [added, isEngineCall]
    · rintro ⟨_, _, _, _, _, _, _, _, _, _, _, _, _, _, _, g1, g2, g3, g4, g5, g6, g7, g8, g9, _⟩
      simp_all
  simp only [h8, bind, StateT.bind, Except.bind, call, peek, peekRun, pure, StateT.pure, Except.pure,
      JS_ReportOutOfMemory, JS_ReportErrorUTF8, JS_free, emit, exec, goFunctionCallback,
      wrapArguments_run, deleteValues_run, deleteValue_run, List.nil_append]
  generalize hw5 : ({
      engine := s5
      log := w.log ++ [Event.engine "JS_ValueToFunction" [cx]] ++
        [Event.engine "goFunctionContext" [toUInt32 i]] ++
        [Event.engine "JS_GetStringEncodingLength" [cx, nameStr]] ++
        [Event.engine "JS_malloc" [cx]] ++
        [Event.engine "JS_EncodeStringToBuffer" [cx, nameStr]]
      brk := w.brk } : World σ) = w5
  have hlog5 : w5.log = w.log ++ [Event.engine "JS_ValueToFunction" [cx],
      Event.engine "goFunctionContext" [toUInt32 i],
      Event.engine "JS_GetStringEncodingLength" [cx, nameStr],
      Event.engine "JS_malloc" [cx],
      Event.engine "JS_EncodeStringToBuffer" [cx, nameStr]] := by
    rw [← hw5]; simp
  have hbrk5 : w5.brk = w.brk := by rw [← hw5]
  clear hw5
  generalize hvals : argumentHandles w.brk ctx args.argv = vals
  have hlen : vals.length = args.argv.length := by
    rw [← hvals]
    clear hvals hbrk5 hlog5 h1 h2 h3 h4 h5 h6 h7 h8
    generalize w.brk = b
    induction args.argv generalizing b with
    | nil => rfl
    | cons a rest ih => simp [argumentHandles, ih]
  have hwrap := afterWrapArguments_log E ctx args.argv w5
  rw [hbrk5, hvals] at hwrap
  generalize afterWrapArguments E ctx args.argv w5 = w6 at hwrap ⊢
  generalize hr : H.goFunctionCallback (toUInt32 i)
    { addr := name, bytes := List.take len encoded ++ [0] } vals.length vals w6.engine = r
  rcases r with ⟨res, s7⟩
  simp only []
  generalize hname : ({ addr := name, bytes := List.take len encoded ++ [0] } : Buffer) = nm
    at hr ⊢
  have hdel := afterDeleteValues_log E vals {
      engine := s7
      log := w6.log ++ [Event.dispatch (toUInt32 i) nm vals.length vals res]
      brk := w6.brk }
  generalize afterDeleteValues E vals {
      engine := s7
      log := w6.log ++ [Event.dispatch (toUInt32 i) nm vals.length vals res]
      brk := w6.brk } = w8 at hdel ⊢
  simp only [] at hdel
  have hname' : nm.addr = name := by rw [← hname]
  have hbefore : ∀ e ∈ [Event.engine "JS_ValueToFunction" [cx],
      Event.engine "goFunctionContext" [toUInt32 i],
      Event.engine "JS_GetStringEncodingLength" [cx, nameStr],
      Event.engine "JS_malloc" [cx],
      Event.engine "JS_EncodeStringToBuffer" [cx, nameStr]], isEngineCall e = true := by
    intro e he
    simp at he
    rcases he with rfl | rfl | rfl | rfl | rfl <;> rfl
  have hreach : ReachesDispatch E H cx args w.engine (toUInt32 i) ctx nm :=
    ⟨func, s1, global, i, s2, nameStr, len, s3, name, s4, encoded, s5, h1, h2, h3, rfl, h4, h5,
      h6, h7, h8, hname.symm⟩
  cases herr : res.err with
  | some err =>
    simp only [bind, StateT.bind, Except.bind, emit, exec, pure, StateT.pure, Except.pure]
    refine Or.inl ⟨_, _, rfl, Or.inr ⟨toUInt32 i, ctx, nm, res, [Event.engine "JS_ValueToFunction" [cx],
        Event.engine "goFunctionContext" [toUInt32 i],
        Event.engine "JS_GetStringEncodingLength" [cx, nameStr],
        Event.engine "JS_malloc" [cx],
        Event.engine "JS_EncodeStringToBuffer" [cx, nameStr]], hreach, ?_, ?_, hbefore, ?_, ⟨_, rfl⟩, ?_⟩⟩
    · simp only [hdel.1, hwrap.1, hlog5, hvals, hlen, hname', epilogueTrace, herr,
        List.append_assoc]
      exact added_append _ _
    · simp [epilogueReturn, herr]
    · intro err' herr'
      rw [herr] at herr'
      cases herr'
      exact ⟨_, rfl⟩
    · intro h herr'
      rw [herr] at herr'
      cases herr'
  | none =>
    cases hptr : res.ptr with
    | some ptr =>
      by_cases hal : vals.any (fun val => val.this == ptr.this) = true
      · simp only [hal, if_true, useAfterFree, bind, StateT.bind, Except.bind, emit, exec, pure,
          StateT.pure, Except.pure]
        refine Or.inr ⟨toUInt32 i, ctx, nm, res, [Event.engine "JS_ValueToFunction" [cx],
        Event.engine "goFunctionContext" [toUInt32 i],
        Event.engine "JS_GetStringEncodingLength" [cx, nameStr],
        Event.engine "JS_malloc" [cx],
        Event.engine "JS_EncodeStringToBuffer" [cx, nameStr]], ptr, hreach, herr, hptr, ?_, hbefore, ⟨_, rfl⟩, ?_⟩
        · obtain ⟨v, hv, hvp⟩ := List.any_eq_true.1 hal
          exact ⟨v, by rw [hvals]; exact hv, by simpa using hvp⟩
        · simp only [hdel.1, hwrap.1, hlog5, hvals, hlen, hname', List.append_assoc]
      · have hal' : vals.any (fun val => val.this == ptr.this) = false := by
          simpa using hal
        simp only [hal', Bool.false_eq_true, if_false, bind, StateT.bind, Except.bind, emit, exec,
          pure, StateT.pure, Except.pure, deleteValue_run]
        refine Or.inl ⟨_, _, rfl, Or.inr ⟨toUInt32 i, ctx, nm, res, [Event.engine "JS_ValueToFunction" [cx],
        Event.engine "goFunctionContext" [toUInt32 i],
        Event.engine "JS_GetStringEncodingLength" [cx, nameStr],
        Event.engine "JS_malloc" [cx],
        Event.engine "JS_EncodeStringToBuffer" [cx, nameStr]], hreach, ?_, ?_, hbefore, ?_, ⟨_, rfl⟩, ?_⟩⟩
        · simp only [afterDeleteValue, hdel.1, hwrap.1, hlog5, hvals, hlen, hname',
            epilogueTrace, herr, hptr, List.append_assoc]
          exact added_append _ _
        · simp [epilogueReturn, herr, hptr, Value.getJSValue]
        · intro err' herr'
          rw [herr] at herr'
          cases herr'
        · intro h _ hp v hv heq
          rw [hptr] at hp
          cases hp
          rw [hvals] at hv
          exact hal (List.any_eq_true.2 ⟨v, hv, by simpa using heq⟩)
    | none =>
      simp only [bind, StateT.bind, Except.bind, emit, exec, pure, StateT.pure, Except.pure]
      refine Or.inl ⟨_, _, rfl, Or.inr ⟨toUInt32 i, ctx, nm, res, [Event.engine "JS_ValueToFunction" [cx],
        Event.engine "goFunctionContext" [toUInt32 i],
        Event.engine "JS_GetStringEncodingLength" [cx, nameStr],
        Event.engine "JS_malloc" [cx],
        Event.engine "JS_EncodeStringToBuffer" [cx, nameStr]], hreach, ?_, ?_, hbefore, ?_, ⟨_, rfl⟩, ?_⟩⟩
      · simp only [hdel.1, hwrap.1, hlog5, hvals, hlen, hname', epilogueTrace, herr, hptr,
          List.append_assoc, List.append_nil]
        exact added_append _ _
      · simp [epilogueReturn, herr, hptr]
      · intro err' herr'
        rw [herr] at herr'
        cases herr'
      · intro h _ hp
        rw [hptr] at hp
        cases hp

theorem argumentHandles_length (ctx : Context) (argv : List JSValue) :
    ∀ base : Nat, (argumentHandles base ctx argv).length = argv.length := by
  induction argv with
  | nil => intro base; rfl
  | cons a rest ih => intro base; simp [argumentHandles, ih]

theorem argumentHandles_map (ctx : Context) (argv : List JSValue) :
    ∀ base : Nat, (argumentHandles base ctx argv).map Value.getJSValue = argv := by
  induction argv with
  | nil => intro base; rfl
  | cons a rest ih => intro base; simp [argumentHandles, ih, Value.getJSValue]

theorem argumentHandles_ctx (ctx : Context) (argv : List JSValue) :
    ∀ (base : Nat), ∀ v ∈ argumentHandles base ctx argv, v.getContext = ctx := by
  induction argv with
  | nil => intro base v hv; simp [argumentHandles] at hv
  | cons a rest ih =>
    intro base v hv
    simp only [argumentHandles, List.mem_cons] at hv
    rcases hv with rfl | hv
    · rfl
    · exact ih _ v hv

theorem argumentHandles_this (ctx : Context) (argv : List JSValue) :
    ∀ (base : Nat), ∀ v ∈ argumentHandles base ctx argv,
      base ≤ v.this ∧ v.this < base + argv.length := by
  induction argv with
  | nil => intro base v hv; simp [argumentHandles] at hv
  | cons a rest ih =>
    intro base v hv
    simp only [argumentHandles, List.mem_cons] at hv
    rcases hv with rfl | hv
    · simp
    · have := ih _ v hv
      simp only [List.length_cons]
      omega

theorem count_opDelete_registration (a : Nat) (b : Bool) (cx : JSContext) (fn : Tracer)
    (this : Nat) :
    (deregistrationOf b cx fn this).count (Event.opDelete a) = 0 ∧
      (registrationOf b cx fn this).count (Event.opNew a) = 0 := by
  cases b <;> simp [deregistrationOf, registrationOf]

theorem count_opDelete_destructionTrace (a : Nat) (v : Value) :
    (destructionTrace v).count (Event.opDelete a) = if v.this = a then 1 else 0 := by
  simp only [destructionTrace, List.count_append, (count_opDelete_registration a _ _ _ _).1,
    List.count_singleton]
  by_cases h : v.this = a <;> simp [h]

theorem count_opNew_constructionTrace (a : Nat) (v : Value) :
    (constructionTrace v).count (Event.opNew a) = if v.this = a then 1 else 0 := by
  simp only [constructionTrace, List.count_cons, (count_opDelete_registration a _ _ _ _).2]
  by_cases h : v.this = a <;> simp [h]

theorem count_opDelete_destructionTraces (a : Nat) (ctx : Context) (argv : List JSValue) :
    ∀ base : Nat, (destructionTraces (argumentHandles base ctx argv)).count (Event.opDelete a) =
      if base ≤ a ∧ a < base + argv.length then 1 else 0 := by
  induction argv with
  | nil =>
    intro base
    have h : ¬ (base ≤ a ∧ a < base) := by omega
    simp [argumentHandles, destructionTraces, h]
  | cons arg rest ih =>
    intro base
    simp only [argumentHandles, destructionTraces, List.count_append,
      count_opDelete_destructionTrace, ih, List.length_cons]
    by_cases h1 : base = a
    · subst h1
      simp
    · by_cases h2 : base + 1 ≤ a ∧ a < base + 1 + rest.length
      · have h3 : base ≤ a ∧ a < base + (rest.length + 1) := by omega
        simp [h1, h2, h3]
      · have h3 : ¬ (base ≤ a ∧ a < base + (rest.length + 1)) := by omega
        simp [h1, h2, h3]

theorem count_opNew_constructionTraces (a : Nat) (ctx : Context) (argv : List JSValue) :
    ∀ base : Nat, (constructionTraces (argumentHandles base ctx argv)).count (Event.opNew a) =
      if base ≤ a ∧ a < base + argv.length then 1 else 0 := by
  induction argv with
  | nil =>
    intro base
    have h : ¬ (base ≤ a ∧ a < base) := by omega
    simp [argumentHandles, constructionTraces, h]
  | cons arg rest ih =>
    intro base
    simp only [argumentHandles, constructionTraces, List.count_append,
      count_opNew_constructionTrace, ih, List.length_cons]
    by_cases h1 : base = a
    · subst h1
      simp
    · by_cases h2 : base + 1 ≤ a ∧ a < base + 1 + rest.length
      · have h3 : base ≤ a ∧ a < base + (rest.length + 1) := by omega
        simp [h1, h2, h3]
      · have h3 : ¬ (base ≤ a ∧ a < base + (rest.length + 1)) := by omega
        simp [h1, h2, h3]

theorem registrations_traces (vals : List Value) :
    registrations (constructionTraces vals) = deregistrations (destructionTraces vals) ∧
      deregistrations (constructionTraces vals) = 0 ∧
      registrations (destructionTraces vals) = 0 := by
  induction vals with
  | nil => simp [constructionTraces, destructionTraces, registrations, deregistrations]
  | cons v rest ih =>
    obtain ⟨ih1, ih2, ih3⟩ := ih
    simp only [registrations, deregistrations] at ih1 ih2 ih3 ⊢
    simp only [constructionTraces, destructionTraces, constructionTrace, destructionTrace,
      List.countP_append, List.countP_cons, ih1, ih2, ih3]
    cases v.ptr.isGCThing <;>
      simp [registrationOf, deregistrationOf, isRegistration, isDeregistration]

theorem filter_isDispatch_registration (b : Bool) (cx : JSContext) (fn : Tracer) (this : Nat) :
    (registrationOf b cx fn this).filter isDispatch = [] ∧
      (deregistrationOf b cx fn this).filter isDispatch = [] := by
  cases b <;> simp [registrationOf, deregistrationOf, isDispatch]

theorem filter_isDispatch_traces (vals : List Value) :
    (constructionTraces vals).filter isDispatch = [] ∧
      (destructionTraces vals).filter isDispatch = [] := by
  induction vals with
  | nil => simp [constructionTraces, destructionTraces]
  | cons v rest ih =>
    simp only [constructionTraces, destructionTraces, constructionTrace, destructionTrace,
      List.filter_append, List.filter_cons, ih.1, ih.2,
      (filter_isDispatch_registration _ _ _ _).1, (filter_isDispatch_registration _ _ _ _).2]
    simp [isDispatch]

theorem filter_isDispatch_epilogueTrace (cx : JSContext) (res : ResultGoFunctionCallback) :
    (epilogueTrace cx res).filter isDispatch = [] := by
  unfold epilogueTrace
  cases res.err with
  | some err => simp [isDispatch]
  | none =>
    cases res.ptr with
    | some ptr =>
      simp [destructionTrace, List.filter_append, (filter_isDispatch_registration _ _ _ _).2,
        isDispatch]
    | none => simp

theorem filter_isDispatch_engineCalls (before : List Event)
    (h : ∀ e ∈ before, isEngineCall e = true) : before.filter isDispatch = [] := by
  rw [List.filter_eq_nil_iff]
  intro e he
  have := h e he
  cases e <;> simp_all [isEngineCall, isDispatch]

theorem filter_isDispatch_dispatched (cx : JSContext) (before : List Event) (vals : List Value)
    (contextRef : Nat) (name : Buffer) (argc : Nat) (vp : List Value)
    (res' : ResultGoFunctionCallback) (p : Nat) (res : ResultGoFunctionCallback)
    (h : ∀ e ∈ before, isEngineCall e = true) :
    (before ++ constructionTraces vals ++ [Event.dispatch contextRef name argc vp res'] ++
      destructionTraces vals ++ [Event.free cx p] ++
      epilogueTrace cx res).filter isDispatch = [Event.dispatch contextRef name argc vp res'] := by
  have hd : isDispatch (Event.dispatch contextRef name argc vp res') = true := rfl
  simp only [List.filter_append, filter_isDispatch_engineCalls before h,
    (filter_isDispatch_traces vals).1, (filter_isDispatch_traces vals).2,
    filter_isDispatch_epilogueTrace]
  have hf : isDispatch (Event.free cx p) = false := rfl
  simp [List.filter_cons, hd, hf]

theorem toUInt32_toInt32 (r : Nat) (h : r < 2 ^ 32) : toUInt32 (toInt32 r) = r := by
  unfold toUInt32 toInt32
  have h1 : r % 2 ^ 32 = r := Nat.mod_eq_of_lt h
  rw [h1]
  split <;> omega

theorem ReachesDispatch_unique (E : Engine σ) (H : Host σ) (cx : JSContext) (args : CallArgs)
    (s : σ) (r1 r2 : Nat) (c1 c2 : Context) (n1 n2 : Buffer)
    (h1 : ReachesDispatch E H cx args s r1 c1 n1) (h2 : ReachesDispatch E H cx args s r2 c2 n2) :
    r1 = r2 ∧ c1 = c2 ∧ n1 = n2 := by
  obtain ⟨_, _, _, _, _, _, _, _, _, _, _, _, a1, a2, a3, a4, a5, a6, a7, a8, a9, a10⟩ := h1
  obtain ⟨_, _, _, _, _, _, _, _, _, _, _, _, b1, b2, b3, b4, b5, b6, b7, b8, b9, b10⟩ := h2
  simp_all

theorem FunctionCallback_dispatched (E : Engine σ) (H : Host σ) (cx : JSContext)
    (args : CallArgs) (w : World σ) (ret : NativeReturn) (w' : World σ)
    (h : FunctionCallback E H cx args w = Except.ok (ret, w'))
    (contextRef : Nat) (name : Buffer) (argc : Nat) (vp : List Value)
    (res : ResultGoFunctionCallback)
    (hd : Event.dispatch contextRef name argc vp res ∈ added w.log w'.log) :
    ∃ ctx before,
      ReachesDispatch E H cx args w.engine contextRef ctx name ∧
      vp = argumentHandles w.brk ctx args.argv ∧ argc = args.argv.length ∧
      added w.log w'.log =
        before ++ constructionTraces vp ++ [Event.dispatch contextRef name argc vp res] ++
          destructionTraces vp ++ [Event.free cx name.addr] ++ epilogueTrace cx res ∧
      ret = epilogueReturn res ∧
      (∀ e ∈ before, isEngineCall e = true) ∧
      (∀ err, res.err = some err → ∃ s, w'.engine = E.JS_ReportErrorUTF8 cx err.bytes s) ∧
      (∀ h, res.err = none → res.ptr = some h → ∀ v ∈ vp, v.this ≠ h.this) := by
  rcases FunctionCallback_run E H cx args w with
    ⟨ret0, w0, hrun, hcase⟩ | ⟨_, _, _, _, _, _, _, _, _, _, _, _, hrun⟩
  · rw [hrun] at h
    injection h with h
    injection h with hret hw
    subst hret hw
    rcases hcase with ⟨_, hall, _⟩ | ⟨contextRef', ctx, name', res', before, hreach, hlog, hret,
      hbefore, herr, _, hfresh⟩
    · rcases hall _ hd with h1 | h1 | ⟨p, h1⟩
      · simp [isEngineCall] at h1
      · cases h1
      · cases h1
    · have hmem : Event.dispatch contextRef name argc vp res ∈
          (added w.log w0.log).filter isDispatch :=
        List.mem_filter.mpr ⟨hd, rfl⟩
      rw [hlog, filter_isDispatch_dispatched cx before _ _ _ _ _ _ _ _ hbefore] at hmem
      simp only [List.mem_singleton] at hmem
      injection hmem with e1 e2 e3 e4 e5
      subst e1 e2 e3 e4 e5
      exact ⟨ctx, before, hreach, rfl, rfl, hlog, hret, hbefore, herr, hfresh⟩
  · rw [hrun] at h
    cases h

theorem filter_isDispatch_tail (cx : JSContext) (before : List Event) (vals : List Value)
    (contextRef : Nat) (name : Buffer) (argc : Nat) (vp : List Value)
    (res : ResultGoFunctionCallback) (p : Nat) (tail : List Event)
    (h : ∀ e ∈ before, isEngineCall e = true) (ht : tail.filter isDispatch = []) :
    (before ++ constructionTraces vals ++ [Event.dispatch contextRef name argc vp res] ++
      destructionTraces vals ++ [Event.free cx p] ++ tail).filter isDispatch =
        [Event.dispatch contextRef name argc vp res] := by
  have hd : isDispatch (Event.dispatch contextRef name argc vp res) = true := rfl
  simp only [List.filter_append, filter_isDispatch_engineCalls before h,
    (filter_isDispatch_traces vals).1, (filter_isDispatch_traces vals).2, ht]
  have hf : isDispatch (Event.free cx p) = false := rfl
  simp [List.filter_cons, hd, hf]

theorem FunctionCallback_ends (E : Engine σ) (H : Host σ) (cx : JSContext) (args : CallArgs)
    (w : World σ) :
    ∃ trace, endsWith (FunctionCallback E H cx args w) trace ∧
      ((∃ w', FunctionCallback E H cx args w = Except.ok ({ ok := false, rval := none }, w') ∧
          w'.log = trace ∧ (added w.log trace).filter isDispatch = [] ∧
          ¬ ∃ contextRef ctx name, ReachesDispatch E H cx args w.engine contextRef ctx name) ∨
        ∃ contextRef ctx name res before tail,
          ReachesDispatch E H cx args w.engine contextRef ctx name ∧
          added w.log trace =
            before ++ constructionTraces (argumentHandles w.brk ctx args.argv) ++
              [Event.dispatch contextRef name args.argv.length
                (argumentHandles w.brk ctx args.argv) res] ++
              destructionTraces (argumentHandles w.brk ctx args.argv) ++
              [Event.free cx name.addr] ++ tail ∧
          (∀ e ∈ before, isEngineCall e = true) ∧
          (∃ t, before = Event.engine "JS_ValueToFunction" [cx] ::
            Event.engine "goFunctionContext" [contextRef] :: t) ∧
          tail.filter isDispatch = [] ∧
          ((∃ ret w', FunctionCallback E H cx args w = Except.ok (ret, w') ∧ w'.log = trace ∧
              tail = epilogueTrace cx res ∧ ret = epilogueReturn res ∧
              (∀ err, res.err = some err →
                ∃ s, w'.engine = E.JS_ReportErrorUTF8 cx err.bytes s)) ∨
            (∃ h, FunctionCallback E H cx args w =
                Except.error (Fault.useAfterFree h.this trace) ∧
              tail = [] ∧ res.err = none ∧ res.ptr = some h))) := by
  rcases FunctionCallback_run E H cx args w with
    ⟨ret, w', hrun, hcase⟩ |
    ⟨contextRef, ctx, name, res, before, h, hreach, herr, hptr, _, hbefore, hshape, hrun⟩
  · refine ⟨w'.log, Or.inl ⟨ret, w', hrun, rfl⟩, ?_⟩
    rcases hcase with ⟨hret, hall, hno⟩ | ⟨contextRef, ctx, name, res, before, hreach, hlog,
      hret, hbefore, herr, hshape, _⟩
    · refine Or.inl ⟨w', by rw [← hret]; exact hrun, rfl, ?_, hno⟩
      rw [List.filter_eq_nil_iff]
      intro e he
      rcases hall e he with h1 | h1 | ⟨p, h1⟩
      · cases e <;> simp_all [isEngineCall, isDispatch]
      · subst h1
        simp [isDispatch]
      · subst h1
        simp [isDispatch]
    · exact Or.inr ⟨contextRef, ctx, name, res, before, epilogueTrace cx res, hreach, hlog,
        hbefore, hshape, filter_isDispatch_epilogueTrace cx res,
        Or.inl ⟨ret, w', hrun, rfl, rfl, hret, herr⟩⟩
  · refine ⟨_, Or.inr ⟨h.this, hrun⟩, Or.inr ⟨contextRef, ctx, name, res, before, [], hreach, ?_,
      hbefore, hshape, rfl, Or.inr ⟨h, hrun, rfl, herr, hptr⟩⟩⟩
    rw [added_append, List.append_nil]

/-- C6 (as amended).  When an engine-side call of a host-defined function (the
callee converts to a function `func` whose global is `global`) happens in a
Session created with ref `r` (the global's reserved slot holds `Int32Value r`),
the host lookup of `r` succeeds with `ctx`, and the function's name is obtained
(it has an id, the name buffer is allocated and the name is encoded into it),
the trampoline invokes the dispatch entry point exactly once, with
`contextRef = r`, the NUL-terminated encoded name, `argc` the number of
arguments, and as many freshly constructed Value handles, all bound to `ctx`,
wrapping the call's arguments in positional order.  The trace is that of the
whole invocation, whether the trampoline returns or stops at the read of a
released result handle. -/
theorem C6_dispatch_once_with_marshalled_arguments (E : Engine σ) (H : Host σ)
    (cx : JSContext) (args : CallArgs) (w : World σ) (r : Nat) (ctx : Context)
    (func : JSFunction) (global : JSObject) (nameStr : JSString) (len : Nat) (addr : Nat)
    (encoded : List Nat) (s1 s2 s3 s4 s5 : σ)
    (hr : r < 2 ^ 32)
    (hcallee : E.JS_ValueToFunction cx args.calleev w.engine = (some func, s1))
    (hglobal : E.GetNonCCWObjectGlobal args.calleev s1 = some global)
    (hslot : E.GetReservedSlot global 0 s1 = Int32Value r)
    (hlookup : H.goFunctionContext r s1 = (some ctx, s2))
    (hid : E.JS_GetFunctionId func s2 = some nameStr)
    (hlen : E.JS_GetStringEncodingLength cx nameStr s2 = (len, s3))
    (hmalloc : E.JS_malloc cx ((len + 1) % 2 ^ 64) s3 = (some addr, s4))
    (hencode : E.JS_EncodeStringToBuffer cx nameStr len s4 = (some encoded, s5)) :
    ∃ trace vp res before after,
      endsWith (FunctionCallback E H cx args w) trace ∧
      added w.log trace =
        before ++ constructionTraces vp ++
          [Event.dispatch r { addr := addr, bytes := encoded.take len ++ [0] }
            args.argv.length vp res] ++ after ∧
      (added w.log trace).filter isDispatch =
        [Event.dispatch r { addr := addr, bytes := encoded.take len ++ [0] }
          args.argv.length vp res] ∧
      (encoded.take len ++ [0]).getLast? = some 0 ∧
      vp.length = args.argv.length ∧
      vp.map Value.getJSValue = args.argv ∧
      (∀ v ∈ vp, v.getContext = ctx) := by
  have hreach : ReachesDispatch E H cx args w.engine r ctx
      { addr := addr, bytes := encoded.take len ++ [0] } := by
    refine ⟨func, s1, global, toInt32 r, s2, nameStr, len, s3, addr, s4, encoded, s5, hcallee,
      hglobal, hslot, (toUInt32_toInt32 r hr).symm, hlookup, hid, hlen, hmalloc, hencode, rfl⟩
  obtain ⟨trace, hends, hcase⟩ := FunctionCallback_ends E H cx args w
  rcases hcase with ⟨_, _, _, _, hno⟩ |
    ⟨contextRef, ctx', name, res, before, tail, hreach', hlog, hbefore, _, htail, _⟩
  · exact absurd ⟨r, ctx, _, hreach⟩ hno
  · obtain ⟨e1, e2, e3⟩ := ReachesDispatch_unique E H cx args w.engine _ _ _ _ _ _ hreach' hreach
    subst e1 e2 e3
    refine ⟨trace, argumentHandles w.brk ctx' args.argv, res, before,
      destructionTraces (argumentHandles w.brk ctx' args.argv) ++ [Event.free cx addr] ++ tail,
      hends, ?_, ?_, ?_, argumentHandles_length _ _ _, argumentHandles_map _ _ _,
      argumentHandles_ctx _ _ _⟩
    · rw [hlog]
      simp [List.append_assoc]
    · rw [hlog]
      exact filter_isDispatch_tail cx before _ _ _ _ _ _ _ _ hbefore htail
    · simp

/-- C6 (witness).  The call `f(1, 2, 3)` in the Session of ref 7 is dispatched once. -/
theorem C6_dispatch_once_witness :
    ∃ trace vp res before after,
      endsWith (FunctionCallback callbackEngine resultHost 1 callF123 world0) trace ∧
      added world0.log trace =
        before ++ constructionTraces vp ++
          [Event.dispatch 7 { addr := 900, bytes := [102].take 1 ++ [0] }
            callF123.argv.length vp res] ++ after ∧
      (added world0.log trace).filter isDispatch =
        [Event.dispatch 7 { addr := 900, bytes := [102].take 1 ++ [0] }
          callF123.argv.length vp res] ∧
      ([102].take 1 ++ [0]).getLast? = some 0 ∧
      vp.length = callF123.argv.length ∧
      vp.map Value.getJSValue = callF123.argv ∧
      (∀ v ∈ vp, v.getContext = session7) :=
  C6_dispatch_once_with_marshalled_arguments callbackEngine resultHost 1 callF123 world0 7
    session7 5 2 6 1 900 [102] {} {} {} {} {} (by decide) rfl rfl rfl rfl rfl rfl rfl rfl

/-- C6 (counterexample).  In `exhaustedEngine` the call `f(1, 2, 3)` is an engine-side
call of a host-defined function in the Session created with ref 7, and the
host lookup of 7 succeeds; yet the name buffer cannot be allocated, and the
trampoline returns false without invoking the dispatch entry point at all. -/
theorem C6_counterexample_name_allocation_fails :
    (exhaustedEngine.JS_ValueToFunction 1 callF123.calleev world0.engine).1 = some 5 ∧
      exhaustedEngine.GetNonCCWObjectGlobal callF123.calleev world0.engine = some 2 ∧
      exhaustedEngine.GetReservedSlot 2 0 world0.engine = Int32Value 7 ∧
      (resultHost.goFunctionContext 7 world0.engine).1 = some session7 ∧
      ∃ w', FunctionCallback exhaustedEngine resultHost 1 callF123 world0 =
          Except.ok ({ ok := false, rval := none }, w') ∧
        (added world0.log w'.log).filter isDispatch = [] :=
  ⟨rfl, rfl, rfl, rfl,
    { engine := callbackEngine.JS_ReportOutOfMemory 1 {}
      log := [Event.engine "JS_ValueToFunction" [1], Event.engine "goFunctionContext" [7],
        Event.engine "JS_GetStringEncodingLength" [1, 6], Event.engine "JS_malloc" [1],
        Event.reportOutOfMemory 1]
      brk := 1000 }, by decide!, by decide!⟩

/-- C7 (evaluation of the code).  In the call `f("a", 2)` the dispatch answers
without error with the first argument handle it was given (the handle at
address 1000).  The trampoline releases the argument handles, the handle at 1000
among them (its deregistration and its delete are in the trace, once each),
releases the name, and then reads the result handle, which is that released
handle: the invocation leaves defined behaviour there, before the second
`delete` of the same handle that the source goes on to.  On every engine and
host, an invocation that returns has destroyed each argument handle exactly
once, with as many deregistrations as registrations. -/
theorem C7_returned_argument_handle_read_after_release :
    FunctionCallback callbackEngine echoHost 1 callFa2 world0 =
      Except.error (Fault.useAfterFree 1000 traceFa2Echo) ∧
    traceFa2Echo.count (Event.opDelete 1000) = 1 ∧
    traceFa2Echo.count (Event.removeExtraGCRootsTracer 1 Tracer.traceValue 1000) = 1 ∧
    (∀ (σ : Type) (E : Engine σ) (H : Host σ) (cx : JSContext) (args : CallArgs)
        (w : World σ) (ret : NativeReturn) (w' : World σ),
      FunctionCallback E H cx args w = Except.ok (ret, w') →
      ∀ (contextRef : Nat) (name : Buffer) (argc : Nat) (vp : List Value)
        (res : ResultGoFunctionCallback),
        Event.dispatch contextRef name argc vp res ∈ added w.log w'.log →
        (∀ v ∈ vp, (added w.log w'.log).count (Event.opDelete v.this) = 1) ∧
        registrations (constructionTraces vp) = deregistrations (destructionTraces vp)) := by
  refine ⟨by decide!, by decide!, by decide!, ?_⟩
  intro σ E H cx args w ret w' hrun contextRef name argc vp res hd
  obtain ⟨ctx, before, _, hvp, _, hlog, _, hbefore, _, hfresh⟩ :=
    FunctionCallback_dispatched E H cx args w ret w' hrun contextRef name argc vp res hd
  have hcount : ∀ v ∈ vp, (constructionTraces vp).count (Event.opNew v.this) = 1 ∧
      (destructionTraces vp).count (Event.opDelete v.this) = 1 := by
    intro v hv
    rw [hvp] at hv ⊢
    have hthis := argumentHandles_this ctx args.argv w.brk v hv
    rw [count_opNew_constructionTraces, count_opDelete_destructionTraces]
    simp [hthis]
  refine ⟨?_, (registrations_traces vp).1⟩
  intro v hv
  have hb : before.count (Event.opDelete v.this) = 0 := by
    rw [List.count_eq_zero]
    intro hmem
    have := hbefore _ hmem
    simp [isEngineCall] at this
  have hc : (constructionTraces vp).count (Event.opDelete v.this) = 0 := by
    clear hcount hlog hd hv hvp hfresh
    induction vp with
    | nil => simp [constructionTraces]
    | cons u rest ih =>
      simp only [constructionTraces, constructionTrace, List.count_append, ih, List.count_cons]
      cases u.ptr.isGCThing <;> simp [registrationOf]
  have he : (epilogueTrace cx res).count (Event.opDelete v.this) = 0 := by
    unfold epilogueTrace
    cases herr : res.err with
    | some err => simp
    | none =>
      cases hptr : res.ptr with
      | some h =>
        simp only [count_opDelete_destructionTrace]
        have := hfresh h herr hptr v hv
        simp [Ne.symm this]
      | none => simp
  rw [hlog]
  simp only [List.count_append, hb, hc, he, (hcount v hv).2]
  simp

/-- C8 (evaluation of the code).  When the dispatch answers the call `f(1, 2, 3)`
with the error string `hostError` together with the result handle
`hostHandle`, the trampoline returns false and leaves the world
`worldF123ErrorAndResult`, whose trace ends with the report and the release of
the error string and contains neither the release of the storage of
`hostHandle` nor the deregistration of its root: the handle the dispatch
returned survives the trampoline. -/
theorem C8_result_handle_survives_error :
    FunctionCallback callbackEngine errorAndResultHost 1 callF123 world0 =
        Except.ok ({ ok := false, rval := none }, worldF123ErrorAndResult) ∧
      worldF123ErrorAndResult.log.count (Event.opDelete hostHandle.this) = 0 ∧
      worldF123ErrorAndResult.log.count (Event.removeExtraGCRootsTracer hostHandle.ctx.ptr
        Tracer.traceValue hostHandle.this) = 0 ∧
      hostHandle.ptr.isGCThing = true := by
  refine ⟨by decide!, by decide!, by decide!, rfl⟩

/-- C9.  Every invocation of the trampoline ends with a trace, and in every
invocation in which the dispatch returned a non-null error string `e`, the
trampoline returns: it returns false without setting the call's return value;
the last two calls it makes are the report of `e` to the engine and then the
release of `e`; and the engine is left in the state that report produced. -/
theorem C9_dispatch_error_reported (E : Engine σ) (H : Host σ) (cx : JSContext)
    (args : CallArgs) (w : World σ) :
    ∃ trace, endsWith (FunctionCallback E H cx args w) trace ∧
      ∀ (contextRef : Nat) (name : Buffer) (argc : Nat) (vp : List Value)
        (res : ResultGoFunctionCallback) (e : Buffer),
        Event.dispatch contextRef name argc vp res ∈ added w.log trace →
        res.err = some e →
        ∃ w', FunctionCallback E H cx args w = Except.ok ({ ok := false, rval := none }, w') ∧
          w'.log = trace ∧
          (∃ before, added w.log trace =
            before ++ [Event.reportErrorUTF8 cx e.bytes, Event.free cx e.addr]) ∧
          (∃ s, w'.engine = E.JS_ReportErrorUTF8 cx e.bytes s) := by
  obtain ⟨trace, hends, hcase⟩ := FunctionCallback_ends E H cx args w
  refine ⟨trace, hends, ?_⟩
  intro contextRef name argc vp res e hd herr
  have hmem : Event.dispatch contextRef name argc vp res ∈
      (added w.log trace).filter isDispatch :=
    List.mem_filter.mpr ⟨hd, rfl⟩
  rcases hcase with ⟨_, _, _, hnil, _⟩ |
    ⟨contextRef', ctx, name', res', before, tail, _, hlog, hbefore, _, htail, hend⟩
  · rw [hnil] at hmem
    cases hmem
  · rw [hlog, filter_isDispatch_tail cx before _ _ _ _ _ _ _ _ hbefore htail] at hmem
    simp only [List.mem_singleton] at hmem
    injection hmem with e1 e2 e3 e4 e5
    subst e1 e2 e3 e4 e5
    rcases hend with ⟨ret, w', hrun, hw, htl, hret, hengine⟩ | ⟨h, _, _, hnone, _⟩
    · refine ⟨w', ?_, hw, ?_, hengine e herr⟩
      · rw [hrun, hret]
        simp [epilogueReturn, herr]
      · rw [hlog, htl]
        simp only [epilogueTrace, herr]
        exact ⟨_, rfl⟩
    · rw [hnone] at herr
      cases herr

/-- C9 (witness).  The call `f(1, 2, 3)` answered with the error string "boom":
the trampoline returns false, sets no return value, and the engine is in the
state the report of "boom" produced. -/
theorem C9_dispatch_error_witness :
    ∃ w', FunctionCallback callbackEngine errorHost 1 callF123 world0 =
        Except.ok ({ ok := false, rval := none }, w') ∧
      (∃ s, w'.engine = callbackEngine.JS_ReportErrorUTF8 1 hostError.bytes s) := by
  obtain ⟨trace, hends, hall⟩ :=
    C9_dispatch_error_reported callbackEngine errorHost 1 callF123 world0
  have hconc : FunctionCallback callbackEngine errorHost 1 callF123 world0 =
      Except.ok ({ ok := false, rval := none }, worldF123Error) := by
    decide!
  have ht : trace = worldF123Error.log := by
    rcases hends with ⟨a, w', hrun, hw⟩ | ⟨this, hrun⟩
    · rw [hconc] at hrun
      cases hrun
      exact hw.symm
    · rw [hconc] at hrun
      cases hrun
  have hd : Event.dispatch 7 nameF 3 handlesF123 { ptr := none, err := some hostError } ∈
      added world0.log trace := by
    rw [ht]
    decide!
  obtain ⟨w', h1, _, _, h3⟩ := hall _ _ _ _ _ hostError hd rfl
  exact ⟨w', h1, h3⟩

/-- C10 (evaluation of the code).  In the call `f(1, 2, 3)` the dispatch answers
without error with a result handle, the first argument handle it was given (at
address 1000).  The trampoline has deleted that handle, with the other
arguments, before it reads the result: the read of the result handle's value
leaves defined behaviour, so the call gets no return value and the trampoline
does not return true; the source would go on to delete the handle a second
time.  On every engine and host, an invocation that returns after a dispatch
without error returns true, with the value of the result handle, destroyed as
the last step and exactly once in the whole invocation, or with undefined when
no handle was produced. -/
theorem C10_result_handle_read_after_release :
    FunctionCallback callbackEngine echoHost 1 callF123 world0 =
      Except.error (Fault.useAfterFree 1000 traceF123Echo) ∧
    Event.dispatch 7 nameF 3 handlesF123
      { ptr := some { this := 1000, ctx := session7, ptr := JSValue.int32 1 }, err := none } ∈
        traceF123Echo ∧
    traceF123Echo.count (Event.opDelete 1000) = 1 ∧
    (∀ (σ : Type) (E : Engine σ) (H : Host σ) (cx : JSContext) (args : CallArgs)
        (w : World σ) (ret : NativeReturn) (w' : World σ),
      FunctionCallback E H cx args w = Except.ok (ret, w') →
      ∀ (contextRef : Nat) (name : Buffer) (argc : Nat) (vp : List Value)
        (res : ResultGoFunctionCallback),
        Event.dispatch contextRef name argc vp res ∈ added w.log w'.log →
        res.err = none →
        ret.ok = true ∧
        (∀ h, res.ptr = some h →
          ret.rval = some h.getJSValue ∧
          (∃ before, added w.log w'.log = before ++ destructionTrace h) ∧
          (added w.log w'.log).count (Event.opDelete h.this) = 1) ∧
        (res.ptr = none → ret.rval = some JSValue.undefined)) := by
  refine ⟨by decide!, by decide!, by decide!, ?_⟩
  intro σ E H cx args w ret w' hrun contextRef name argc vp res hd herr
  obtain ⟨ctx, before, _, hvp, _, hlog, hret, hbefore, _, hfresh'⟩ :=
    FunctionCallback_dispatched E H cx args w ret w' hrun contextRef name argc vp res hd
  refine ⟨?_, ?_, ?_⟩
  · rw [hret]
    cases hptr : res.ptr <;> simp [epilogueReturn, herr, hptr]
  · intro h hptr
    have hfresh : ∀ v ∈ vp, v.this ≠ h.this := hfresh' h herr hptr
    refine ⟨?_, ⟨before ++ constructionTraces vp ++
      [Event.dispatch contextRef name argc vp res] ++ destructionTraces vp ++
      [Event.free cx name.addr], ?_⟩, ?_⟩
    · rw [hret]
      simp [epilogueReturn, herr, hptr, Value.getJSValue]
    · rw [hlog]
      simp only [epilogueTrace, herr, hptr]
    · have hb : before.count (Event.opDelete h.this) = 0 := by
        rw [List.count_eq_zero]
        intro hmem
        have := hbefore _ hmem
        simp [isEngineCall] at this
      have hc : (constructionTraces vp).count (Event.opDelete h.this) = 0 := by
        clear hlog hd hvp hfresh hfresh'
        induction vp with
        | nil => simp [constructionTraces]
        | cons u rest ih =>
          simp only [constructionTraces, constructionTrace, List.count_append, ih,
            List.count_cons]
          cases u.ptr.isGCThing <;> simp [registrationOf]
      have hdl : (destructionTraces vp).count (Event.opDelete h.this) = 0 := by
        clear hlog hd hvp hc hfresh'
        induction vp with
        | nil => simp [destructionTraces]
        | cons u rest ih =>
          have h1 : u.this ≠ h.this := hfresh u (List.mem_cons_self _ _)
          have h2 := ih (fun v hv => hfresh v (List.mem_cons_of_mem _ hv))
          simp only [destructionTraces, List.count_append, count_opDelete_destructionTrace, h2]
          simp [h1]
      rw [hlog]
      simp only [List.count_append, hb, hc, hdl, epilogueTrace, herr, hptr,
        count_opDelete_destructionTrace]
      simp
  · intro hptr
    rw [hret]
    simp [epilogueReturn, herr, hptr]

/-! ### The boundary operations -/

theorem newScript_run (E : Engine σ) (ctx : Context) (script : Option JSScript) (w : World σ) :
    newScript E ctx script w =
      Except.ok (some { this := w.brk, ctx := ctx, ptr := script },
        afterNewScript E ctx script w) := by
  simp [newScript, operatorNew, bind, StateT.bind, Except.bind, Script_construct_run, pure,
    StateT.pure, Except.pure, afterNewScript]

theorem post_newValue (E : Engine σ) (ctx : Context) (v : JSValue) (w : World σ)
    (Q : Option Value → World σ → Prop) :
    post (newValue E ctx v) w Q ↔
      Q (some { this := w.brk, ctx := ctx, ptr := v }) (afterNewValue E ctx v w) := by
  simp [post, newValue_run]

theorem post_newScript (E : Engine σ) (ctx : Context) (v : Option JSScript) (w : World σ)
    (Q : Option Script → World σ → Prop) :
    post (newScript E ctx v) w Q ↔
      Q (some { this := w.brk, ctx := ctx, ptr := v }) (afterNewScript E ctx v w) := by
  simp [post, newScript_run]

theorem post_newStencil (st : Option JSStencil) (w : World σ)
    (Q : Option Stencil → World σ → Prop) :
    post (newStencil st) w Q ↔
      Q (some { this := w.brk, ptr := st })
        { w with brk := w.brk + 1,
                 log := w.log ++ [Event.opNew w.brk] ++ [Event.stencilAddRef st] } := by
  simp [post, newStencil, operatorNew, Stencil.construct, emit, bind, StateT.bind, Except.bind,
    pure, StateT.pure, Except.pure]

theorem settles_refl (E : Engine σ) (w : World σ) : settles E w w := Or.inl rfl

theorem settles_leave (E : Engine σ) (cx : JSContext) (w : World σ) :
    settles E w { w with engine := E.LeaveRealm cx w.engine,
                         log := w.log ++ [Event.engine "~JSAutoRealm" [cx]] } :=
  Or.inr ⟨cx, rfl⟩

theorem ValuePost_drain {E : Engine σ} {owner : Context} {cxs : List JSContext}
    {P : JSValue → Prop} {cx : JSContext} {w : World σ} (hmem : cx ∈ cxs) :
    post (GetError E cx) w
      (fun a w1 => ValuePost E owner cxs P { ok := false, err := a, ptr := none } w1) := by
  intro a w1 h
  exact ⟨fun _ => ⟨rfl, cx, hmem, w, w1, h, settles_refl E w1⟩, fun h => by cases h⟩

theorem ValuePost_drain_in {E : Engine σ} {owner : Context} {cxs : List JSContext}
    {P : JSValue → Prop} {cx cx' : JSContext} {w : World σ} (hmem : cx ∈ cxs) :
    post (GetError E cx) w
      (fun a w1 => afterLeave E cx' (ValuePost E owner cxs P)
        { ok := false, err := a, ptr := none } w1) := by
  intro a w1 h
  exact ⟨fun _ => ⟨rfl, cx, hmem, w, w1, h, settles_leave E cx' w1⟩, fun h => by cases h⟩

theorem ValuePost_new {E : Engine σ} {owner : Context} {cxs : List JSContext}
    {P : JSValue → Prop} {v : JSValue} {w : World σ} {n : Nat} (hn : n = w.brk) (hP : P v) :
    ValuePost E owner cxs P
      { ok := true, err := {}, ptr := some { this := n, ctx := owner, ptr := v } }
      (afterNewValue E owner v w) :=
  ⟨fun h => (by cases h),
    fun _ => ⟨_, rfl, rfl, hP, w, _, hn ▸ newValue_run E owner v w, settles_refl E _⟩⟩

theorem ValuePost_new_in {E : Engine σ} {owner : Context} {cxs : List JSContext}
    {P : JSValue → Prop} {v : JSValue} {cx' : JSContext} {w : World σ} {n : Nat}
    (hn : n = w.brk) (hP : P v) :
    afterLeave E cx' (ValuePost E owner cxs P)
      { ok := true, err := {}, ptr := some { this := n, ctx := owner, ptr := v } }
      (afterNewValue E owner v w) :=
  ⟨fun h => (by cases h),
    fun _ => ⟨_, rfl, rfl, hP, w, _, hn ▸ newValue_run E owner v w, settles_leave E cx' _⟩⟩

theorem ScriptPost_drain {E : Engine σ} {owner : Context} {cxs : List JSContext}
    {P : Option JSScript → Prop} {cx : JSContext} {w : World σ} (hmem : cx ∈ cxs) :
    post (GetError E cx) w
      (fun a w1 => ScriptPost E owner cxs P { ok := false, err := a, ptr := none } w1) := by
  intro a w1 h
  exact ⟨fun _ => ⟨rfl, cx, hmem, w, w1, h, settles_refl E w1⟩, fun h => by cases h⟩

theorem ScriptPost_drain_in {E : Engine σ} {owner : Context} {cxs : List JSContext}
    {P : Option JSScript → Prop} {cx cx' : JSContext} {w : World σ} (hmem : cx ∈ cxs) :
    post (GetError E cx) w
      (fun a w1 => afterLeave E cx' (ScriptPost E owner cxs P)
        { ok := false, err := a, ptr := none } w1) := by
  intro a w1 h
  exact ⟨fun _ => ⟨rfl, cx, hmem, w, w1, h, settles_leave E cx' w1⟩, fun h => by cases h⟩

theorem ScriptPost_new_in {E : Engine σ} {owner : Context} {cxs : List JSContext}
    {P : Option JSScript → Prop} {v : Option JSScript} {cx' : JSContext} {w : World σ}
    {n : Nat} (hn : n = w.brk) (hP : P v) :
    afterLeave E cx' (ScriptPost E owner cxs P)
      { ok := true, err := {}, ptr := some { this := n, ctx := owner, ptr := v } }
      (afterNewScript E owner v w) :=
  ⟨fun h => (by cases h),
    fun _ => ⟨_, rfl, rfl, hP, w, _, hn ▸ newScript_run E owner v w, settles_leave E cx' _⟩⟩

theorem PlainPost_drain {E : Engine σ} {cxs : List JSContext} {cx : JSContext} {w : World σ}
    (hmem : cx ∈ cxs) :
    post (GetError E cx) w (fun a w1 => PlainPost E cxs { ok := false, err := a } w1) := by
  intro a w1 h _
  exact ⟨cx, hmem, w, w1, h, settles_refl E w1⟩

theorem PlainPost_drain_in {E : Engine σ} {cxs : List JSContext} {cx cx' : JSContext}
    {w : World σ} (hmem : cx ∈ cxs) :
    post (GetError E cx) w
      (fun a w1 => afterLeave E cx' (PlainPost E cxs) { ok := false, err := a } w1) := by
  intro a w1 h _
  exact ⟨cx, hmem, w, w1, h, settles_leave E cx' w1⟩

theorem PlainPost_ok_in {E : Engine σ} {cxs : List JSContext} {cx' : JSContext} {e : Error}
    {w : World σ} : afterLeave E cx' (PlainPost E cxs) { ok := true, err := e } w :=
  fun h => by cases h

theorem BoolPost_drain {E : Engine σ} {cxs : List JSContext} {cx : JSContext} {w : World σ}
    (hmem : cx ∈ cxs) :
    post (GetError E cx) w
      (fun a w1 => BoolPost E cxs { ok := false, err := a, value := false } w1) := by
  intro a w1 h _
  exact ⟨rfl, cx, hmem, w, w1, h, settles_refl E w1⟩

theorem BoolPost_drain_in {E : Engine σ} {cxs : List JSContext} {cx cx' : JSContext}
    {w : World σ} (hmem : cx ∈ cxs) :
    post (GetError E cx) w
      (fun a w1 => afterLeave E cx' (BoolPost E cxs)
        { ok := false, err := a, value := false } w1) := by
  intro a w1 h _
  exact ⟨rfl, cx, hmem, w, w1, h, settles_leave E cx' w1⟩

theorem BoolPost_ok_in {E : Engine σ} {cxs : List JSContext} {cx' : JSContext} {e : Error}
    {b : Bool} {w : World σ} :
    afterLeave E cx' (BoolPost E cxs) { ok := true, err := e, value := b } w :=
  fun h => by cases h

theorem UInt32Post_drain {E : Engine σ} {cxs : List JSContext} {cx : JSContext} {w : World σ}
    (hmem : cx ∈ cxs) :
    post (GetError E cx) w
      (fun a w1 => UInt32Post E cxs { ok := false, err := a, value := 0 } w1) := by
  intro a w1 h _
  exact ⟨rfl, cx, hmem, w, w1, h, settles_refl E w1⟩

theorem UInt32Post_drain_in {E : Engine σ} {cxs : List JSContext} {cx cx' : JSContext}
    {w : World σ} (hmem : cx ∈ cxs) :
    post (GetError E cx) w
      (fun a w1 => afterLeave E cx' (UInt32Post E cxs)
        { ok := false, err := a, value := 0 } w1) := by
  intro a w1 h _
  exact ⟨rfl, cx, hmem, w, w1, h, settles_leave E cx' w1⟩

theorem UInt32Post_ok_in {E : Engine σ} {cxs : List JSContext} {cx' : JSContext} {e : Error}
    {n : Nat} {w : World σ} :
    afterLeave E cx' (UInt32Post E cxs) { ok := true, err := e, value := n } w :=
  fun h => by cases h

theorem StringPost_drain {E : Engine σ} {cxs : List JSContext} {G : Prop} {cx : JSContext}
    {w : World σ} (hmem : cx ∈ cxs) :
    post (GetError E cx) w
      (fun a w1 => StringPost E cxs G { ok := false, err := a, data := none, len := 0 } w1) := by
  intro a w1 h _
  exact ⟨rfl, rfl, Or.inl ⟨cx, hmem, w, w1, h, settles_refl E w1⟩⟩

theorem StringPost_drain_in {E : Engine σ} {cxs : List JSContext} {G : Prop}
    {cx cx' : JSContext} {w : World σ} (hmem : cx ∈ cxs) :
    post (GetError E cx) w
      (fun a w1 => afterLeave E cx' (StringPost E cxs G)
        { ok := false, err := a, data := none, len := 0 } w1) := by
  intro a w1 h _
  exact ⟨rfl, rfl, Or.inl ⟨cx, hmem, w, w1, h, settles_leave E cx' w1⟩⟩

theorem StringPost_ok_in {E : Engine σ} {cxs : List JSContext} {G : Prop} {cx' : JSContext}
    {e : Error} {d : Option Buffer} {n : Int} {w : World σ} :
    afterLeave E cx' (StringPost E cxs G) { ok := true, err := e, data := d, len := n } w :=
  fun h => by cases h

theorem StringPost_guard_in {E : Engine σ} {cxs : List JSContext} {G : Prop} {cx' : JSContext}
    {w : World σ} (hG : G) :
    afterLeave E cx' (StringPost E cxs G) { ok := false, err := {}, data := none, len := 0 } w :=
  fun _ => ⟨rfl, rfl, Or.inr ⟨hG, rfl⟩⟩

theorem StencilPost_fail {w : World σ} :
    StencilPost ({ ok := false, ptr := none } : ResultCompileStencil) w :=
  fun _ => rfl

theorem StencilPost_ok {s : Option Stencil} {w : World σ} :
    StencilPost ({ ok := true, ptr := s } : ResultCompileStencil) w :=
  fun h => by cases h

set_option linter.unusedTactic false
set_option linter.unreachableTactic false

theorem GetGlobalObject_post (E : Engine σ) (ctx : Context) (w : World σ) :
    post (Gomonkey.GetGlobalObject E ctx) w
      (ValuePost E ctx [ctx.getJSContext] (fun v => ∃ g, ctx.getGlobalJSObject = some g ∧ v = JSValue.object g)) := by
  unfold Gomonkey.GetGlobalObject
  repeat' (first
    | (simp only [post_bind, post_pure, post_call, post_run, post_JSAutoRealm,
        post_addressOfToObject, post_toStringPtr, post_setObject, post_copyArguments,
        post_fault, post_map, post_newValue, post_newScript, post_newStencil])
    | split)
  all_goals intros
  all_goals first
    | trivial
    | exact ValuePost_drain (by simp)
    | exact ValuePost_drain_in (by simp)
    | (refine ValuePost_new rfl ?_; exact ⟨_, by assumption, rfl⟩)
    | (refine ValuePost_new_in rfl ?_; exact ⟨_, by assumption, rfl⟩)

theorem DefineObject_post (E : Engine σ) (ctx : Context) (recv : Value) (name : String) (attrs : Nat) (w : World σ) :
    post (Gomonkey.DefineObject E ctx recv name attrs) w
      (ValuePost E ctx [ctx.getJSContext] (fun v => ∃ recvObject s o, (E.JS_DefineObject ctx.getJSContext recvObject name attrs s).1 = some o ∧ v = JSValue.object o)) := by
  unfold Gomonkey.DefineObject
  repeat' (first
    | (simp only [post_bind, post_pure, post_call, post_run, post_JSAutoRealm,
        post_addressOfToObject, post_toStringPtr, post_setObject, post_copyArguments,
        post_fault, post_map, post_newValue, post_newScript, post_newStencil])
    | split)
  all_goals intros
  all_goals first
    | trivial
    | exact ValuePost_drain (by simp)
    | exact ValuePost_drain_in (by simp)
    | (refine ValuePost_new rfl ?_; exact ⟨_, _, _, by assumption, rfl⟩)
    | (refine ValuePost_new_in rfl ?_; exact ⟨_, _, _, by assumption, rfl⟩)

theorem DefineProperty_post (E : Engine σ) (ctx : Context) (recv : Value) (name : String) (value : Value) (attrs : Nat) (w : World σ) :
    post (Gomonkey.DefineProperty E ctx recv name value attrs) w
      (PlainPost E [ctx.getJSContext]) := by
  unfold Gomonkey.DefineProperty
  repeat' (first
    | (simp only [post_bind, post_pure, post_call, post_run, post_JSAutoRealm,
        post_addressOfToObject, post_toStringPtr, post_setObject, post_copyArguments,
        post_fault, post_map, post_newValue, post_newScript, post_newStencil])
    | split)
  all_goals intros
  all_goals first
    | trivial
    | exact PlainPost_drain (by simp)
    | exact PlainPost_drain_in (by simp)
    | exact PlainPost_ok_in

theorem DefineElement_post (E : Engine σ) (ctx : Context) (recv : Value) (index : Nat) (value : Value) (attrs : Nat) (w : World σ) :
    post (Gomonkey.DefineElement E ctx recv index value attrs) w
      (PlainPost E [ctx.getJSContext]) := by
  unfold Gomonkey.DefineElement
  repeat' (first
    | (simp only [post_bind, post_pure, post_call, post_run, post_JSAutoRealm,
        post_addressOfToObject, post_toStringPtr, post_setObject, post_copyArguments,
        post_fault, post_map, post_newValue, post_newScript, post_newStencil])
    | split)
  all_goals intros
  all_goals first
    | trivial
    | exact PlainPost_drain (by simp)
    | exact PlainPost_drain_in (by simp)
    | exact PlainPost_ok_in

theorem DefineFunction_post (E : Engine σ) (ctx : Context) (recv : Value) (name : String) (nargs : Nat) (attrs : Nat) (w : World σ) :
    post (Gomonkey.DefineFunction E ctx recv name nargs attrs) w
      (PlainPost E [ctx.getJSContext]) := by
  unfold Gomonkey.DefineFunction
  repeat' (first
    | (simp only [post_bind, post_pure, post_call, post_run, post_JSAutoRealm,
        post_addressOfToObject, post_toStringPtr, post_setObject, post_copyArguments,
        post_fault, post_map, post_newValue, post_newScript, post_newStencil])
    | split)
  all_goals intros
  all_goals first
    | trivial
    | exact PlainPost_drain (by simp)
    | exact PlainPost_drain_in (by simp)
    | exact PlainPost_ok_in

theorem CallFunctionName_post (E : Engine σ) (ctx : Context) (name : String) (recv : Value) (argc : Int) (argv : List Value) (w : World σ) :
    post (Gomonkey.CallFunctionName E ctx name recv argc argv) w
      (ValuePost E ctx [ctx.getJSContext] (fun v => ∃ recvObject s, (E.JS_CallFunctionName ctx.getJSContext recvObject name ((argv.take argc.toNat).map Value.getJSValue) s).1 = some v)) := by
  unfold Gomonkey.CallFunctionName
  repeat' (first
    | (simp only [post_bind, post_pure, post_call, post_run, post_JSAutoRealm,
        post_addressOfToObject, post_toStringPtr, post_setObject, post_copyArguments,
        post_fault, post_map, post_newValue, post_newScript, post_newStencil])
    | split)
  all_goals intros
  all_goals first
    | trivial
    | exact ValuePost_drain (by simp)
    | exact ValuePost_drain_in (by simp)
    | (refine ValuePost_new rfl ?_; exact ⟨_, _, by assumption⟩)
    | (refine ValuePost_new_in rfl ?_; exact ⟨_, _, by assumption⟩)

theorem CallFunctionValue_post (E : Engine σ) (ctx : Context) (func : Value) (recv : Value) (argc : Int) (argv : List Value) (w : World σ) :
    post (Gomonkey.CallFunctionValue E ctx func recv argc argv) w
      (ValuePost E ctx [ctx.getJSContext] (fun v => ∃ recvObject s, (E.JS_CallFunctionValue ctx.getJSContext recvObject func.getJSValue ((argv.take argc.toNat).map Value.getJSValue) s).1 = some v)) := by
  unfold Gomonkey.CallFunctionValue
  repeat' (first
    | (simp only [post_bind, post_pure, post_call, post_run, post_JSAutoRealm,
        post_addressOfToObject, post_toStringPtr, post_setObject, post_copyArguments,
        post_fault, post_map, post_newValue, post_newScript, post_newStencil])
    | split)
  all_goals intros
  all_goals first
    | trivial
    | exact ValuePost_drain (by simp)
    | exact ValuePost_drain_in (by simp)
    | (refine ValuePost_new rfl ?_; exact ⟨_, _, by assumption⟩)
    | (refine ValuePost_new_in rfl ?_; exact ⟨_, _, by assumption⟩)

theorem Evaluate_post (E : Engine σ) (ctx : Context) (code : String) (w : World σ) :
    post (Gomonkey.Evaluate E ctx code) w
      (ValuePost E ctx [ctx.getJSContext] (fun v => ∃ s, (E.Evaluate ctx.getJSContext "" code s).1 = some v)) := by
  unfold Gomonkey.Evaluate
  repeat' (first
    | (simp only [post_bind, post_pure, post_call, post_run, post_JSAutoRealm,
        post_addressOfToObject, post_toStringPtr, post_setObject, post_copyArguments,
        post_fault, post_map, post_newValue, post_newScript, post_newStencil])
    | split)
  all_goals intros
  all_goals first
    | trivial
    | exact ValuePost_drain (by simp)
    | exact ValuePost_drain_in (by simp)
    | (refine ValuePost_new rfl ?_; exact ⟨_, by assumption⟩)
    | (refine ValuePost_new_in rfl ?_; exact ⟨_, by assumption⟩)

theorem CompileScript_post (E : Engine σ) (ctx : Context) (filename : String) (code : String) (w : World σ) :
    post (Gomonkey.CompileScript E ctx filename code) w
      (ScriptPost E ctx [ctx.getJSContext] (fun v => ∃ s rscript, (E.Compile ctx.getJSContext filename code s).1 = some rscript ∧ v = some rscript)) := by
  unfold Gomonkey.CompileScript
  repeat' (first
    | (simp only [post_bind, post_pure, post_call, post_run, post_JSAutoRealm,
        post_addressOfToObject, post_toStringPtr, post_setObject, post_copyArguments,
        post_fault, post_map, post_newValue, post_newScript, post_newStencil])
    | split)
  all_goals intros
  all_goals first
    | trivial
    | exact ScriptPost_drain (by simp)
    | exact ScriptPost_drain_in (by simp)
    | (refine ScriptPost_new_in rfl ?_; exact ⟨_, _, by assumption, rfl⟩)

theorem ExecuteScript_post (E : Engine σ) (ctx : Context) (script : Script) (w : World σ) :
    post (Gomonkey.ExecuteScript E ctx script) w
      (ValuePost E script.getContext [ctx.getJSContext, script.getContext.getJSContext] (fun v => ∃ rscript s, script.getJSScript = some rscript ∧ (E.JS_ExecuteScript ctx.getJSContext rscript s).1 = some v)) := by
  unfold Gomonkey.ExecuteScript
  repeat' (first
    | (simp only [post_bind, post_pure, post_call, post_run, post_JSAutoRealm,
        post_addressOfToObject, post_toStringPtr, post_setObject, post_copyArguments,
        post_fault, post_map, post_newValue, post_newScript, post_newStencil])
    | split)
  all_goals intros
  all_goals first
    | trivial
    | exact ValuePost_drain (by simp)
    | exact ValuePost_drain_in (by simp)
    | (refine ValuePost_new rfl ?_; exact ⟨_, _, by assumption, by assumption⟩)
    | (refine ValuePost_new_in rfl ?_; exact ⟨_, _, by assumption, by assumption⟩)

theorem ExecuteScriptFromStencil_post (E : Engine σ) (ctx : Context) (stencil : Stencil) (w : World σ) :
    post (Gomonkey.ExecuteScriptFromStencil E ctx stencil) w
      (ValuePost E ctx [ctx.getJSContext] (fun v => ∃ script s, (E.JS_ExecuteScript ctx.getJSContext script s).1 = some v)) := by
  unfold Gomonkey.ExecuteScriptFromStencil
  repeat' (first
    | (simp only [post_bind, post_pure, post_call, post_run, post_JSAutoRealm,
        post_addressOfToObject, post_toStringPtr, post_setObject, post_copyArguments,
        post_fault, post_map, post_newValue, post_newScript, post_newStencil])
    | split)
  all_goals intros
  all_goals first
    | trivial
    | exact ValuePost_drain (by simp)
    | exact ValuePost_drain_in (by simp)
    | (refine ValuePost_new rfl ?_; exact ⟨_, _, by assumption⟩)
    | (refine ValuePost_new_in rfl ?_; exact ⟨_, _, by assumption⟩)

theorem CompileScriptToStencil_post (E : Engine σ) (ctx : FrontendContext) (filename : String) (code : String) (w : World σ) :
    post (Gomonkey.CompileScriptToStencil E ctx filename code) w
      StencilPost := by
  unfold Gomonkey.CompileScriptToStencil
  repeat' (first
    | (simp only [post_bind, post_pure, post_call, post_run, post_JSAutoRealm,
        post_addressOfToObject, post_toStringPtr, post_setObject, post_copyArguments,
        post_fault, post_map, post_newValue, post_newScript, post_newStencil])
    | split)
  all_goals intros
  all_goals first
    | exact StencilPost_fail
    | exact StencilPost_ok

theorem NewValueUndefined_post (E : Engine σ) (ctx : Context) (w : World σ) :
    post (Gomonkey.NewValueUndefined E ctx) w
      (ValuePost E ctx [ctx.getJSContext] (fun v => v = JSValue.undefined)) := by
  unfold Gomonkey.NewValueUndefined
  repeat' (first
    | (simp only [post_bind, post_pure, post_call, post_run, post_JSAutoRealm,
        post_addressOfToObject, post_toStringPtr, post_setObject, post_copyArguments,
        post_fault, post_map, post_newValue, post_newScript, post_newStencil])
    | split)
  all_goals intros
  all_goals first
    | trivial
    | exact ValuePost_drain (by simp)
    | exact ValuePost_drain_in (by simp)
    | (refine ValuePost_new rfl ?_; exact rfl)
    | (refine ValuePost_new_in rfl ?_; exact rfl)

theorem NewValueNull_post (E : Engine σ) (ctx : Context) (w : World σ) :
    post (Gomonkey.NewValueNull E ctx) w
      (ValuePost E ctx [ctx.getJSContext] (fun v => v = JSValue.null)) := by
  unfold Gomonkey.NewValueNull
  repeat' (first
    | (simp only [post_bind, post_pure, post_call, post_run, post_JSAutoRealm,
        post_addressOfToObject, post_toStringPtr, post_setObject, post_copyArguments,
        post_fault, post_map, post_newValue, post_newScript, post_newStencil])
    | split)
  all_goals intros
  all_goals first
    | trivial
    | exact ValuePost_drain (by simp)
    | exact ValuePost_drain_in (by simp)
    | (refine ValuePost_new rfl ?_; exact rfl)
    | (refine ValuePost_new_in rfl ?_; exact rfl)

theorem NewValueString_post (E : Engine σ) (ctx : Context) (str : List Nat) (len : Int) (w : World σ) :
    post (Gomonkey.NewValueString E ctx str len) w
      (ValuePost E ctx [ctx.getJSContext] (fun v => ∃ s js, (E.JS_NewStringCopyN ctx.getJSContext str len s).1 = some js ∧ v = JSValue.string js)) := by
  unfold Gomonkey.NewValueString
  repeat' (first
    | (simp only [post_bind, post_pure, post_call, post_run, post_JSAutoRealm,
        post_addressOfToObject, post_toStringPtr, post_setObject, post_copyArguments,
        post_fault, post_map, post_newValue, post_newScript, post_newStencil])
    | split)
  all_goals intros
  all_goals first
    | trivial
    | exact ValuePost_drain (by simp)
    | exact ValuePost_drain_in (by simp)
    | (refine ValuePost_new rfl ?_; exact ⟨_, _, by assumption, rfl⟩)
    | (refine ValuePost_new_in rfl ?_; exact ⟨_, _, by assumption, rfl⟩)

theorem NewValueBoolean_post (E : Engine σ) (ctx : Context) (b : Bool) (w : World σ) :
    post (Gomonkey.NewValueBoolean E ctx b) w
      (ValuePost E ctx [ctx.getJSContext] (fun v => v = JSValue.boolean b)) := by
  unfold Gomonkey.NewValueBoolean
  repeat' (first
    | (simp only [post_bind, post_pure, post_call, post_run, post_JSAutoRealm,
        post_addressOfToObject, post_toStringPtr, post_setObject, post_copyArguments,
        post_fault, post_map, post_newValue, post_newScript, post_newStencil])
    | split)
  all_goals intros
  all_goals first
    | trivial
    | exact ValuePost_drain (by simp)
    | exact ValuePost_drain_in (by simp)
    | (refine ValuePost_new rfl ?_; exact rfl)
    | (refine ValuePost_new_in rfl ?_; exact rfl)

theorem NewValueNumber_post (E : Engine σ) (ctx : Context) (d : Nat) (w : World σ) :
    post (Gomonkey.NewValueNumber E ctx d) w
      (ValuePost E ctx [ctx.getJSContext] (fun v => v = setNumber d)) := by
  unfold Gomonkey.NewValueNumber
  repeat' (first
    | (simp only [post_bind, post_pure, post_call, post_run, post_JSAutoRealm,
        post_addressOfToObject, post_toStringPtr, post_setObject, post_copyArguments,
        post_fault, post_map, post_newValue, post_newScript, post_newStencil])
    | split)
  all_goals intros
  all_goals first
    | trivial
    | exact ValuePost_drain (by simp)
    | exact ValuePost_drain_in (by simp)
    | (refine ValuePost_new rfl ?_; exact rfl)
    | (refine ValuePost_new_in rfl ?_; exact rfl)

theorem NewValueInt32_post (E : Engine σ) (ctx : Context) (i : Int) (w : World σ) :
    post (Gomonkey.NewValueInt32 E ctx i) w
      (ValuePost E ctx [ctx.getJSContext] (fun v => v = JSValue.int32 i)) := by
  unfold Gomonkey.NewValueInt32
  repeat' (first
    | (simp only [post_bind, post_pure, post_call, post_run, post_JSAutoRealm,
        post_addressOfToObject, post_toStringPtr, post_setObject, post_copyArguments,
        post_fault, post_map, post_newValue, post_newScript, post_newStencil])
    | split)
  all_goals intros
  all_goals first
    | trivial
    | exact ValuePost_drain (by simp)
    | exact ValuePost_drain_in (by simp)
    | (refine ValuePost_new rfl ?_; exact rfl)
    | (refine ValuePost_new_in rfl ?_; exact rfl)

theorem ToString_post (E : Engine σ) (value : Value) (w : World σ) :
    post (Gomonkey.ToString E value) w
      (StringPost E [value.getContext.getJSContext] False) := by
  unfold Gomonkey.ToString
  repeat' (first
    | (simp only [post_bind, post_pure, post_call, post_run, post_JSAutoRealm,
        post_addressOfToObject, post_toStringPtr, post_setObject, post_copyArguments,
        post_fault, post_map, post_newValue, post_newScript, post_newStencil])
    | split)
  all_goals intros
  all_goals first
    | trivial
    | exact StringPost_drain (by simp)
    | exact StringPost_drain_in (by simp)
    | exact StringPost_ok_in
    | exact StringPost_guard_in ⟨by simp_all, by simp_all⟩

theorem ValueToString_post (E : Engine σ) (value : Value) (w : World σ) :
    post (Gomonkey.ValueToString E value) w
      (StringPost E [value.getContext.getJSContext] (value.getJSValue.isString = false ∧ value.getContext.getGlobalJSObject ≠ none)) := by
  unfold Gomonkey.ValueToString
  repeat' (first
    | (simp only [post_bind, post_pure, post_call, post_run, post_JSAutoRealm,
        post_addressOfToObject, post_toStringPtr, post_setObject, post_copyArguments,
        post_fault, post_map, post_newValue, post_newScript, post_newStencil])
    | split)
  all_goals intros
  all_goals first
    | trivial
    | exact StringPost_drain (by simp)
    | exact StringPost_drain_in (by simp)
    | exact StringPost_ok_in
    | exact StringPost_guard_in ⟨by simp_all, by simp_all⟩

theorem NewPlainObject_post (E : Engine σ) (ctx : Context) (w : World σ) :
    post (Gomonkey.NewPlainObject E ctx) w
      (ValuePost E ctx [ctx.getJSContext] (fun v => ∃ s o, (E.JS_NewPlainObject ctx.getJSContext s).1 = some o ∧ v = JSValue.object o)) := by
  unfold Gomonkey.NewPlainObject
  repeat' (first
    | (simp only [post_bind, post_pure, post_call, post_run, post_JSAutoRealm,
        post_addressOfToObject, post_toStringPtr, post_setObject, post_copyArguments,
        post_fault, post_map, post_newValue, post_newScript, post_newStencil])
    | split)
  all_goals intros
  all_goals first
    | trivial
    | exact ValuePost_drain (by simp)
    | exact ValuePost_drain_in (by simp)
    | (refine ValuePost_new rfl ?_; exact ⟨_, _, by assumption, rfl⟩)
    | (refine ValuePost_new_in rfl ?_; exact ⟨_, _, by assumption, rfl⟩)

theorem ObjectHasProperty_post (E : Engine σ) (object : Value) (key : String) (w : World σ) :
    post (Gomonkey.ObjectHasProperty E object key) w
      (BoolPost E [object.getContext.getJSContext]) := by
  unfold Gomonkey.ObjectHasProperty
  repeat' (first
    | (simp only [post_bind, post_pure, post_call, post_run, post_JSAutoRealm,
        post_addressOfToObject, post_toStringPtr, post_setObject, post_copyArguments,
        post_fault, post_map, post_newValue, post_newScript, post_newStencil])
    | split)
  all_goals intros
  all_goals first
    | trivial
    | exact BoolPost_drain (by simp)
    | exact BoolPost_drain_in (by simp)
    | exact BoolPost_ok_in

theorem ObjectGetProperty_post (E : Engine σ) (object : Value) (key : String) (w : World σ) :
    post (Gomonkey.ObjectGetProperty E object key) w
      (ValuePost E object.getContext [object.getContext.getJSContext] (fun v => ∃ obj s, object.getJSValue = JSValue.object obj ∧ (E.JS_GetProperty object.getContext.getJSContext obj key s).1 = some v)) := by
  unfold Gomonkey.ObjectGetProperty
  repeat' (first
    | (simp only [post_bind, post_pure, post_call, post_run, post_JSAutoRealm,
        post_addressOfToObject, post_toStringPtr, post_setObject, post_copyArguments,
        post_fault, post_map, post_newValue, post_newScript, post_newStencil])
    | split)
  all_goals intros
  all_goals first
    | trivial
    | exact ValuePost_drain (by simp)
    | exact ValuePost_drain_in (by simp)
    | (refine ValuePost_new rfl ?_; exact ⟨_, _, by assumption, by assumption⟩)
    | (refine ValuePost_new_in rfl ?_; exact ⟨_, _, by assumption, by assumption⟩)

theorem ObjectSetProperty_post (E : Engine σ) (object : Value) (key : String) (value : Value) (w : World σ) :
    post (Gomonkey.ObjectSetProperty E object key value) w
      (PlainPost E [object.getContext.getJSContext]) := by
  unfold Gomonkey.ObjectSetProperty
  repeat' (first
    | (simp only [post_bind, post_pure, post_call, post_run, post_JSAutoRealm,
        post_addressOfToObject, post_toStringPtr, post_setObject, post_copyArguments,
        post_fault, post_map, post_newValue, post_newScript, post_newStencil])
    | split)
  all_goals intros
  all_goals first
    | trivial
    | exact PlainPost_drain (by simp)
    | exact PlainPost_drain_in (by simp)
    | exact PlainPost_ok_in

theorem ObjectDeleteProperty_post (E : Engine σ) (object : Value) (key : String) (w : World σ) :
    post (Gomonkey.ObjectDeleteProperty E object key) w
      (PlainPost E [object.getContext.getJSContext]) := by
  unfold Gomonkey.ObjectDeleteProperty
  repeat' (first
    | (simp only [post_bind, post_pure, post_call, post_run, post_JSAutoRealm,
        post_addressOfToObject, post_toStringPtr, post_setObject, post_copyArguments,
        post_fault, post_map, post_newValue, post_newScript, post_newStencil])
    | split)
  all_goals intros
  all_goals first
    | trivial
    | exact PlainPost_drain (by simp)
    | exact PlainPost_drain_in (by simp)
    | exact PlainPost_ok_in

theorem ObjectHasElement_post (E : Engine σ) (object : Value) (index : Nat) (w : World σ) :
    post (Gomonkey.ObjectHasElement E object index) w
      (BoolPost E [object.getContext.getJSContext]) := by
  unfold Gomonkey.ObjectHasElement
  repeat' (first
    | (simp only [post_bind, post_pure, post_call, post_run, post_JSAutoRealm,
        post_addressOfToObject, post_toStringPtr, post_setObject, post_copyArguments,
        post_fault, post_map, post_newValue, post_newScript, post_newStencil])
    | split)
  all_goals intros
  all_goals first
    | trivial
    | exact BoolPost_drain (by simp)
    | exact BoolPost_drain_in (by simp)
    | exact BoolPost_ok_in

theorem ObjectGetElement_post (E : Engine σ) (object : Value) (index : Nat) (w : World σ) :
    post (Gomonkey.ObjectGetElement E object index) w
      (ValuePost E object.getContext [object.getContext.getJSContext] (fun v => ∃ obj s, object.getJSValue = JSValue.object obj ∧ (E.JS_GetElement object.getContext.getJSContext obj index s).1 = some v)) := by
  unfold Gomonkey.ObjectGetElement
  repeat' (first
    | (simp only [post_bind, post_pure, post_call, post_run, post_JSAutoRealm,
        post_addressOfToObject, post_toStringPtr, post_setObject, post_copyArguments,
        post_fault, post_map, post_newValue, post_newScript, post_newStencil])
    | split)
  all_goals intros
  all_goals first
    | trivial
    | exact ValuePost_drain (by simp)
    | exact ValuePost_drain_in (by simp)
    | (refine ValuePost_new rfl ?_; exact ⟨_, _, by assumption, by assumption⟩)
    | (refine ValuePost_new_in rfl ?_; exact ⟨_, _, by assumption, by assumption⟩)

theorem ObjectSetElement_post (E : Engine σ) (object : Value) (index : Nat) (value : Value) (w : World σ) :
    post (Gomonkey.ObjectSetElement E object index value) w
      (PlainPost E [object.getContext.getJSContext]) := by
  unfold Gomonkey.ObjectSetElement
  repeat' (first
    | (simp only [post_bind, post_pure, post_call, post_run, post_JSAutoRealm,
        post_addressOfToObject, post_toStringPtr, post_setObject, post_copyArguments,
        post_fault, post_map, post_newValue, post_newScript, post_newStencil])
    | split)
  all_goals intros
  all_goals first
    | trivial
    | exact PlainPost_drain (by simp)
    | exact PlainPost_drain_in (by simp)
    | exact PlainPost_ok_in

theorem ObjectDeleteElement_post (E : Engine σ) (object : Value) (index : Nat) (w : World σ) :
    post (Gomonkey.ObjectDeleteElement E object index) w
      (PlainPost E [object.getContext.getJSContext]) := by
  unfold Gomonkey.ObjectDeleteElement
  repeat' (first
    | (simp only [post_bind, post_pure, post_call, post_run, post_JSAutoRealm,
        post_addressOfToObject, post_toStringPtr, post_setObject, post_copyArguments,
        post_fault, post_map, post_newValue, post_newScript, post_newStencil])
    | split)
  all_goals intros
  all_goals first
    | trivial
    | exact PlainPost_drain (by simp)
    | exact PlainPost_drain_in (by simp)
    | exact PlainPost_ok_in

theorem NewFunction_post (E : Engine σ) (ctx : Context) (name : String) (w : World σ) :
    post (Gomonkey.NewFunction E ctx name) w
      (ValuePost E ctx [ctx.getJSContext] (fun v => ∃ s func o, (E.JS_NewFunction ctx.getJSContext name s).1 = some func ∧ E.JS_GetFunctionObject func = some o ∧ v = JSValue.object o)) := by
  unfold Gomonkey.NewFunction
  repeat' (first
    | (simp only [post_bind, post_pure, post_call, post_run, post_JSAutoRealm,
        post_addressOfToObject, post_toStringPtr, post_setObject, post_copyArguments,
        post_fault, post_map, post_newValue, post_newScript, post_newStencil])
    | split)
  all_goals intros
  all_goals first
    | trivial
    | exact ValuePost_drain (by simp)
    | exact ValuePost_drain_in (by simp)
    | (refine ValuePost_new rfl ?_; exact ⟨_, _, _, by assumption, by assumption, rfl⟩)
    | (refine ValuePost_new_in rfl ?_; exact ⟨_, _, _, by assumption, by assumption, rfl⟩)

theorem NewArrayObject_post (E : Engine σ) (ctx : Context) (argc : Int) (argv : List Value) (w : World σ) :
    post (Gomonkey.NewArrayObject E ctx argc argv) w
      (ValuePost E ctx [ctx.getJSContext] (fun v => ∃ s o, (E.NewArrayObject ctx.getJSContext ((argv.take argc.toNat).map Value.getJSValue) s).1 = some o ∧ v = JSValue.object o)) := by
  unfold Gomonkey.NewArrayObject
  repeat' (first
    | (simp only [post_bind, post_pure, post_call, post_run, post_JSAutoRealm,
        post_addressOfToObject, post_toStringPtr, post_setObject, post_copyArguments,
        post_fault, post_map, post_newValue, post_newScript, post_newStencil])
    | split)
  all_goals intros
  all_goals first
    | trivial
    | exact ValuePost_drain (by simp)
    | exact ValuePost_drain_in (by simp)
    | (refine ValuePost_new rfl ?_; exact ⟨_, _, by assumption, rfl⟩)
    | (refine ValuePost_new_in rfl ?_; exact ⟨_, _, by assumption, rfl⟩)

theorem GetArrayObjectLength_post (E : Engine σ) (array : Value) (w : World σ) :
    post (Gomonkey.GetArrayObjectLength E array) w
      (UInt32Post E [array.getContext.getJSContext]) := by
  unfold Gomonkey.GetArrayObjectLength
  repeat' (first
    | (simp only [post_bind, post_pure, post_call, post_run, post_JSAutoRealm,
        post_addressOfToObject, post_toStringPtr, post_setObject, post_copyArguments,
        post_fault, post_map, post_newValue, post_newScript, post_newStencil])
    | split)
  all_goals intros
  all_goals first
    | trivial
    | exact UInt32Post_drain (by simp)
    | exact UInt32Post_drain_in (by simp)
    | exact UInt32Post_ok_in

theorem NewMapObject_post (E : Engine σ) (ctx : Context) (w : World σ) :
    post (Gomonkey.NewMapObject E ctx) w
      (ValuePost E ctx [ctx.getJSContext] (fun v => ∃ s o, (E.NewMapObject ctx.getJSContext s).1 = some o ∧ v = JSValue.object o)) := by
  unfold Gomonkey.NewMapObject
  repeat' (first
    | (simp only [post_bind, post_pure, post_call, post_run, post_JSAutoRealm,
        post_addressOfToObject, post_toStringPtr, post_setObject, post_copyArguments,
        post_fault, post_map, post_newValue, post_newScript, post_newStencil])
    | split)
  all_goals intros
  all_goals first
    | trivial
    | exact ValuePost_drain (by simp)
    | exact ValuePost_drain_in (by simp)
    | (refine ValuePost_new rfl ?_; exact ⟨_, _, by assumption, rfl⟩)
    | (refine ValuePost_new_in rfl ?_; exact ⟨_, _, by assumption, rfl⟩)

theorem MapObjectSize_post (E : Engine σ) (map : Value) (w : World σ) :
    post (Gomonkey.MapObjectSize E map) w
      (UInt32Post E [map.getContext.getJSContext]) := by
  unfold Gomonkey.MapObjectSize
  repeat' (first
    | (simp only [post_bind, post_pure, post_call, post_run, post_JSAutoRealm,
        post_addressOfToObject, post_toStringPtr, post_setObject, post_copyArguments,
        post_fault, post_map, post_newValue, post_newScript, post_newStencil])
    | split)
  all_goals intros
  all_goals first
    | trivial
    | exact UInt32Post_drain (by simp)
    | exact UInt32Post_drain_in (by simp)
    | exact UInt32Post_ok_in

theorem MapObjectHas_post (E : Engine σ) (map : Value) (key : Value) (w : World σ) :
    post (Gomonkey.MapObjectHas E map key) w
      (BoolPost E [map.getContext.getJSContext]) := by
  unfold Gomonkey.MapObjectHas
  repeat' (first
    | (simp only [post_bind, post_pure, post_call, post_run, post_JSAutoRealm,
        post_addressOfToObject, post_toStringPtr, post_setObject, post_copyArguments,
        post_fault, post_map, post_newValue, post_newScript, post_newStencil])
    | split)
  all_goals intros
  all_goals first
    | trivial
    | exact BoolPost_drain (by simp)
    | exact BoolPost_drain_in (by simp)
    | exact BoolPost_ok_in

theorem MapObjectGet_post (E : Engine σ) (map : Value) (key : Value) (w : World σ) :
    post (Gomonkey.MapObjectGet E map key) w
      (ValuePost E map.getContext [map.getContext.getJSContext] (fun v => ∃ obj s, map.getJSValue = JSValue.object obj ∧ (E.MapGet map.getContext.getJSContext obj key.getJSValue s).1 = some v)) := by
  unfold Gomonkey.MapObjectGet
  repeat' (first
    | (simp only [post_bind, post_pure, post_call, post_run, post_JSAutoRealm,
        post_addressOfToObject, post_toStringPtr, post_setObject, post_copyArguments,
        post_fault, post_map, post_newValue, post_newScript, post_newStencil])
    | split)
  all_goals intros
  all_goals first
    | trivial
    | exact ValuePost_drain (by simp)
    | exact ValuePost_drain_in (by simp)
    | (refine ValuePost_new rfl ?_; exact ⟨_, _, by assumption, by assumption⟩)
    | (refine ValuePost_new_in rfl ?_; exact ⟨_, _, by assumption, by assumption⟩)

theorem MapObjectSet_post (E : Engine σ) (map : Value) (key : Value) (val : Value) (w : World σ) :
    post (Gomonkey.MapObjectSet E map key val) w
      (PlainPost E [map.getContext.getJSContext]) := by
  unfold Gomonkey.MapObjectSet
  repeat' (first
    | (simp only [post_bind, post_pure, post_call, post_run, post_JSAutoRealm,
        post_addressOfToObject, post_toStringPtr, post_setObject, post_copyArguments,
        post_fault, post_map, post_newValue, post_newScript, post_newStencil])
    | split)
  all_goals intros
  all_goals first
    | trivial
    | exact PlainPost_drain (by simp)
    | exact PlainPost_drain_in (by simp)
    | exact PlainPost_ok_in

theorem MapObjectDelete_post (E : Engine σ) (map : Value) (key : Value) (w : World σ) :
    post (Gomonkey.MapObjectDelete E map key) w
      (BoolPost E [map.getContext.getJSContext]) := by
  unfold Gomonkey.MapObjectDelete
  repeat' (first
    | (simp only [post_bind, post_pure, post_call, post_run, post_JSAutoRealm,
        post_addressOfToObject, post_toStringPtr, post_setObject, post_copyArguments,
        post_fault, post_map, post_newValue, post_newScript, post_newStencil])
    | split)
  all_goals intros
  all_goals first
    | trivial
    | exact BoolPost_drain (by simp)
    | exact BoolPost_drain_in (by simp)
    | exact BoolPost_ok_in

theorem MapObjectClear_post (E : Engine σ) (map : Value) (w : World σ) :
    post (Gomonkey.MapObjectClear E map) w
      (PlainPost E [map.getContext.getJSContext]) := by
  unfold Gomonkey.MapObjectClear
  repeat' (first
    | (simp only [post_bind, post_pure, post_call, post_run, post_JSAutoRealm,
        post_addressOfToObject, post_toStringPtr, post_setObject, post_copyArguments,
        post_fault, post_map, post_newValue, post_newScript, post_newStencil])
    | split)
  all_goals intros
  all_goals first
    | trivial
    | exact PlainPost_drain (by simp)
    | exact PlainPost_drain_in (by simp)
    | exact PlainPost_ok_in

theorem MapObjectKeys_post (E : Engine σ) (map : Value) (w : World σ) :
    post (Gomonkey.MapObjectKeys E map) w
      (ValuePost E map.getContext [map.getContext.getJSContext] (fun v => ∃ obj s, map.getJSValue = JSValue.object obj ∧ (E.MapKeys map.getContext.getJSContext obj s).1 = some v)) := by
  unfold Gomonkey.MapObjectKeys
  repeat' (first
    | (simp only [post_bind, post_pure, post_call, post_run, post_JSAutoRealm,
        post_addressOfToObject, post_toStringPtr, post_setObject, post_copyArguments,
        post_fault, post_map, post_newValue, post_newScript, post_newStencil])
    | split)
  all_goals intros
  all_goals first
    | trivial
    | exact ValuePost_drain (by simp)
    | exact ValuePost_drain_in (by simp)
    | (refine ValuePost_new rfl ?_; exact ⟨_, _, by assumption, by assumption⟩)
    | (refine ValuePost_new_in rfl ?_; exact ⟨_, _, by assumption, by assumption⟩)

theorem MapObjectValues_post (E : Engine σ) (map : Value) (w : World σ) :
    post (Gomonkey.MapObjectValues E map) w
      (ValuePost E map.getContext [map.getContext.getJSContext] (fun v => ∃ obj s, map.getJSValue = JSValue.object obj ∧ (E.MapValues map.getContext.getJSContext obj s).1 = some v)) := by
  unfold Gomonkey.MapObjectValues
  repeat' (first
    | (simp only [post_bind, post_pure, post_call, post_run, post_JSAutoRealm,
        post_addressOfToObject, post_toStringPtr, post_setObject, post_copyArguments,
        post_fault, post_map, post_newValue, post_newScript, post_newStencil])
    | split)
  all_goals intros
  all_goals first
    | trivial
    | exact ValuePost_drain (by simp)
    | exact ValuePost_drain_in (by simp)
    | (refine ValuePost_new rfl ?_; exact ⟨_, _, by assumption, by assumption⟩)
    | (refine ValuePost_new_in rfl ?_; exact ⟨_, _, by assumption, by assumption⟩)

theorem MapObjectEntries_post (E : Engine σ) (map : Value) (w : World σ) :
    post (Gomonkey.MapObjectEntries E map) w
      (ValuePost E map.getContext [map.getContext.getJSContext] (fun v => ∃ obj s, map.getJSValue = JSValue.object obj ∧ (E.MapEntries map.getContext.getJSContext obj s).1 = some v)) := by
  unfold Gomonkey.MapObjectEntries
  repeat' (first
    | (simp only [post_bind, post_pure, post_call, post_run, post_JSAutoRealm,
        post_addressOfToObject, post_toStringPtr, post_setObject, post_copyArguments,
        post_fault, post_map, post_newValue, post_newScript, post_newStencil])
    | split)
  all_goals intros
  all_goals first
    | trivial
    | exact ValuePost_drain (by simp)
    | exact ValuePost_drain_in (by simp)
    | (refine ValuePost_new rfl ?_; exact ⟨_, _, by assumption, by assumption⟩)
    | (refine ValuePost_new_in rfl ?_; exact ⟨_, _, by assumption, by assumption⟩)

theorem NewSetObject_post (E : Engine σ) (ctx : Context) (w : World σ) :
    post (Gomonkey.NewSetObject E ctx) w
      (ValuePost E ctx [ctx.getJSContext] (fun v => ∃ s o, (E.NewSetObject ctx.getJSContext s).1 = some o ∧ v = JSValue.object o)) := by
  unfold Gomonkey.NewSetObject
  repeat' (first
    | (simp only [post_bind, post_pure, post_call, post_run, post_JSAutoRealm,
        post_addressOfToObject, post_toStringPtr, post_setObject, post_copyArguments,
        post_fault, post_map, post_newValue, post_newScript, post_newStencil])
    | split)
  all_goals intros
  all_goals first
    | trivial
    | exact ValuePost_drain (by simp)
    | exact ValuePost_drain_in (by simp)
    | (refine ValuePost_new rfl ?_; exact ⟨_, _, by assumption, rfl⟩)
    | (refine ValuePost_new_in rfl ?_; exact ⟨_, _, by assumption, rfl⟩)

theorem SetObjectSize_post (E : Engine σ) (set : Value) (w : World σ) :
    post (Gomonkey.SetObjectSize E set) w
      (UInt32Post E [set.getContext.getJSContext]) := by
  unfold Gomonkey.SetObjectSize
  repeat' (first
    | (simp only [post_bind, post_pure, post_call, post_run, post_JSAutoRealm,
        post_addressOfToObject, post_toStringPtr, post_setObject, post_copyArguments,
        post_fault, post_map, post_newValue, post_newScript, post_newStencil])
    | split)
  all_goals intros
  all_goals first
    | trivial
    | exact UInt32Post_drain (by simp)
    | exact UInt32Post_drain_in (by simp)
    | exact UInt32Post_ok_in

theorem SetObjectHas_post (E : Engine σ) (set : Value) (key : Value) (w : World σ) :
    post (Gomonkey.SetObjectHas E set key) w
      (BoolPost E [set.getContext.getJSContext]) := by
  unfold Gomonkey.SetObjectHas
  repeat' (first
    | (simp only [post_bind, post_pure, post_call, post_run, post_JSAutoRealm,
        post_addressOfToObject, post_toStringPtr, post_setObject, post_copyArguments,
        post_fault, post_map, post_newValue, post_newScript, post_newStencil])
    | split)
  all_goals intros
  all_goals first
    | trivial
    | exact BoolPost_drain (by simp)
    | exact BoolPost_drain_in (by simp)
    | exact BoolPost_ok_in

theorem SetObjectAdd_post (E : Engine σ) (set : Value) (val : Value) (w : World σ) :
    post (Gomonkey.SetObjectAdd E set val) w
      (PlainPost E [set.getContext.getJSContext]) := by
  unfold Gomonkey.SetObjectAdd
  repeat' (first
    | (simp only [post_bind, post_pure, post_call, post_run, post_JSAutoRealm,
        post_addressOfToObject, post_toStringPtr, post_setObject, post_copyArguments,
        post_fault, post_map, post_newValue, post_newScript, post_newStencil])
    | split)
  all_goals intros
  all_goals first
    | trivial
    | exact PlainPost_drain (by simp)
    | exact PlainPost_drain_in (by simp)
    | exact PlainPost_ok_in

theorem SetObjectDelete_post (E : Engine σ) (set : Value) (key : Value) (w : World σ) :
    post (Gomonkey.SetObjectDelete E set key) w
      (BoolPost E [set.getContext.getJSContext]) := by
  unfold Gomonkey.SetObjectDelete
  repeat' (first
    | (simp only [post_bind, post_pure, post_call, post_run, post_JSAutoRealm,
        post_addressOfToObject, post_toStringPtr, post_setObject, post_copyArguments,
        post_fault, post_map, post_newValue, post_newScript, post_newStencil])
    | split)
  all_goals intros
  all_goals first
    | trivial
    | exact BoolPost_drain (by simp)
    | exact BoolPost_drain_in (by simp)
    | exact BoolPost_ok_in

theorem SetObjectClear_post (E : Engine σ) (set : Value) (w : World σ) :
    post (Gomonkey.SetObjectClear E set) w
      (PlainPost E [set.getContext.getJSContext]) := by
  unfold Gomonkey.SetObjectClear
  repeat' (first
    | (simp only [post_bind, post_pure, post_call, post_run, post_JSAutoRealm,
        post_addressOfToObject, post_toStringPtr, post_setObject, post_copyArguments,
        post_fault, post_map, post_newValue, post_newScript, post_newStencil])
    | split)
  all_goals intros
  all_goals first
    | trivial
    | exact PlainPost_drain (by simp)
    | exact PlainPost_drain_in (by simp)
    | exact PlainPost_ok_in

theorem SetObjectKeys_post (E : Engine σ) (set : Value) (w : World σ) :
    post (Gomonkey.SetObjectKeys E set) w
      (ValuePost E set.getContext [set.getContext.getJSContext] (fun v => ∃ obj s, set.getJSValue = JSValue.object obj ∧ (E.SetKeys set.getContext.getJSContext obj s).1 = some v)) := by
  unfold Gomonkey.SetObjectKeys
  repeat' (first
    | (simp only [post_bind, post_pure, post_call, post_run, post_JSAutoRealm,
        post_addressOfToObject, post_toStringPtr, post_setObject, post_copyArguments,
        post_fault, post_map, post_newValue, post_newScript, post_newStencil])
    | split)
  all_goals intros
  all_goals first
    | trivial
    | exact ValuePost_drain (by simp)
    | exact ValuePost_drain_in (by simp)
    | (refine ValuePost_new rfl ?_; exact ⟨_, _, by assumption, by assumption⟩)
    | (refine ValuePost_new_in rfl ?_; exact ⟨_, _, by assumption, by assumption⟩)

theorem SetObjectValues_post (E : Engine σ) (set : Value) (w : World σ) :
    post (Gomonkey.SetObjectValues E set) w
      (ValuePost E set.getContext [set.getContext.getJSContext] (fun v => ∃ obj s, set.getJSValue = JSValue.object obj ∧ (E.SetValues set.getContext.getJSContext obj s).1 = some v)) := by
  unfold Gomonkey.SetObjectValues
  repeat' (first
    | (simp only [post_bind, post_pure, post_call, post_run, post_JSAutoRealm,
        post_addressOfToObject, post_toStringPtr, post_setObject, post_copyArguments,
        post_fault, post_map, post_newValue, post_newScript, post_newStencil])
    | split)
  all_goals intros
  all_goals first
    | trivial
    | exact ValuePost_drain (by simp)
    | exact ValuePost_drain_in (by simp)
    | (refine ValuePost_new rfl ?_; exact ⟨_, _, by assumption, by assumption⟩)
    | (refine ValuePost_new_in rfl ?_; exact ⟨_, _, by assumption, by assumption⟩)

theorem SetObjectEntries_post (E : Engine σ) (set : Value) (w : World σ) :
    post (Gomonkey.SetObjectEntries E set) w
      (ValuePost E set.getContext [set.getContext.getJSContext] (fun v => ∃ obj s, set.getJSValue = JSValue.object obj ∧ (E.SetEntries set.getContext.getJSContext obj s).1 = some v)) := by
  unfold Gomonkey.SetObjectEntries
  repeat' (first
    | (simp only [post_bind, post_pure, post_call, post_run, post_JSAutoRealm,
        post_addressOfToObject, post_toStringPtr, post_setObject, post_copyArguments,
        post_fault, post_map, post_newValue, post_newScript, post_newStencil])
    | split)
  all_goals intros
  all_goals first
    | trivial
    | exact ValuePost_drain (by simp)
    | exact ValuePost_drain_in (by simp)
    | (refine ValuePost_new rfl ?_; exact ⟨_, _, by assumption, by assumption⟩)
    | (refine ValuePost_new_in rfl ?_; exact ⟨_, _, by assumption, by assumption⟩)

theorem JSONParse_post (E : Engine σ) (ctx : Context) (data : String) (w : World σ) :
    post (Gomonkey.JSONParse E ctx data) w
      (ValuePost E ctx [ctx.getJSContext] (fun v => ∃ str s, (E.JS_ParseJSON ctx.getJSContext str s).1 = some v)) := by
  unfold Gomonkey.JSONParse
  repeat' (first
    | (simp only [post_bind, post_pure, post_call, post_run, post_JSAutoRealm,
        post_addressOfToObject, post_toStringPtr, post_setObject, post_copyArguments,
        post_fault, post_map, post_newValue, post_newScript, post_newStencil])
    | split)
  all_goals intros
  all_goals first
    | trivial
    | exact ValuePost_drain (by simp)
    | exact ValuePost_drain_in (by simp)
    | (refine ValuePost_new rfl ?_; exact ⟨_, _, by assumption⟩)
    | (refine ValuePost_new_in rfl ?_; exact ⟨_, _, by assumption⟩)

theorem JSONStringify_post (E : Engine σ) (ctx : Context) (value : Value) (w : World σ) :
    post (Gomonkey.JSONStringify E ctx value) w
      (StringPost E [ctx.getJSContext, value.getContext.getJSContext] False) := by
  unfold Gomonkey.JSONStringify
  repeat' (first
    | (simp only [post_bind, post_pure, post_call, post_run, post_JSAutoRealm,
        post_addressOfToObject, post_toStringPtr, post_setObject, post_copyArguments,
        post_fault, post_map, post_newValue, post_newScript, post_newStencil])
    | split)
  all_goals intros
  all_goals first
    | trivial
    | exact StringPost_drain (by simp)
    | exact StringPost_drain_in (by simp)
    | exact StringPost_ok_in
    | exact StringPost_guard_in ⟨by simp_all, by simp_all⟩

set_option linter.unusedTactic true
set_option linter.unreachableTactic true

theorem perform_post (E : Engine σ) (op : Operation) (w : World σ) :
    post (op.perform E) w (op.Post E) := by
  cases op with
  | GetGlobalObject ctx =>
    simp only [Operation.perform, post_map]
    exact post_mono _ _ _ _ (GetGlobalObject_post E ctx w) (fun _ _ h => ⟨_, rfl, h⟩)
  | DefineObject ctx recv name attrs =>
    simp only [Operation.perform, post_map]
    exact post_mono _ _ _ _ (DefineObject_post E ctx recv name attrs w) (fun _ _ h => ⟨_, rfl, h⟩)
  | DefineProperty ctx recv name value attrs =>
    simp only [Operation.perform, post_map]
    exact post_mono _ _ _ _ (DefineProperty_post E ctx recv name value attrs w) (fun _ _ h => h)
  | DefineElement ctx recv index value attrs =>
    simp only [Operation.perform, post_map]
    exact post_mono _ _ _ _ (DefineElement_post E ctx recv index value attrs w) (fun _ _ h => h)
  | DefineFunction ctx recv name nargs attrs =>
    simp only [Operation.perform, post_map]
    exact post_mono _ _ _ _ (DefineFunction_post E ctx recv name nargs attrs w) (fun _ _ h => h)
  | CallFunctionName ctx name recv argc argv =>
    simp only [Operation.perform, post_map]
    exact post_mono _ _ _ _ (CallFunctionName_post E ctx name recv argc argv w) (fun _ _ h => ⟨_, rfl, h⟩)
  | CallFunctionValue ctx func recv argc argv =>
    simp only [Operation.perform, post_map]
    exact post_mono _ _ _ _ (CallFunctionValue_post E ctx func recv argc argv w) (fun _ _ h => ⟨_, rfl, h⟩)
  | Evaluate ctx code =>
    simp only [Operation.perform, post_map]
    exact post_mono _ _ _ _ (Evaluate_post E ctx code w) (fun _ _ h => ⟨_, rfl, h⟩)
  | CompileScript ctx filename code =>
    simp only [Operation.perform, post_map]
    exact post_mono _ _ _ _ (CompileScript_post E ctx filename code w) (fun _ _ h => ⟨_, rfl, h⟩)
  | ExecuteScript ctx script =>
    simp only [Operation.perform, post_map]
    exact post_mono _ _ _ _ (ExecuteScript_post E ctx script w) (fun _ _ h => ⟨_, rfl, h⟩)
  | ExecuteScriptFromStencil ctx stencil =>
    simp only [Operation.perform, post_map]
    exact post_mono _ _ _ _ (ExecuteScriptFromStencil_post E ctx stencil w) (fun _ _ h => ⟨_, rfl, h⟩)
  | CompileScriptToStencil ctx filename code =>
    simp only [Operation.perform, post_map]
    exact post_mono _ _ _ _ (CompileScriptToStencil_post E ctx filename code w) (fun _ _ h => h)
  | NewValueUndefined ctx =>
    simp only [Operation.perform, post_map]
    exact post_mono _ _ _ _ (NewValueUndefined_post E ctx w) (fun _ _ h => ⟨_, rfl, h⟩)
  | NewValueNull ctx =>
    simp only [Operation.perform, post_map]
    exact post_mono _ _ _ _ (NewValueNull_post E ctx w) (fun _ _ h => ⟨_, rfl, h⟩)
  | NewValueString ctx str len =>
    simp only [Operation.perform, post_map]
    exact post_mono _ _ _ _ (NewValueString_post E ctx str len w) (fun _ _ h => ⟨_, rfl, h⟩)
  | NewValueBoolean ctx b =>
    simp only [Operation.perform, post_map]
    exact post_mono _ _ _ _ (NewValueBoolean_post E ctx b w) (fun _ _ h => ⟨_, rfl, h⟩)
  | NewValueNumber ctx d =>
    simp only [Operation.perform, post_map]
    exact post_mono _ _ _ _ (NewValueNumber_post E ctx d w) (fun _ _ h => ⟨_, rfl, h⟩)
  | NewValueInt32 ctx i =>
    simp only [Operation.perform, post_map]
    exact post_mono _ _ _ _ (NewValueInt32_post E ctx i w) (fun _ _ h => ⟨_, rfl, h⟩)
  | ToString value =>
    simp only [Operation.perform, post_map]
    exact post_mono _ _ _ _ (ToString_post E value w) (fun _ _ h => h)
  | ValueToString value =>
    simp only [Operation.perform, post_map]
    exact post_mono _ _ _ _ (ValueToString_post E value w) (fun _ _ h => h)
  | NewPlainObject ctx =>
    simp only [Operation.perform, post_map]
    exact post_mono _ _ _ _ (NewPlainObject_post E ctx w) (fun _ _ h => ⟨_, rfl, h⟩)
  | ObjectHasProperty object key =>
    simp only [Operation.perform, post_map]
    exact post_mono _ _ _ _ (ObjectHasProperty_post E object key w) (fun _ _ h => h)
  | ObjectGetProperty object key =>
    simp only [Operation.perform, post_map]
    exact post_mono _ _ _ _ (ObjectGetProperty_post E object key w) (fun _ _ h => ⟨_, rfl, h⟩)
  | ObjectSetProperty object key value =>
    simp only [Operation.perform, post_map]
    exact post_mono _ _ _ _ (ObjectSetProperty_post E object key value w) (fun _ _ h => h)
  | ObjectDeleteProperty object key =>
    simp only [Operation.perform, post_map]
    exact post_mono _ _ _ _ (ObjectDeleteProperty_post E object key w) (fun _ _ h => h)
  | ObjectHasElement object index =>
    simp only [Operation.perform, post_map]
    exact post_mono _ _ _ _ (ObjectHasElement_post E object index w) (fun _ _ h => h)
  | ObjectGetElement object index =>
    simp only [Operation.perform, post_map]
    exact post_mono _ _ _ _ (ObjectGetElement_post E object index w) (fun _ _ h => ⟨_, rfl, h⟩)
  | ObjectSetElement object index value =>
    simp only [Operation.perform, post_map]
    exact post_mono _ _ _ _ (ObjectSetElement_post E object index value w) (fun _ _ h => h)
  | ObjectDeleteElement object index =>
    simp only [Operation.perform, post_map]
    exact post_mono _ _ _ _ (ObjectDeleteElement_post E object index w) (fun _ _ h => h)
  | NewFunction ctx name =>
    simp only [Operation.perform, post_map]
    exact post_mono _ _ _ _ (NewFunction_post E ctx name w) (fun _ _ h => ⟨_, rfl, h⟩)
  | NewArrayObject ctx argc argv =>
    simp only [Operation.perform, post_map]
    exact post_mono _ _ _ _ (NewArrayObject_post E ctx argc argv w) (fun _ _ h => ⟨_, rfl, h⟩)
  | GetArrayObjectLength array =>
    simp only [Operation.perform, post_map]
    exact post_mono _ _ _ _ (GetArrayObjectLength_post E array w) (fun _ _ h => h)
  | NewMapObject ctx =>
    simp only [Operation.perform, post_map]
    exact post_mono _ _ _ _ (NewMapObject_post E ctx w) (fun _ _ h => ⟨_, rfl, h⟩)
  | MapObjectSize map =>
    simp only [Operation.perform, post_map]
    exact post_mono _ _ _ _ (MapObjectSize_post E map w) (fun _ _ h => h)
  | MapObjectHas map key =>
    simp only [Operation.perform, post_map]
    exact post_mono _ _ _ _ (MapObjectHas_post E map key w) (fun _ _ h => h)
  | MapObjectGet map key =>
    simp only [Operation.perform, post_map]
    exact post_mono _ _ _ _ (MapObjectGet_post E map key w) (fun _ _ h => ⟨_, rfl, h⟩)
  | MapObjectSet map key val =>
    simp only [Operation.perform, post_map]
    exact post_mono _ _ _ _ (MapObjectSet_post E map key val w) (fun _ _ h => h)
  | MapObjectDelete map key =>
    simp only [Operation.perform, post_map]
    exact post_mono _ _ _ _ (MapObjectDelete_post E map key w) (fun _ _ h => h)
  | MapObjectClear map =>
    simp only [Operation.perform, post_map]
    exact post_mono _ _ _ _ (MapObjectClear_post E map w) (fun _ _ h => h)
  | MapObjectKeys map =>
    simp only [Operation.perform, post_map]
    exact post_mono _ _ _ _ (MapObjectKeys_post E map w) (fun _ _ h => ⟨_, rfl, h⟩)
  | MapObjectValues map =>
    simp only [Operation.perform, post_map]
    exact post_mono _ _ _ _ (MapObjectValues_post E map w) (fun _ _ h => ⟨_, rfl, h⟩)
  | MapObjectEntries map =>
    simp only [Operation.perform, post_map]
    exact post_mono _ _ _ _ (MapObjectEntries_post E map w) (fun _ _ h => ⟨_, rfl, h⟩)
  | NewSetObject ctx =>
    simp only [Operation.perform, post_map]
    exact post_mono _ _ _ _ (NewSetObject_post E ctx w) (fun _ _ h => ⟨_, rfl, h⟩)
  | SetObjectSize set =>
    simp only [Operation.perform, post_map]
    exact post_mono _ _ _ _ (SetObjectSize_post E set w) (fun _ _ h => h)
  | SetObjectHas set key =>
    simp only [Operation.perform, post_map]
    exact post_mono _ _ _ _ (SetObjectHas_post E set key w) (fun _ _ h => h)
  | SetObjectAdd set val =>
    simp only [Operation.perform, post_map]
    exact post_mono _ _ _ _ (SetObjectAdd_post E set val w) (fun _ _ h => h)
  | SetObjectDelete set key =>
    simp only [Operation.perform, post_map]
    exact post_mono _ _ _ _ (SetObjectDelete_post E set key w) (fun _ _ h => h)
  | SetObjectClear set =>
    simp only [Operation.perform, post_map]
    exact post_mono _ _ _ _ (SetObjectClear_post E set w) (fun _ _ h => h)
  | SetObjectKeys set =>
    simp only [Operation.perform, post_map]
    exact post_mono _ _ _ _ (SetObjectKeys_post E set w) (fun _ _ h => ⟨_, rfl, h⟩)
  | SetObjectValues set =>
    simp only [Operation.perform, post_map]
    exact post_mono _ _ _ _ (SetObjectValues_post E set w) (fun _ _ h => ⟨_, rfl, h⟩)
  | SetObjectEntries set =>
    simp only [Operation.perform, post_map]
    exact post_mono _ _ _ _ (SetObjectEntries_post E set w) (fun _ _ h => ⟨_, rfl, h⟩)
  | JSONParse ctx data =>
    simp only [Operation.perform, post_map]
    exact post_mono _ _ _ _ (JSONParse_post E ctx data w) (fun _ _ h => ⟨_, rfl, h⟩)
  | JSONStringify ctx value =>
    simp only [Operation.perform, post_map]
    exact post_mono _ _ _ _ (JSONStringify_post E ctx value w) (fun _ _ h => h)

theorem GetError_logs (E : Engine σ) (cx : JSContext) (w : World σ) :
    post (GetError E cx) w
      (fun _ w2 => Event.engine "StealPendingExceptionStack" [cx] ∈ w2.log) := by
  unfold GetError
  repeat' (first
    | (simp only [post_bind, post_pure, post_call])
    | split)
  all_goals simp

theorem Drained_logs {E : Engine σ} {cxs : List JSContext} {err : Error} {w' : World σ}
    (h : Drained E cxs err w') :
    ∃ cx ∈ cxs, Event.engine "StealPendingExceptionStack" [cx] ∈ w'.log := by
  obtain ⟨cx, hcx, w1, w2, hget, hset⟩ := h
  refine ⟨cx, hcx, ?_⟩
  have hlog := GetError_logs E cx w1 err w2 hget
  rcases hset with rfl | ⟨cx', hleave⟩
  · exact hlog
  · simp only [run, Except.ok.injEq, Prod.mk.injEq, true_and] at hleave
    rw [← hleave]
    simp [hlog]

/-- C3: whenever a boundary operation returns an envelope whose `ok` flag is
false, the payload of the envelope is unset: `ptr` is null, `data` is null and
`len` is 0, `value` is false or 0.  This holds for every operation, every
argument and every engine. -/
theorem C3_failure_leaves_payload_unset (E : Engine σ) (op : Operation) (w w' : World σ)
    (env : Envelope) (hrun : op.perform E w = Except.ok (env, w'))
    (hfail : env.ok = false) : env.payloadUnset := by
  have h := perform_post E op w env w' hrun
  cases env with
  | plain r => trivial
  | bool r => exact (h hfail).1
  | uint32 r => exact (h hfail).1
  | value r =>
    obtain ⟨_, _, h⟩ := h
    exact (h.1 hfail).1
  | string r => exact ⟨(h hfail).1, (h hfail).2.1⟩
  | script r =>
    obtain ⟨_, _, h⟩ := h
    exact (h.1 hfail).1
  | stencil r => exact h hfail

/-- Witness of C3: `Evaluate` on an engine that rejects the source returns a
failing envelope, and its `ptr` is null. -/
theorem C3_failure_payload_witness :
    (Operation.Evaluate session7 "f(").perform rejectingEngine world0 =
        Except.ok (Envelope.value { ok := false, err := syntaxError, ptr := none },
          worldEvaluateRejected) ∧
      (Envelope.value { ok := false, err := syntaxError, ptr := none }).payloadUnset :=
  ⟨by decide!,
    C3_failure_leaves_payload_unset rejectingEngine (Operation.Evaluate session7 "f(") world0
      worldEvaluateRejected (Envelope.value { ok := false, err := syntaxError, ptr := none })
      (by decide!) (by decide!)⟩

/-- C4, amended: whenever a boundary operation returns an envelope with an
`err` member and `ok` false, and the return is not the type guard of
`ValueToString` on a non-string Value, `err` is what `GetError` returned on an
engine context of the operation (the context of the Session it is invoked on;
for `ExecuteScript` and `JSONStringify` possibly the context of the Session of
the handle passed), and that drain was the last step before the return. -/
theorem C4_failure_error_is_drained (E : Engine σ) (op : Operation) (w w' : World σ)
    (env : Envelope) (err : Error) (hrun : op.perform E w = Except.ok (env, w'))
    (hfail : env.ok = false) (herr : env.err = some err) (hguard : ¬ op.isStringGuard) :
    Drained E op.contexts err w' := by
  have h := perform_post E op w env w' hrun
  cases env with
  | plain r =>
    cases herr
    exact h hfail
  | bool r =>
    cases herr
    exact (h hfail).2
  | uint32 r =>
    cases herr
    exact (h hfail).2
  | value r =>
    cases herr
    obtain ⟨_, _, h⟩ := h
    exact (h.1 hfail).2
  | string r =>
    cases herr
    rcases (h hfail).2.2 with hd | ⟨hg, _⟩
    · exact hd
    · exact absurd hg hguard
  | script r =>
    cases herr
    obtain ⟨_, _, h⟩ := h
    exact (h.1 hfail).2
  | stencil r => cases herr

/-- Witness of C4: `CompileScript` on an engine that rejects the source returns
the drained syntax error. -/
theorem C4_failure_error_witness :
    (Operation.CompileScript session7 "job.js" "f(").perform rejectingEngine world0 =
        Except.ok (Envelope.script { ok := false, err := syntaxError, ptr := none },
          worldCompileRejected) ∧
      Drained rejectingEngine [1] syntaxError worldCompileRejected :=
  ⟨by decide!,
    C4_failure_error_is_drained rejectingEngine
      (Operation.CompileScript session7 "job.js" "f(") world0 worldCompileRejected
      (Envelope.script { ok := false, err := syntaxError, ptr := none }) syntaxError
      (by decide!) (by decide!) (by decide!) (fun h => h)⟩

/-- Counterexample to C4 as stated: `ValueToString` on a Value wrapping the
number 5, while a failure is pending, returns `ok = false` with an all-zero
`err`; `GetError` on the Session's context would have returned the pending
syntax error, the failure is still pending afterwards, and no drain is in the
trace. -/
theorem C4_counterexample_string_guard_skips_drain :
    (Operation.ValueToString numberHandle).perform idleEngine worldPending =
        Except.ok (Envelope.string { ok := false, err := {}, data := none, len := 0 },
          worldGuardReturned) ∧
      GetError idleEngine numberHandle.getContext.getJSContext worldPending =
        Except.ok (syntaxError, worldDrained) ∧
      syntaxError ≠ ({} : Error) ∧
      worldGuardReturned.engine = worldPending.engine ∧
      worldGuardReturned.engine.pending = some syntaxFailure ∧
      ¬ Drained idleEngine (Operation.ValueToString numberHandle).contexts {}
        worldGuardReturned := by
  refine ⟨by decide!, by decide!, by decide!, by decide!, by decide!, ?_⟩
  intro h
  obtain ⟨cx, hcx, hlog⟩ := Drained_logs h
  have hcx1 : cx = 1 := by
    simpa [Operation.contexts, numberHandle, session7, Value.getContext,
      Context.getJSContext] using hcx
  subst hcx1
  revert hlog
  decide!

/-- C5, amended: whenever an operation returning `ResultValue` or
`ResultCompileScript` returns `ok = true`, `ptr` is a non-null handle that
`new Value` (`new Script`) constructed as the last step of the call, it wraps
the engine value (script) the engine produced for this call, and its owning
Session is the Session the operation was invoked on, except for `ExecuteScript`,
where it is the Session recorded in the script handle. -/
theorem C5_success_returns_fresh_handle (E : Engine σ) (op : Operation) (w w' : World σ)
    (env : Envelope) (hrun : op.perform E w = Except.ok (env, w')) (hok : env.ok = true) :
    (∀ r, env = Envelope.value r →
      ∃ h owner, r.ptr = some h ∧ op.owner = some owner ∧ h.getContext = owner ∧
        op.produces E h.getJSValue ∧ ConstructedValue E h w') ∧
    (∀ r, env = Envelope.script r →
      ∃ h owner, r.ptr = some h ∧ op.owner = some owner ∧ h.getContext = owner ∧
        op.producesScript E h.getJSScript ∧ ConstructedScript E h w') ∧
    ((∀ ctx script, op ≠ Operation.ExecuteScript ctx script) → op.owner = op.session) ∧
    (∀ ctx script, op = Operation.ExecuteScript ctx script →
      op.owner = some script.getContext) := by
  have h := perform_post E op w env w' hrun
  refine ⟨?_, ?_, ?_, ?_⟩
  · rintro r rfl
    obtain ⟨owner, hown, h⟩ := h
    obtain ⟨hd, hptr, hctx, hP, hnew⟩ := h.2 hok
    exact ⟨hd, owner, hptr, hown, hctx, hP, hnew⟩
  · rintro r rfl
    obtain ⟨owner, hown, h⟩ := h
    obtain ⟨hd, hptr, hctx, hP, hnew⟩ := h.2 hok
    exact ⟨hd, owner, hptr, hown, hctx, hP, hnew⟩
  · intro hne
    cases op <;> first | rfl | exact absurd rfl (hne _ _)
  · rintro ctx script rfl
    rfl

/-- Witness of C5: `NewValueInt32` returns a fresh handle of the Session it was
invoked on that wraps the number. -/
theorem C5_success_handle_witness :
    (Operation.NewValueInt32 session7 5).perform idleEngine world0 =
        Except.ok (Envelope.value { ok := true, err := {}, ptr := some handleFive },
          worldFive) ∧
      ∃ h owner, some handleFive = some h ∧
        (Operation.NewValueInt32 session7 5).owner = some owner ∧ h.getContext = owner ∧
        (Operation.NewValueInt32 session7 5).produces idleEngine h.getJSValue ∧
        ConstructedValue idleEngine h worldFive :=
  ⟨by decide!,
    (C5_success_returns_fresh_handle idleEngine (Operation.NewValueInt32 session7 5) world0
      worldFive (Envelope.value { ok := true, err := {}, ptr := some handleFive })
      (by decide!) (by decide!)).1 _ rfl⟩

/-- Counterexample to C5 as stated: `ExecuteScript` invoked on the Session of
ref 7 with a script compiled against the Session of ref 8 returns `ok = true`
with a handle whose owning Session is the Session of ref 8, not the one the
operation was invoked on. -/
theorem C5_counterexample_execute_script_owner :
    (Operation.ExecuteScript session7 scriptOf8).perform runningEngine world0 =
        Except.ok (Envelope.value { ok := true, err := {}, ptr := some handleOf8 },
          worldScriptRun) ∧
      (Operation.ExecuteScript session7 scriptOf8).session = some session7 ∧
      handleOf8.getContext = session8 ∧
      handleOf8.getContext ≠ session7 := by
  refine ⟨by decide!, rfl, rfl, by decide!⟩

theorem DestroyContext_log (E : Engine σ) (ctx : Context) (w : World σ) :
    ∃ w', DestroyContext E ctx w = Except.ok ((), w') ∧
      w'.log = w.log ++ ([Event.engine "JS_DestroyContext" [ctx.ptr]] ++
        deregistrationOf (Context.slot E ctx (E.JS_DestroyContext ctx.ptr w.engine)).isSome
          ctx.ptr Tracer.traceGlobal ctx.this ++
        [Event.opDelete ctx.this]) := by
  have h2 : ∃ w1, DestroyContext E ctx w = Except.ok ((), w1) := by
    simp [DestroyContext, deleteContext, bind, StateT.bind, Except.bind, run,
      Context_destruct_run, operatorDelete, emit]
  obtain ⟨w1, h1⟩ := h2
  refine ⟨w1, h1, ?_⟩
  simp only [DestroyContext, deleteContext, bind, StateT.bind, Except.bind, run,
    Context_destruct_run, operatorDelete, emit, afterDeregistration,
    Context.getJSContext] at h1
  injection h1 with h1
  injection h1 with _ h1
  rw [← h1]
  simp

theorem DestroyContext_run (E : Engine σ) (ctx : Context) (w : World σ) :
    ∃ w', DestroyContext E ctx w = Except.ok ((), w') ∧
      added w.log w'.log = [Event.engine "JS_DestroyContext" [ctx.ptr]] ++
        deregistrationOf (Context.slot E ctx (E.JS_DestroyContext ctx.ptr w.engine)).isSome
          ctx.ptr Tracer.traceGlobal ctx.this ++
        [Event.opDelete ctx.this] := by
  obtain ⟨w', hrun, hlog⟩ := DestroyContext_log E ctx w
  exact ⟨w', hrun, by rw [hlog]; exact added_append _ _⟩

/-- C2, amended.  For every Session, `DestroyContext` first destroys the
engine-native context; then the destructor of the Session runs, which
deregisters the global-object root tracer exactly when the global slot is still
set after that destruction; the storage of the handle is released last.  So no
deregistration precedes the destruction of the engine context, and when the
destruction has emptied the slot there is no deregistration at all. -/
theorem C2_destruction_precedes_any_deregistration (E : Engine σ) (ctx : Context)
    (w : World σ) :
    ∃ w', DestroyContext E ctx w = Except.ok ((), w') ∧
      added w.log w'.log = [Event.engine "JS_DestroyContext" [ctx.getJSContext]] ++
        deregistrationOf (Context.slot E ctx (E.JS_DestroyContext ctx.ptr w.engine)).isSome
          ctx.getJSContext Tracer.traceGlobal ctx.this ++
        [Event.opDelete ctx.this] ∧
      (added w.log w'.log).head? = some (Event.engine "JS_DestroyContext" [ctx.getJSContext]) ∧
      (E.edgeCleared ctx.getJSContext Tracer.traceGlobal ctx.this
          (E.JS_DestroyContext ctx.getJSContext w.engine) = true →
        added w.log w'.log =
          [Event.engine "JS_DestroyContext" [ctx.getJSContext], Event.opDelete ctx.this]) ∧
      (E.edgeCleared ctx.getJSContext Tracer.traceGlobal ctx.this
          (E.JS_DestroyContext ctx.getJSContext w.engine) = false →
        ctx.getGlobalJSObject ≠ none →
        added w.log w'.log =
          [Event.engine "JS_DestroyContext" [ctx.getJSContext],
            Event.removeExtraGCRootsTracer ctx.getJSContext Tracer.traceGlobal ctx.this,
            Event.opDelete ctx.this]) := by
  obtain ⟨w', hrun, hlog⟩ := DestroyContext_run E ctx w
  refine ⟨w', hrun, hlog, by rw [hlog]; rfl, ?_, ?_⟩
  · intro hc
    rw [hlog]
    simp only [Context.getJSContext] at hc
    simp [Context.slot, hc, deregistrationOf, Context.getJSContext]
  · intro hc hg
    rw [hlog]
    simp only [Context.getJSContext] at hc
    cases hp : ctx.globalPtr with
    | none => exact absurd hp hg
    | some g => simp [Context.slot, hc, hp, deregistrationOf, Context.getJSContext]

/-- C2 (counterexample).  On the Session `session7`, whose global object is set,
`DestroyContext` destroys the engine context 1 and releases the handle; the
destruction has emptied the global slot, so the trace holds no deregistration,
and in particular none before the destruction. -/
theorem C2_counterexample_no_deregistration_before_destruction :
    session7.getGlobalJSObject = some 2 ∧
    DestroyContext idleEngine session7 world0 = Except.ok ((), worldDestroyed) ∧
    worldDestroyed.log = [Event.engine "JS_DestroyContext" [1], Event.opDelete 100] ∧
    deregistrations worldDestroyed.log = 0 := by
  refine ⟨rfl, by decide!, rfl, by decide!⟩

end Lifecycle

/-! ## Theorems on Sessions, the trampoline's lookup and the interrupt hook -/

section SessionTheorems

variable {σ : Type}

/-- C11.  When the trampoline reaches the host lookup (the callee converts to a
function, it has a global object and the reserved slot holds an int32) and
`goFunctionContext` returns null, the trampoline reports out-of-memory to the
engine exactly once and returns false with no return value; it allocates and
constructs no Value handle and never invokes the dispatch entry point. -/
theorem C11_lookup_miss_reports_out_of_memory (E : Engine σ) (H : Host σ) (cx : JSContext)
    (args : CallArgs) (w : World σ) (func : JSFunction) (global : JSObject) (i : Int)
    (s1 s2 : σ)
    (hcallee : E.JS_ValueToFunction cx args.calleev w.engine = (some func, s1))
    (hglobal : E.GetNonCCWObjectGlobal args.calleev s1 = some global)
    (hslot : E.GetReservedSlot global 0 s1 = JSValue.int32 i)
    (hmiss : H.goFunctionContext (toUInt32 i) s1 = (none, s2)) :
    ∃ w', FunctionCallback E H cx args w = Except.ok ({ ok := false, rval := none }, w') ∧
      added w.log w'.log =
        [Event.engine "JS_ValueToFunction" [cx],
          Event.engine "goFunctionContext" [toUInt32 i], Event.reportOutOfMemory cx] ∧
      w'.engine = E.JS_ReportOutOfMemory cx s2 ∧
      w'.brk = w.brk ∧
      (∀ a, Event.opNew a ∉ added w.log w'.log) ∧
      (∀ c t a, Event.addExtraGCRootsTracer c t a ∉ added w.log w'.log) ∧
      (added w.log w'.log).filter isDispatch = [] := by
  refine ⟨{ engine := E.JS_ReportOutOfMemory cx s2
            log := w.log ++ [Event.engine "JS_ValueToFunction" [cx],
              Event.engine "goFunctionContext" [toUInt32 i], Event.reportOutOfMemory cx]
            brk := w.brk }, ?_, ?_, rfl, rfl, ?_, ?_, ?_⟩
  · simp [FunctionCallback, bind, StateT.bind, Except.bind, call, peek, pure, StateT.pure,
      Except.pure, JS_ReportOutOfMemory, emit, exec, hcallee, hglobal, hslot, hmiss]
  · exact added_append _ _
  · intro a
    rw [added_append]
    simp
  · intro c t a
    rw [added_append]
    simp
  · rw [added_append]
    simp [isDispatch]

/-- C11 (witness).  The call `f(1, 2, 3)` with a host that knows no Session. -/
theorem C11_lookup_miss_witness :
    ∃ w', FunctionCallback callbackEngine idleHost 1 callF123 world0 =
        Except.ok ({ ok := false, rval := none }, w') ∧
      added world0.log w'.log =
        [Event.engine "JS_ValueToFunction" [1], Event.engine "goFunctionContext" [7],
          Event.reportOutOfMemory 1] ∧
      (added world0.log w'.log).filter isDispatch = [] := by
  obtain ⟨w', h1, h2, _, _, _, _, h3⟩ :=
    C11_lookup_miss_reports_out_of_memory callbackEngine idleHost 1 callF123 world0 5 2 7
      {} {} (by decide!) (by decide!) (by decide!) (by decide!)
  exact ⟨w', h1, h2, h3⟩


theorem yields_of_run {α : Type} {m : Bridge σ α} {w : World σ} {a : α} {w1 : World σ}
    (h : m w = Except.ok (a, w1)) (Q : α → World σ → Prop) : yields m w Q ↔ Q a w1 := by
  constructor
  · rintro ⟨b, w2, e, hq⟩
    rw [h] at e
    cases e
    exact hq
  · intro hq
    exact ⟨a, w1, h, hq⟩

theorem yields_pure {α : Type} (a : α) (w : World σ) (Q : α → World σ → Prop) :
    yields (pure a : Bridge σ α) w Q ↔ Q a w :=
  yields_of_run rfl Q

theorem yields_bind {α β : Type} (m : Bridge σ α) (f : α → Bridge σ β) (w : World σ)
    (Q : β → World σ → Prop) :
    yields (m >>= f) w Q ↔ yields m w (fun a w1 => yields (f a) w1 Q) := by
  simp only [yields, bind, StateT.bind, Except.bind]
  cases h : m w with
  | error e => simp
  | ok p =>
    cases p
    constructor
    · rintro ⟨b, w2, e, hq⟩
      exact ⟨_, _, rfl, b, w2, e, hq⟩
    · rintro ⟨a, w1, e, r⟩
      cases e
      exact r

theorem yields_map {α β : Type} (f : α → β) (m : Bridge σ α) (w : World σ)
    (Q : β → World σ → Prop) :
    yields (f <$> m) w Q ↔ yields m w (fun a w1 => Q (f a) w1) := by
  have h : f <$> m = m >>= fun a => pure (f a) := rfl
  rw [h, yields_bind]
  simp only [yields_pure]

theorem yields_call {α : Type} (fn : String) (ops : List Nat) (f : σ → α × σ) (w : World σ)
    (Q : α → World σ → Prop) :
    yields (call fn ops f) w Q ↔
      Q (f w.engine).1
        { w with engine := (f w.engine).2, log := w.log ++ [Event.engine fn ops] } :=
  yields_of_run rfl Q

theorem yields_run (fn : String) (ops : List Nat) (f : σ → σ) (w : World σ)
    (Q : Unit → World σ → Prop) :
    yields (run fn ops f) w Q ↔
      Q () { w with engine := f w.engine, log := w.log ++ [Event.engine fn ops] } :=
  yields_of_run rfl Q

theorem yields_emit (e : Event) (w : World σ) (Q : Unit → World σ → Prop) :
    yields (emit e) w Q ↔ Q () { w with log := w.log ++ [e] } :=
  yields_of_run rfl Q

theorem yields_exec (f : σ → σ) (w : World σ) (Q : Unit → World σ → Prop) :
    yields (exec f) w Q ↔ Q () { w with engine := f w.engine } :=
  yields_of_run rfl Q

theorem yields_peek {α : Type} (f : σ → α) (w : World σ) (Q : α → World σ → Prop) :
    yields (peek f) w Q ↔ Q (f w.engine) w :=
  yields_of_run rfl Q

theorem yields_post {α : Type} {m : Bridge σ α} {w : World σ} {Q : α → World σ → Prop}
    (h : yields m w Q) : post m w Q := by
  obtain ⟨a, w1, e, hq⟩ := h
  intro b w2 e2
  rw [e] at e2
  cases e2
  exact hq

theorem yields_newContext (E : Engine σ) (ref : Nat) (cx : JSContext)
    (global : Option JSObject) (w : World σ) (Q : Option Context → World σ → Prop) :
    yields (newContext E ref cx global) w Q ↔
      Q (some { this := w.brk, ref := ref, ptr := cx, globalPtr := global })
        (afterRegistration E global.isSome cx Tracer.traceGlobal w.brk
          { w with brk := w.brk + 1, log := w.log ++ [Event.opNew w.brk] }) := by
  refine yields_of_run ?_ Q
  simp [newContext, operatorNew, bind, StateT.bind, Except.bind, Context_construct_run, pure,
    StateT.pure, Except.pure]

theorem yields_optional (c : Prop) [Decidable c] (fn : String) (ops : List Nat) (f : σ → σ)
    (w : World σ) (Q : Unit → World σ → Prop) :
    yields (if c then run fn ops f else pure PUnit.unit) w Q ↔
      Q () (afterOptional c fn ops f w) := by
  unfold afterOptional
  split
  · exact yields_of_run rfl Q
  · exact yields_of_run rfl Q

theorem afterOptional_options (E : Engine σ) (cx : JSContext) (options : ContextOptions)
    (w : World σ) :
    afterOptional (options.gcSliceTimeBudgetMs ≠ 0) "JS_SetGCParameter(JSGC_SLICE_TIME_BUDGET_MS)"
        [cx, options.gcSliceTimeBudgetMs]
        (E.JS_SetGCParameter cx JSGCParamKey.JSGC_SLICE_TIME_BUDGET_MS
          options.gcSliceTimeBudgetMs)
      (afterOptional (options.gcIncrementalEnabled ≠ 0)
        "JS_SetGCParameter(JSGC_INCREMENTAL_GC_ENABLED)" [cx, options.gcIncrementalEnabled]
        (E.JS_SetGCParameter cx JSGCParamKey.JSGC_INCREMENTAL_GC_ENABLED
          options.gcIncrementalEnabled)
      (afterOptional (options.gcMaxBytes ≠ 0) "JS_SetGCParameter(JSGC_MAX_BYTES)"
        [cx, options.gcMaxBytes]
        (E.JS_SetGCParameter cx JSGCParamKey.JSGC_MAX_BYTES options.gcMaxBytes)
      (afterOptional (options.stackSize ≠ 0) "JS_SetNativeStackQuota" [cx, options.stackSize]
        (E.JS_SetNativeStackQuota cx options.stackSize) w))) =
      { engine := specifiedOptionState E cx options w.engine
        log := w.log ++ specifiedOptionCalls cx options
        brk := w.brk } := by
  unfold afterOptional specifiedOptionState specifiedOptionCalls
  by_cases h1 : options.stackSize = 0 <;> by_cases h2 : options.gcMaxBytes = 0 <;>
    by_cases h3 : options.gcIncrementalEnabled = 0 <;>
    by_cases h4 : options.gcSliceTimeBudgetMs = 0 <;> simp [h1, h2, h3, h4]

theorem optional_then {β : Type} (c : Prop) [Decidable c] (m : Bridge σ PUnit)
    (k : Bridge σ β) :
    (if c then (m >>= fun _ => k) else (pure PUnit.unit >>= fun _ => k)) =
      ((if c then m else pure PUnit.unit) >>= fun _ => k) := by
  split <;> rfl

theorem heapCeiling_eq (E : Engine σ) (options : ContextOptions) :
    (if options.heapMaxBytes ≠ 0 then options.heapMaxBytes else E.DefaultHeapMaxBytes) =
      specifiedHeapCeiling E options := by
  unfold specifiedHeapCeiling
  by_cases h : options.heapMaxBytes = 0 <;> simp [h]

theorem NewContext_run (E : Engine σ) (ref : Nat) (options : ContextOptions) (w : World σ) :
    yields (NewContext E ref options) w (NewContextOutcome E ref options w) := by
  unfold NewContext
  simp only [optional_then, heapCeiling_eq, JSAutoRealm]
  repeat' (first
    | (simp only [yields_bind, yields_pure, yields_call, yields_run, yields_newContext,
        yields_optional, afterOptional_options])
    | split)
  all_goals simp_all [NewContextOutcome, contextCreation, hookInstallation,
    selfHostedInitialisation, globalCreation, creationCalls, afterRegistration, registrationOf,
    JS_AddExtraGCRootsTracer, List.append_assoc]
  all_goals (rename_i x; exact Option.eq_none_iff_forall_not_mem.2 (fun a h => x a h))

theorem NewContext_some (E : Engine σ) (ref : Nat) (options : ContextOptions) (w w' : World σ)
    (ctx : Context) (h : NewContext E ref options w = Except.ok (some ctx, w')) :
    ∃ global, (contextCreation E options w.engine).1 = some ctx.getJSContext ∧
      (hookInstallation E options ctx.getJSContext w.engine).1 = true ∧
      (selfHostedInitialisation E options ctx.getJSContext w.engine).1 = true ∧
      (globalCreation E options ctx.getJSContext w.engine).1 = some global ∧
      ctx = { this := w.brk, ref := ref, ptr := ctx.getJSContext, globalPtr := some global } ∧
      w'.log = w.log ++ (creationCalls E options ctx.getJSContext ++
        [Event.engine "JSAutoRealm" [ctx.getJSContext, global],
          Event.engine "JS_SetReservedSlot" [global, 0],
          Event.opNew w.brk,
          Event.addExtraGCRootsTracer ctx.getJSContext Tracer.traceGlobal w.brk,
          Event.engine "~JSAutoRealm" [ctx.getJSContext]]) ∧
      w'.engine = E.LeaveRealm ctx.getJSContext
        (E.JS_AddExtraGCRootsTracer ctx.getJSContext Tracer.traceGlobal w.brk
          (E.JS_SetReservedSlot global 0 (Int32Value ref)
            (E.EnterRealm ctx.getJSContext global
              (globalCreation E options ctx.getJSContext w.engine).2))) := by
  have hout := yields_post (NewContext_run E ref options w) (some ctx) w' h
  rcases hout with ⟨_, h1, _⟩ | ⟨cx, _, ⟨_, h1, _⟩ | ⟨_, _, h1, _⟩ | ⟨_, _, _, h1, _⟩ |
    ⟨global, h2, h3, h4, h5, h6, h7, _⟩⟩
  · cases h1
  · cases h1
  · cases h1
  · cases h1
  · cases h5
    exact ⟨global, by assumption, h2, h3, h4, rfl, h6, h7⟩

theorem yields_newValue (E : Engine σ) (ctx : Context) (v : JSValue) (w : World σ)
    (Q : Option Value → World σ → Prop) :
    yields (newValue E ctx v) w Q ↔
      Q (some { this := w.brk, ctx := ctx, ptr := v }) (afterNewValue E ctx v w) :=
  yields_of_run (newValue_run E ctx v w) Q

/-- C17.  `NewContext` always returns.  Its first call creates the engine
context with the specified heap ceiling (the engine default when `heapMaxBytes`
is 0, `heapMaxBytes` otherwise).  When the context `cx` is created, the calls
that follow are exactly the specified configuration calls (stack quota, GC
max bytes, incremental GC, slice time budget: each with exactly its field when
the field is non-zero, none when it is 0), then the installation of the
interrupt hook, and no configuration call after that; and the engine state in
which the hook is installed is the one those configuration calls leave. -/
theorem C17_options_configure_context (E : Engine σ) (ref : Nat) (options : ContextOptions)
    (w : World σ) :
    ∃ res w', NewContext E ref options w = Except.ok (res, w') ∧
      (∃ rest, added w.log w'.log =
        Event.engine "JS_NewContext" [specifiedHeapCeiling E options] :: rest) ∧
      (∀ cx s1, E.JS_NewContext (specifiedHeapCeiling E options) w.engine = (some cx, s1) →
        ∃ rest, added w.log w'.log =
            [Event.engine "JS_NewContext" [specifiedHeapCeiling E options]] ++
              specifiedOptionCalls cx options ++
              Event.engine "JS_AddInterruptCallback" [cx] :: rest ∧
          (∀ fn ops, Event.engine fn ops ∈ rest →
            fn ∈ ["InitSelfHostedCode", "JS_NewGlobalObject", "JSAutoRealm",
              "JS_SetReservedSlot", "~JSAutoRealm"]) ∧
          ∀ ctx, res = some ctx → ∃ global,
            w'.engine = E.LeaveRealm cx
              (E.JS_AddExtraGCRootsTracer cx Tracer.traceGlobal ctx.this
                (E.JS_SetReservedSlot global 0 (Int32Value ref)
                  (E.EnterRealm cx global
                    (E.JS_NewGlobalObject cx
                      (E.InitSelfHostedCode cx
                        (E.JS_AddInterruptCallback cx
                          (specifiedOptionState E cx options s1)).2).2).2)))) := by
  obtain ⟨res, w', hrun, hout⟩ := NewContext_run E ref options w
  refine ⟨res, w', hrun, ?_, ?_⟩
  · rcases hout with ⟨_, _, h⟩ | ⟨cx, _, ⟨_, _, h⟩ | ⟨_, _, _, h⟩ | ⟨_, _, _, _, h⟩ |
      ⟨global, _, _, _, _, h, _⟩⟩ <;>
    · rw [h, added_append]
      exact ⟨_, rfl⟩
  · intro cx s1 hcx
    have hcx1 : (contextCreation E options w.engine).1 = some cx := by
      simp [contextCreation, hcx]
    rcases hout with ⟨h0, _, _⟩ | ⟨cx', hcx', hcase⟩
    · rw [hcx1] at h0
      cases h0
    · rw [hcx1] at hcx'
      cases hcx'
      rcases hcase with ⟨_, hres, h⟩ | ⟨_, _, hres, h⟩ | ⟨_, _, _, hres, h⟩ |
        ⟨global, _, _, _, hres, h, heng, _⟩
      · refine ⟨[], ?_, ?_, ?_⟩
        · rw [h, added_append]
        · intro fn ops hmem
          cases hmem
        · intro ctx hctx
          rw [hres] at hctx
          cases hctx
      · refine ⟨[Event.engine "InitSelfHostedCode" [cx]], ?_, ?_, ?_⟩
        · simp [h, added_append]
        · intro fn ops hmem
          simp at hmem
          simp [hmem.1]
        · intro ctx hctx
          rw [hres] at hctx
          cases hctx
      · refine ⟨[Event.engine "InitSelfHostedCode" [cx],
          Event.engine "JS_NewGlobalObject" [cx]], ?_, ?_, ?_⟩
        · simp [h, added_append, creationCalls]
        · intro fn ops hmem
          simp at hmem
          rcases hmem with ⟨rfl, _⟩ | ⟨rfl, _⟩ <;> simp
        · intro ctx hctx
          rw [hres] at hctx
          cases hctx
      · refine ⟨[Event.engine "InitSelfHostedCode" [cx],
          Event.engine "JS_NewGlobalObject" [cx], Event.engine "JSAutoRealm" [cx, global],
          Event.engine "JS_SetReservedSlot" [global, 0], Event.opNew w.brk,
          Event.addExtraGCRootsTracer cx Tracer.traceGlobal w.brk,
          Event.engine "~JSAutoRealm" [cx]], ?_, ?_, ?_⟩
        · simp [h, added_append, creationCalls]
        · intro fn ops hmem
          simp at hmem
          rcases hmem with ⟨rfl, _⟩ | ⟨rfl, _⟩ | ⟨rfl, _⟩ | ⟨rfl, _⟩ | ⟨rfl, _⟩ <;> simp
        · intro ctx hctx
          rw [hres] at hctx
          cases hctx
          refine ⟨global, ?_⟩
          rw [heng]
          simp [globalCreation, selfHostedInitialisation, hookInstallation, contextCreation,
            hcx]

/-- C17 (witness).  With a stack size of 65536 and a slice budget of 10 only, on
the arithmetic engine, the calls are the creation with the default ceiling, the
stack quota, the slice budget and the hook. -/
theorem C17_options_witness :
    ∃ res w', NewContext arithmeticEngine 7
        { heapMaxBytes := 0, stackSize := 65536, gcMaxBytes := 0, gcIncrementalEnabled := 0,
          gcSliceTimeBudgetMs := 10 } world0 = Except.ok (res, w') ∧
      ∃ rest, added world0.log w'.log =
        [Event.engine "JS_NewContext" [33554432],
          Event.engine "JS_SetNativeStackQuota" [1, 65536],
          Event.engine "JS_SetGCParameter(JSGC_SLICE_TIME_BUDGET_MS)" [1, 10],
          Event.engine "JS_AddInterruptCallback" [1]] ++ rest := by
  obtain ⟨res, w', hrun, _, h⟩ := C17_options_configure_context arithmeticEngine 7
    { heapMaxBytes := 0, stackSize := 65536, gcMaxBytes := 0, gcIncrementalEnabled := 0,
      gcSliceTimeBudgetMs := 10 } world0
  obtain ⟨rest, hlog, _⟩ := h 1 {} (by decide!)
  exact ⟨res, w', hrun, rest, hlog⟩

/-- C18.  `NewContext` always returns; it returns null exactly when the creation
of the engine context, the installation of the interrupt hook, the
initialisation of the self-hosted code or the creation of the global object
fails; and a Session it returns has `getRef = ref`, a non-null global object in
whose reserved slot 0 `Int32Value ref` was stored (followed only by the
registration of the global root and the exit from the realm), and was created
after the interrupt hook was installed successfully, whatever the options. -/
theorem C18_creation_null_iff_failure (E : Engine σ) (ref : Nat) (options : ContextOptions)
    (w : World σ) :
    ∃ res w', NewContext E ref options w = Except.ok (res, w') ∧
      (res = none ↔ CreationFails E options w.engine) ∧
      ∀ ctx, res = some ctx →
        ctx.getRef = ref ∧
        (∃ global, ctx.getGlobalJSObject = some global ∧
          Event.engine "JS_SetReservedSlot" [global, 0] ∈ added w.log w'.log ∧
          w'.engine = E.LeaveRealm ctx.getJSContext
            (E.JS_AddExtraGCRootsTracer ctx.getJSContext Tracer.traceGlobal ctx.this
              (E.JS_SetReservedSlot global 0 (Int32Value ref)
                (E.EnterRealm ctx.getJSContext global
                  (globalCreation E options ctx.getJSContext w.engine).2)))) ∧
        Event.engine "JS_AddInterruptCallback" [ctx.getJSContext] ∈ added w.log w'.log ∧
        (hookInstallation E options ctx.getJSContext w.engine).1 = true := by
  obtain ⟨res, w', hrun, hout⟩ := NewContext_run E ref options w
  refine ⟨res, w', hrun, ?_, ?_⟩
  · rcases hout with ⟨h0, hres, _⟩ | ⟨cx, hcx, ⟨h1, hres, _⟩ | ⟨_, h2, hres, _⟩ |
      ⟨_, _, h3, hres, _⟩ | ⟨global, h1, h2, h3, hres, _⟩⟩
    · exact ⟨fun _ => Or.inl h0, fun _ => hres⟩
    · exact ⟨fun _ => Or.inr ⟨cx, hcx, Or.inl h1⟩, fun _ => hres⟩
    · exact ⟨fun _ => Or.inr ⟨cx, hcx, Or.inr (Or.inl h2)⟩, fun _ => hres⟩
    · exact ⟨fun _ => Or.inr ⟨cx, hcx, Or.inr (Or.inr h3)⟩, fun _ => hres⟩
    · refine ⟨fun h => ?_, fun h => ?_⟩
      · rw [hres] at h
        cases h
      · rcases h with h | ⟨cx', hcx', h | h | h⟩
        · rw [hcx] at h
          cases h
        · rw [hcx] at hcx'
          cases hcx'
          rw [h1] at h
          cases h
        · rw [hcx] at hcx'
          cases hcx'
          rw [h2] at h
          cases h
        · rw [hcx] at hcx'
          cases hcx'
          rw [h3] at h
          cases h
  · intro ctx hctx
    rw [hctx] at hrun
    obtain ⟨global, _, hhook, _, _, hc, hlog, heng⟩ := NewContext_some E ref options w w' ctx hrun
    refine ⟨by rw [hc]; rfl, ⟨global, by rw [hc]; rfl, ?_, ?_⟩, ?_, hhook⟩
    · simp [hlog, added_append]
    · rw [heng, hc]
    · simp [hlog, added_append, creationCalls]

/-- C18 (witness).  On the arithmetic engine the creation succeeds; on the idle
engine, where the engine context cannot be created, it returns null. -/
theorem C18_creation_witness :
    NewContext arithmeticEngine 7 defaultOptions world0 =
        Except.ok (some session1000, worldCreated) ∧
      ¬ CreationFails arithmeticEngine defaultOptions world0.engine ∧
      ∃ w', NewContext idleEngine 7 defaultOptions world0 = Except.ok (none, w') ∧
        CreationFails idleEngine defaultOptions world0.engine := by
  refine ⟨by decide!, ?_, ?_⟩
  · obtain ⟨res, w', hrun, hiff, _⟩ :=
      C18_creation_null_iff_failure arithmeticEngine 7 defaultOptions world0
    have hconc : NewContext arithmeticEngine 7 defaultOptions world0 =
        Except.ok (some session1000, worldCreated) := by decide!
    have hres : res = some session1000 :=
      congrArg Prod.fst (Except.ok.inj (hrun.symm.trans hconc))
    intro hf
    have := hiff.2 hf
    rw [hres] at this
    cases this
  · obtain ⟨res, w', hrun, hiff, _⟩ :=
      C18_creation_null_iff_failure idleEngine 7 defaultOptions world0
    have hf : CreationFails idleEngine defaultOptions world0.engine := Or.inl (by decide!)
    have hres := hiff.2 hf
    rw [hres] at hrun
    exact ⟨w', hrun, hf⟩

/-- C14.  Let `ctx` be a Session that `NewContext` created with `heapMaxBytes = 0`
(so with the engine's default heap ceiling), on an engine that accepts the source
"1+1" and evaluates it to the number 2, held as an int32.  Then `Evaluate` on
"1+1" returns `ok = true` with a Value `v`, `NewValueNumber(ctx, 2.0)` returns
`ok = true` with a Value `n` (the double 2.0 is stored as the int32 2), and
`ValueIs(v, n)` is true. -/
theorem C14_evaluate_one_plus_one (E : Engine σ) (ref : Nat) (options : ContextOptions)
    (w0 w1 : World σ) (ctx : Context)
    (hheap : options.heapMaxBytes = 0)
    (hnew : NewContext E ref options w0 = Except.ok (some ctx, w1))
    (hinit : ∀ s, (E.SourceText_init ctx.getJSContext "1+1" s).1 = true)
    (heval : ∀ s, (E.Evaluate ctx.getJSContext "" "1+1" s).1 = some (JSValue.int32 2))
    (w w2 : World σ) :
    Event.engine "JS_NewContext" [E.DefaultHeapMaxBytes] ∈ added w0.log w1.log ∧
    ∃ v n w' w3,
      Evaluate E ctx "1+1" w = Except.ok ({ ok := true, err := {}, ptr := some v }, w') ∧
      NewValueNumber E ctx doubleTwo w2 =
        Except.ok ({ ok := true, err := {}, ptr := some n }, w3) ∧
      v.getJSValue = JSValue.int32 2 ∧ n.getJSValue = JSValue.int32 2 ∧
      ValueIs v n = true := by
  obtain ⟨global, _, _, _, _, hctx, hlog, _⟩ := NewContext_some E ref options w0 w1 ctx hnew
  have hglobal : ctx.getGlobalJSObject = some global := by rw [hctx]; rfl
  refine ⟨?_, ?_⟩
  · simp [hlog, added_append, creationCalls, specifiedHeapCeiling, hheap]
  · have he : yields (Evaluate E ctx "1+1") w (fun r _ =>
        r = ResultValue.mk true {} (some (Value.mk w.brk ctx (JSValue.int32 2)))) := by
      unfold Evaluate
      simp [hglobal, JSAutoRealm, yields_bind, yields_run, yields_call, hinit, heval,
        yields_newValue, yields_pure, yields_map]
    have hn : yields (NewValueNumber E ctx doubleTwo) w2 (fun r _ =>
        r = ResultValue.mk true {} (some (Value.mk w2.brk ctx (JSValue.int32 2)))) := by
      have h2 : setNumber doubleTwo = JSValue.int32 2 := by decide
      unfold NewValueNumber
      simp only [h2, yields_bind, yields_newValue, yields_pure]
    obtain ⟨r1, w', hr1, e1⟩ := he
    obtain ⟨r2, w3, hr2, e2⟩ := hn
    subst e1 e2
    exact ⟨_, _, w', w3, hr1, hr2, rfl, rfl, by simp [ValueIs, Value.getJSValue]⟩

/-- C14 (witness).  On the arithmetic engine, in the Session created from `world0`. -/
theorem C14_evaluate_witness :
    NewContext arithmeticEngine 7 defaultOptions world0 =
        Except.ok (some session1000, worldCreated) ∧
      ∃ v n w' w3,
        Evaluate arithmeticEngine session1000 "1+1" worldCreated =
          Except.ok ({ ok := true, err := {}, ptr := some v }, w') ∧
        NewValueNumber arithmeticEngine session1000 doubleTwo w' =
          Except.ok ({ ok := true, err := {}, ptr := some n }, w3) ∧
        ValueIs v n = true := by
  have hnew : NewContext arithmeticEngine 7 defaultOptions world0 =
      Except.ok (some session1000, worldCreated) := by decide!
  refine ⟨hnew, ?_⟩
  obtain ⟨_, v, n, w', w3, h1, _⟩ :=
    C14_evaluate_one_plus_one arithmeticEngine 7 defaultOptions world0 worldCreated session1000
      rfl hnew (fun _ => rfl) (fun _ => rfl) worldCreated worldCreated
  obtain ⟨_, v2, n2, w4, w5, h1b, h2, hv, hn, _⟩ :=
    C14_evaluate_one_plus_one arithmeticEngine 7 defaultOptions world0 worldCreated session1000
      rfl hnew (fun _ => rfl) (fun _ => rfl) worldCreated w'
  have hvv : v = v2 := by
    have := Except.ok.inj (h1.symm.trans h1b)
    simpa using congrArg (fun p => p.1.ptr) this
  subst hvv
  exact ⟨v, n2, w', w5, h1, h2, by simp [ValueIs, hv, hn]⟩

/-- C13.  `ValueIs(a, b)` is true exactly when the wrapped engine values of `a`
and `b` are equal as raw values; replacing `a` and `b` by any other wrapper
objects, of any Session, that wrap the same values does not change the result;
and `ValueIs` is reflexive and symmetric. -/
theorem C13_value_is_raw_equality (a b : Value) :
    (ValueIs a b = true ↔ a.getJSValue = b.getJSValue) ∧
    (∀ a' b' : Value, a'.getJSValue = a.getJSValue → b'.getJSValue = b.getJSValue →
      ValueIs a' b' = ValueIs a b) ∧
    ValueIs a a = true ∧
    ValueIs a b = ValueIs b a := by
  refine ⟨by simp [ValueIs], ?_, by simp [ValueIs], ?_⟩
  · intro a' b' ha hb
    simp [ValueIs, ha, hb]
  · simp only [ValueIs]
    by_cases h : a.getJSValue = b.getJSValue
    · simp [h]
    · have h' : ¬ b.getJSValue = a.getJSValue := fun e => h e.symm
      simp [h, h']

/-- C13 (witness).  Two wrapper objects at different addresses, in different
Sessions, that wrap the same string are equal; the int32 2 and the double 2.0
(as raw values) are not. -/
theorem C13_value_is_witness :
    ValueIs { this := 500, ctx := session7, ptr := JSValue.string 9 }
        { this := 501, ctx := session8, ptr := JSValue.string 9 } = true ∧
      ValueIs { this := 500, ctx := session7, ptr := JSValue.int32 2 }
        { this := 501, ctx := session7, ptr := JSValue.double doubleTwo } = false :=
  ⟨((C13_value_is_raw_equality { this := 500, ctx := session7, ptr := JSValue.string 9 }
      { this := 501, ctx := session8, ptr := JSValue.string 9 }).1).2 rfl, by decide⟩

theorem releaseValues_run (E : Engine σ) (vals : List Value) :
    ∀ (w : World σ), releaseValues E vals w = Except.ok ((), afterDeleteValues E vals w) := by
  induction vals with
  | nil => intro w; simp [releaseValues, afterDeleteValues, pure, StateT.pure, Except.pure]
  | cons v rest ih =>
    intro w
    simp only [releaseValues, ReleaseValue, bind, StateT.bind, Except.bind, deleteValue_run, ih,
      afterDeleteValues]

theorem rootRegistry_append (t1 t2 : List Event) :
    ∀ reg : List Root, rootRegistry (t1 ++ t2) reg = rootRegistry t2 (rootRegistry t1 reg) := by
  induction t1 with
  | nil => intro reg; rfl
  | cons e rest ih =>
    intro reg
    cases e <;> simp [rootRegistry, ih]

theorem rootRegistry_destructionTraces (hs : List Value) :
    ∀ reg : List Root, rootRegistry (destructionTraces hs) reg = reg.diff (heldRoots hs) := by
  induction hs with
  | nil => intro reg; simp [destructionTraces, rootRegistry, heldRoots]
  | cons v rest ih =>
    intro reg
    simp only [destructionTraces, destructionTrace, rootRegistry_append, ih]
    cases h : v.ptr.isGCThing
    · simp [deregistrationOf, rootRegistry, heldRoots, h]
    · simp [deregistrationOf, rootRegistry, heldRoots, h, List.diff_cons, Value.root]

theorem count_deregistration_destructionTrace (h v : Value) :
    (destructionTrace v).count
        (Event.removeExtraGCRootsTracer h.ctx.ptr Tracer.traceValue h.this) =
      if v.ptr.isGCThing = true ∧ v.ctx.ptr = h.ctx.ptr ∧ v.this = h.this then 1 else 0 := by
  unfold destructionTrace deregistrationOf
  cases hb : v.ptr.isGCThing
  · simp
  · by_cases h1 : v.ctx.ptr = h.ctx.ptr <;> by_cases h2 : v.this = h.this <;>
      simp [h1, h2, List.count_cons]

theorem count_absent_destructionTraces (h : Value) (hs : List Value)
    (habs : h.this ∉ hs.map Value.this) :
    (destructionTraces hs).count
        (Event.removeExtraGCRootsTracer h.ctx.ptr Tracer.traceValue h.this) = 0 ∧
      (destructionTraces hs).count (Event.opDelete h.this) = 0 := by
  induction hs with
  | nil => simp [destructionTraces]
  | cons v rest ih =>
    simp only [List.map_cons, List.mem_cons, not_or] at habs
    obtain ⟨ih1, ih2⟩ := ih habs.2
    have hne : ¬ v.this = h.this := fun e => habs.1 e.symm
    simp only [destructionTraces, List.count_append, ih1, ih2,
      count_deregistration_destructionTrace, count_opDelete_destructionTrace]
    simp [hne]

theorem count_present_destructionTraces (h : Value) (hs : List Value)
    (hnodup : (hs.map Value.this).Nodup) (hmem : h ∈ hs) :
    (destructionTraces hs).count
        (Event.removeExtraGCRootsTracer h.ctx.ptr Tracer.traceValue h.this) =
        (if h.ptr.isGCThing = true then 1 else 0) ∧
      (destructionTraces hs).count (Event.opDelete h.this) = 1 := by
  induction hs with
  | nil => cases hmem
  | cons v rest ih =>
    simp only [List.map_cons, List.nodup_cons] at hnodup
    simp only [destructionTraces, List.count_append, count_deregistration_destructionTrace,
      count_opDelete_destructionTrace]
    rcases List.mem_cons.1 hmem with rfl | hrest
    · obtain ⟨h1, h2⟩ := count_absent_destructionTraces h rest hnodup.1
      rw [h1, h2]
      simp
    · obtain ⟨h1, h2⟩ := ih hnodup.2 hrest
      have hne : ¬ v.this = h.this := by
        intro e
        exact hnodup.1 (e ▸ List.mem_map_of_mem Value.this hrest)
      rw [h1, h2]
      simp [hne]

theorem diff_same (R : List Root) : R.diff R = [] := by
  induction R with
  | nil => rfl
  | cons a rest ih => simp [List.diff_cons, ih]

theorem diff_heldRoots (r : Root) (reg R R2 : List Root) (hreg : reg.Perm (r :: R))
    (hR : R2.Perm R) (hr : r ∉ R) : reg.diff R2 = [r] := by
  apply List.perm_singleton.1
  have h := List.Perm.diff hreg hR
  rw [List.cons_diff_of_not_mem hr, diff_same] at h
  exact h

/-- C15.  Let `hs` be handles at pairwise distinct addresses, all derived from the
Session `ctx`, and let the root registry hold exactly the Session's global root
and the roots of those handles.  Releasing the handles with `ReleaseValue` in
the order `hs` or in any permutation `hs2` of it always returns, deregisters the
root of each registered handle exactly once (and none for a handle that holds
no root), frees each handle exactly once, and leaves the same registry: only the
Session's global root.  `DestroyContext`, called last, returns; it touches no
root of a handle, and deregisters the Session's global root exactly when the
destruction of the engine context has left the global slot set (otherwise the
root goes with the engine context, without a call of the bridge). -/
theorem C15_release_order_irrelevant (E : Engine σ) (ctx : Context) (hs hs2 : List Value)
    (reg : List Root) (w : World σ)
    (hperm : hs2.Perm hs)
    (hnodup : (hs.map Value.this).Nodup)
    (hderived : ∀ h ∈ hs, h.getContext = ctx)
    (hglobal : ctx.getGlobalJSObject ≠ none)
    (hreg : reg.Perm (ctx.root :: heldRoots hs)) :
    ∃ w1 w2 w3, releaseValues E hs w = Except.ok ((), w1) ∧
      releaseValues E hs2 w = Except.ok ((), w2) ∧
      rootRegistry (added w.log w1.log) reg = [ctx.root] ∧
      rootRegistry (added w.log w2.log) reg = [ctx.root] ∧
      (∀ h ∈ hs, (added w.log w2.log).count
          (Event.removeExtraGCRootsTracer ctx.getJSContext Tracer.traceValue h.this) =
        (if h.getJSValue.isGCThing = true then 1 else 0)) ∧
      (∀ h ∈ hs, (added w.log w2.log).count (Event.opDelete h.this) = 1) ∧
      DestroyContext E ctx w2 = Except.ok ((), w3) ∧
      rootRegistry (added w.log w3.log) reg =
        (if E.edgeCleared ctx.getJSContext Tracer.traceGlobal ctx.this
            (E.JS_DestroyContext ctx.getJSContext w2.engine) = true
          then [ctx.root] else []) := by
  have hroot : ctx.root ∉ heldRoots hs := by
    simp [heldRoots, Value.root, Context.root]
  have hnodup2 : (hs2.map Value.this).Nodup := (hperm.map Value.this).nodup_iff.2 hnodup
  have hheld : (heldRoots hs2).Perm (heldRoots hs) := (hperm.filter _).map _
  have hlog1 := (afterDeleteValues_log E hs w).1
  have hlog2 := (afterDeleteValues_log E hs2 w).1
  obtain ⟨w3, hdestroy, hlog3⟩ := DestroyContext_log E ctx (afterDeleteValues E hs2 w)
  have hreg2 : rootRegistry (destructionTraces hs2) reg = [ctx.root] := by
    rw [rootRegistry_destructionTraces]
    exact diff_heldRoots ctx.root reg (heldRoots hs) (heldRoots hs2) hreg hheld hroot
  refine ⟨_, _, w3, releaseValues_run E hs w, releaseValues_run E hs2 w, ?_, ?_, ?_, ?_,
    hdestroy, ?_⟩
  · rw [hlog1, added_append, rootRegistry_destructionTraces]
    exact diff_heldRoots ctx.root reg (heldRoots hs) (heldRoots hs) hreg (List.Perm.refl _) hroot
  · rw [hlog2, added_append]
    exact hreg2
  · intro h hmem
    rw [hlog2, added_append]
    have hc := (count_present_destructionTraces h hs2 hnodup2 (hperm.mem_iff.2 hmem)).1
    have hd := hderived h hmem
    simp only [Value.getContext] at hd
    rw [hd] at hc
    exact hc
  · intro h hmem
    rw [hlog2, added_append]
    exact (count_present_destructionTraces h hs2 hnodup2 (hperm.mem_iff.2 hmem)).2
  · rw [hlog3, hlog2, List.append_assoc, added_append, rootRegistry_append, hreg2]
    cases hg : ctx.globalPtr with
    | none => exact absurd hg hglobal
    | some g =>
      cases hc : E.edgeCleared ctx.ptr Tracer.traceGlobal ctx.this
          (E.JS_DestroyContext ctx.ptr (afterDeleteValues E hs2 w).engine) <;>
        simp [Context.slot, hg, hc, deregistrationOf, rootRegistry, Context.root,
          Context.getJSContext]

/-- C15 (witness).  Three handles of `session7`, released in two different orders
on the idle engine, whose destruction of the context empties the global slot. -/
theorem C15_release_order_witness :
    ∃ w1 w2 w3, releaseValues idleEngine liveHandles world0 = Except.ok ((), w1) ∧
      releaseValues idleEngine liveHandlesShuffled world0 = Except.ok ((), w2) ∧
      rootRegistry (added world0.log w1.log) (session7.root :: heldRoots liveHandles) =
        [session7.root] ∧
      rootRegistry (added world0.log w2.log) (session7.root :: heldRoots liveHandles) =
        [session7.root] ∧
      DestroyContext idleEngine session7 w2 = Except.ok ((), w3) ∧
      rootRegistry (added world0.log w3.log) (session7.root :: heldRoots liveHandles) =
        [session7.root] := by
  obtain ⟨w1, w2, w3, h1, h2, h3, h4, _, _, h5, h6⟩ :=
    C15_release_order_irrelevant idleEngine session7 liveHandles liveHandlesShuffled
      (session7.root :: heldRoots liveHandles) world0 (by decide) (by decide) (by decide)
      (by decide) (List.Perm.refl _)
  have hcleared : idleEngine.edgeCleared session7.getJSContext Tracer.traceGlobal session7.this
      (idleEngine.JS_DestroyContext session7.getJSContext w2.engine) = true := by
    simp [idleEngine, session7, Context.getJSContext]
  rw [hcleared] at h6
  exact ⟨w1, w2, w3, h1, h2, h3, h4, h5, h6⟩

theorem yields_JSAutoRealm {α : Type} (E : Engine σ) (cx : JSContext) (global : JSObject)
    (scope : Bridge σ α) (w : World σ) (Q : α → World σ → Prop) :
    yields (JSAutoRealm E cx global scope) w Q ↔
      yields scope { w with engine := E.EnterRealm cx global w.engine,
                            log := w.log ++ [Event.engine "JSAutoRealm" [cx, global]] }
        (afterLeave E cx Q) := by
  simp only [JSAutoRealm, yields_bind, yields_run, yields_pure]
  rfl

theorem yields_GetError (E : Engine σ) (cx : JSContext) (w : World σ) :
    yields (GetError E cx) w (fun _ w' => ∃ t, w'.log = w.log ++ t ∧
      ∀ e ∈ t, isEngineCall e = true) := by
  unfold GetError
  repeat' (first
    | (simp only [yields_bind, yields_pure, yields_call])
    | split)
  all_goals (try simp only [List.append_assoc])
  all_goals exact ⟨_, rfl, by simp [isEngineCall]⟩

/-- C16.  For every Stencil handle `s`: instantiating it into a Session with
`ExecuteScriptFromStencil`, destroying a Session with `DestroyContext` and
destroying a Front-End Session with `DestroyFrontendContext` neither take nor
drop a reference to any compiled representation, and free no storage other
than that of the destroyed Session (none for the instantiation), so the handle
still holds its reference and can be instantiated again; `ReleaseStencil`
drops the reference of `s` exactly once and frees the handle. -/
theorem C16_stencil_outlives_sessions (E : Engine σ) (s : Stencil) (ctx : Context)
    (fc : FrontendContext) (w : World σ) :
    (∀ r w', ExecuteScriptFromStencil E ctx s w = Except.ok (r, w') →
      (∀ st, Event.stencilRelease st ∉ added w.log w'.log ∧
        Event.stencilAddRef st ∉ added w.log w'.log) ∧
      (∀ a, Event.opDelete a ∉ added w.log w'.log)) ∧
    (ctx.getGlobalJSObject ≠ none →
      ∃ r w', ExecuteScriptFromStencil E ctx s w = Except.ok (r, w')) ∧
    (∃ w', DestroyContext E ctx w = Except.ok ((), w') ∧
      (∀ st, Event.stencilRelease st ∉ added w.log w'.log ∧
        Event.stencilAddRef st ∉ added w.log w'.log) ∧
      (∀ a, Event.opDelete a ∈ added w.log w'.log → a = ctx.this)) ∧
    (∃ w', DestroyFrontendContext E fc w = Except.ok ((), w') ∧
      (∀ st, Event.stencilRelease st ∉ added w.log w'.log ∧
        Event.stencilAddRef st ∉ added w.log w'.log) ∧
      (∀ a, Event.opDelete a ∈ added w.log w'.log → a = fc.this)) ∧
    (∃ w', ReleaseStencil s w = Except.ok ((), w') ∧
      added w.log w'.log = [Event.stencilRelease s.getStencil, Event.opDelete s.this] ∧
      w'.engine = w.engine) := by
  refine ⟨?_, ?_, ?_, ?_, ?_⟩
  · have h : post (ExecuteScriptFromStencil E ctx s) w (fun _ w' =>
        (∀ st, Event.stencilRelease st ∉ added w.log w'.log ∧
          Event.stencilAddRef st ∉ added w.log w'.log) ∧
        (∀ a, Event.opDelete a ∉ added w.log w'.log)) := by
      unfold ExecuteScriptFromStencil GetError
      repeat' (first
        | (simp only [post_bind, post_pure, post_call, post_JSAutoRealm, post_fault,
            post_newValue])
        | split)
      all_goals first
        | trivial
        | (simp only [afterLeave, afterNewValue, afterRegistration, registrationOf,
            List.append_assoc, added_append]
           split <;> simp)
        | simp [afterLeave, List.append_assoc, added_append]
    exact h
  · intro hglobal
    cases hg : ctx.getGlobalJSObject with
    | none => exact absurd hg hglobal
    | some global =>
      have h : yields (ExecuteScriptFromStencil E ctx s) w (fun _ _ => True) := by
        unfold ExecuteScriptFromStencil
        simp only [hg]
        repeat' (first
          | (simp only [yields_bind, yields_pure, yields_call, yields_JSAutoRealm,
              yields_newValue, afterLeave])
          | split)
        all_goals first
          | trivial
          | exact (yields_GetError E _ _).imp (fun _ h => h.imp (fun _ h => ⟨h.1, trivial⟩))
      obtain ⟨r, w', hrun, _⟩ := h
      exact ⟨r, w', hrun⟩
  · obtain ⟨w', hrun, hlog⟩ := DestroyContext_run E ctx w
    refine ⟨w', hrun, ?_, ?_⟩
    · intro st
      rw [hlog]
      cases ctx.globalPtr.isSome <;> simp [deregistrationOf]
    · intro a
      rw [hlog]
      cases ctx.globalPtr.isSome <;> simp [deregistrationOf]
  · refine ⟨{ w with engine := E.DestroyFrontendContext fc.ptr w.engine,
                     log := w.log ++ [Event.engine "JS::DestroyFrontendContext" [fc.ptr],
                       Event.opDelete fc.this] }, ?_, ?_, ?_⟩
    · simp [DestroyFrontendContext, bind, StateT.bind, Except.bind, run, operatorDelete, emit]
    · intro st
      simp [added_append]
    · intro a
      simp [added_append]
  · refine ⟨{ w with log := w.log ++ [Event.stencilRelease s.getStencil,
      Event.opDelete s.this] }, ?_, ?_, rfl⟩
    · simp [ReleaseStencil, deleteStencil, Stencil.destruct, Stencil.getStencil, bind,
        StateT.bind, Except.bind, operatorDelete, emit]
    · simp [added_append]

/-- C19.  Every invocation of the interrupt hook returns false, and on its way
makes exactly two calls: it resets the interrupt callback and reports one
failure, with the fixed message "Execution interrupted".  Consequently, when
the engine stops an evaluation because the hook returned false (the engine state
after the evaluation is the one the hook left when invoked in some state `sh`),
and the engine's report of the pending failure carries the reported message,
`Evaluate` returns `ok = false` with `err.message` that fixed message and a
null `ptr`. -/
theorem C19_interrupt_hook_reports_once (E : Engine σ) (cx : JSContext) (w : World σ) :
    (∃ w', InterruptCallback E cx w = Except.ok (false, w') ∧
      added w.log w'.log =
        [Event.engine "JS_ResetInterruptCallback" [cx],
          Event.reportErrorUTF8 cx interruptMessage] ∧
      w'.engine = E.JS_ReportErrorUTF8 cx interruptMessage
        (E.JS_ResetInterruptCallback cx true w.engine) ∧
      String.mk (interruptMessage.map Char.ofNat) = "Execution interrupted") ∧
    ∀ (ctx : Context) (global : JSObject) (code : String) (sh s1 s2 s3 : σ)
      (stack : ExceptionStack) (report : JSErrorReport),
      ctx.getGlobalJSObject = some global →
      (E.SourceText_init ctx.getJSContext code
        (E.EnterRealm ctx.getJSContext global w.engine)).1 = true →
      E.Evaluate ctx.getJSContext "" code
          (E.SourceText_init ctx.getJSContext code
            (E.EnterRealm ctx.getJSContext global w.engine)).2 =
        (none, E.JS_ReportErrorUTF8 ctx.getJSContext interruptMessage
          (E.JS_ResetInterruptCallback ctx.getJSContext true sh)) →
      E.StealPendingExceptionStack ctx.getJSContext
          (E.JS_ReportErrorUTF8 ctx.getJSContext interruptMessage
            (E.JS_ResetInterruptCallback ctx.getJSContext true sh)) = (some stack, s1) →
      E.ErrorReportBuilder_init ctx.getJSContext stack s1 = (some report, s2) →
      report.message = String.mk (interruptMessage.map Char.ofNat) →
      E.strdup report.message s2 = (some report.message, s3) →
      ∃ r w', Evaluate E ctx code w = Except.ok (r, w') ∧ r.ok = false ∧
        r.err.message = some "Execution interrupted" ∧ r.ptr = none := by
  refine ⟨⟨{ engine := E.JS_ReportErrorUTF8 cx interruptMessage
               (E.JS_ResetInterruptCallback cx true w.engine)
             log := w.log ++ [Event.engine "JS_ResetInterruptCallback" [cx],
               Event.reportErrorUTF8 cx interruptMessage]
             brk := w.brk }, ?_, added_append _ _, rfl, by decide⟩, ?_⟩
  · simp [InterruptCallback, JS_ReportErrorUTF8, interruptMessage, bind, StateT.bind,
      Except.bind, run, emit, exec, pure, StateT.pure, Except.pure]
  · intro ctx global code sh s1 s2 s3 stack report hglobal hinit heval hsteal hbuild hmsg hdup
    have hm : report.message = "Execution interrupted" := hmsg.trans (by decide)
    rw [hm] at hdup
    have h : yields (Evaluate E ctx code) w (fun r _ => r.ok = false ∧
        r.err.message = some "Execution interrupted" ∧ r.ptr = none) := by
      unfold Evaluate GetError
      simp [hglobal, JSAutoRealm, yields_bind, yields_run, yields_call, yields_pure,
        yields_map, hinit, heval, hsteal, hbuild, hdup, hm]
    obtain ⟨r, w', hrun, hr⟩ := h
    exact ⟨r, w', hrun, hr⟩

/-- C19 (witness).  On the small interruptible engine, an interrupt requested
for the Session of ref 7 stops its evaluation with the fixed message. -/
theorem C19_interrupt_witness :
    RequestInterruptContext interruptEngine session7 world0 = Except.ok ((), worldRequested) ∧
      Evaluate interruptEngine session7 "1+1" worldRequested =
        Except.ok (resultInterrupted, worldInterrupted) ∧
      ∃ r w', Evaluate interruptEngine session7 "1+1" worldRequested = Except.ok (r, w') ∧
        r.ok = false ∧ r.err.message = some "Execution interrupted" ∧ r.ptr = none :=
  ⟨by decide!, by decide!,
    (C19_interrupt_hook_reports_once interruptEngine 1 worldRequested).2 session7 2 "1+1"
      { pending := none, stolen := none, requested := false, disabled := false }
      { pending := none, stolen := some interruptFailure, requested := false, disabled := true }
      { pending := none, stolen := some interruptFailure, requested := false, disabled := true }
      { pending := none, stolen := some interruptFailure, requested := false, disabled := true }
      { exception := JSValue.undefined, stack := none } interruptFailure
      (by decide!) (by decide!) (by decide!) (by decide!) (by decide!) (by decide!)
      (by decide!)⟩

/-- C20 (evaluation of the code).  The only call the hook makes on the interrupt
mechanism is `JS_ResetInterruptCallback(cx, true)`.  On the small interruptible
engine, where that call stores `true` in the disabled flag: an interrupt is
requested and the evaluation is stopped with "Execution interrupted"; the
request is then cleared but the callbacks are left disabled; a second interrupt
is requested for a second evaluation, and that evaluation is not stopped: it
returns `ok = true`. -/
theorem C20_interrupt_hook_stays_disabled :
    (∀ (E : Engine Toy) (cx : JSContext) (w : World Toy),
      ∃ w', InterruptCallback E cx w = Except.ok (false, w') ∧
        (added w.log w'.log).filter isEngineCall =
          [Event.engine "JS_ResetInterruptCallback" [cx]] ∧
        w'.engine = E.JS_ReportErrorUTF8 cx interruptMessage
          (E.JS_ResetInterruptCallback cx true w.engine)) ∧
    RequestInterruptContext interruptEngine session7 world0 = Except.ok ((), worldRequested) ∧
    Evaluate interruptEngine session7 "1+1" worldRequested =
      Except.ok (resultInterrupted, worldInterrupted) ∧
    worldInterrupted.engine.requested = false ∧
    worldInterrupted.engine.disabled = true ∧
    RequestInterruptContext interruptEngine session7 worldInterrupted =
      Except.ok ((), worldRequestedAgain) ∧
    Evaluate interruptEngine session7 "1+1" worldRequestedAgain =
      Except.ok (resultSecondRun, worldSecondRun) ∧
    resultSecondRun.ok = true := by
  refine ⟨?_, by decide!, by decide!, rfl, rfl, by decide!, by decide!, rfl⟩
  intro E cx w
  refine ⟨{ engine := E.JS_ReportErrorUTF8 cx interruptMessage
              (E.JS_ResetInterruptCallback cx true w.engine)
            log := w.log ++ [Event.engine "JS_ResetInterruptCallback" [cx],
              Event.reportErrorUTF8 cx interruptMessage]
            brk := w.brk }, ?_, ?_, rfl⟩
  · simp [InterruptCallback, JS_ReportErrorUTF8, interruptMessage, bind, StateT.bind,
      Except.bind, run, emit, exec, pure, StateT.pure, Except.pure]
  · rw [added_append]
    rfl

end SessionTheorems

/-! ## Theorems about the boundary operations -/

section BoundaryTheorems

variable {σ : Type}

/-! ### Front-end sessions and compilation -/

theorem yields_newFrontendContext (fc : JSFrontendContext) (w : World σ)
    (Q : Option FrontendContext → World σ → Prop) :
    yields (newFrontendContext fc) w Q ↔
      Q (some { this := w.brk, ptr := fc })
        { w with brk := w.brk + 1, log := w.log ++ [Event.opNew w.brk] } :=
  yields_of_run rfl Q

/-- C21 (evaluation of the code).  Asked for a native stack quota of
65536 bytes, `NewFrontendContext` sets the quota of the new front-end context
to 0, not to 65536: the call it makes is `JS::SetNativeStackQuota(fc, 0)`.  This
holds for every engine and every non-zero `stackSize`; with `stackSize = 0` no
quota is set. -/
theorem C21_front_end_quota_ignores_stack_size :
    NewFrontendContext frontEndEngine quotaOptions world0 =
      Except.ok (some frontEnd21, worldFrontEnd) ∧
    Event.engine "JS::SetNativeStackQuota" [21, 65536] ∉ worldFrontEnd.log ∧
    Event.engine "JS::SetNativeStackQuota" [21, 0] ∈ worldFrontEnd.log ∧
    (∀ (σ : Type) (E : Engine σ) (options : FrontendContextOptions) (w : World σ)
        (fc : JSFrontendContext),
      (E.NewFrontendContext w.engine).1 = some fc →
      ∃ w', NewFrontendContext E options w =
          Except.ok (some { this := w.brk, ptr := fc }, w') ∧
        (options.stackSize ≠ 0 →
          added w.log w'.log = [Event.engine "JS::NewFrontendContext" [],
            Event.engine "JS::SetNativeStackQuota" [fc, 0], Event.opNew w.brk] ∧
          w'.engine = E.SetNativeStackQuotaFc fc 0 (E.NewFrontendContext w.engine).2) ∧
        (options.stackSize = 0 →
          added w.log w'.log = [Event.engine "JS::NewFrontendContext" [],
            Event.opNew w.brk] ∧
          w'.engine = (E.NewFrontendContext w.engine).2)) := by
  refine ⟨by decide!, by decide, by decide, ?_⟩
  intro σ E options w fc hfc
  have h : yields (NewFrontendContext E options) w (fun r w' =>
      r = some { this := w.brk, ptr := fc } ∧
      w'.log = (afterOptional (options.stackSize ≠ 0) "JS::SetNativeStackQuota" [fc, 0]
        (E.SetNativeStackQuotaFc fc 0)
        { w with engine := (E.NewFrontendContext w.engine).2,
                 log := w.log ++ [Event.engine "JS::NewFrontendContext" []] }).log ++
          [Event.opNew w.brk] ∧
      w'.engine = (afterOptional (options.stackSize ≠ 0) "JS::SetNativeStackQuota" [fc, 0]
        (E.SetNativeStackQuotaFc fc 0)
        { w with engine := (E.NewFrontendContext w.engine).2,
                 log := w.log ++ [Event.engine "JS::NewFrontendContext" []] }).engine) := by
    unfold NewFrontendContext
    simp only [optional_then, yields_bind, yields_call, hfc, yields_optional,
      yields_newFrontendContext, yields_pure]
    simp [afterOptional]
    split <;> simp
  obtain ⟨r, w', hrun, hr, hlog, heng⟩ := h
  subst hr
  refine ⟨w', hrun, ?_, ?_⟩
  · intro hs
    simp [hlog, heng, afterOptional, hs, added_append]
  · intro hs
    simp [hlog, heng, afterOptional, hs, added_append]

/-- C22, amended.  For every source text that the front end fails to compile,
`CompileScriptToStencil` returns `ok = false` with a null `ptr`; the envelope
has no `err` member, and the operation calls nothing but the front end: it
drains no failure from any engine context. -/
theorem C22_failed_stencil_compile_carries_no_error (E : Engine σ) (fc : FrontendContext)
    (filename code : String) (w : World σ) (hfail : FrontEndFails E fc filename code w) :
    ∃ env w', (Operation.CompileScriptToStencil fc filename code).perform E w =
        Except.ok (env, w') ∧
      env = Envelope.stencil { ok := false, ptr := none } ∧
      env.err = none ∧
      (∀ cx, Event.engine "StealPendingExceptionStack" [cx] ∉ added w.log w'.log) ∧
      (added w.log w'.log = [Event.engine "SourceText::init" [fc.ptr]] ∨
        added w.log w'.log = [Event.engine "SourceText::init" [fc.ptr],
          Event.engine "JS::CompileGlobalScriptToStencil" [fc.ptr]]) := by
  have h : yields ((Operation.CompileScriptToStencil fc filename code).perform E) w
      (fun env w' => env = Envelope.stencil { ok := false, ptr := none } ∧
        (added w.log w'.log = [Event.engine "SourceText::init" [fc.ptr]] ∨
          added w.log w'.log = [Event.engine "SourceText::init" [fc.ptr],
            Event.engine "JS::CompileGlobalScriptToStencil" [fc.ptr]])) := by
    simp only [Operation.perform, yields_map]
    unfold CompileScriptToStencil
    rcases hfail with h1 | h2
    · simp [yields_bind, yields_call, yields_pure, h1, added_append]
    · cases h1 : (E.SourceText_initFc fc.ptr code w.engine).1
      · simp [yields_bind, yields_call, yields_pure, h1, added_append]
      · simp [yields_bind, yields_call, yields_pure, h1, h2, added_append]
  obtain ⟨env, w', hrun, henv, hlog⟩ := h
  refine ⟨env, w', hrun, henv, by rw [henv]; rfl, ?_, hlog⟩
  intro cx
  rcases hlog with hl | hl <;> simp [hl]

/-- Witness of C22: the rejecting front end, on the source text "f(". -/
theorem C22_failed_stencil_compile_witness :
    FrontEndFails rejectingFrontEnd frontEnd21 "job.js" "f(" world0 ∧
    ∃ env w', (Operation.CompileScriptToStencil frontEnd21 "job.js" "f(").perform
        rejectingFrontEnd world0 = Except.ok (env, w') ∧
      env = Envelope.stencil { ok := false, ptr := none } ∧
      env.err = none :=
  have hfail : FrontEndFails rejectingFrontEnd frontEnd21 "job.js" "f(" world0 :=
    Or.inr (by decide!)
  ⟨hfail,
    (C22_failed_stencil_compile_carries_no_error rejectingFrontEnd frontEnd21 "job.js" "f("
      world0 hfail).imp (fun _ h => h.imp (fun _ h => ⟨h.1, h.2.1, h.2.2.1⟩))⟩

/-- Counterexample to C22 as stated: on a source text that both compilers
reject with the same syntax error, `CompileScript` returns the drained `Error`,
while the envelope of `CompileScriptToStencil` carries no `Error` at all and
the failure is left where the front end put it. -/
theorem C22_counterexample_stencil_envelope_without_error :
    (Operation.CompileScript session7 "job.js" "f(").perform rejectingFrontEnd world0 =
        Except.ok (Envelope.script { ok := false, err := syntaxError, ptr := none },
          worldCompileRejected) ∧
      (Envelope.script { ok := false, err := syntaxError, ptr := none }).err =
        some syntaxError ∧
      (Operation.CompileScriptToStencil frontEnd21 "job.js" "f(").perform rejectingFrontEnd
          world0 =
        Except.ok (Envelope.stencil { ok := false, ptr := none }, worldStencilRejected) ∧
      (Envelope.stencil { ok := false, ptr := none }).err = none ∧
      worldStencilRejected.engine.pending = some syntaxFailure := by
  refine ⟨by decide!, by decide!, by decide!, by decide!, by decide!⟩

/-! ### Receiver coercion -/

theorem GetError_returns (E : Engine σ) (cx : JSContext) (w : World σ) :
    ∃ err w2, GetError E cx w = Except.ok (err, w2) ∧
      ∃ t, w2.log = w.log ++ t ∧
        ∀ e ∈ t, e = Event.engine "StealPendingExceptionStack" [cx] ∨
          e = Event.engine "ErrorReportBuilder::init" [cx] ∨ e = Event.engine "strdup" [] := by
  have h : yields (GetError E cx) w (fun _ w2 => ∃ t, w2.log = w.log ++ t ∧
      ∀ e ∈ t, e = Event.engine "StealPendingExceptionStack" [cx] ∨
        e = Event.engine "ErrorReportBuilder::init" [cx] ∨ e = Event.engine "strdup" []) := by
    unfold GetError
    repeat' (first
      | (simp only [yields_bind, yields_pure, yields_call])
      | split)
    all_goals (try simp only [List.append_assoc])
    all_goals exact ⟨_, rfl, by simp⟩
  obtain ⟨err, w2, hrun, ht⟩ := h
  exact ⟨err, w2, hrun, ht⟩

theorem yields_copyArguments (argc : Int) (argv : List Value) (w : World σ)
    (Q : List JSValue → World σ → Prop) (h : argc.toNat ≤ argv.length) :
    yields (copyArguments argc argv) w Q ↔
      Q ((argv.take argc.toNat).map Value.getJSValue) w := by
  refine yields_of_run ?_ Q
  simp [copyArguments, h, pure, StateT.pure, Except.pure]

theorem coercion_primitive {op : Operation} {ctx : Context} {recv : Value} {p : String}
    (h : op.coercion = some (ctx, recv, p)) :
    p ∈ ["JS_DefineObject", "JS_DefineProperty", "JS_DefineElement", "JS_DefineFunction",
      "JS_CallFunctionName", "JS_CallFunctionValue"] := by
  cases op <;> simp [Operation.coercion] at h <;> simp [← h.2.2]

theorem drained_without_primitive {E : Engine σ} {cx : JSContext} {p : String}
    {w w1 w2 : World σ} {err : Error} {t0 : List Event}
    (hp : p ∈ ["JS_DefineObject", "JS_DefineProperty", "JS_DefineElement", "JS_DefineFunction",
      "JS_CallFunctionName", "JS_CallFunctionValue"])
    (h1 : w1.log = w.log ++ t0) (h0 : ∀ operands, Event.engine p operands ∉ t0)
    (hget : GetError E cx w1 = Except.ok (err, w2)) :
    ∀ operands, Event.engine p operands ∉ added w.log (leaveRealm E cx w2).log := by
  obtain ⟨err', w2', hrun, t, ht, hmem⟩ := GetError_returns E cx w1
  rw [hrun] at hget
  cases hget
  intro operands
  simp only [leaveRealm, ht, h1, List.append_assoc, added_append, List.mem_append, not_or]
  refine ⟨h0 operands, ?_, ?_⟩
  · intro hm
    rcases hmem _ hm with h | h | h <;>
      · cases h
        revert hp
        decide
  · intro hm
    simp only [List.mem_singleton, Event.engine.injEq] at hm
    obtain ⟨h, _⟩ := hm
    subst h
    revert hp
    decide

theorem yields_trace {α : Type} (m : Bridge σ α) (f : α → Envelope) (w : World σ)
    (pre : List Event)
    (h : yields m w (fun _ w' => ∃ t, w'.log = w.log ++ (pre ++ t))) :
    ∃ env w' t, (f <$> m) w = Except.ok (env, w') ∧ added w.log w'.log = pre ++ t := by
  obtain ⟨env, w', hrun, t, ht⟩ :=
    (yields_map f m w (fun _ w' => ∃ t, w'.log = w.log ++ (pre ++ t))).2 h
  exact ⟨env, w', t, hrun, by rw [ht, added_append]⟩

theorem failsDrained_of {E : Engine σ} {op : Operation} {cx : JSContext} {p : String}
    {w : World σ} (w1 : World σ) (t0 : List Event)
    (hp : p ∈ ["JS_DefineObject", "JS_DefineProperty", "JS_DefineElement", "JS_DefineFunction",
      "JS_CallFunctionName", "JS_CallFunctionValue"])
    (h1 : w1.log = w.log ++ t0) (h0 : ∀ operands, Event.engine p operands ∉ t0)
    (h : ∀ err w2, GetError E cx w1 = Except.ok (err, w2) →
      yields (op.perform E) w (fun env w' => env.ok = false ∧ env.err = some err ∧
        w' = leaveRealm E cx w2)) :
    FailsDrained E op cx p w w1 := by
  obtain ⟨err, w2, hget, _⟩ := GetError_returns E cx w1
  obtain ⟨env, w', hrun, hok, herr, hw⟩ := h err w2 hget
  subst hw
  exact ⟨env, err, w2, hrun, hok, herr, hget, drained_without_primitive hp h1 h0 hget⟩

theorem coercion_events {p : String} {cx : JSContext} {global : JSObject}
    (hp : p ∈ ["JS_DefineObject", "JS_DefineProperty", "JS_DefineElement", "JS_DefineFunction",
      "JS_CallFunctionName", "JS_CallFunctionValue"]) :
    ∀ operands, Event.engine p operands ∉
      [Event.engine "JSAutoRealm" [cx, global], Event.engine "ToObject" [cx],
        Event.engine "RootedValueVector::resize" [cx]] ∧
      Event.engine p operands ∉
        [Event.engine "JSAutoRealm" [cx, global], Event.engine "ToObject" [cx]] := by
  intro operands
  simp only [List.mem_cons, Event.engine.injEq, List.mem_singleton, List.not_mem_nil, or_false,
    not_or, not_and]
  refine ⟨⟨?_, ?_, ?_⟩, ?_, ?_⟩ <;>
    · intro h
      subst h
      exact absurd hp (by decide)

/-- C23, amended.  For each of DefineObject, DefineProperty, DefineElement,
DefineFunction, CallFunctionName and CallFunctionValue, every receiver Value
and every Session with a global object: the first thing the operation does in
the realm of the global is to coerce the receiver with `JS::ToObject`.  If the
coercion fails, the operation returns `ok = false` with `err` drained right
after the coercion and never invokes its define/call primitive.  If it
succeeds, the four define operations invoke their primitive on the coerced
object as the next step; the two call operations first resize the argument
vector to `argc`, return `ok = false` with `err` drained and without invoking
the primitive if the resize fails, and otherwise invoke the primitive on the
coerced object. -/
theorem C23_receiver_coerced_before_primitive (E : Engine σ) (op : Operation) (ctx : Context)
    (recv : Value) (primitive : String) (global : JSObject) (w : World σ)
    (hop : op.coercion = some (ctx, recv, primitive))
    (hglobal : ctx.getGlobalJSObject = some global) :
    (coerced E ctx global recv w = none →
      FailsDrained E op ctx.getJSContext primitive w (afterCoercion E ctx global recv w)) ∧
    (∀ obj, coerced E ctx global recv w = some obj →
      (op.arguments = none →
        ∃ env w' t, op.perform E w = Except.ok (env, w') ∧
          added w.log w'.log =
            Event.engine "JSAutoRealm" [ctx.getJSContext, global] ::
            Event.engine "ToObject" [ctx.getJSContext] ::
            Event.engine primitive [ctx.getJSContext, obj] :: t) ∧
      (∀ argc argv, op.arguments = some (argc, argv) →
        (resizing E ctx global recv argc w = false →
          FailsDrained E op ctx.getJSContext primitive w
            (afterResize E ctx global recv argc w)) ∧
        (resizing E ctx global recv argc w = true → argc.toNat ≤ argv.length →
          ∃ env w' t, op.perform E w = Except.ok (env, w') ∧
            added w.log w'.log =
              Event.engine "JSAutoRealm" [ctx.getJSContext, global] ::
              Event.engine "ToObject" [ctx.getJSContext] ::
              Event.engine "RootedValueVector::resize" [ctx.getJSContext] ::
              Event.engine primitive [ctx.getJSContext, obj] :: t))) := by
  have hp := coercion_primitive hop
  refine ⟨?_, ?_⟩
  · intro hco
    unfold coerced at hco
    refine failsDrained_of _ _ hp rfl (fun o => (coercion_events hp o).2) ?_
    intro err w2 hget
    simp [afterCoercion] at hget
    cases op <;> simp [Operation.coercion] at hop
    all_goals
      obtain ⟨h1, h2, h3⟩ := hop
      subst h1 h2 h3
      simp only [Operation.perform, yields_map]
    · unfold DefineObject
      simp [hglobal, yields_JSAutoRealm, yields_bind, yields_call, hco, yields_map,
        yields_of_run hget, yields_pure, afterLeave, leaveRealm, Envelope.ok, Envelope.err]
    · unfold DefineProperty
      simp [hglobal, yields_JSAutoRealm, yields_bind, yields_call, hco, yields_map,
        yields_of_run hget, yields_pure, afterLeave, leaveRealm, Envelope.ok, Envelope.err]
    · unfold DefineElement
      simp [hglobal, yields_JSAutoRealm, yields_bind, yields_call, hco, yields_map,
        yields_of_run hget, yields_pure, afterLeave, leaveRealm, Envelope.ok, Envelope.err]
    · unfold DefineFunction
      simp [hglobal, yields_JSAutoRealm, yields_bind, yields_call, hco, yields_map,
        yields_of_run hget, yields_pure, afterLeave, leaveRealm, Envelope.ok, Envelope.err]
    · unfold CallFunctionName
      simp [hglobal, yields_JSAutoRealm, yields_bind, yields_call, hco, yields_map,
        yields_of_run hget, yields_pure, afterLeave, leaveRealm, Envelope.ok, Envelope.err]
    · unfold CallFunctionValue
      simp [hglobal, yields_JSAutoRealm, yields_bind, yields_call, hco, yields_map,
        yields_of_run hget, yields_pure, afterLeave, leaveRealm, Envelope.ok, Envelope.err]
  · intro obj hco
    unfold coerced at hco
    cases op <;> simp [Operation.coercion] at hop
    all_goals
      obtain ⟨h1, h2, h3⟩ := hop
      subst h1 h2 h3
    · refine ⟨fun _ => yields_trace _ _ w [_, _, _] ?_, fun argc argv ha => by cases ha⟩
      unfold DefineObject GetError
      simp only [hglobal, yields_JSAutoRealm, yields_bind, yields_call, hco]
      repeat' (first
        | (simp only [yields_bind, yields_pure, yields_call, yields_newValue, afterLeave,
            (afterNewValue_log _ _ _ _).1])
        | split)
      all_goals simp only [List.append_assoc, List.cons_append, List.nil_append,
        List.singleton_append]
      all_goals exact ⟨_, rfl⟩
    · refine ⟨fun _ => yields_trace _ _ w [_, _, _] ?_, fun argc argv ha => by cases ha⟩
      unfold DefineProperty GetError
      simp only [hglobal, yields_JSAutoRealm, yields_bind, yields_call, hco]
      repeat' (first
        | (simp only [yields_bind, yields_pure, yields_call, yields_newValue, afterLeave,
            (afterNewValue_log _ _ _ _).1])
        | split)
      all_goals simp only [List.append_assoc, List.cons_append, List.nil_append,
        List.singleton_append]
      all_goals exact ⟨_, rfl⟩
    · refine ⟨fun _ => yields_trace _ _ w [_, _, _] ?_, fun argc argv ha => by cases ha⟩
      unfold DefineElement GetError
      simp only [hglobal, yields_JSAutoRealm, yields_bind, yields_call, hco]
      repeat' (first
        | (simp only [yields_bind, yields_pure, yields_call, yields_newValue, afterLeave,
            (afterNewValue_log _ _ _ _).1])
        | split)
      all_goals simp only [List.append_assoc, List.cons_append, List.nil_append,
        List.singleton_append]
      all_goals exact ⟨_, rfl⟩
    · refine ⟨fun _ => yields_trace _ _ w [_, _, _] ?_, fun argc argv ha => by cases ha⟩
      unfold DefineFunction GetError
      simp only [hglobal, yields_JSAutoRealm, yields_bind, yields_call, hco]
      repeat' (first
        | (simp only [yields_bind, yields_pure, yields_call, yields_newValue, afterLeave,
            (afterNewValue_log _ _ _ _).1])
        | split)
      all_goals simp only [List.append_assoc, List.cons_append, List.nil_append,
        List.singleton_append]
      all_goals exact ⟨_, rfl⟩
    · refine ⟨fun ha => (by cases ha), fun argc argv ha => ?_⟩
      cases ha
      refine ⟨fun hres => ?_, fun hres hfit => yields_trace _ _ w [_, _, _, _] ?_⟩
      · unfold resizing afterCoercion at hres
        refine failsDrained_of _ _ hp rfl (fun o => (coercion_events hp o).1) ?_
        intro err w2 hget
        simp [afterResize, afterCoercion] at hget
        simp only [Operation.perform, yields_map]
        unfold CallFunctionName
        simp [hglobal, yields_JSAutoRealm, yields_bind, yields_call, hco, yields_map, hres,
          yields_of_run hget, yields_pure, afterLeave, leaveRealm, Envelope.ok, Envelope.err]
      · dsimp only [resizing, afterCoercion] at hres
        unfold CallFunctionName GetError
        simp only [hglobal, yields_JSAutoRealm, yields_bind, yields_call, hco]
        dsimp only
        simp only [hres, yields_copyArguments _ _ _ _ hfit, Bool.not_true, Bool.false_eq_true,
          if_false, yields_bind]
        repeat' (first
          | (simp only [yields_bind, yields_pure, yields_call, yields_newValue, afterLeave,
              (afterNewValue_log _ _ _ _).1])
          | split)
        all_goals simp only [List.append_assoc, List.cons_append, List.nil_append,
          List.singleton_append]
        all_goals exact ⟨_, rfl⟩
    · refine ⟨fun ha => (by cases ha), fun argc argv ha => ?_⟩
      cases ha
      refine ⟨fun hres => ?_, fun hres hfit => yields_trace _ _ w [_, _, _, _] ?_⟩
      · unfold resizing afterCoercion at hres
        refine failsDrained_of _ _ hp rfl (fun o => (coercion_events hp o).1) ?_
        intro err w2 hget
        simp [afterResize, afterCoercion] at hget
        simp only [Operation.perform, yields_map]
        unfold CallFunctionValue
        simp [hglobal, yields_JSAutoRealm, yields_bind, yields_call, hco, yields_map, hres,
          yields_of_run hget, yields_pure, afterLeave, leaveRealm, Envelope.ok, Envelope.err]
      · dsimp only [resizing, afterCoercion] at hres
        unfold CallFunctionValue GetError
        simp only [hglobal, yields_JSAutoRealm, yields_bind, yields_call, hco]
        dsimp only
        simp only [hres, yields_copyArguments _ _ _ _ hfit, Bool.not_true, Bool.false_eq_true,
          if_false, yields_bind]
        repeat' (first
          | (simp only [yields_bind, yields_pure, yields_call, yields_newValue, afterLeave,
              (afterNewValue_log _ _ _ _).1])
          | split)
        all_goals simp only [List.append_assoc, List.cons_append, List.nil_append,
          List.singleton_append]
        all_goals exact ⟨_, rfl⟩

/-- Witness of C23: `DefineProperty` on an engine that coerces the receiver to
the object 12 invokes `JS_DefineProperty` on that object right after the
coercion. -/
theorem C23_receiver_coercion_witness :
    (Operation.DefineProperty session7 numberHandle "x" numberHandle 0).coercion =
        some (session7, numberHandle, "JS_DefineProperty") ∧
      session7.getGlobalJSObject = some 2 ∧
      coerced definingEngine session7 2 numberHandle world0 = some 12 ∧
      ∃ env w' t,
        (Operation.DefineProperty session7 numberHandle "x" numberHandle 0).perform
            definingEngine world0 = Except.ok (env, w') ∧
          added world0.log w'.log =
            Event.engine "JSAutoRealm" [session7.getJSContext, 2] ::
            Event.engine "ToObject" [session7.getJSContext] ::
            Event.engine "JS_DefineProperty" [session7.getJSContext, 12] :: t :=
  ⟨rfl, rfl, by decide!,
    ((C23_receiver_coerced_before_primitive definingEngine
      (Operation.DefineProperty session7 numberHandle "x" numberHandle 0) session7 numberHandle
      "JS_DefineProperty" 2 world0 rfl rfl).2 12 (by decide!)).1 rfl⟩

/-- Counterexample to C23 as stated: the coercion of the receiver succeeds, the
resize of the argument vector fails, and `CallFunctionName` returns `ok = false`
without ever invoking `JS_CallFunctionName`. -/
theorem C23_counterexample_resize_failure_skips_call :
    coerced coercingEngine session7 2 numberHandle world0 = some 12 ∧
      (Operation.CallFunctionName session7 "f" numberHandle 1 [numberHandle]).perform
          coercingEngine world0 =
        Except.ok (Envelope.value { ok := false, err := {}, ptr := none },
          worldResizeFailed) ∧
      ∀ operands, Event.engine "JS_CallFunctionName" operands ∉ worldResizeFailed.log := by
  refine ⟨by decide!, by decide!, ?_⟩
  intro operands
  simp [worldResizeFailed]

/-! ### Member operations, JSON text and object constructors -/

/-- C24 (evaluation of the code).  Applied to a Value that wraps the
number 5, each of the eight member operations reads the object of a value that
is not an object, which is undefined: none of them returns an envelope.  The
same holds on every engine for every receiver that is not an object, whenever
the Session of the receiver has a global object. -/
theorem C24_member_operation_on_non_object_is_undefined :
    (∀ op ∈ memberOperations numberHandle "x" 0 numberHandle,
      op.perform idleEngine world0 = Except.error Fault.wrongTag) ∧
    (∀ (σ : Type) (E : Engine σ) (object : Value) (key : String) (index : Nat) (value : Value)
        (w : World σ),
      object.getJSValue.isObject = false → object.getContext.getGlobalJSObject ≠ none →
      ∀ op ∈ memberOperations object key index value,
        op.perform E w = Except.error Fault.wrongTag) := by
  refine ⟨by decide!, ?_⟩
  intro σ E object key index value w hobj hglobal op hop
  cases hg : object.getContext.getGlobalJSObject with
  | none => exact absurd hg hglobal
  | some global =>
    have hto : ∀ w1 : World σ,
        (addressOfToObject object.getJSValue : Bridge σ (Option JSObject)) w1 =
          Except.error Fault.wrongTag := by
      intro w1
      cases hv : object.getJSValue <;> simp [hv, JSValue.isObject] at hobj <;> rfl
    simp only [memberOperations, List.mem_cons, List.mem_singleton, List.not_mem_nil,
      or_false] at hop
    rcases hop with h | h | h | h | h | h | h | h <;> subst h
    · simp [Operation.perform, ObjectHasProperty, hg, JSAutoRealm, run, bind, StateT.bind,
        Except.bind, Functor.map, StateT.map, hto]
    · simp [Operation.perform, ObjectGetProperty, hg, JSAutoRealm, run, bind, StateT.bind,
        Except.bind, Functor.map, StateT.map, hto]
    · simp [Operation.perform, ObjectSetProperty, hg, JSAutoRealm, run, bind, StateT.bind,
        Except.bind, Functor.map, StateT.map, hto]
    · simp [Operation.perform, ObjectDeleteProperty, hg, JSAutoRealm, run, bind, StateT.bind,
        Except.bind, Functor.map, StateT.map, hto]
    · simp [Operation.perform, ObjectHasElement, hg, JSAutoRealm, run, bind, StateT.bind,
        Except.bind, Functor.map, StateT.map, hto]
    · simp [Operation.perform, ObjectGetElement, hg, JSAutoRealm, run, bind, StateT.bind,
        Except.bind, Functor.map, StateT.map, hto]
    · simp [Operation.perform, ObjectSetElement, hg, JSAutoRealm, run, bind, StateT.bind,
        Except.bind, Functor.map, StateT.map, hto]
    · simp [Operation.perform, ObjectDeleteElement, hg, JSAutoRealm, run, bind, StateT.bind,
        Except.bind, Functor.map, StateT.map, hto]

/-- C25 (evaluation of the code).  `JSONStringify` writes its result
with `JS_EncodeStringToBuffer`, one byte per code unit, while `JSONParse` reads
its input with `JS_NewStringCopyUTF8Z`, as UTF-8.  On the text engine, the Value
that wraps the string U+00E9 is serialised to the three bytes 22 E9 22, and
`JSONParse` on those bytes fails with a malformed-UTF-8 error: the Value does
not round-trip.  The same engine round-trips the string "e", and parses the
UTF-8 form 22 C3 A9 22 to the string U+00E9. -/
theorem C25_non_ascii_text_does_not_round_trip :
    NewValueString textEngine session7 [233] 1 world0 =
      Except.ok ({ ok := true, err := {}, ptr := some accentHandle },
        { engine := {}
          log := [Event.engine "JSAutoRealm" [1, 2], Event.engine "JS_NewStringCopyN" [1],
            Event.opNew 1000, Event.addExtraGCRootsTracer 1 Tracer.traceValue 1000,
            Event.engine "~JSAutoRealm" [1]]
          brk := 1001 }) ∧
    JSONStringify textEngine session7 accentHandle world0 =
      Except.ok ({ ok := true, err := {}, data := some { addr := 900, bytes := [34, 233, 34] },
                   len := 3 }, worldStringified (stringOf [34, 233, 34])) ∧
    JSONParse textEngine session7 (cString [34, 233, 34]) world0 =
      Except.ok ({ ok := false, err := malformedError, ptr := none }, worldMalformed) ∧
    JSONStringify textEngine session7 plainHandle world0 =
      Except.ok ({ ok := true, err := {}, data := some { addr := 900, bytes := [34, 101, 34] },
                   len := 3 }, worldStringified (stringOf [34, 101, 34])) ∧
    JSONParse textEngine session7 (cString [34, 101, 34]) world0 =
      Except.ok ({ ok := true, err := {}, ptr := some plainHandle },
        worldParsed (stringOf [34, 101, 34])) ∧
    JSONParse textEngine session7 (cString [34, 195, 169, 34]) world0 =
      Except.ok ({ ok := true, err := {}, ptr := some accentHandle },
        worldParsed (stringOf [34, 233, 34])) := by
  refine ⟨by decide!, by decide!, by decide!, by decide!, by decide!, by decide!⟩

/-- C26 (evaluation of the code).  When the engine fails to allocate
the object, each of NewPlainObject, NewArrayObject, NewMapObject and
NewSetObject dereferences the null object the engine constructor returned
(`setObject(*obj)`), which is undefined: none of them returns an envelope.
This holds on every engine whose constructor returns null, for every Session
with a global object. -/
theorem C26_object_constructor_dereferences_null :
    (∀ op ∈ objectConstructors session7 1 [numberHandle],
      op.perform resizingEngine world0 = Except.error Fault.nullDereference) ∧
    (∀ (σ : Type) (E : Engine σ) (ctx : Context) (global : JSObject) (argc : Int)
        (argv : List Value) (w : World σ),
      ctx.getGlobalJSObject = some global →
      ((E.JS_NewPlainObject ctx.getJSContext
          (E.EnterRealm ctx.getJSContext global w.engine)).1 = none →
        NewPlainObject E ctx w = Except.error Fault.nullDereference) ∧
      ((E.NewMapObject ctx.getJSContext
          (E.EnterRealm ctx.getJSContext global w.engine)).1 = none →
        NewMapObject E ctx w = Except.error Fault.nullDereference) ∧
      ((E.NewSetObject ctx.getJSContext
          (E.EnterRealm ctx.getJSContext global w.engine)).1 = none →
        NewSetObject E ctx w = Except.error Fault.nullDereference) ∧
      ((E.RootedValueVector_resize ctx.getJSContext argc
          (E.EnterRealm ctx.getJSContext global w.engine)).1 = true →
        argc.toNat ≤ argv.length →
        (E.NewArrayObject ctx.getJSContext ((argv.take argc.toNat).map Value.getJSValue)
          (E.RootedValueVector_resize ctx.getJSContext argc
            (E.EnterRealm ctx.getJSContext global w.engine)).2).1 = none →
        NewArrayObject E ctx argc argv w = Except.error Fault.nullDereference)) := by
  refine ⟨by decide!, ?_⟩
  intro σ E ctx global argc argv w hg
  refine ⟨?_, ?_, ?_, ?_⟩
  · intro h
    simp [NewPlainObject, hg, JSAutoRealm, run, call, bind, StateT.bind, Except.bind, h,
      setObject, fault]
  · intro h
    simp [NewMapObject, hg, JSAutoRealm, run, call, bind, StateT.bind, Except.bind, h,
      setObject, fault]
  · intro h
    simp [NewSetObject, hg, JSAutoRealm, run, call, bind, StateT.bind, Except.bind, h,
      setObject, fault]
  · intro hres hfit h
    rw [List.map_take] at h
    simp [NewArrayObject, hg, JSAutoRealm, run, call, bind, StateT.bind, Except.bind, h, hres,
      hfit, copyArguments, setObject, fault, pure, StateT.pure, Except.pure]

/-! ### Error draining and script execution -/

theorem toInt32_small (n : Nat) (h : n < 2 ^ 31) : toInt32 n = n := by
  unfold toInt32
  omega

/-- C27.  `GetError` always returns, and its first step is to steal the pending
exception of the context.  It returns the all-zero `Error` if stealing fails, if
building the error report from the stolen exception fails, or if copying the
message fails; otherwise it returns an `Error` whose `message` is the copy made
of the report's message and whose `filename`, `lineno` and `number` are the
report's filename, line and error number (converted to `int`, which changes
nothing below 2^31).  In every case the engine is left in the state reached
from the one after the steal by the steps that followed it. -/
theorem C27_get_error_cases (E : Engine σ) (cx : JSContext) (w : World σ) :
    ∃ err w', GetError E cx w = Except.ok (err, w') ∧
      (∃ t, added w.log w'.log = Event.engine "StealPendingExceptionStack" [cx] :: t) ∧
      ((stealing E cx w).1 = none → err = {} ∧ w'.engine = (stealing E cx w).2) ∧
      (∀ stack, (stealing E cx w).1 = some stack →
        ((building E cx stack w).1 = none →
          err = {} ∧ w'.engine = (building E cx stack w).2) ∧
        (∀ report, (building E cx stack w).1 = some report →
          ((copying E cx stack report w).1 = none →
            err = {} ∧ w'.engine = (copying E cx stack report w).2) ∧
          (∀ message, (copying E cx stack report w).1 = some message →
            err = { message := some message, filename := report.filename,
                    lineno := toInt32 report.lineno, number := toInt32 report.errorNumber } ∧
            (report.lineno < 2 ^ 31 → err.lineno = report.lineno) ∧
            (report.errorNumber < 2 ^ 31 → err.number = report.errorNumber) ∧
            w'.engine = (copying E cx stack report w).2))) := by
  have h : yields (GetError E cx) w (fun err w' =>
      (∃ t, w'.log = w.log ++ (Event.engine "StealPendingExceptionStack" [cx] :: t)) ∧
      ((stealing E cx w).1 = none → err = {} ∧ w'.engine = (stealing E cx w).2) ∧
      (∀ stack, (stealing E cx w).1 = some stack →
        ((building E cx stack w).1 = none →
          err = {} ∧ w'.engine = (building E cx stack w).2) ∧
        (∀ report, (building E cx stack w).1 = some report →
          ((copying E cx stack report w).1 = none →
            err = {} ∧ w'.engine = (copying E cx stack report w).2) ∧
          (∀ message, (copying E cx stack report w).1 = some message →
            err = { message := some message, filename := report.filename,
                    lineno := toInt32 report.lineno, number := toInt32 report.errorNumber } ∧
            (report.lineno < 2 ^ 31 → err.lineno = report.lineno) ∧
            (report.errorNumber < 2 ^ 31 → err.number = report.errorNumber) ∧
            w'.engine = (copying E cx stack report w).2)))) := by
    unfold GetError
    simp only [yields_bind, yields_call]
    cases h1 : (stealing E cx w).1 with
    | none =>
      unfold stealing at h1
      simp [h1, yields_pure, stealing]
    | some stack =>
      cases h2 : (building E cx stack w).1 with
      | none =>
        unfold building stealing at h2
        unfold stealing at h1
        simp [h1, h2, yields_pure, yields_bind, yields_call, stealing, building]
      | some report =>
        cases h3 : (copying E cx stack report w).1 with
        | none =>
          unfold copying building stealing at h3
          unfold building stealing at h2
          unfold stealing at h1
          simp [h1, h2, h3, yields_pure, yields_bind, yields_call, stealing, building, copying]
        | some message =>
          unfold copying building stealing at h3
          unfold building stealing at h2
          unfold stealing at h1
          simp [h1, h2, h3, yields_pure, yields_bind, yields_call, stealing, building, copying]
          exact ⟨fun hl => toInt32_small _ hl, fun hn => toInt32_small _ hn⟩
  obtain ⟨err, w', hrun, ⟨t, ht⟩, hrest⟩ := h
  exact ⟨err, w', hrun, ⟨t, by rw [ht, added_append]⟩, hrest⟩

/-- C28.  For every Session `ctx` with a global object and every script handle
holding a script: `ExecuteScript(ctx, script)` enters the realm of `ctx`'s
global on `ctx`'s engine context and runs the script on that context as its
first two steps.  If the run fails, it returns `ok = false` with the `err` that
`GetError` drains from the engine context of the Session recorded in the script
handle.  If the run succeeds, it returns `ok = true` with a Value that wraps the
result and whose owning Session is the one recorded in the script handle; so
the owning Session equals `ctx` if and only if `ctx` is the Session the script
handle records. -/
theorem C28_execute_script_binds_to_script_session (E : Engine σ) (ctx : Context)
    (script : Script) (global : JSObject) (rscript : JSScript) (w : World σ)
    (hglobal : ctx.getGlobalJSObject = some global)
    (hscript : script.getJSScript = some rscript) :
    ∃ r w', ExecuteScript E ctx script w = Except.ok (r, w') ∧
      (∃ t, added w.log w'.log =
        Event.engine "JSAutoRealm" [ctx.getJSContext, global] ::
        Event.engine "JS_ExecuteScript" [ctx.getJSContext, rscript] :: t) ∧
      ((executing E ctx global rscript w).1 = none →
        r.ok = false ∧ r.ptr = none ∧
        ∃ w2, GetError E script.getContext.getJSContext (afterExecute E ctx global rscript w) =
            Except.ok (r.err, w2) ∧
          w' = leaveRealm E ctx.getJSContext w2) ∧
      (∀ rval, (executing E ctx global rscript w).1 = some rval →
        r.ok = true ∧
        ∃ h, r.ptr = some h ∧ h.getJSValue = rval ∧ h.getContext = script.getContext ∧
          (h.getContext = ctx ↔ script.getContext = ctx)) := by
  obtain ⟨err, w2, hget, t2, ht2, _⟩ :=
    GetError_returns E script.getContext.getJSContext (afterExecute E ctx global rscript w)
  have h : yields (ExecuteScript E ctx script) w (fun r w' =>
      (∃ t, w'.log = w.log ++
        (Event.engine "JSAutoRealm" [ctx.getJSContext, global] ::
          Event.engine "JS_ExecuteScript" [ctx.getJSContext, rscript] :: t)) ∧
      ((executing E ctx global rscript w).1 = none →
        r.ok = false ∧ r.ptr = none ∧ r.err = err ∧ w' = leaveRealm E ctx.getJSContext w2) ∧
      (∀ rval, (executing E ctx global rscript w).1 = some rval →
        r.ok = true ∧
        ∃ h, r.ptr = some h ∧ h.getJSValue = rval ∧ h.getContext = script.getContext)) := by
    have hget' := hget
    simp [afterExecute, executing] at hget' ht2
    unfold ExecuteScript
    cases hrun : (executing E ctx global rscript w).1 with
    | none =>
      unfold executing at hrun
      simp [hglobal, hscript, yields_JSAutoRealm, yields_bind, yields_call, hrun, yields_map,
        yields_of_run hget', yields_pure, afterLeave, leaveRealm, ht2]
    | some rval =>
      unfold executing at hrun
      simp [hglobal, hscript, yields_JSAutoRealm, yields_bind, yields_call, hrun, yields_map,
        yields_newValue, yields_pure, afterLeave, (afterNewValue_log _ _ _ _).1,
        Value.getJSValue, Value.getContext]
  obtain ⟨r, w', hrun, ⟨t, ht⟩, hfail, hok⟩ := h
  refine ⟨r, w', hrun, ⟨t, by rw [ht, added_append]⟩, ?_, ?_⟩
  · intro hnone
    obtain ⟨h1, h2, h3, h4⟩ := hfail hnone
    exact ⟨h1, h2, w2, by rw [h3]; exact hget, h4⟩
  · intro rval hsome
    obtain ⟨h1, h, h2, h3, h4⟩ := hok rval hsome
    exact ⟨h1, h, h2, h3, h4, by rw [h4]⟩

/-- Witness of C28: a script compiled against the Session of ref 8, run on the
Session of ref 7, yields a Value owned by the Session of ref 8. -/
theorem C28_execute_script_witness :
    session7.getGlobalJSObject = some 2 ∧ scriptOf8.getJSScript = some 12 ∧
    (executing runningEngine session7 2 12 world0).1 = some (JSValue.int32 42) ∧
    ExecuteScript runningEngine session7 scriptOf8 world0 =
      Except.ok ({ ok := true, err := {}, ptr := some handleOf8 }, worldScriptRun) ∧
    ∃ r w', ExecuteScript runningEngine session7 scriptOf8 world0 = Except.ok (r, w') ∧
      ∃ h, r.ptr = some h ∧ h.getContext = session8 ∧ h.getContext ≠ session7 := by
  refine ⟨rfl, rfl, by decide!, by decide!, ?_⟩
  obtain ⟨r, w', hrun, _, _, hok⟩ :=
    C28_execute_script_binds_to_script_session runningEngine session7 scriptOf8 2 12 world0
      rfl rfl
  obtain ⟨_, h, h1, _, h3, h4⟩ := hok (JSValue.int32 42) (by decide!)
  refine ⟨r, w', hrun, h, h1, h3, ?_⟩
  intro hc
  exact absurd (h4.1 hc) (by decide)

/-- C29.  For every Value `v` whose Session has a global object:
`ValueToString(v)` returns `ok = true` only if `v` wraps a string; for every
`v` that does not wrap a string it returns `ok = false` with null `data`, `len`
0 and an all-zero `err`, having done nothing but enter and leave the realm of
the global: it makes no other engine call, in particular it does not steal the
pending exception. -/
theorem C29_value_to_string_guard (E : Engine σ) (value : Value) (global : JSObject)
    (w : World σ) (hglobal : value.getContext.getGlobalJSObject = some global) :
    (∀ r w', ValueToString E value w = Except.ok (r, w') → r.ok = true →
      value.getJSValue.isString = true) ∧
    (value.getJSValue.isString = false →
      ValueToString E value w =
        Except.ok ({ ok := false, err := {}, data := none, len := 0 },
          afterGuard E value global w) ∧
      added w.log (afterGuard E value global w).log =
        [Event.engine "JSAutoRealm" [value.getContext.getJSContext, global],
          Event.engine "~JSAutoRealm" [value.getContext.getJSContext]] ∧
      ∀ cx, Event.engine "StealPendingExceptionStack" [cx] ∉
        added w.log (afterGuard E value global w).log) := by
  have hguard : value.getJSValue.isString = false →
      ValueToString E value w =
        Except.ok ({ ok := false, err := {}, data := none, len := 0 },
          afterGuard E value global w) := by
    intro hs
    simp [ValueToString, hglobal, hs, JSAutoRealm, run, bind, StateT.bind, Except.bind, pure,
      StateT.pure, Except.pure, afterGuard]
  refine ⟨?_, ?_⟩
  · intro r w' hrun hok
    cases hs : value.getJSValue.isString with
    | true => rfl
    | false =>
      rw [hguard hs] at hrun
      cases hrun
      cases hok
  · intro hs
    refine ⟨hguard hs, by simp [afterGuard, added_append], ?_⟩
    intro cx
    simp [afterGuard, added_append]

/-- Witness of C29: `ValueToString` on a Value wrapping the number 5, while a
failure is pending, returns the zeroed envelope and leaves the failure pending. -/
theorem C29_value_to_string_witness :
    numberHandle.getContext.getGlobalJSObject = some 2 ∧
    numberHandle.getJSValue.isString = false ∧
    ValueToString idleEngine numberHandle worldPending =
      Except.ok ({ ok := false, err := {}, data := none, len := 0 },
        afterGuard idleEngine numberHandle 2 worldPending) ∧
    (afterGuard idleEngine numberHandle 2 worldPending).engine = worldPending.engine :=
  ⟨rfl, rfl,
    ((C29_value_to_string_guard idleEngine numberHandle 2 worldPending rfl).2 rfl).1, rfl⟩

/-! ### Strings -/

/-- C30.  For every byte sequence `s` of length `len` with `len <= INT_MAX`
(zero bytes allowed) and every Session with a global object in which the
allocations succeed: if the engine string made of `s` has encoding length
`len` and encodes to the bytes `s`, then `NewValueString(ctx, s, len)` returns
`ok = true` with a Value, and `ValueToString` applied to that Value (in any later
world) returns `ok = true` with `len` equal to `len` and `data` holding exactly
the bytes of `s`: the bridge adds no terminator and alters no byte. -/
theorem C30_string_bytes_round_trip (E : Engine σ) (ctx : Context) (global : JSObject)
    (s : List Nat) (len : Nat) (js : JSString) (w : World σ)
    (hglobal : ctx.getGlobalJSObject = some global)
    (hlen : s.length = len) (hmax : len ≤ 2147483647)
    (hnew : (E.JS_NewStringCopyN ctx.getJSContext s len
      (E.EnterRealm ctx.getJSContext global w.engine)).1 = some js)
    (hlength : ∀ st, (E.JS_GetStringEncodingLength ctx.getJSContext js st).1 = len)
    (hmalloc : ∀ st, ∃ addr, (E.JS_malloc ctx.getJSContext len st).1 = some addr)
    (hencode : ∀ st, ∃ bytes,
      (E.JS_EncodeStringToBuffer ctx.getJSContext js len st).1 = some bytes ∧
        bytes.take len = s) :
    ∃ v w1, NewValueString E ctx s len w =
        Except.ok ({ ok := true, err := {}, ptr := some v }, w1) ∧
      v.getContext = ctx ∧ v.getJSValue = JSValue.string js ∧
      ∀ w2, ∃ addr w3, ValueToString E v w2 =
        Except.ok ({ ok := true, err := {}, data := some { addr := addr, bytes := s },
                     len := len }, w3) := by
  have hn : yields (NewValueString E ctx s len) w (fun r _ =>
      r = ResultValue.mk true {} (some (Value.mk w.brk ctx (JSValue.string js)))) := by
    unfold NewValueString
    simp [hglobal, yields_JSAutoRealm, yields_bind, yields_call, hnew, yields_newValue,
      yields_pure, yields_map, afterLeave]
  obtain ⟨r, w1, hrun, hr⟩ := hn
  subst hr
  refine ⟨_, w1, hrun, rfl, rfl, ?_⟩
  intro w2
  obtain ⟨addr, ha⟩ := hmalloc (E.JS_GetStringEncodingLength ctx.getJSContext js
    (E.EnterRealm ctx.getJSContext global w2.engine)).2
  obtain ⟨bytes, hb, ht⟩ := hencode (E.JS_malloc ctx.getJSContext len
    (E.JS_GetStringEncodingLength ctx.getJSContext js
      (E.EnterRealm ctx.getJSContext global w2.engine)).2).2
  have hv : yields (ValueToString E (Value.mk w.brk ctx (JSValue.string js))) w2 (fun r _ =>
      r = ResultString.mk true {} (some (Buffer.mk addr s)) len) := by
    unfold ValueToString
    simp [Value.getContext, Value.getJSValue, hglobal, yields_JSAutoRealm, yields_bind,
      yields_call, yields_pure, yields_map, afterLeave, JSValue.isString, toStringPtr,
      hlength, ha, hb, ht, toInt32_small len (by omega)]
  obtain ⟨r2, w3, hrun2, hr2⟩ := hv
  subst hr2
  exact ⟨addr, w3, hrun2⟩

/-- Witness of C30: the three bytes 68 00 FF, with an embedded zero byte and a
byte above 7F, on the text engine. -/
theorem C30_string_bytes_witness :
    session7.getGlobalJSObject = some 2 ∧
    ∃ v w1, NewValueString textEngine session7 [104, 0, 255] 3 world0 =
        Except.ok ({ ok := true, err := {}, ptr := some v }, w1) ∧
      ∀ w2, ∃ addr w3, ValueToString textEngine v w2 =
        Except.ok ({ ok := true, err := {}, data := some { addr := addr, bytes := [104, 0, 255] },
                     len := 3 }, w3) := by
  refine ⟨rfl, ?_⟩
  obtain ⟨v, w1, h1, _, _, h2⟩ :=
    C30_string_bytes_round_trip textEngine session7 2 [104, 0, 255] 3
      (stringOf [104, 0, 255]) world0 rfl rfl (by decide) (by decide!)
      (fun _ => (by decide! : (unitsOf (stringOf [104, 0, 255])).length = 3))
      (fun _ => ⟨900, rfl⟩)
      (fun _ => ⟨[104, 0, 255],
        (by decide! : some (((unitsOf (stringOf [104, 0, 255])).map (fun u => u % 256)).take 3) =
          some [104, 0, 255]), by decide⟩)
  exact ⟨v, w1, h1, h2⟩

end BoundaryTheorems

end Gomonkey
